import Mathlib

/-!
# SimpleTextureAtlas: a verification development

Shallow embedding of `src/code/main.cpp` and `src/code/dynamic_stack.cpp`.

Conventions of the embedding.

* Machine integers are `Nat`; every store into a `u16` field goes through `u16`, which
  truncates the C `int` value of the right-hand side modulo `2^16`. `size_t` values are
  truncated modulo `2^64`, `u32` values modulo `2^32`.
* Pointers are addresses (`Nat`), `0` is `nullptr`. A `TextureNode*` is the address the
  arena handed out for the node; the nodes reachable from the root form a tree (every node
  is linked under exactly one parent when it is created), which is embedded as the inductive
  type `TextureNode` whose constructor `null` is the null pointer.
* A `Texture*` into the texture table is the index of the texture (`Option Nat`, `none`
  is `nullptr`).
* `CheckMemory` shows a message box and breaks into the debugger; the embedding records
  that it fired in the flag `outOfMemory` of the arena and lets the function run on, as the
  source does.
-/

namespace TextureAtlas

/-! ## Machine arithmetic -/

/-- Truncation of a C `int` value to `u16`. -/
def u16 (i : Int) : Nat := (i % 65536).toNat

/-- Truncation of a C value to `u32`. -/
def u32 (i : Int) : Nat := (i % 4294967296).toNat

/-- Truncation of a C value to `size_t` (64 bit). -/
def usize (i : Int) : Nat := (i % 18446744073709551616).toNat

/-! ## dynamic_stack.cpp -/

/-- The arena `MemoryStack`; `outOfMemory` records that `CheckMemory` has fired. -/
structure MemoryStack where
  base : Nat
  max_size : Nat
  bytes_used : Nat
  elementCount : Nat
  outOfMemory : Bool
deriving DecidableEq, Repr

/-- The source's `_Push_`: returns the address of the span and the updated arena. -/
def _Push_ (ms : MemoryStack) (num_bytes : Nat) : Nat × MemoryStack :=
  let failed : Bool := !(decide (usize (ms.bytes_used + num_bytes) ≤ ms.max_size))
  let result := usize (ms.base + ms.bytes_used)
  (result, { ms with
    bytes_used := usize (ms.bytes_used + num_bytes)
    elementCount := u32 (ms.elementCount + 1)
    outOfMemory := ms.outOfMemory || failed })

/-- The cast `(int)` of a `size_t` value on the 64-bit Windows target: the low 32 bits, read
as a two's complement number. -/
def toInt32 (i : Int) : Int := (i + 2147483648) % 4294967296 - 2147483648

/-- The source's `_Pop_`: returns the address of the new top and the updated arena. The
subtraction is a `size_t` subtraction; `CheckMemory` tests the new `bytes_used` after the
cast to `int`. -/
def _Pop_ (ms : MemoryStack) (num_bytes : Nat) : Nat × MemoryStack :=
  let bytes_used := usize ((ms.bytes_used : Int) - num_bytes)
  let result := usize (ms.base + bytes_used)
  let failed : Bool := !(decide (toInt32 bytes_used ≥ 0))
  (result, { ms with
    bytes_used := bytes_used
    elementCount := u32 ((ms.elementCount : Int) - 1)
    outOfMemory := ms.outOfMemory || failed })

/-- The source's `InitStackMemory`; `ptr` is what `VirtualAlloc` returned. -/
def InitStackMemory (ptr : Nat) (num_bytes : Nat) : MemoryStack :=
  { base := ptr, max_size := num_bytes, bytes_used := 0, elementCount := 0,
    outOfMemory := decide (ptr = 0) }

/-! ## Data model of main.cpp -/

/-- The source's `Texture`. -/
structure Texture where
  fileName : String
  memory : List Nat
  bpp : Nat
  x : Nat
  y : Nat
  width : Nat
  height : Nat
deriving DecidableEq, Repr

instance : Inhabited Texture := ⟨⟨"", [], 0, 0, 0, 0, 0⟩⟩

/-- The source's `TextureRectangle` (inclusive corners, cached extent). -/
structure TextureRectangle where
  left : Nat
  top : Nat
  right : Nat
  bottom : Nat
  width : Nat
  height : Nat
deriving DecidableEq, Repr

instance : Inhabited TextureRectangle := ⟨⟨0, 0, 0, 0, 0, 0⟩⟩

/-- The source's `Partition`. -/
inductive Partition where
  | NONE
  | VERTICAL
  | HORIZONTAL
deriving DecidableEq, Repr

/-- The source's `TextureNode` together with the address it lives at; `null` is `nullptr`. -/
inductive TextureNode where
  | null : TextureNode
  | node (addr : Nat) (left right : TextureNode) (block : TextureRectangle)
      (splitDir : Partition) (isUsed isDrawn : Bool) : TextureNode
deriving DecidableEq, Repr

namespace TextureNode

/-- The pointer value of a node. -/
def addr : TextureNode → Nat
  | null => 0
  | node a _ _ _ _ _ _ => a

/-- Field `left`. -/
def left : TextureNode → TextureNode
  | null => null
  | node _ l _ _ _ _ _ => l

/-- Field `right`. -/
def right : TextureNode → TextureNode
  | null => null
  | node _ _ r _ _ _ _ => r

/-- Field `block` (a read through `nullptr` yields the zero block). -/
def block : TextureNode → TextureRectangle
  | null => default
  | node _ _ _ b _ _ _ => b

/-- Field `splitDir`. -/
def splitDir : TextureNode → Partition
  | null => Partition.NONE
  | node _ _ _ _ s _ _ => s

/-- Field `isUsed`. -/
def isUsed : TextureNode → Bool
  | null => false
  | node _ _ _ _ _ u _ => u

/-- Field `isDrawn`. -/
def isDrawn : TextureNode → Bool
  | null => false
  | node _ _ _ _ _ _ d => d

/-- Pointer test `node != nullptr`. -/
def isNull : TextureNode → Bool
  | null => true
  | node _ _ _ _ _ _ _ => false

end TextureNode

/-- Size of a `TextureNode` in bytes (two pointers, six `u16`, an `int` enum, two `bool`,
padded to pointer alignment on a 64-bit target). -/
def sizeofTextureNode : Nat := 40

/-- A node as `PushStruct` hands it out: the arena memory is zero-filled and never reused. -/
def freshNode (a : Nat) : TextureNode :=
  TextureNode.node a TextureNode.null TextureNode.null default Partition.NONE false false

/-- The source's `isLeaf`. -/
def isLeaf (node : TextureNode) : Bool :=
  !((!node.left.isNull) || (!node.right.isNull))

/-- The source's `isBlockExactFit`. -/
def isBlockExactFit (node : TextureNode) (textureWidth textureHeight : Nat) : Bool :=
  decide (node.block.width = textureWidth) && decide (node.block.height = textureHeight)

/-- The source's `isBlockFit`. -/
def isBlockFit (node : TextureNode) (textureWidth textureHeight : Nat) : Bool :=
  decide (node.block.width ≥ textureWidth) && decide (node.block.height ≥ textureHeight)

/-- The source's `isBlockWidthExactFit`. -/
def isBlockWidthExactFit (node : TextureNode) (textureWidth : Nat) : Bool :=
  decide (node.block.width = textureWidth)

/-- The source's `isBlockHeightExactFit`. -/
def isBlockHeightExactFit (node : TextureNode) (textureHeight : Nat) : Bool :=
  decide (node.block.height = textureHeight)

/-- The source's `isBlockPartiallyExactFit`. -/
def isBlockPartiallyExactFit (node : TextureNode) (textureWidth textureHeight : Nat) : Bool :=
  decide (node.block.width = textureWidth) || decide (node.block.height = textureHeight)

/-- The source's `splitHorizontallyNew`: the node after the call and the arena. -/
def splitHorizontallyNew (node : TextureNode) (textureNodeArena : MemoryStack)
    (textureWidth textureHeight : Nat) : TextureNode × MemoryStack :=
  let p1 := _Push_ textureNodeArena sizeofTextureNode
  let p2 := _Push_ p1.2 sizeofTextureNode
  let b := node.block
  let lLeft := b.left
  let lTop := b.top
  let lRight := u16 ((b.left : Int) + textureWidth - 1)
  let lBottom := b.bottom
  let rLeft := u16 ((lRight : Int) + 1)
  let rTop := b.top
  let rRight := b.right
  let rBottom := b.bottom
  let lWidth := u16 (((lRight : Int) - lLeft) + 1)
  let lHeight := b.height
  let rWidth := u16 (((rRight : Int) - rLeft) + 1)
  let rHeight := b.height
  let newLeft := TextureNode.node p1.1 TextureNode.null TextureNode.null
    ⟨lLeft, lTop, lRight, lBottom, lWidth, lHeight⟩ Partition.NONE false false
  let newRight := TextureNode.node p2.1 TextureNode.null TextureNode.null
    ⟨rLeft, rTop, rRight, rBottom, rWidth, rHeight⟩ Partition.NONE false false
  (TextureNode.node node.addr newLeft newRight b Partition.HORIZONTAL node.isUsed node.isDrawn,
   p2.2)

/-- The source's `splitVerticallyNew`: the node after the call and the arena. -/
def splitVerticallyNew (node : TextureNode) (textureNodeArena : MemoryStack)
    (textureWidth textureHeight : Nat) : TextureNode × MemoryStack :=
  let p1 := _Push_ textureNodeArena sizeofTextureNode
  let p2 := _Push_ p1.2 sizeofTextureNode
  let b := node.block
  let lLeft := b.left
  let lTop := b.top
  let lRight := b.right
  let lBottom := u16 ((b.top : Int) + textureHeight - 1)
  let rLeft := b.left
  let rTop := u16 ((lBottom : Int) + 1)
  let rRight := b.right
  let rBottom := b.bottom
  let lWidth := b.width
  let lHeight := u16 (((lBottom : Int) - lTop) + 1)
  let rWidth := b.width
  let rHeight := u16 (((rBottom : Int) - rTop) + 1)
  let newLeft := TextureNode.node p1.1 TextureNode.null TextureNode.null
    ⟨lLeft, lTop, lRight, lBottom, lWidth, lHeight⟩ Partition.NONE false false
  let newRight := TextureNode.node p2.1 TextureNode.null TextureNode.null
    ⟨rLeft, rTop, rRight, rBottom, rWidth, rHeight⟩ Partition.NONE false false
  (TextureNode.node node.addr newLeft newRight b Partition.VERTICAL node.isUsed node.isDrawn,
   p2.2)

/-- The stores `result->isUsed = true; result->splitDir = Partition::NONE`. -/
def markUsed : TextureNode → TextureNode
  | TextureNode.null => TextureNode.null
  | TextureNode.node a l r b _ _ d => TextureNode.node a l r b Partition.NONE true d

/-- The node `n` after its left child has been changed in place to `l`. -/
def withLeft : TextureNode → TextureNode → TextureNode
  | TextureNode.null, _ => TextureNode.null
  | TextureNode.node a _ r b s u d, l => TextureNode.node a l r b s u d

/-- The source's `findFirstFreeBlock`: the node after the call, the arena, and the returned
pointer (`0` for `nullptr`). -/
def findFirstFreeBlock (node : TextureNode) (textureNodeArena : MemoryStack)
    (texture : Texture) : TextureNode × MemoryStack × Nat :=
  if isBlockFit node texture.width texture.height then
    if isBlockExactFit node texture.width texture.height then
      (markUsed node, textureNodeArena, node.addr)
    else if isBlockPartiallyExactFit node texture.width texture.height then
      let s :=
        if isBlockWidthExactFit node texture.width then
          splitVerticallyNew node textureNodeArena texture.width texture.height
        else if isBlockHeightExactFit node texture.height then
          splitHorizontallyNew node textureNodeArena texture.width texture.height
        else (node, textureNodeArena)
      (withLeft s.1 (markUsed s.1.left), s.2, s.1.left.addr)
    else
      let s :=
        if texture.height > texture.width then
          let s1 := splitHorizontallyNew node textureNodeArena texture.width texture.height
          let s2 := splitVerticallyNew s1.1.left s1.2 texture.width texture.height
          (withLeft s1.1 s2.1, s2.2)
        else
          let s1 := splitVerticallyNew node textureNodeArena texture.width texture.height
          let s2 := splitHorizontallyNew s1.1.left s1.2 texture.width texture.height
          (withLeft s1.1 s2.1, s2.2)
      (withLeft s.1 (withLeft s.1.left (markUsed s.1.left.left)), s.2, s.1.left.left.addr)
  else
    (node, textureNodeArena, 0)

/-- A little-endian `u32` store at byte offset `off`. A store outside the buffer is dropped
here; the source stores through a raw pointer without a check, so the buffer below is that
of the source only as long as every store lies inside it (`renderStoresInside`). -/
def writeU32 (mem : List Nat) (off : Nat) (v : Nat) : List Nat :=
  (((mem.set off (v % 256)).set (off + 1) (v / 256 % 256)).set (off + 2)
    (v / 65536 % 256)).set (off + 3) (v / 16777216 % 256)

/-- The source's `renderBlockIntoTextureAtlas`. The state of the two loops is the pixel
buffer and the byte offset of `atlasDestPixel`, which advances by one pixel per store; the
row pointer `atlasDestMemory` is advanced by the source but never read again. The two
products of the start offset are `u32` products. -/
def renderBlockIntoTextureAtlas (node : TextureNode) (textureAtlas : Texture) : Texture :=
  let atlasPitch := u32 (textureAtlas.width * textureAtlas.bpp)
  let atlasBpp := textureAtlas.bpp
  let blockWidth := node.block.width
  let blockHeight := node.block.height
  let start := u32 ((node.block.top : Int) * atlasPitch) + u32 ((node.block.left : Int) * atlasBpp)
  let final := (List.range blockHeight).foldl
    (fun (st : List Nat × Nat) _ =>
      (List.range blockWidth).foldl
        (fun (st : List Nat × Nat) _ => (writeU32 st.1 st.2 0xffff00ff, st.2 + 4)) st)
    (textureAtlas.memory, start)
  { textureAtlas with memory := final.1 }

/-- What a call of `traverseTextureNodes` leaves behind: the subtree it was called on, the
arena, the atlas, the scratch path, and the returned pointer (`0` for `nullptr`). -/
structure Traversal where
  node : TextureNode
  textureNodeArena : MemoryStack
  textureAtlas : Texture
  nodePath : List Nat
  result : Nat

/-- The source's `traverseTextureNodes`. The `while` loop moves to `node->right` with
`result` still null, which is the second recursive call. The two `assert`s of the
internal-node branch have no effect on the state; what they test is `SplitConsistent`. -/
def traverseTextureNodes : TextureNode → MemoryStack → Texture → Texture → List Nat → Traversal
  | TextureNode.null, arena, atlas, _, path => ⟨TextureNode.null, arena, atlas, path, 0⟩
  | TextureNode.node a l r b sd used drawn, arena, atlas, texture, path =>
    let fill : Bool := !used && !drawn
    let atlas1 :=
      if fill then renderBlockIntoTextureAtlas (TextureNode.node a l r b sd used drawn) atlas
      else atlas
    let drawn1 : Bool := if fill then true else drawn
    if isLeaf (TextureNode.node a l r b sd used drawn1) && !used then
      let f := findFirstFreeBlock (TextureNode.node a l r b sd used drawn1) arena texture
      ⟨f.1, f.2.1, atlas1, path, f.2.2⟩
    else
      let tl : Traversal :=
        if sd = Partition.VERTICAL then
          if texture.height ≤ l.block.height then
            traverseTextureNodes l arena atlas1 texture (path ++ [a])
          else ⟨l, arena, atlas1, path, 0⟩
        else if sd = Partition.HORIZONTAL then
          if texture.width ≤ l.block.width then
            traverseTextureNodes l arena atlas1 texture (path ++ [a])
          else ⟨l, arena, atlas1, path, 0⟩
        else ⟨l, arena, atlas1, path, 0⟩
      if tl.result ≠ 0 then
        ⟨TextureNode.node a tl.node r b sd used drawn1, tl.textureNodeArena, tl.textureAtlas,
          tl.nodePath, tl.result⟩
      else
        let tr := traverseTextureNodes r tl.textureNodeArena tl.textureAtlas texture tl.nodePath
        ⟨TextureNode.node a tl.node tr.node b sd used drawn1, tr.textureNodeArena,
          tr.textureAtlas, tr.nodePath, tr.result⟩

/-- The source's `expandRootVertically`: the new root and the arena. -/
def expandRootVertically (root : TextureNode) (textureNodeArena : MemoryStack)
    (height : Nat) : TextureNode × MemoryStack :=
  let p1 := _Push_ textureNodeArena sizeofTextureNode
  let p2 := _Push_ p1.2 sizeofTextureNode
  let verticalExpansion := u16 ((root.block.height : Int) + height)
  let rTop := root.block.height
  let rBottom := u16 ((rTop : Int) + height - 1)
  let right := TextureNode.node p2.1 TextureNode.null TextureNode.null
    ⟨root.block.left, rTop, root.block.right, rBottom, root.block.width, height⟩
    Partition.NONE false false
  let resultBlock : TextureRectangle :=
    { root.block with
      height := verticalExpansion
      bottom := u16 ((verticalExpansion : Int) - 1) }
  (TextureNode.node p1.1 root right resultBlock Partition.VERTICAL false false, p2.2)

/-- The source's `expandRootHorizontally`: the new root and the arena. -/
def expandRootHorizontally (root : TextureNode) (textureNodeArena : MemoryStack)
    (width : Nat) : TextureNode × MemoryStack :=
  let p1 := _Push_ textureNodeArena sizeofTextureNode
  let p2 := _Push_ p1.2 sizeofTextureNode
  let horizontalExpansion := u16 ((root.block.width : Int) + width)
  let rLeft := root.block.width
  let rRight := u16 ((rLeft : Int) + width - 1)
  let right := TextureNode.node p2.1 TextureNode.null TextureNode.null
    ⟨rLeft, root.block.top, rRight, root.block.bottom, width, root.block.height⟩
    Partition.NONE false false
  let resultBlock : TextureRectangle :=
    { root.block with
      width := horizontalExpansion
      right := u16 ((horizontalExpansion : Int) - 1) }
  (TextureNode.node p1.1 root right resultBlock Partition.HORIZONTAL false false, p2.2)

/-! ## The LRU cache -/

/-- The source's `LRUNode`. -/
structure LRUNode where
  textureNode : Nat
  texture : Option Nat
  prev : Nat
  next : Nat
deriving DecidableEq, Repr

instance : Inhabited LRUNode := ⟨⟨0, none, 0, 0⟩⟩

/-- Size of an `LRUNode` in bytes (four pointers on a 64-bit target). -/
def sizeofLRUNode : Nat := 32

/-- The source's `LRUCache`; `mem` is the content of the memory the list nodes live in
(address to node), `hashLookup` the `unordered_map` as an association list. -/
structure LRUCache where
  sentinel : Nat
  hashLookup : List (Option Nat × Nat)
  atlasWidth : Nat
  atlasHeight : Nat
  nodeCount : Nat
  arena : MemoryStack
  mem : Nat → LRUNode

/-- The source's `insertAsFirstIntoList`, store by store. -/
def insertAsFirstIntoList (mem : Nat → LRUNode) (sentinel element : Nat) : Nat → LRUNode :=
  let m1 := Function.update mem element { mem element with prev := sentinel }
  let m2 := Function.update m1 element { m1 element with next := (m1 sentinel).next }
  let m3 := Function.update m2 sentinel { m2 sentinel with next := element }
  Function.update m3 (m3 element).next { m3 (m3 element).next with prev := element }

/-- The source's `initList`. -/
def initList (mem : Nat → LRUNode) (sentinel : Nat) : Nat → LRUNode :=
  let m1 := Function.update mem sentinel { mem sentinel with next := sentinel }
  Function.update m1 sentinel { m1 sentinel with prev := sentinel }

/-- The source's `removeElementFromList`. -/
def removeElementFromList (mem : Nat → LRUNode) (element : Nat) : Nat → LRUNode :=
  let m1 := Function.update mem (mem element).prev
    { mem (mem element).prev with next := (mem element).next }
  Function.update m1 (m1 element).next { m1 (m1 element).next with prev := (m1 element).prev }

/-- The source's `removeLRUFromList`. -/
def removeLRUFromList (mem : Nat → LRUNode) (sentinel : Nat) : Nat → LRUNode :=
  let m1 := Function.update mem (mem (mem sentinel).prev).prev
    { mem (mem (mem sentinel).prev).prev with next := sentinel }
  Function.update m1 sentinel { m1 sentinel with prev := (m1 (m1 sentinel).prev).prev }

/-- The source's `makeLRUList`; `ptr` is what `VirtualAlloc` returned (zero-filled). -/
def makeLRUList (ptr : Nat) (listSize : Nat) : LRUCache :=
  let p := _Push_ (InitStackMemory ptr (usize ((listSize : Int) + sizeofLRUNode))) sizeofLRUNode
  { sentinel := p.1, hashLookup := [], atlasWidth := 0, atlasHeight := 0, nodeCount := 0,
    arena := p.2, mem := initList (fun _ => default) p.1 }

/-- A store through a `TextureNode*`: `f` is applied to the node living at address `a`. -/
def storeAt (a : Nat) (f : TextureNode → TextureNode) : TextureNode → TextureNode
  | TextureNode.null => TextureNode.null
  | TextureNode.node a1 l r b s u d =>
    if a1 = a then f (TextureNode.node a1 (storeAt a f l) (storeAt a f r) b s u d)
    else TextureNode.node a1 (storeAt a f l) (storeAt a f r) b s u d

/-- A read through a `TextureNode*`: the node living at address `a` (`null` if there is
none). -/
def deref : TextureNode → Nat → TextureNode
  | TextureNode.null, _ => TextureNode.null
  | TextureNode.node a1 l r b s u d, a =>
    if a1 = a then TextureNode.node a1 l r b s u d
    else if (deref l a).isNull then deref r a else deref l a

/-- The store `node->isUsed = v`. -/
def setIsUsed (v : Bool) : TextureNode → TextureNode
  | TextureNode.null => TextureNode.null
  | TextureNode.node a l r b s _ d => TextureNode.node a l r b s v d

/-- The store `node->splitDir = v`. -/
def setSplitDir (v : Partition) : TextureNode → TextureNode
  | TextureNode.null => TextureNode.null
  | TextureNode.node a l r b _ u d => TextureNode.node a l r b v u d

/-- The stores `node->left = nullptr; node->right = nullptr`. -/
def clearChildren : TextureNode → TextureNode
  | TextureNode.null => TextureNode.null
  | TextureNode.node a _ _ b s u d =>
    TextureNode.node a TextureNode.null TextureNode.null b s u d

/-- The call `hashLookup.erase(key)`. -/
def hashErase (m : List (Option Nat × Nat)) (key : Option Nat) : List (Option Nat × Nat) :=
  m.filter (fun e => !(decide (e.1 = key)))

/-- The source's `insertIntoLRUCache`; `tree` is the root of the partition tree, which the
call writes to through `textureNode`. -/
def insertIntoLRUCache (textureNode : Nat) (texture : Option Nat) (cache : LRUCache)
    (currentAtlasWidth currentAtlasHeight : Nat) (tree : TextureNode) :
    LRUCache × TextureNode :=
  match cache.hashLookup.lookup texture with
  | some cachedNode =>
    ({ cache with mem := insertAsFirstIntoList cache.mem cache.sentinel cachedNode }, tree)
  | none =>
    let p := _Push_ cache.arena sizeofLRUNode
    let cachedNode := p.1
    let m1 := Function.update cache.mem cachedNode
      { cache.mem cachedNode with textureNode := textureNode }
    let tree1 := storeAt textureNode (setIsUsed true) tree
    let m2 := Function.update m1 cachedNode { m1 cachedNode with texture := texture }
    let m3 := insertAsFirstIntoList m2 cache.sentinel cachedNode
    ({ cache with
        arena := p.2
        mem := m3
        nodeCount := u32 ((cache.nodeCount : Int) + 1)
        atlasWidth := currentAtlasWidth
        atlasHeight := currentAtlasHeight
        hashLookup := (texture, cachedNode) :: hashErase cache.hashLookup texture },
     tree1)

/-- What `removeLRUFromCache` leaves behind. -/
structure Removal where
  result : Nat
  cache : LRUCache
  nodePath : List Nat
  tree : TextureNode

/-- The source's `removeLRUFromCache`. -/
def removeLRUFromCache (cache : LRUCache) (nodePath : List Nat) (tree : TextureNode) :
    Removal :=
  if cache.nodeCount ≠ 0 then
    let lruNode := (cache.mem cache.sentinel).prev
    if (cache.hashLookup.lookup (cache.mem lruNode).texture).isSome then
      let lookup1 := hashErase cache.hashLookup (cache.mem lruNode).texture
      let tree1 := storeAt (cache.mem lruNode).textureNode (setIsUsed false) tree
      let tree2 := storeAt (cache.mem lruNode).textureNode (setSplitDir Partition.NONE) tree1
      { result := lruNode
        cache := { cache with
          hashLookup := lookup1
          mem := removeLRUFromList cache.mem cache.sentinel
          nodeCount := u32 ((cache.nodeCount : Int) - 1) }
        nodePath := []
        tree := tree2 }
    else ⟨0, cache, nodePath, tree⟩
  else ⟨0, cache, nodePath, tree⟩

/-- The source's `removeNodeFromCache`; `node` is an `LRUNode*`. -/
def removeNodeFromCache (cache : LRUCache) (node : Nat) (tree : TextureNode) :
    LRUCache × TextureNode :=
  if node ≠ 0 ∧ (cache.mem node).texture ≠ none then
    if (cache.hashLookup.lookup (cache.mem node).texture).isNone then (cache, tree)
    else
      let lookup1 := hashErase cache.hashLookup (cache.mem node).texture
      let tree1 := storeAt (cache.mem node).textureNode (setIsUsed false) tree
      let tree2 := storeAt (cache.mem node).textureNode clearChildren tree1
      let tree3 := storeAt (cache.mem node).textureNode (setSplitDir Partition.NONE) tree2
      ({ cache with
          hashLookup := lookup1
          mem := removeElementFromList cache.mem node
          nodeCount := u32 ((cache.nodeCount : Int) - 1) },
       tree3)
  else (cache, tree)

/-- The source's `clearLRUCache` (its `printf` apart): one `PopStruct` for every element the
arena has counted, then the resets. -/
def clearLRUCache (cache : LRUCache) : LRUCache :=
  let elementCount := cache.arena.elementCount
  let arena := (List.range elementCount).foldl
    (fun (a : MemoryStack) _ => (_Pop_ a sizeofLRUNode).2) cache.arena
  { cache with
    arena := arena
    nodeCount := 0
    atlasWidth := 0
    atlasHeight := 0
    hashLookup := []
    mem := initList cache.mem cache.sentinel }

/-! ## The packer -/

/-- The variables of `packTexturesIntoAtlas` while its loop runs. -/
structure PackState where
  textures : List Texture
  textureNodeArena : MemoryStack
  textureCount : Nat
  cache : LRUCache
  textureAtlas : Texture
  maxAtlasWidth : Nat
  maxAtlasHeight : Nat
  root : TextureNode
  textureIndex : Nat

/-- The source's `packTexturesIntoAtlas` up to the loop: the root seed. -/
def packInit (textures : List Texture) (textureNodeArena : MemoryStack) (textureCount : Nat)
    (cache : LRUCache) (textureAtlas : Texture) : PackState :=
  let p := _Push_ textureNodeArena sizeofTextureNode
  let startingWidth := (textures.getD 0 default).width
  let startingHeight := (textures.getD 0 default).height
  let rootRight := u16 ((0 : Int) + startingWidth - 1)
  let rootBottom := u16 ((0 : Int) + startingHeight - 1)
  { textures := textures
    textureNodeArena := p.2
    textureCount := textureCount
    cache := cache
    textureAtlas := textureAtlas
    maxAtlasWidth := textureAtlas.width
    maxAtlasHeight := textureAtlas.height
    root := TextureNode.node p.1 TextureNode.null TextureNode.null
      ⟨0, 0, rootRight, rootBottom, startingWidth, startingHeight⟩ Partition.NONE false false
    textureIndex := 0 }

/-- One iteration of the loop of `packTexturesIntoAtlas` (the state is left alone once the
loop condition fails). -/
def packStep (s : PackState) : PackState :=
  if s.textureIndex < s.textureCount then
    let texture := s.textures.getD s.textureIndex default
    let t := traverseTextureNodes s.root s.textureNodeArena s.textureAtlas texture []
    if t.result ≠ 0 then
      let node := deref t.node t.result
      let placed : Texture := { texture with x := node.block.left, y := node.block.top }
      let ins := insertIntoLRUCache t.result (some s.textureIndex) s.cache
        t.node.block.width t.node.block.height t.node
      { s with
        textures := s.textures.set s.textureIndex placed
        textureNodeArena := t.textureNodeArena
        textureAtlas := t.textureAtlas
        textureIndex := s.textureIndex + 1
        cache := ins.1
        root := ins.2 }
    else
      let verticalExpansion := u16 ((t.node.block.height : Int) + texture.height)
      let horizontalExpansion := u16 ((t.node.block.width : Int) + texture.width)
      if verticalExpansion < horizontalExpansion ∧ verticalExpansion ≤ s.maxAtlasWidth then
        let e := expandRootVertically t.node t.textureNodeArena texture.height
        { s with textureNodeArena := e.2, textureAtlas := t.textureAtlas, root := e.1 }
      else if verticalExpansion ≥ horizontalExpansion ∧
          horizontalExpansion ≤ s.maxAtlasHeight then
        let e := expandRootHorizontally t.node t.textureNodeArena texture.width
        { s with textureNodeArena := e.2, textureAtlas := t.textureAtlas, root := e.1 }
      else
        let rm := removeLRUFromCache s.cache t.nodePath t.node
        { s with
          textureNodeArena := t.textureNodeArena
          textureAtlas := t.textureAtlas
          cache := rm.cache
          root := rm.tree }
  else s

/-- The state after `k` iterations of the loop. -/
def packIter (k : Nat) (s : PackState) : PackState := packStep^[k] s

/-- The loop of `packTexturesIntoAtlas`: `none` when it has not left the loop within `fuel`
iterations. -/
def packLoop : Nat → PackState → Option PackState
  | 0, s => if s.textureIndex < s.textureCount then none else some s
  | fuel + 1, s => if s.textureIndex < s.textureCount then packLoop fuel (packStep s) else some s

/-- The source's `packTexturesIntoAtlas`: the state when it returns, `none` when the loop
has not ended within `fuel` iterations. -/
def packTexturesIntoAtlas (fuel : Nat) (textures : List Texture)
    (textureNodeArena : MemoryStack) (textureCount : Nat) (cache : LRUCache)
    (textureAtlas : Texture) : Option PackState :=
  (packLoop fuel (packInit textures textureNodeArena textureCount cache textureAtlas)).map
    fun s =>
      let w := min s.root.block.width s.maxAtlasWidth
      let h := min s.root.block.height s.maxAtlasHeight
      { s with
        textureAtlas := { s.textureAtlas with width := w, height := h }
        cache := { s.cache with atlasWidth := w, atlasHeight := h } }

/-! ## The entry point -/

/-- What a call of `main` leaves behind: the value it returns and what it has written to
the two streams. -/
structure MainResult where
  exitCode : Int
  stdout : List String
  stderr : List String
deriving DecidableEq, Repr

/-- The source's `main`. `argv` holds the arguments; `generate folder` stands for the calls
from `generateTextureAtlasMetadata` to `endTimer`, which work on the file system: what they
print, or `none` when they do not return. -/
def main (argc : Int) (argv : List String) (generate : String → Option (List String)) :
    Option MainResult :=
  let programName := argv.getD 0 ""
  if argc = 2 then
    let globalFolderPath := argv.getD 1 ""
    if globalFolderPath = "help" then
      some ⟨0, ["This program packs .png files into a texture atlas to the specified " ++
        "folder path provided by the user from the command line\n"], []⟩
    else
      (generate globalFolderPath).map
        fun out => ⟨0, "Start of program!\n" :: out, []⟩
  else
    some ⟨0, [],
      ["Invalid usage of: " ++ programName ++ "\n",
       "Valid usage: " ++ programName ++ " \x27path to image folder\x27\n"]⟩

/-! ## Sorting the textures -/

/-- The source's `compareHeight`. -/
def compareHeight (p1 p2 : Texture) : Int := (p2.height : Int) - (p1.height : Int)

/-- The source's `compareWidth`. -/
def compareWidth (p1 p2 : Texture) : Int := (p2.width : Int) - (p1.width : Int)

/-- The source's `Side`. -/
inductive Side where
  | INVALID
  | VERTICAL
  | HORIZONTAL
deriving DecidableEq, Repr

/-- The source's `getLongerSide`; the loop state is `(result, maxWidth, maxHeight)`. -/
def getLongerSide (textures : List Texture) : Side :=
  (textures.foldl
    (fun (st : Side × Nat × Nat) (t : Texture) =>
      let maxWidth := if t.width > st.2.1 then t.width else st.2.1
      let maxHeight := if t.height > st.2.2 then t.height else st.2.2
      (if maxWidth > maxHeight then Side.HORIZONTAL else Side.VERTICAL, maxWidth, maxHeight))
    (Side.INVALID, 0, 0)).1

/-- The C library's `qsort`, which the source calls and does not define: it leaves the
array ordered so that `compar(a, b) <= 0` whenever `a` comes before `b`. The order of
elements that compare equal is not fixed by the C standard; here they keep the order an
insertion sort gives them. -/
def qsort (compar : Texture → Texture → Int) (base : List Texture) : List Texture :=
  base.insertionSort (fun a b => compar a b ≤ 0)

/-- The source's `sortTextures`; `none` is the failing `assert(0)`. -/
def sortTextures (textures : List Texture) : Option (List Texture) :=
  if getLongerSide textures = Side.HORIZONTAL then some (qsort compareWidth textures)
  else if getLongerSide textures = Side.VERTICAL then some (qsort compareHeight textures)
  else none

/-! ## Notions used to state the properties -/

/-- Largest width in a list of textures (`0` for the empty list). -/
def maxWidthOf (textures : List Texture) : Nat :=
  textures.foldr (fun t m => max t.width m) 0

/-- Largest height in a list of textures (`0` for the empty list). -/
def maxHeightOf (textures : List Texture) : Nat :=
  textures.foldr (fun t m => max t.height m) 0

/-- Number of nodes of a tree. -/
def nodeCountOf : TextureNode → Nat
  | TextureNode.null => 0
  | TextureNode.node _ l r _ _ _ _ => nodeCountOf l + nodeCountOf r + 1

/-- A leaf that holds an image of the extent of `t` at the origin of the block of `n`. -/
def IsPlacedLeaf (leaf n : TextureNode) (t : Texture) : Prop :=
  leaf.isNull = false ∧ isLeaf leaf = true ∧ leaf.isUsed = true ∧
  leaf.block.left = n.block.left ∧ leaf.block.top = n.block.top ∧
  leaf.block.width = t.width ∧ leaf.block.height = t.height

/-! ## Concrete runs -/

/-- A texture of extent `w x h` that has not been placed yet. -/
def textureOf (w h : Nat) : Texture := ⟨"", [], 4, 0, 0, w, h⟩

/-- The state in which `generateTextureAtlas` enters the pack loop, for an atlas cap of
`maxW x maxH` with four bytes per pixel: arenas sized as in `generateTextureAtlasMetadata`
and `main`, at the addresses `4096` and `1048576`. -/
def packStart (textures : List Texture) (maxW maxH : Nat) : PackState :=
  packInit textures
    (InitStackMemory 4096 ((1 + textures.length * 4) * sizeofTextureNode))
    textures.length
    (makeLRUList 1048576 (textures.length * sizeofLRUNode))
    ⟨"", List.replicate (maxW * maxH * 4) 0, 4, 0, 0, maxW, maxH⟩

/-! ## Notions used to state the invariants of the packer -/

/-- A well-formed block: the cached extent agrees with the inclusive corners, is positive,
and the corners are `u16` values. -/
def RectOK (b : TextureRectangle) : Prop :=
  b.left + b.width = b.right + 1 ∧ b.top + b.height = b.bottom + 1 ∧
  0 < b.width ∧ 0 < b.height ∧ b.right < 65536 ∧ b.bottom < 65536

/-- Rectangle `b` lies inside rectangle `c`. -/
def RectInside (b c : TextureRectangle) : Prop :=
  c.left ≤ b.left ∧ b.right ≤ c.right ∧ c.top ≤ b.top ∧ b.bottom ≤ c.bottom

/-- Two rectangles (inclusive corners) do not intersect. -/
def RectDisjoint (b c : TextureRectangle) : Prop :=
  b.right < c.left ∨ c.right < b.left ∨ b.bottom < c.top ∨ c.bottom < b.top

/-- Split consistency of an internal node with block `b`, split direction `s` and children
blocks `bl`, `br`: the children share the extent across the split axis and their extents
along it add up. -/
def SplitConsistent (s : Partition) (b bl br : TextureRectangle) : Prop :=
  (s = Partition.VERTICAL →
    b.height = bl.height + br.height ∧ b.width = bl.width ∧ b.width = br.width) ∧
  (s = Partition.HORIZONTAL →
    b.width = bl.width + br.width ∧ b.height = bl.height ∧ b.height = br.height)

/-- The children blocks `bl`, `br` cut the block `b` in two along the direction `s`. -/
def SplitOK (s : Partition) (b bl br : TextureRectangle) : Prop :=
  (s = Partition.VERTICAL ∧ bl.left = b.left ∧ bl.right = b.right ∧ bl.top = b.top ∧
    br.left = b.left ∧ br.right = b.right ∧ br.top = bl.bottom + 1 ∧ br.bottom = b.bottom) ∨
  (s = Partition.HORIZONTAL ∧ bl.top = b.top ∧ bl.bottom = b.bottom ∧ bl.left = b.left ∧
    br.top = b.top ∧ br.bottom = b.bottom ∧ br.left = bl.right + 1 ∧ br.right = b.right)

/-- All nodes of a tree, parents first. -/
def nodes : TextureNode → List TextureNode
  | TextureNode.null => []
  | TextureNode.node a l r b s u d => TextureNode.node a l r b s u d :: (nodes l ++ nodes r)

/-- The addresses of all nodes of a tree. -/
def addrs (n : TextureNode) : List Nat := (nodes n).map TextureNode.addr

/-- The leaves of a tree, left to right. -/
def leaves (n : TextureNode) : List TextureNode := (nodes n).filter isLeaf

/-- The internal nodes of a tree. -/
def internals (n : TextureNode) : List TextureNode := (nodes n).filter (fun x => !(isLeaf x))

/-- The used leaves of a tree, left to right. -/
def usedLeaves (n : TextureNode) : List TextureNode :=
  (leaves n).filter TextureNode.isUsed

/-- The shape of every tree the packer builds: blocks are well formed, a node has no child
and no split direction or has two children that cut its block in two, and only leaves are
used. -/
def TreeOK : TextureNode → Prop
  | TextureNode.null => False
  | TextureNode.node _ l r b s u _ =>
    RectOK b ∧
    ((l = TextureNode.null ∧ r = TextureNode.null ∧ s = Partition.NONE) ∨
     (u = false ∧ TreeOK l ∧ TreeOK r ∧ SplitOK s b l.block r.block))

/-- The forward walk `for (node = start; node != sentinel; node = node->next)` over the LRU
list: the nodes visited, `none` when the sentinel has not been reached after `fuel` nodes. -/
def lruWalk (mem : Nat → LRUNode) (sentinel : Nat) : Nat → Nat → Option (List Nat)
  | 0, node => if node = sentinel then some [] else none
  | fuel + 1, node =>
    if node = sentinel then some []
    else (lruWalk mem sentinel fuel (mem node).next).map (fun l => node :: l)

/-- The nodes of the LRU list of a cache, most recent first (walk from `sentinel->next`). -/
def lruList (cache : LRUCache) (fuel : Nat) : Option (List Nat) :=
  lruWalk cache.mem cache.sentinel fuel (cache.mem cache.sentinel).next

/-- The texture an LRU node refers to. -/
def lruTexture (s : PackState) (node : Nat) : Texture :=
  s.textures.getD (((s.cache.mem node).texture).getD 0) default

/-- Two placed images occupy disjoint rectangles `[x, x+width-1] x [y, y+height-1]`. -/
def ImagesDisjoint (t1 t2 : Texture) : Prop :=
  t1.x + t1.width ≤ t2.x ∨ t2.x + t2.width ≤ t1.x ∨
  t1.y + t1.height ≤ t2.y ∨ t2.y + t2.height ≤ t1.y

/-- No 16-bit sum of the loop body wraps in the iteration that starts in `s`: when the
traversal finds no placement, `root.height + imgH` and `root.width + imgW` are below
`2^16`. -/
def SumsFit (s : PackState) : Prop :=
  s.textureIndex < s.textureCount →
  (traverseTextureNodes s.root s.textureNodeArena s.textureAtlas
    (s.textures.getD s.textureIndex default) []).result = 0 →
  s.root.block.height + (s.textures.getD s.textureIndex default).height < 65536 ∧
  s.root.block.width + (s.textures.getD s.textureIndex default).width < 65536

instance (s : PackState) : Decidable (SumsFit s) := by
  unfold SumsFit; infer_instance

instance (t1 t2 : Texture) : Decidable (ImagesDisjoint t1 t2) := by
  unfold ImagesDisjoint; infer_instance

instance (b c : TextureRectangle) : Decidable (RectDisjoint b c) := by
  unfold RectDisjoint; infer_instance

instance (b c : TextureRectangle) : Decidable (RectInside b c) := by
  unfold RectInside; infer_instance

instance (s : Partition) (b bl br : TextureRectangle) : Decidable (SplitConsistent s b bl br) := by
  unfold SplitConsistent; infer_instance

/-- The circular doubly-linked list: following `next` from `p` visits `l` and then reaches
`q`, and `prev` leads back. -/
def Linked (mem : Nat → LRUNode) : Nat → List Nat → Nat → Prop
  | p, [], q => (mem p).next = q ∧ (mem q).prev = p
  | p, x :: xs, q => (mem p).next = x ∧ (mem x).prev = p ∧ Linked mem x xs q

/-- The memory `mem` holds the well-formed circular list `sentinel, l`. -/
def Ring (mem : Nat → LRUNode) (sentinel : Nat) (l : List Nat) : Prop :=
  (sentinel :: l).Nodup ∧ Linked mem sentinel l sentinel

/-- The arena is a region of the address space with room for one more element of `size`
bytes above it, and has not handed out more than it holds. -/
def ArenaOK (A : MemoryStack) (size : Nat) : Prop :=
  0 < A.base ∧ A.base + A.max_size + size ≤ 2 ^ 64 ∧ A.bytes_used ≤ A.max_size

/-- The address the next `_Push_` returns. -/
def arenaTop (A : MemoryStack) : Nat := A.base + A.bytes_used

/-- The nodes of the tree live at distinct addresses that the arena has handed out. -/
def AddrsOK (n : TextureNode) (A : MemoryStack) : Prop :=
  (addrs n).Nodup ∧ ∀ a ∈ addrs n, A.base ≤ a ∧ a < arenaTop A

/-- An image extent the packer is meant for: positive `u16` values. -/
def TexOK (t : Texture) : Prop :=
  1 ≤ t.width ∧ t.width < 65536 ∧ 1 ≤ t.height ∧ t.height < 65536

/-- What a search for a place for `t` (a call of `findFirstFreeBlock` or
`traverseTextureNodes`) makes of the tree `n` and the arena `A`: the tree keeps its shape,
block and address, new nodes get new addresses, used leaves stay as they are, and a
returned pointer is the address of a used leaf of the extent of `t` that was not a used
leaf before. -/
def Placement (n : TextureNode) (A : MemoryStack) (t : Texture) (n1 : TextureNode)
    (A1 : MemoryStack) (result : Nat) : Prop :=
  TreeOK n1 ∧ n1.block = n.block ∧ n1.addr = n.addr ∧
  ArenaOK A1 sizeofTextureNode ∧ A1.base = A.base ∧ A1.max_size = A.max_size ∧
  A.bytes_used ≤ A1.bytes_used ∧
  AddrsOK n1 A1 ∧ (∀ a ∈ addrs n1, a ∈ addrs n ∨ arenaTop A ≤ a) ∧
  (∀ x ∈ usedLeaves n, x ∈ usedLeaves n1) ∧
  (result ≠ 0 →
    (∃ x ∈ usedLeaves n1, x.addr = result ∧ x.block.width = t.width ∧
      x.block.height = t.height) ∧
    (∀ y ∈ usedLeaves n, y.addr ≠ result))

/-- The invariant of the pack loop; `L` is the LRU list, most recent first. The tree is
well shaped with its root at the origin, node addresses are distinct, the cache holds the
well-formed circular list `sentinel, L`, and every list node refers to a texture already
placed and to the used leaf whose block is the rectangle of that texture, different list
nodes to different leaves. -/
def PackInv (s : PackState) (L : List Nat) : Prop :=
  s.textures.length = s.textureCount ∧ s.textureIndex ≤ s.textureCount ∧
  (∀ t ∈ s.textures, TexOK t) ∧
  TreeOK s.root ∧ s.root.block.left = 0 ∧ s.root.block.top = 0 ∧
  ArenaOK s.textureNodeArena sizeofTextureNode ∧ AddrsOK s.root s.textureNodeArena ∧
  ArenaOK s.cache.arena sizeofLRUNode ∧
  Ring s.cache.mem s.cache.sentinel L ∧
  (∀ x ∈ s.cache.sentinel :: L, x < arenaTop s.cache.arena) ∧
  (s.cache.mem s.cache.sentinel).texture = none ∧
  (∀ e ∈ s.cache.hashLookup, ∃ j, j < s.textureIndex ∧ e.1 = some j) ∧
  (∀ x ∈ L, ∃ j, j < s.textureIndex ∧ (s.cache.mem x).texture = some j ∧
    ∃ y ∈ usedLeaves s.root, y.addr = (s.cache.mem x).textureNode ∧
      y.block.left = (s.textures.getD j default).x ∧
      y.block.top = (s.textures.getD j default).y ∧
      y.block.width = (s.textures.getD j default).width ∧
      y.block.height = (s.textures.getD j default).height) ∧
  (L.map (fun x => (s.cache.mem x).textureNode)).Nodup

instance (t : Texture) : Decidable (TexOK t) := by
  unfold TexOK; infer_instance

instance (b : TextureRectangle) : Decidable (RectOK b) := by
  unfold RectOK; infer_instance

/-- The call of `packTexturesIntoAtlas` that `generateTextureAtlas` makes, on the arenas and
the atlas of `packStart`: the state when the call returns, `none` when the loop has not
ended within `fuel` iterations. -/
def packRun (fuel : Nat) (textures : List Texture) (maxW maxH : Nat) : Option PackState :=
  packTexturesIntoAtlas fuel textures
    (InitStackMemory 4096 ((1 + textures.length * 4) * sizeofTextureNode))
    textures.length
    (makeLRUList 1048576 (textures.length * sizeofLRUNode))
    ⟨"", List.replicate (maxW * maxH * 4) 0, 4, 0, 0, maxW, maxH⟩

/-- The placement of image `j` when the call has returned in state `s`: `(x, y, width,
height)`. -/
def placementOf (s : PackState) (j : Nat) : Nat × Nat × Nat × Nat :=
  ((s.textures.getD j default).x, (s.textures.getD j default).y,
    (s.textures.getD j default).width, (s.textures.getD j default).height)

/-- The images on the LRU list, most recent first, as indices into the texture table;
`none` when the walk has not come back to the sentinel after `fuel` nodes. -/
def listedImages (s : PackState) (fuel : Nat) : Option (List (Option Nat)) :=
  (lruList s.cache fuel).map (List.map (fun x => (s.cache.mem x).texture))

/-- Two caches that differ at most in the atlas extent they record. -/
def CacheAgree (c d : LRUCache) : Prop :=
  c.sentinel = d.sentinel ∧ c.hashLookup = d.hashLookup ∧ c.nodeCount = d.nodeCount ∧
  c.arena = d.arena ∧ c.mem = d.mem

/-- The four `assert`s that end `splitHorizontallyNew` and `splitVerticallyNew`, read on
the node after the call: both new children have a positive width and height. -/
def splitAsserts (node : TextureNode) : Prop :=
  node.right.block.width > 0 ∧ node.right.block.height > 0 ∧
  node.left.block.width > 0 ∧ node.left.block.height > 0

instance (node : TextureNode) : Decidable (splitAsserts node) := by
  unfold splitAsserts; infer_instance

/-! ## Notions used to state the properties of the cache -/

/-- A call of one of the three cache operations, with its arguments. -/
inductive CacheOp where
  | insert (textureNode : Nat) (texture : Option Nat)
      (currentAtlasWidth currentAtlasHeight : Nat) : CacheOp
  | removeLRU : CacheOp
  | removeNode (node : Nat) : CacheOp
deriving DecidableEq, Repr

/-- The cache and the partition tree after the call `op`. -/
def applyOp (st : LRUCache × TextureNode) : CacheOp → LRUCache × TextureNode
  | CacheOp.insert tn tex w h => insertIntoLRUCache tn tex st.1 w h st.2
  | CacheOp.removeLRU =>
    ((removeLRUFromCache st.1 [] st.2).cache, (removeLRUFromCache st.1 [] st.2).tree)
  | CacheOp.removeNode x => removeNodeFromCache st.1 x st.2

/-- The cache and the partition tree after a sequence of calls. -/
def runOps (st : LRUCache × TextureNode) (ops : List CacheOp) : LRUCache × TextureNode :=
  ops.foldl applyOp st

/-- The calls a sequence may hold: an insert of an image that is not in the lookup, any
`removeLRUFromCache`, and a `removeNodeFromCache` of a node that is on the list or that the
function ignores (a null pointer, a node without image, a node whose image is not in the
lookup). -/
def OpAllowed (c : LRUCache) : CacheOp → Prop
  | CacheOp.insert _ tex _ _ => c.hashLookup.lookup tex = none
  | CacheOp.removeLRU => True
  | CacheOp.removeNode x =>
    x ∈ (lruList c c.nodeCount).getD [] ∨ x = 0 ∨ (c.mem x).texture = none ∨
      c.hashLookup.lookup (c.mem x).texture = none

/-- Every call of the sequence is allowed in the state it is made in. -/
def OpsAllowed (st : LRUCache × TextureNode) : List CacheOp → Prop
  | [] => True
  | op :: ops => OpAllowed st.1 op ∧ OpsAllowed (applyOp st op) ops

instance (c : LRUCache) (op : CacheOp) : Decidable (OpAllowed c op) := by
  cases op <;> unfold OpAllowed <;> infer_instance

/-- Whether every call of the sequence is allowed can be computed. -/
def decOpsAllowed : (st : LRUCache × TextureNode) → (ops : List CacheOp) →
    Decidable (OpsAllowed st ops)
  | _, [] => isTrue trivial
  | st, op :: ops =>
    match (inferInstance : Decidable (OpAllowed st.1 op)), decOpsAllowed (applyOp st op) ops with
    | isTrue h1, isTrue h2 => isTrue ⟨h1, h2⟩
    | isFalse h1, _ => isFalse (fun h => h1 h.1)
    | _, isFalse h2 => isFalse (fun h => h2 h.2)

instance (st : LRUCache × TextureNode) (ops : List CacheOp) : Decidable (OpsAllowed st ops) :=
  decOpsAllowed st ops

/-- The invariant of the cache; `L` is the list, most recent first. The memory holds the
well-formed circular list `sentinel, L`; an image is a key of the lookup exactly when a
list node holds it; the lookup maps the image of every list node to that node; and
`nodeCount` is the number of list nodes. -/
def CacheInv (c : LRUCache) (L : List Nat) : Prop :=
  Ring c.mem c.sentinel L ∧
  (∀ k, (c.hashLookup.lookup k).isSome = true ↔ ∃ x ∈ L, (c.mem x).texture = k) ∧
  (∀ x ∈ L, c.hashLookup.lookup (c.mem x).texture = some x) ∧
  c.nodeCount = L.length

/-- The cache invariant together with what keeps it going: the arena of the list nodes is a
region of the address space of less than `2^32 + 32` bytes, all list nodes lie below its
top, and it has handed out at least one slot per node. -/
def CacheOK (c : LRUCache) (L : List Nat) : Prop :=
  CacheInv c L ∧ ArenaOK c.arena sizeofLRUNode ∧
  (∀ x ∈ c.sentinel :: L, x < arenaTop c.arena) ∧
  (L.length + 1) * sizeofLRUNode ≤ c.arena.bytes_used ∧
  c.arena.max_size < 2 ^ 32 + sizeofLRUNode

/-! ## Concrete runs of the cache -/

/-- The partition tree of a 16x8 atlas cut into two 8x8 leaves; the nodes live at the
addresses 4096, 4136 and 4176. -/
def twoLeafTree : TextureNode :=
  TextureNode.node 4096
    (TextureNode.node 4136 TextureNode.null TextureNode.null ⟨0, 0, 7, 7, 8, 8⟩
      Partition.NONE false true)
    (TextureNode.node 4176 TextureNode.null TextureNode.null ⟨8, 0, 15, 7, 8, 8⟩
      Partition.NONE false true)
    ⟨0, 0, 15, 7, 16, 8⟩ Partition.HORIZONTAL false true

/-- The tree of `twoLeafTree` with the left leaf used. -/
def halfUsedTree : TextureNode :=
  TextureNode.node 4096
    (TextureNode.node 4136 TextureNode.null TextureNode.null ⟨0, 0, 7, 7, 8, 8⟩
      Partition.NONE true true)
    (TextureNode.node 4176 TextureNode.null TextureNode.null ⟨8, 0, 15, 7, 8, 8⟩
      Partition.NONE false true)
    ⟨0, 0, 15, 7, 16, 8⟩ Partition.HORIZONTAL false true

/-- Image 0 and image 1 are inserted, the node of image 0 (at 1048608) is removed while it
is on the list, the tail is evicted, and image 0 is inserted again. -/
def opsOnListNodes : List CacheOp :=
  [CacheOp.insert 4136 (some 0) 16 8, CacheOp.insert 4176 (some 1) 16 8,
   CacheOp.removeNode 1048608, CacheOp.removeLRU, CacheOp.insert 4136 (some 0) 16 8]

/-- Image 0 and image 1 are inserted, the tail (the node of image 0, at 1048608) is
evicted, image 0 is inserted again and gets a new node, and then the evicted node is handed
to `removeNodeFromCache`. -/
def opsWithEvictedNode : List CacheOp :=
  [CacheOp.insert 4136 (some 0) 16 8, CacheOp.insert 4176 (some 1) 16 8,
   CacheOp.removeLRU, CacheOp.insert 4136 (some 0) 16 8, CacheOp.removeNode 1048608]

/-! ## Building the atlas -/

/-- A leaf of the partition tree. -/
def leafNode (a : Nat) (b : TextureRectangle) (u d : Bool) : TextureNode :=
  TextureNode.node a TextureNode.null TextureNode.null b Partition.NONE u d

/-- The partition tree of the run on five `s x s` images under the cap `2s x 2s`, after `k`
iterations of the loop: the seed leaf, the upper row after the horizontal expansion, and the
two rows after the vertical expansion, with the quadrants in use as the run goes. -/
def fiveTree (s k : Nat) : TextureNode :=
  let q00 (u d : Bool) := leafNode 4096 ⟨0, 0, s - 1, s - 1, s, s⟩ u d
  let q10 (u d : Bool) := leafNode 4176 ⟨s, 0, 2 * s - 1, s - 1, s, s⟩ u d
  let q01 (u d : Bool) := leafNode 4296 ⟨0, s, s - 1, 2 * s - 1, s, s⟩ u d
  let q11 (u d : Bool) := leafNode 4336 ⟨s, s, 2 * s - 1, 2 * s - 1, s, s⟩ u d
  let upper (l r : TextureNode) (d : Bool) :=
    TextureNode.node 4136 l r ⟨0, 0, 2 * s - 1, s - 1, 2 * s, s⟩ Partition.HORIZONTAL false d
  let lower (l r : TextureNode) :=
    TextureNode.node 4256 l r ⟨0, s, 2 * s - 1, 2 * s - 1, 2 * s, s⟩ Partition.HORIZONTAL
      false true
  let whole (l r : TextureNode) (d : Bool) :=
    TextureNode.node 4216 l r ⟨0, 0, 2 * s - 1, 2 * s - 1, 2 * s, 2 * s⟩ Partition.VERTICAL
      false d
  if k = 0 then q00 false false
  else if k = 1 then q00 true true
  else if k = 2 then upper (q00 true true) (q10 false false) false
  else if k = 3 then upper (q00 true true) (q10 true true) true
  else if k = 4 then
    whole (upper (q00 true true) (q10 true true) true)
      (leafNode 4256 ⟨0, s, 2 * s - 1, 2 * s - 1, 2 * s, s⟩ false false) false
  else if k = 5 then
    whole (upper (q00 true true) (q10 true true) true)
      (lower (q01 true false) (q11 false false)) true
  else if k = 6 then
    whole (upper (q00 true true) (q10 true true) true)
      (lower (q01 true false) (q11 true true)) true
  else if k = 7 then
    whole (upper (q00 false true) (q10 true true) true)
      (lower (q01 true false) (q11 true true)) true
  else
    whole (upper (q00 true true) (q10 true true) true)
      (lower (q01 true false) (q11 true true)) true

/-- The image index of that run after `k` iterations. -/
def fiveIndex (k : Nat) : Nat :=
  if k = 0 then 0 else if k ≤ 2 then 1 else if k ≤ 4 then 2 else if k = 5 then 3
  else if k ≤ 7 then 4 else 5

/-- The texture table of that run when the image index is `i`: the images below `i` have
been placed, at the quadrant origins `(0,0)`, `(s,0)`, `(0,s)`, `(s,s)` and again `(0,0)`;
`ts` is the table the run starts with. -/
def fiveTextures (ts : List Texture) (s i : Nat) : List Texture :=
  [if 0 < i then { ts.getD 0 default with x := 0, y := 0 } else ts.getD 0 default,
   if 1 < i then { ts.getD 1 default with x := s, y := 0 } else ts.getD 1 default,
   if 2 < i then { ts.getD 2 default with x := 0, y := s } else ts.getD 2 default,
   if 3 < i then { ts.getD 3 default with x := s, y := s } else ts.getD 3 default,
   if 4 < i then { ts.getD 4 default with x := 0, y := 0 } else ts.getD 4 default]

/-- The calls of the cache operations of that run. -/
def fiveOps : List CacheOp :=
  [CacheOp.insert 4096 (some 0) 0 0, CacheOp.insert 4176 (some 1) 0 0,
   CacheOp.insert 4296 (some 2) 0 0, CacheOp.insert 4336 (some 3) 0 0,
   CacheOp.removeLRU, CacheOp.insert 4096 (some 4) 0 0]

/-- The cache of that run after its first `j` cache operations, up to the atlas extent it
records. -/
def fiveCache (j : Nat) : LRUCache :=
  (runOps (makeLRUList 1048576 160, TextureNode.null) (fiveOps.take j)).1

/-- The number of cache operations of that run in its first `k` iterations. -/
def fiveOpCount (k : Nat) : Nat :=
  if k = 0 then 0 else if k ≤ 2 then 1 else if k ≤ 4 then 2 else if k = 5 then 3
  else if k = 6 then 4 else if k = 7 then 5 else 6

/-- The number of tree nodes of that run after `k` iterations. -/
def fiveNodes (k : Nat) : Nat :=
  if k ≤ 1 then 1 else if k ≤ 3 then 3 else if k = 4 then 5 else 7

/-- The state of that run after `k` iterations, the atlas buffer apart; `ts` is the texture
table the run starts with. -/
def FiveState (ts : List Texture) (s k : Nat) (st : PackState) : Prop :=
  st.textureCount = 5 ∧ st.maxAtlasWidth = 2 * s ∧ st.maxAtlasHeight = 2 * s ∧
  st.textureIndex = fiveIndex k ∧ st.textures = fiveTextures ts s (fiveIndex k) ∧
  st.root = fiveTree s k ∧
  st.textureNodeArena = ⟨4096, 840, fiveNodes k * 40, fiveNodes k, false⟩ ∧
  CacheAgree st.cache (fiveCache (fiveOpCount k))

/-- The entries of the LRU list, most recent first, each as its image (an index into the
texture table) and the address of its leaf; `none` when the walk has not come back to the
sentinel after `fuel` nodes. -/
def listedEntries (s : PackState) (fuel : Nat) : Option (List (Option Nat × Nat)) :=
  (lruList s.cache fuel).map
    (List.map (fun x => ((s.cache.mem x).texture, (s.cache.mem x).textureNode)))

/-! ## Notions used to state the measure of the pack loop -/

/-- The measure of the pack loop: images remaining, the room left under the caps the two
expansions are tested against, and the number of cache entries. -/
def packMeasure (s : PackState) : Nat × Nat × Nat :=
  (s.textureCount - s.textureIndex,
    (s.maxAtlasWidth - s.root.block.height) + (s.maxAtlasHeight - s.root.block.width),
    s.cache.nodeCount)

/-- The lexicographic order on measures. -/
def measureLt (m1 m2 : Nat × Nat × Nat) : Prop :=
  m1.1 < m2.1 ∨ (m1.1 = m2.1 ∧ (m1.2.1 < m2.2.1 ∨ (m1.2.1 = m2.2.1 ∧ m1.2.2 < m2.2.2)))

instance (m1 m2 : Nat × Nat × Nat) : Decidable (measureLt m1 m2) := by
  unfold measureLt; infer_instance

/-- The iteration that starts in `s` finds no placement, both expansions are refused, and
the cache is empty. -/
def EvictsOnEmpty (s : PackState) : Prop :=
  s.textureIndex < s.textureCount ∧
  (traverseTextureNodes s.root s.textureNodeArena s.textureAtlas
    (s.textures.getD s.textureIndex default) []).result = 0 ∧
  ¬ (u16 ((s.root.block.height : Int) + (s.textures.getD s.textureIndex default).height)
        < u16 ((s.root.block.width : Int) + (s.textures.getD s.textureIndex default).width) ∧
      u16 ((s.root.block.height : Int) + (s.textures.getD s.textureIndex default).height)
        ≤ s.maxAtlasWidth) ∧
  ¬ (u16 ((s.root.block.height : Int) + (s.textures.getD s.textureIndex default).height)
        ≥ u16 ((s.root.block.width : Int) + (s.textures.getD s.textureIndex default).width) ∧
      u16 ((s.root.block.width : Int) + (s.textures.getD s.textureIndex default).width)
        ≤ s.maxAtlasHeight) ∧
  s.cache.nodeCount = 0

instance (s : PackState) : Decidable (EvictsOnEmpty s) := by
  unfold EvictsOnEmpty; infer_instance

/-- The tree with every `isDrawn` flag cleared. -/
def eraseDrawn : TextureNode → TextureNode
  | TextureNode.null => TextureNode.null
  | TextureNode.node a l r b s u _ =>
    TextureNode.node a (eraseDrawn l) (eraseDrawn r) b s u false

/-- The test of the first `if` of the loop body when no placement was found: the vertical
expansion is the smaller one and is not above `maxAtlasWidth`. -/
def verticalTest (s : PackState) : Prop :=
  u16 ((s.root.block.height : Int) + (s.textures.getD s.textureIndex default).height)
      < u16 ((s.root.block.width : Int) + (s.textures.getD s.textureIndex default).width) ∧
    u16 ((s.root.block.height : Int) + (s.textures.getD s.textureIndex default).height)
      ≤ s.maxAtlasWidth

/-- The test of the `else if` of the loop body: the horizontal expansion is not the larger
one and is not above `maxAtlasHeight`. -/
def horizontalTest (s : PackState) : Prop :=
  u16 ((s.root.block.height : Int) + (s.textures.getD s.textureIndex default).height)
      ≥ u16 ((s.root.block.width : Int) + (s.textures.getD s.textureIndex default).width) ∧
    u16 ((s.root.block.width : Int) + (s.textures.getD s.textureIndex default).width)
      ≤ s.maxAtlasHeight

instance (s : PackState) : Decidable (verticalTest s) := by
  unfold verticalTest; infer_instance

instance (s : PackState) : Decidable (horizontalTest s) := by
  unfold horizontalTest; infer_instance

/-! ## The stores into the pixel buffer

`writeU32` leaves the buffer as it is when the offset lies outside it. The source stores
through the raw pointer `atlasDestPixel` without a check, so there such a store is a write
outside the allocation of `width * height * bpp` bytes. The notions below say when no store
of that kind is made: on those runs the buffer of the definitions above is the buffer of the
source. -/

/-- Every store of `renderBlockIntoTextureAtlas` lies inside the pixel buffer. The function
makes `blockWidth * blockHeight` stores of four bytes through `atlasDestPixel`, which starts
at the offset `top * atlasPitch + left * atlasBpp` (two `u32` products) and advances by one
pixel per store: store number `i` goes to the bytes `start + 4 * i` to `start + 4 * i + 3`. -/
def renderStoresInside (node : TextureNode) (textureAtlas : Texture) : Prop :=
  ∀ i, i < node.block.width * node.block.height →
    u32 ((node.block.top : Int) * u32 (textureAtlas.width * textureAtlas.bpp))
      + u32 ((node.block.left : Int) * textureAtlas.bpp) + 4 * i + 4
      ≤ textureAtlas.memory.length

instance (node : TextureNode) (textureAtlas : Texture) :
    Decidable (renderStoresInside node textureAtlas) := by
  unfold renderStoresInside; infer_instance

/-- Every store into the pixel buffer that a call of `traverseTextureNodes` makes lies
inside the buffer. The recursion is that of `traverseTextureNodes`: the node is filled, by
`renderBlockIntoTextureAtlas`, when it is neither used nor drawn; a free leaf ends the
search; otherwise the left child is searched when the image passes the pre-check, and the
right child when the left search gave nothing. -/
def traverseStoresInside : TextureNode → MemoryStack → Texture → Texture → List Nat → Bool
  | TextureNode.null, _, _, _, _ => true
  | TextureNode.node a l r b sd used drawn, arena, atlas, texture, path =>
    let fill : Bool := !used && !drawn
    let here : Bool :=
      if fill then decide (renderStoresInside (TextureNode.node a l r b sd used drawn) atlas)
      else true
    let atlas1 :=
      if fill then renderBlockIntoTextureAtlas (TextureNode.node a l r b sd used drawn) atlas
      else atlas
    let drawn1 : Bool := if fill then true else drawn
    if isLeaf (TextureNode.node a l r b sd used drawn1) && !used then
      here
    else
      let tl : Traversal :=
        if sd = Partition.VERTICAL then
          if texture.height ≤ l.block.height then
            traverseTextureNodes l arena atlas1 texture (path ++ [a])
          else ⟨l, arena, atlas1, path, 0⟩
        else if sd = Partition.HORIZONTAL then
          if texture.width ≤ l.block.width then
            traverseTextureNodes l arena atlas1 texture (path ++ [a])
          else ⟨l, arena, atlas1, path, 0⟩
        else ⟨l, arena, atlas1, path, 0⟩
      let insideLeft : Bool :=
        if sd = Partition.VERTICAL then
          if texture.height ≤ l.block.height then
            traverseStoresInside l arena atlas1 texture (path ++ [a])
          else true
        else if sd = Partition.HORIZONTAL then
          if texture.width ≤ l.block.width then
            traverseStoresInside l arena atlas1 texture (path ++ [a])
          else true
        else true
      if tl.result ≠ 0 then
        here && insideLeft
      else
        here && insideLeft &&
          traverseStoresInside r tl.textureNodeArena tl.textureAtlas texture tl.nodePath

/-- The iteration of the pack loop that starts in `s` makes no store outside the pixel
buffer of the atlas. The traversal is the only part of the iteration that stores into the
buffer. -/
def StoresInside (s : PackState) : Prop :=
  s.textureIndex < s.textureCount →
    traverseStoresInside s.root s.textureNodeArena s.textureAtlas
      (s.textures.getD s.textureIndex default) [] = true

instance (s : PackState) : Decidable (StoresInside s) := by
  unfold StoresInside; infer_instance


/-! ## Theorems -/

/-! ### Field access on a node -/

@[simp] theorem addr_node (a : Nat) (l r : TextureNode) (b : TextureRectangle) (s : Partition)
    (u d : Bool) : (TextureNode.node a l r b s u d).addr = a := rfl

@[simp] theorem left_node (a : Nat) (l r : TextureNode) (b : TextureRectangle) (s : Partition)
    (u d : Bool) : (TextureNode.node a l r b s u d).left = l := rfl

@[simp] theorem right_node (a : Nat) (l r : TextureNode) (b : TextureRectangle) (s : Partition)
    (u d : Bool) : (TextureNode.node a l r b s u d).right = r := rfl

@[simp] theorem block_node (a : Nat) (l r : TextureNode) (b : TextureRectangle) (s : Partition)
    (u d : Bool) : (TextureNode.node a l r b s u d).block = b := rfl

@[simp] theorem splitDir_node (a : Nat) (l r : TextureNode) (b : TextureRectangle)
    (s : Partition) (u d : Bool) : (TextureNode.node a l r b s u d).splitDir = s := rfl

@[simp] theorem isUsed_node (a : Nat) (l r : TextureNode) (b : TextureRectangle) (s : Partition)
    (u d : Bool) : (TextureNode.node a l r b s u d).isUsed = u := rfl

@[simp] theorem isDrawn_node (a : Nat) (l r : TextureNode) (b : TextureRectangle)
    (s : Partition) (u d : Bool) : (TextureNode.node a l r b s u d).isDrawn = d := rfl

@[simp] theorem isNull_node (a : Nat) (l r : TextureNode) (b : TextureRectangle) (s : Partition)
    (u d : Bool) : (TextureNode.node a l r b s u d).isNull = false := rfl

@[simp] theorem isNull_null : TextureNode.null.isNull = true := rfl

@[simp] theorem addr_null : TextureNode.null.addr = 0 := rfl

@[simp] theorem left_null : TextureNode.null.left = TextureNode.null := rfl

@[simp] theorem right_null : TextureNode.null.right = TextureNode.null := rfl

@[simp] theorem isUsed_null : TextureNode.null.isUsed = false := rfl

theorem isNull_eq_true (n : TextureNode) : n.isNull = true ↔ n = TextureNode.null := by
  cases n <;> simp

theorem isNull_eq_false (n : TextureNode) : n.isNull = false ↔ n ≠ TextureNode.null := by
  cases n <;> simp

/-! ### Machine arithmetic -/

theorem u16_of_lt (i : Int) (h0 : 0 ≤ i) (h1 : i < 65536) : u16 i = i.toNat := by
  unfold u16; omega

theorem u16_lt (i : Int) : u16 i < 65536 := by
  unfold u16; omega

/-! ### The two primitive splits (C3) -/

/-- C3: on a node with a well-formed block, `splitHorizontallyNew` by `1 ≤ w < width` sets
`splitDir = HORIZONTAL` and creates the children `[left, top, left+w-1, bottom]` (width `w`)
and `[left+w, top, right, bottom]` (width `width-w`), both of the node's height;
`splitVerticallyNew` by `1 ≤ h < height` sets `splitDir = VERTICAL` and creates the children
`[left, top, right, top+h-1]` (height `h`) and `[left, top+h, right, bottom]` (height
`height-h`), both of the node's width. -/
theorem split_new_blocks (node : TextureNode) (arena : MemoryStack) (w h : Nat)
    (hw : node.block.left + node.block.width = node.block.right + 1)
    (hh : node.block.top + node.block.height = node.block.bottom + 1)
    (hr : node.block.right < 65536) (hb : node.block.bottom < 65536) :
    (1 ≤ w → w < node.block.width →
      (splitHorizontallyNew node arena w h).1.splitDir = Partition.HORIZONTAL ∧
      (splitHorizontallyNew node arena w h).1.left.block =
        ⟨node.block.left, node.block.top, node.block.left + w - 1, node.block.bottom,
          w, node.block.height⟩ ∧
      (splitHorizontallyNew node arena w h).1.right.block =
        ⟨node.block.left + w, node.block.top, node.block.right, node.block.bottom,
          node.block.width - w, node.block.height⟩) ∧
    (1 ≤ h → h < node.block.height →
      (splitVerticallyNew node arena w h).1.splitDir = Partition.VERTICAL ∧
      (splitVerticallyNew node arena w h).1.left.block =
        ⟨node.block.left, node.block.top, node.block.right, node.block.top + h - 1,
          node.block.width, h⟩ ∧
      (splitVerticallyNew node arena w h).1.right.block =
        ⟨node.block.left, node.block.top + h, node.block.right, node.block.bottom,
          node.block.width, node.block.height - h⟩) := by
  rcases node with _ | ⟨a, l, r, b, s, u, d⟩
  · simp [TextureNode.block, default] at hw
  simp only [TextureNode.block] at hw hh hr hb ⊢
  refine ⟨fun h1 h2 => ?_, fun h1 h2 => ?_⟩
  · simp only [splitHorizontallyNew, TextureNode.splitDir, TextureNode.left, TextureNode.right,
      TextureNode.block, u16, true_and, TextureRectangle.mk.injEq, and_true]
    omega
  · simp only [splitVerticallyNew, TextureNode.splitDir, TextureNode.left, TextureNode.right,
      TextureNode.block, u16, true_and, TextureRectangle.mk.injEq, and_true]
    omega

/-- C3 at a 64x48 block at (8,4): a horizontal split by 20 and a vertical split by 10. -/
theorem split_new_blocks_witness :
    (splitHorizontallyNew (TextureNode.node 4096 TextureNode.null TextureNode.null
        ⟨8, 4, 71, 51, 64, 48⟩ Partition.NONE false false)
        (InitStackMemory 4096 4000) 20 10).1.right.block = ⟨28, 4, 71, 51, 44, 48⟩ ∧
    (splitVerticallyNew (TextureNode.node 4096 TextureNode.null TextureNode.null
        ⟨8, 4, 71, 51, 64, 48⟩ Partition.NONE false false)
        (InitStackMemory 4096 4000) 20 10).1.left.block = ⟨8, 4, 71, 13, 64, 10⟩ :=
  ⟨((split_new_blocks (TextureNode.node 4096 TextureNode.null TextureNode.null
        ⟨8, 4, 71, 51, 64, 48⟩ Partition.NONE false false) (InitStackMemory 4096 4000) 20 10
        (by decide) (by decide) (by decide) (by decide)).1 (by decide) (by decide)).2.2,
   ((split_new_blocks (TextureNode.node 4096 TextureNode.null TextureNode.null
        ⟨8, 4, 71, 51, 64, 48⟩ Partition.NONE false false) (InitStackMemory 4096 4000) 20 10
        (by decide) (by decide) (by decide) (by decide)).2 (by decide) (by decide)).2.1⟩

/-! ### The arena -/

theorem push_eq (ms : MemoryStack) (n : Nat) (hb : 0 < ms.base) (hn : 0 < n)
    (h : ms.base + ms.bytes_used + n ≤ 2 ^ 64) :
    _Push_ ms n = (ms.base + ms.bytes_used,
      { ms with
        bytes_used := ms.bytes_used + n
        elementCount := u32 ((ms.elementCount : Int) + 1)
        outOfMemory := ms.outOfMemory || !(decide (ms.bytes_used + n ≤ ms.max_size)) }) := by
  have e1 : usize ((ms.base : Int) + (ms.bytes_used : Int)) = ms.base + ms.bytes_used := by
    unfold usize; omega
  have e2 : usize ((ms.bytes_used : Int) + (n : Int)) = ms.bytes_used + n := by
    unfold usize; omega
  simp only [_Push_, e1, e2]

theorem push_fst (ms : MemoryStack) (n : Nat) (hb : 0 < ms.base) (hn : 0 < n)
    (h : ms.base + ms.bytes_used + n ≤ 2 ^ 64) :
    (_Push_ ms n).1 = ms.base + ms.bytes_used := by
  rw [push_eq ms n hb hn h]

theorem push_bytes_used (ms : MemoryStack) (n : Nat) (hb : 0 < ms.base) (hn : 0 < n)
    (h : ms.base + ms.bytes_used + n ≤ 2 ^ 64) :
    (_Push_ ms n).2.bytes_used = ms.bytes_used + n := by
  rw [push_eq ms n hb hn h]

theorem push_base (ms : MemoryStack) (n : Nat) : (_Push_ ms n).2.base = ms.base := rfl

theorem push_max_size (ms : MemoryStack) (n : Nat) : (_Push_ ms n).2.max_size = ms.max_size :=
  rfl

theorem push_outOfMemory (ms : MemoryStack) (n : Nat) (h : (_Push_ ms n).2.outOfMemory = false) :
    ms.outOfMemory = false ∧ usize ((ms.bytes_used : Int) + (n : Int)) ≤ ms.max_size := by
  simp only [_Push_, Bool.or_eq_false_iff, Bool.not_eq_false', decide_eq_true_eq] at h
  exact h

/-! ### The two primitive splits in closed form -/

theorem splitHorizontallyNew_eq (a : Nat) (l r : TextureNode) (b : TextureRectangle)
    (s : Partition) (u d : Bool) (arena : MemoryStack) (w h : Nat)
    (hw : b.left + b.width = b.right + 1) (hr : b.right < 65536)
    (h1 : 1 ≤ w) (h2 : w < b.width) :
    splitHorizontallyNew (TextureNode.node a l r b s u d) arena w h =
      (TextureNode.node a
        (TextureNode.node (_Push_ arena sizeofTextureNode).1 TextureNode.null TextureNode.null
          ⟨b.left, b.top, b.left + w - 1, b.bottom, w, b.height⟩ Partition.NONE false false)
        (TextureNode.node (_Push_ (_Push_ arena sizeofTextureNode).2 sizeofTextureNode).1
          TextureNode.null TextureNode.null
          ⟨b.left + w, b.top, b.right, b.bottom, b.width - w, b.height⟩
          Partition.NONE false false)
        b Partition.HORIZONTAL u d,
       (_Push_ (_Push_ arena sizeofTextureNode).2 sizeofTextureNode).2) := by
  simp only [splitHorizontallyNew, TextureNode.block, TextureNode.addr, TextureNode.isUsed,
    TextureNode.isDrawn, Prod.mk.injEq, TextureNode.node.injEq, TextureRectangle.mk.injEq,
    true_and, and_true, u16]
  omega

theorem splitVerticallyNew_eq (a : Nat) (l r : TextureNode) (b : TextureRectangle)
    (s : Partition) (u d : Bool) (arena : MemoryStack) (w h : Nat)
    (hh : b.top + b.height = b.bottom + 1) (hb : b.bottom < 65536)
    (h1 : 1 ≤ h) (h2 : h < b.height) :
    splitVerticallyNew (TextureNode.node a l r b s u d) arena w h =
      (TextureNode.node a
        (TextureNode.node (_Push_ arena sizeofTextureNode).1 TextureNode.null TextureNode.null
          ⟨b.left, b.top, b.right, b.top + h - 1, b.width, h⟩ Partition.NONE false false)
        (TextureNode.node (_Push_ (_Push_ arena sizeofTextureNode).2 sizeofTextureNode).1
          TextureNode.null TextureNode.null
          ⟨b.left, b.top + h, b.right, b.bottom, b.width, b.height - h⟩
          Partition.NONE false false)
        b Partition.VERTICAL u d,
       (_Push_ (_Push_ arena sizeofTextureNode).2 sizeofTextureNode).2) := by
  simp only [splitVerticallyNew, TextureNode.block, TextureNode.addr, TextureNode.isUsed,
    TextureNode.isDrawn, Prod.mk.injEq, TextureNode.node.injEq, TextureRectangle.mk.injEq,
    true_and, and_true, u16]
  omega

/-! ### `findFirstFreeBlock` in closed form, case by case -/

theorem findFirstFreeBlock_nofit (n : TextureNode) (arena : MemoryStack) (t : Texture)
    (h : ¬ (t.width ≤ n.block.width ∧ t.height ≤ n.block.height)) :
    findFirstFreeBlock n arena t = (n, arena, 0) := by
  have : isBlockFit n t.width t.height = false := by
    simp only [isBlockFit, ge_iff_le, Bool.and_eq_false_imp, decide_eq_true_eq,
      decide_eq_false_iff_not]
    intro h1 h2; exact h ⟨h1, h2⟩
  simp only [findFirstFreeBlock, this, Bool.false_eq_true, if_false]

theorem findFirstFreeBlock_exact (a : Nat) (l r : TextureNode) (b : TextureRectangle)
    (s : Partition) (u d : Bool) (arena : MemoryStack) (t : Texture)
    (hw : b.width = t.width) (hh : b.height = t.height) :
    findFirstFreeBlock (TextureNode.node a l r b s u d) arena t =
      (TextureNode.node a l r b Partition.NONE true d, arena, a) := by
  simp [findFirstFreeBlock, isBlockFit, isBlockExactFit, TextureNode.block, hw, hh, markUsed,
    TextureNode.addr]

theorem findFirstFreeBlock_widthExact (a : Nat) (l r : TextureNode) (b : TextureRectangle)
    (s : Partition) (u d : Bool) (arena : MemoryStack) (t : Texture)
    (hbh : b.top + b.height = b.bottom + 1) (hbb : b.bottom < 65536)
    (hw : b.width = t.width) (h1 : 1 ≤ t.height) (h2 : t.height < b.height) :
    findFirstFreeBlock (TextureNode.node a l r b s u d) arena t =
      (TextureNode.node a
        (TextureNode.node (_Push_ arena sizeofTextureNode).1 TextureNode.null TextureNode.null
          ⟨b.left, b.top, b.right, b.top + t.height - 1, b.width, t.height⟩
          Partition.NONE true false)
        (TextureNode.node (_Push_ (_Push_ arena sizeofTextureNode).2 sizeofTextureNode).1
          TextureNode.null TextureNode.null
          ⟨b.left, b.top + t.height, b.right, b.bottom, b.width, b.height - t.height⟩
          Partition.NONE false false)
        b Partition.VERTICAL u d,
       (_Push_ (_Push_ arena sizeofTextureNode).2 sizeofTextureNode).2,
       (_Push_ arena sizeofTextureNode).1) := by
  have hne : ¬ b.height = t.height := by omega
  have hle : t.height ≤ b.height := by omega
  simp only [findFirstFreeBlock, isBlockFit, isBlockExactFit, isBlockPartiallyExactFit,
    isBlockWidthExactFit, TextureNode.block, hw, hne, hle, ge_iff_le, le_refl, decide_True,
    decide_False, Bool.and_self, Bool.and_false, Bool.or_false, Bool.false_eq_true, if_true,
    if_false, splitVerticallyNew_eq a l r b s u d arena t.width t.height hbh hbb h1 h2,
    TextureNode.left, markUsed, withLeft, TextureNode.addr]

theorem findFirstFreeBlock_heightExact (a : Nat) (l r : TextureNode) (b : TextureRectangle)
    (s : Partition) (u d : Bool) (arena : MemoryStack) (t : Texture)
    (hbw : b.left + b.width = b.right + 1) (hbr : b.right < 65536)
    (hh : b.height = t.height) (h1 : 1 ≤ t.width) (h2 : t.width < b.width) :
    findFirstFreeBlock (TextureNode.node a l r b s u d) arena t =
      (TextureNode.node a
        (TextureNode.node (_Push_ arena sizeofTextureNode).1 TextureNode.null TextureNode.null
          ⟨b.left, b.top, b.left + t.width - 1, b.bottom, t.width, b.height⟩
          Partition.NONE true false)
        (TextureNode.node (_Push_ (_Push_ arena sizeofTextureNode).2 sizeofTextureNode).1
          TextureNode.null TextureNode.null
          ⟨b.left + t.width, b.top, b.right, b.bottom, b.width - t.width, b.height⟩
          Partition.NONE false false)
        b Partition.HORIZONTAL u d,
       (_Push_ (_Push_ arena sizeofTextureNode).2 sizeofTextureNode).2,
       (_Push_ arena sizeofTextureNode).1) := by
  have hne : ¬ b.width = t.width := by omega
  have hle : t.width ≤ b.width := by omega
  simp only [findFirstFreeBlock, isBlockFit, isBlockExactFit, isBlockPartiallyExactFit,
    isBlockWidthExactFit, isBlockHeightExactFit, TextureNode.block, hh, hne, hle, ge_iff_le,
    le_refl, decide_True, decide_False, Bool.and_self, Bool.false_and, Bool.false_or,
    Bool.false_eq_true, if_true, if_false,
    splitHorizontallyNew_eq a l r b s u d arena t.width t.height hbw hbr h1 h2,
    TextureNode.left, markUsed, withLeft, TextureNode.addr]

theorem findFirstFreeBlock_tall (a : Nat) (l r : TextureNode) (b : TextureRectangle)
    (s : Partition) (u d : Bool) (arena : MemoryStack) (t : Texture)
    (hbw : b.left + b.width = b.right + 1) (hbr : b.right < 65536)
    (hbh : b.top + b.height = b.bottom + 1) (hbb : b.bottom < 65536)
    (h1 : 1 ≤ t.width) (h2 : t.width < b.width) (h3 : 1 ≤ t.height) (h4 : t.height < b.height)
    (hasp : t.height > t.width) :
    findFirstFreeBlock (TextureNode.node a l r b s u d) arena t =
      (TextureNode.node a
        (TextureNode.node (_Push_ arena sizeofTextureNode).1
          (TextureNode.node
            (_Push_ (_Push_ (_Push_ arena sizeofTextureNode).2 sizeofTextureNode).2
              sizeofTextureNode).1 TextureNode.null TextureNode.null
            ⟨b.left, b.top, b.left + t.width - 1, b.top + t.height - 1, t.width, t.height⟩
            Partition.NONE true false)
          (TextureNode.node
            (_Push_ (_Push_ (_Push_ (_Push_ arena sizeofTextureNode).2 sizeofTextureNode).2
              sizeofTextureNode).2 sizeofTextureNode).1 TextureNode.null TextureNode.null
            ⟨b.left, b.top + t.height, b.left + t.width - 1, b.bottom, t.width,
              b.height - t.height⟩
            Partition.NONE false false)
          ⟨b.left, b.top, b.left + t.width - 1, b.bottom, t.width, b.height⟩
          Partition.VERTICAL false false)
        (TextureNode.node (_Push_ (_Push_ arena sizeofTextureNode).2 sizeofTextureNode).1
          TextureNode.null TextureNode.null
          ⟨b.left + t.width, b.top, b.right, b.bottom, b.width - t.width, b.height⟩
          Partition.NONE false false)
        b Partition.HORIZONTAL u d,
       (_Push_ (_Push_ (_Push_ (_Push_ arena sizeofTextureNode).2 sizeofTextureNode).2
          sizeofTextureNode).2 sizeofTextureNode).2,
       (_Push_ (_Push_ (_Push_ arena sizeofTextureNode).2 sizeofTextureNode).2
          sizeofTextureNode).1) := by
  have hne1 : ¬ b.width = t.width := by omega
  have hne2 : ¬ b.height = t.height := by omega
  have hle1 : t.width ≤ b.width := by omega
  have hle2 : t.height ≤ b.height := by omega
  simp only [findFirstFreeBlock, isBlockFit, isBlockExactFit, isBlockPartiallyExactFit,
    TextureNode.block, hne1, hne2, hle1, hle2, hasp, ge_iff_le, decide_True, decide_False,
    Bool.and_self, Bool.or_self, Bool.false_eq_true, if_true, if_false,
    splitHorizontallyNew_eq a l r b s u d arena t.width t.height hbw hbr h1 h2,
    TextureNode.left, withLeft]
  rw [splitVerticallyNew_eq _ _ _ _ _ _ _ _ t.width t.height (by simpa using hbh)
    (by simpa using hbb) h3 (by simpa using h4)]
  simp only [TextureNode.left, markUsed, withLeft, TextureNode.addr]

theorem findFirstFreeBlock_wide (a : Nat) (l r : TextureNode) (b : TextureRectangle)
    (s : Partition) (u d : Bool) (arena : MemoryStack) (t : Texture)
    (hbw : b.left + b.width = b.right + 1) (hbr : b.right < 65536)
    (hbh : b.top + b.height = b.bottom + 1) (hbb : b.bottom < 65536)
    (h1 : 1 ≤ t.width) (h2 : t.width < b.width) (h3 : 1 ≤ t.height) (h4 : t.height < b.height)
    (hasp : ¬ t.height > t.width) :
    findFirstFreeBlock (TextureNode.node a l r b s u d) arena t =
      (TextureNode.node a
        (TextureNode.node (_Push_ arena sizeofTextureNode).1
          (TextureNode.node
            (_Push_ (_Push_ (_Push_ arena sizeofTextureNode).2 sizeofTextureNode).2
              sizeofTextureNode).1 TextureNode.null TextureNode.null
            ⟨b.left, b.top, b.left + t.width - 1, b.top + t.height - 1, t.width, t.height⟩
            Partition.NONE true false)
          (TextureNode.node
            (_Push_ (_Push_ (_Push_ (_Push_ arena sizeofTextureNode).2 sizeofTextureNode).2
              sizeofTextureNode).2 sizeofTextureNode).1 TextureNode.null TextureNode.null
            ⟨b.left + t.width, b.top, b.right, b.top + t.height - 1, b.width - t.width,
              t.height⟩
            Partition.NONE false false)
          ⟨b.left, b.top, b.right, b.top + t.height - 1, b.width, t.height⟩
          Partition.HORIZONTAL false false)
        (TextureNode.node (_Push_ (_Push_ arena sizeofTextureNode).2 sizeofTextureNode).1
          TextureNode.null TextureNode.null
          ⟨b.left, b.top + t.height, b.right, b.bottom, b.width, b.height - t.height⟩
          Partition.NONE false false)
        b Partition.VERTICAL u d,
       (_Push_ (_Push_ (_Push_ (_Push_ arena sizeofTextureNode).2 sizeofTextureNode).2
          sizeofTextureNode).2 sizeofTextureNode).2,
       (_Push_ (_Push_ (_Push_ arena sizeofTextureNode).2 sizeofTextureNode).2
          sizeofTextureNode).1) := by
  have hne1 : ¬ b.width = t.width := by omega
  have hne2 : ¬ b.height = t.height := by omega
  have hle1 : t.width ≤ b.width := by omega
  have hle2 : t.height ≤ b.height := by omega
  simp only [findFirstFreeBlock, isBlockFit, isBlockExactFit, isBlockPartiallyExactFit,
    TextureNode.block, hne1, hne2, hle1, hle2, hasp, ge_iff_le, decide_True, decide_False,
    Bool.and_self, Bool.or_self, Bool.false_eq_true, if_true, if_false,
    splitVerticallyNew_eq a l r b s u d arena t.width t.height hbh hbb h3 h4,
    TextureNode.left, withLeft]
  rw [splitHorizontallyNew_eq _ _ _ _ _ _ _ _ t.width t.height (by simpa using hbw)
    (by simpa using hbr) h1 (by simpa using h2)]
  simp only [TextureNode.left, markUsed, withLeft, TextureNode.addr]

/-! ### First-free-fit placement (C2) -/

/-- C2: on a free leaf `n` with a well-formed block and an image of extent at least 1x1,
`findFirstFreeBlock` returns `nullptr` iff the image does not fit; otherwise it returns a
leaf marked used at the origin of `n` with the extent of the image: `n` itself on an exact
fit, `n.left` on a partially exact fit, `n.left.left` on a strict interior fit. -/
theorem findFirstFreeBlock_spec (n : TextureNode) (arena : MemoryStack) (t : Texture)
    (hleaf : isLeaf n = true) (hfree : n.isUsed = false) (hptr : n.addr ≠ 0)
    (hw : n.block.left + n.block.width = n.block.right + 1)
    (hh : n.block.top + n.block.height = n.block.bottom + 1)
    (hr : n.block.right < 65536) (hb : n.block.bottom < 65536)
    (htw : 1 ≤ t.width) (hth : 1 ≤ t.height)
    (hbase : 0 < arena.base)
    (hroom : arena.base + arena.bytes_used + 4 * sizeofTextureNode ≤ 2 ^ 64) :
    ((findFirstFreeBlock n arena t).2.2 = 0 ↔
      ¬ (n.block.width ≥ t.width ∧ n.block.height ≥ t.height)) ∧
    (n.block.width = t.width ∧ n.block.height = t.height →
      (findFirstFreeBlock n arena t).2.2 = n.addr ∧
      (findFirstFreeBlock n arena t).1.addr = n.addr ∧
      IsPlacedLeaf (findFirstFreeBlock n arena t).1 n t) ∧
    (n.block.width ≥ t.width ∧ n.block.height ≥ t.height →
      ¬ (n.block.width = t.width ∧ n.block.height = t.height) →
      (n.block.width = t.width ∨ n.block.height = t.height) →
      (findFirstFreeBlock n arena t).2.2 = (findFirstFreeBlock n arena t).1.left.addr ∧
      (findFirstFreeBlock n arena t).1.addr = n.addr ∧
      IsPlacedLeaf (findFirstFreeBlock n arena t).1.left n t) ∧
    (n.block.width > t.width ∧ n.block.height > t.height →
      (findFirstFreeBlock n arena t).2.2 = (findFirstFreeBlock n arena t).1.left.left.addr ∧
      (findFirstFreeBlock n arena t).1.addr = n.addr ∧
      IsPlacedLeaf (findFirstFreeBlock n arena t).1.left.left n t) := by
  rcases n with _ | ⟨a, l, r, b, s, u, d⟩
  · simp [TextureNode.addr] at hptr
  simp only [TextureNode.block, TextureNode.addr, TextureNode.isUsed]
    at hw hh hr hb hptr hfree ⊢
  have hl : l = TextureNode.null := by
    cases l <;> simp_all [isLeaf, TextureNode.left, TextureNode.right, TextureNode.isNull]
  have hrn : r = TextureNode.null := by
    cases r <;> simp_all [isLeaf, TextureNode.left, TextureNode.right, TextureNode.isNull]
  subst hl hrn hfree
  have hsz : sizeofTextureNode = 40 := rfl
  have p1 : (_Push_ arena sizeofTextureNode).1 = arena.base + arena.bytes_used :=
    push_fst arena _ hbase (by decide) (by omega)
  have p2 : (_Push_ arena sizeofTextureNode).2.bytes_used = arena.bytes_used + 40 :=
    push_bytes_used arena _ hbase (by decide) (by omega)
  have p3 : (_Push_ (_Push_ arena sizeofTextureNode).2 sizeofTextureNode).2.bytes_used
      = arena.bytes_used + 80 := by
    rw [push_bytes_used _ _ (by rw [push_base]; exact hbase) (by decide)
      (by rw [push_base, p2]; omega), p2]
    omega
  have p4 : (_Push_ (_Push_ (_Push_ arena sizeofTextureNode).2 sizeofTextureNode).2
      sizeofTextureNode).1 = arena.base + arena.bytes_used + 80 := by
    rw [push_fst _ _ (by rw [push_base, push_base]; exact hbase) (by decide)
      (by rw [push_base, push_base, p3]; omega), p3, push_base, push_base]
    omega
  by_cases f1 : t.width ≤ b.width
  swap
  · rw [findFirstFreeBlock_nofit _ _ _ (by simp only [TextureNode.block]; omega)]
    refine ⟨by simp only [true_iff]; omega, fun h => ?_, fun h => ?_, fun h => ?_⟩ <;> omega
  by_cases f2 : t.height ≤ b.height
  swap
  · rw [findFirstFreeBlock_nofit _ _ _ (by simp only [TextureNode.block]; omega)]
    refine ⟨by simp only [true_iff]; omega, fun h => ?_, fun h => ?_, fun h => ?_⟩ <;> omega
  by_cases hwx : b.width = t.width
  · by_cases hhx : b.height = t.height
    · rw [findFirstFreeBlock_exact _ _ _ _ _ _ _ _ _ hwx hhx]
      refine ⟨?_, fun _ => ?_, fun _ h => ?_, fun h => ?_⟩
      · simp only [hptr, false_iff, not_not]; omega
      · simp [IsPlacedLeaf, isLeaf, TextureNode.left, TextureNode.right, TextureNode.isNull,
          TextureNode.isUsed, TextureNode.block, TextureNode.addr, hwx, hhx]
      · exact absurd ⟨hwx, hhx⟩ h
      · omega
    · rw [findFirstFreeBlock_widthExact _ _ _ _ _ _ _ _ _ hh hb hwx hth (by omega)]
      refine ⟨?_, fun h => ?_, fun _ _ _ => ?_, fun h => ?_⟩
      · simp only [p1]; omega
      · omega
      · simp [IsPlacedLeaf, isLeaf, TextureNode.left, TextureNode.right, TextureNode.isNull,
          TextureNode.isUsed, TextureNode.block, TextureNode.addr, hwx]
      · omega
  · by_cases hhx : b.height = t.height
    · rw [findFirstFreeBlock_heightExact _ _ _ _ _ _ _ _ _ hw hr hhx htw (by omega)]
      refine ⟨?_, fun h => ?_, fun _ _ _ => ?_, fun h => ?_⟩
      · simp only [p1]; omega
      · omega
      · simp [IsPlacedLeaf, isLeaf, TextureNode.left, TextureNode.right, TextureNode.isNull,
          TextureNode.isUsed, TextureNode.block, TextureNode.addr, hhx]
      · omega
    · by_cases hasp : t.height > t.width
      · rw [findFirstFreeBlock_tall _ _ _ _ _ _ _ _ _ hw hr hh hb htw (by omega) hth (by omega)
          hasp]
        refine ⟨?_, fun h => ?_, fun _ _ h => ?_, fun _ => ?_⟩
        · simp only [p4]; omega
        · omega
        · omega
        · simp [IsPlacedLeaf, isLeaf, TextureNode.left, TextureNode.right, TextureNode.isNull,
            TextureNode.isUsed, TextureNode.block, TextureNode.addr]
      · rw [findFirstFreeBlock_wide _ _ _ _ _ _ _ _ _ hw hr hh hb htw (by omega) hth (by omega)
          hasp]
        refine ⟨?_, fun h => ?_, fun _ _ h => ?_, fun _ => ?_⟩
        · simp only [p4]; omega
        · omega
        · omega
        · simp [IsPlacedLeaf, isLeaf, TextureNode.left, TextureNode.right, TextureNode.isNull,
            TextureNode.isUsed, TextureNode.block, TextureNode.addr]

/-- C2 at a free 64x64 leaf and a 20x30 image (strict interior fit): the returned leaf is
`n.left.left`, used, at the origin of `n`, of extent 20x30. -/
theorem findFirstFreeBlock_spec_witness :
    (findFirstFreeBlock
        (TextureNode.node 4096 TextureNode.null TextureNode.null ⟨0, 0, 63, 63, 64, 64⟩
          Partition.NONE false true)
        ⟨4096, 4000, 40, 1, false⟩ ⟨"", [], 4, 0, 0, 20, 30⟩).2.2 =
      (findFirstFreeBlock
        (TextureNode.node 4096 TextureNode.null TextureNode.null ⟨0, 0, 63, 63, 64, 64⟩
          Partition.NONE false true)
        ⟨4096, 4000, 40, 1, false⟩ ⟨"", [], 4, 0, 0, 20, 30⟩).1.left.left.addr ∧
    (findFirstFreeBlock
        (TextureNode.node 4096 TextureNode.null TextureNode.null ⟨0, 0, 63, 63, 64, 64⟩
          Partition.NONE false true)
        ⟨4096, 4000, 40, 1, false⟩ ⟨"", [], 4, 0, 0, 20, 30⟩).1.addr = 4096 ∧
    IsPlacedLeaf
      (findFirstFreeBlock
        (TextureNode.node 4096 TextureNode.null TextureNode.null ⟨0, 0, 63, 63, 64, 64⟩
          Partition.NONE false true)
        ⟨4096, 4000, 40, 1, false⟩ ⟨"", [], 4, 0, 0, 20, 30⟩).1.left.left
      (TextureNode.node 4096 TextureNode.null TextureNode.null ⟨0, 0, 63, 63, 64, 64⟩
          Partition.NONE false true)
      ⟨"", [], 4, 0, 0, 20, 30⟩ :=
  (findFirstFreeBlock_spec
    (TextureNode.node 4096 TextureNode.null TextureNode.null ⟨0, 0, 63, 63, 64, 64⟩
      Partition.NONE false true)
    ⟨4096, 4000, 40, 1, false⟩ ⟨"", [], 4, 0, 0, 20, 30⟩
    (by decide) (by decide) (by decide) (by decide) (by decide) (by decide) (by decide)
    (by decide) (by decide) (by decide) (by decide)).2.2.2 (by decide)

/-! ### Root expansion (C8) -/

/-- C8: for a root at the origin, `expandRootVertically root h` returns a VERTICAL-split
internal node of block `[0, 0, root.right, root.height+h-1]` (in the code's `u16`
arithmetic) whose left child is the old root, unchanged, and whose right child is a free
leaf of width `root.width` and height `h` with `top = root.height`;
`expandRootHorizontally root w` returns a HORIZONTAL-split internal node of block
`[0, 0, root.width+w-1, root.bottom]` whose left child is the old root and whose right child
is a free leaf of width `w` and height `root.height` with `left = root.width`. Whenever the
sum does not leave the `u16` range the new corner is the natural number
`root.height+h-1` (`root.width+w-1`). -/
theorem expandRoot_spec (root : TextureNode) (arena : MemoryStack) (h w : Nat)
    (hl : root.block.left = 0) (ht : root.block.top = 0) :
    ((expandRootVertically root arena h).1.splitDir = Partition.VERTICAL ∧
      isLeaf (expandRootVertically root arena h).1 = false ∧
      (expandRootVertically root arena h).1.block.left = 0 ∧
      (expandRootVertically root arena h).1.block.top = 0 ∧
      (expandRootVertically root arena h).1.block.right = root.block.right ∧
      (expandRootVertically root arena h).1.block.bottom
        = u16 ((root.block.height : Int) + h - 1) ∧
      (0 < root.block.height + h → root.block.height + h ≤ 65536 →
        (expandRootVertically root arena h).1.block.bottom = root.block.height + h - 1) ∧
      (expandRootVertically root arena h).1.left = root ∧
      (expandRootVertically root arena h).1.right.isNull = false ∧
      isLeaf (expandRootVertically root arena h).1.right = true ∧
      (expandRootVertically root arena h).1.right.isUsed = false ∧
      (expandRootVertically root arena h).1.right.block.width = root.block.width ∧
      (expandRootVertically root arena h).1.right.block.height = h ∧
      (expandRootVertically root arena h).1.right.block.top = root.block.height ∧
      (expandRootVertically root arena h).1.right.block.left = 0) ∧
    ((expandRootHorizontally root arena w).1.splitDir = Partition.HORIZONTAL ∧
      isLeaf (expandRootHorizontally root arena w).1 = false ∧
      (expandRootHorizontally root arena w).1.block.left = 0 ∧
      (expandRootHorizontally root arena w).1.block.top = 0 ∧
      (expandRootHorizontally root arena w).1.block.right
        = u16 ((root.block.width : Int) + w - 1) ∧
      (0 < root.block.width + w → root.block.width + w ≤ 65536 →
        (expandRootHorizontally root arena w).1.block.right = root.block.width + w - 1) ∧
      (expandRootHorizontally root arena w).1.block.bottom = root.block.bottom ∧
      (expandRootHorizontally root arena w).1.left = root ∧
      (expandRootHorizontally root arena w).1.right.isNull = false ∧
      isLeaf (expandRootHorizontally root arena w).1.right = true ∧
      (expandRootHorizontally root arena w).1.right.isUsed = false ∧
      (expandRootHorizontally root arena w).1.right.block.width = w ∧
      (expandRootHorizontally root arena w).1.right.block.height = root.block.height ∧
      (expandRootHorizontally root arena w).1.right.block.left = root.block.width ∧
      (expandRootHorizontally root arena w).1.right.block.top = 0) := by
  rcases root with _ | ⟨a, l, r, b, s, u, d⟩
  · simp only [default, expandRootVertically, expandRootHorizontally, TextureNode.splitDir,
      TextureNode.block, TextureNode.left, TextureNode.right, TextureNode.isNull,
      TextureNode.isUsed, isLeaf, u16, Bool.not_false, Bool.not_true, Bool.or_true,
      Bool.or_false, true_and, and_true]
    omega
  simp only [TextureNode.block] at hl ht
  refine ⟨?_, ?_⟩
  · simp only [expandRootVertically, TextureNode.splitDir, TextureNode.block, TextureNode.left,
      TextureNode.right, TextureNode.isNull, TextureNode.isUsed, isLeaf, hl, ht, u16,
      Bool.not_false, Bool.not_true, Bool.or_true, Bool.or_false, true_and, and_true]
    omega
  · simp only [expandRootHorizontally, TextureNode.splitDir, TextureNode.block,
      TextureNode.left, TextureNode.right, TextureNode.isNull, TextureNode.isUsed, isLeaf, hl,
      ht, u16, Bool.not_false, Bool.not_true, Bool.or_true, Bool.or_false, true_and, and_true]
    omega

/-- C8 at a 32x32 root: the vertical expansion by 16 has block `[0, 0, 31, 47]` and a free
right leaf at `top = 32`; the horizontal expansion by 8 has right corner 39. -/
theorem expandRoot_spec_witness :
    (expandRootVertically (TextureNode.node 4096 TextureNode.null TextureNode.null
        ⟨0, 0, 31, 31, 32, 32⟩ Partition.NONE true true) ⟨4096, 4000, 40, 1, false⟩
        16).1.block.bottom = 47 ∧
    (expandRootHorizontally (TextureNode.node 4096 TextureNode.null TextureNode.null
        ⟨0, 0, 31, 31, 32, 32⟩ Partition.NONE true true) ⟨4096, 4000, 40, 1, false⟩
        8).1.block.right = 39 :=
  ⟨(expandRoot_spec (TextureNode.node 4096 TextureNode.null TextureNode.null
        ⟨0, 0, 31, 31, 32, 32⟩ Partition.NONE true true) ⟨4096, 4000, 40, 1, false⟩ 16 8
        (by decide) (by decide)).1.2.2.2.2.2.2.1 (by decide) (by decide),
   (expandRoot_spec (TextureNode.node 4096 TextureNode.null TextureNode.null
        ⟨0, 0, 31, 31, 32, 32⟩ Partition.NONE true true) ⟨4096, 4000, 40, 1, false⟩ 16 8
        (by decide) (by decide)).2.2.2.2.2.2.1 (by decide) (by decide)⟩

/-! ### Facts that hold of every call, whatever the state -/

theorem findFirstFreeBlock_block (a : Nat) (l r : TextureNode) (b : TextureRectangle)
    (s : Partition) (u d : Bool) (arena : MemoryStack) (t : Texture) :
    (findFirstFreeBlock (TextureNode.node a l r b s u d) arena t).1.block = b ∧
    (findFirstFreeBlock (TextureNode.node a l r b s u d) arena t).1.addr = a := by
  unfold findFirstFreeBlock
  split_ifs <;> simp [markUsed, withLeft, splitHorizontallyNew, splitVerticallyNew]

theorem traverse_block (n : TextureNode) (arena : MemoryStack) (atlas t : Texture)
    (path : List Nat) :
    (traverseTextureNodes n arena atlas t path).node.block = n.block ∧
    (traverseTextureNodes n arena atlas t path).node.addr = n.addr := by
  cases n with
  | null => simp [traverseTextureNodes]
  | node a l r b s u d =>
    unfold traverseTextureNodes
    simp only
    split_ifs <;> simp [findFirstFreeBlock_block]

theorem nodeCountOf_storeAt_setIsUsed (a : Nat) (v : Bool) (n : TextureNode) :
    nodeCountOf (storeAt a (setIsUsed v) n) = nodeCountOf n := by
  induction n with
  | null => rfl
  | node a1 l r b s u d ihl ihr =>
    simp only [storeAt]
    split_ifs <;> simp [setIsUsed, nodeCountOf, ihl, ihr]

theorem nodeCountOf_storeAt_setSplitDir (a : Nat) (v : Partition) (n : TextureNode) :
    nodeCountOf (storeAt a (setSplitDir v) n) = nodeCountOf n := by
  induction n with
  | null => rfl
  | node a1 l r b s u d ihl ihr =>
    simp only [storeAt]
    split_ifs <;> simp [setSplitDir, nodeCountOf, ihl, ihr]

theorem nodeCountOf_removeLRUFromCache (cache : LRUCache) (path : List Nat)
    (n : TextureNode) :
    nodeCountOf (removeLRUFromCache cache path n).tree = nodeCountOf n := by
  simp only [removeLRUFromCache]
  split_ifs <;>
    simp [nodeCountOf_storeAt_setIsUsed, nodeCountOf_storeAt_setSplitDir]

theorem nodeCountOf_expandRootVertically (n : TextureNode) (arena : MemoryStack) (h : Nat) :
    nodeCountOf (expandRootVertically n arena h).1 = nodeCountOf n + 2 := by
  simp [expandRootVertically, nodeCountOf]

theorem nodeCountOf_expandRootHorizontally (n : TextureNode) (arena : MemoryStack) (w : Nat) :
    nodeCountOf (expandRootHorizontally n arena w).1 = nodeCountOf n + 2 := by
  simp [expandRootHorizontally, nodeCountOf]

/-! ### The expansion decision of the pack loop (C7) -/

/-- C7: when the traversal finds no placement, with `Vnew = root.height + imgH` and
`Hnew = root.width + imgW` as `u16` values, the loop body expands the root vertically iff
`Vnew < Hnew` and `Vnew <= maxAtlasWidth`, horizontally iff `Vnew >= Hnew` and
`Hnew <= maxAtlasHeight` (in both cases leaving the cache alone), and otherwise performs no
expansion and calls the LRU eviction; on `Vnew = Hnew` the vertical expansion is never
chosen. -/
theorem packStep_expansion_choice (s : PackState) (hidx : s.textureIndex < s.textureCount)
    (hnone : (traverseTextureNodes s.root s.textureNodeArena s.textureAtlas
      (s.textures.getD s.textureIndex default) []).result = 0) :
    let texture := s.textures.getD s.textureIndex default
    let t := traverseTextureNodes s.root s.textureNodeArena s.textureAtlas texture []
    let Vnew := u16 ((s.root.block.height : Int) + texture.height)
    let Hnew := u16 ((s.root.block.width : Int) + texture.width)
    (((packStep s).root = (expandRootVertically t.node t.textureNodeArena texture.height).1 ∧
        (packStep s).cache = s.cache ∧ (packStep s).textureIndex = s.textureIndex)
      ↔ (Vnew < Hnew ∧ Vnew ≤ s.maxAtlasWidth)) ∧
    (((packStep s).root = (expandRootHorizontally t.node t.textureNodeArena texture.width).1 ∧
        (packStep s).cache = s.cache ∧ (packStep s).textureIndex = s.textureIndex)
      ↔ (Vnew ≥ Hnew ∧ Hnew ≤ s.maxAtlasHeight)) ∧
    (¬ (Vnew < Hnew ∧ Vnew ≤ s.maxAtlasWidth) → ¬ (Vnew ≥ Hnew ∧ Hnew ≤ s.maxAtlasHeight) →
      (packStep s).root = (removeLRUFromCache s.cache t.nodePath t.node).tree ∧
      (packStep s).cache = (removeLRUFromCache s.cache t.nodePath t.node).cache ∧
      (packStep s).textureNodeArena = t.textureNodeArena ∧
      nodeCountOf (packStep s).root = nodeCountOf t.node ∧
      (packStep s).textureIndex = s.textureIndex) ∧
    (Vnew = Hnew →
      (packStep s).root ≠ (expandRootVertically t.node t.textureNodeArena texture.height).1) := by
  intro texture t Vnew Hnew
  have hb : t.node.block = s.root.block := (traverse_block _ _ _ _ _).1
  have hstep : packStep s =
      if Vnew < Hnew ∧ Vnew ≤ s.maxAtlasWidth then
        { s with
          textureNodeArena := (expandRootVertically t.node t.textureNodeArena texture.height).2
          textureAtlas := t.textureAtlas
          root := (expandRootVertically t.node t.textureNodeArena texture.height).1 }
      else if Vnew ≥ Hnew ∧ Hnew ≤ s.maxAtlasHeight then
        { s with
          textureNodeArena := (expandRootHorizontally t.node t.textureNodeArena texture.width).2
          textureAtlas := t.textureAtlas
          root := (expandRootHorizontally t.node t.textureNodeArena texture.width).1 }
      else
        { s with
          textureNodeArena := t.textureNodeArena
          textureAtlas := t.textureAtlas
          cache := (removeLRUFromCache s.cache t.nodePath t.node).cache
          root := (removeLRUFromCache s.cache t.nodePath t.node).tree } := by
    simp only [packStep, hidx, if_true, hnone, ne_eq, not_true_eq_false, if_false]
    simp only [Vnew, Hnew, ← hb, t, texture]
  have hV : ((expandRootVertically t.node t.textureNodeArena texture.height).1).splitDir
      = Partition.VERTICAL := rfl
  have hH : ((expandRootHorizontally t.node t.textureNodeArena texture.width).1).splitDir
      = Partition.HORIZONTAL := rfl
  by_cases c1 : Vnew < Hnew ∧ Vnew ≤ s.maxAtlasWidth
  · have c2 : ¬ (Vnew ≥ Hnew ∧ Hnew ≤ s.maxAtlasHeight) := by omega
    rw [hstep, if_pos c1]
    refine ⟨by simp [c1], ?_, fun h => absurd c1 h, fun h => by omega⟩
    simp only [c2, iff_false, not_and]
    intro h
    have := congrArg TextureNode.splitDir h
    rw [hV, hH] at this
    cases this
  · by_cases c2 : Vnew ≥ Hnew ∧ Hnew ≤ s.maxAtlasHeight
    · rw [hstep, if_neg c1, if_pos c2]
      refine ⟨?_, by simp [c2], fun _ h => absurd c2 h, fun _ h => ?_⟩
      · simp only [c1, iff_false, not_and]
        intro h
        have := congrArg TextureNode.splitDir h
        rw [hV, hH] at this
        cases this
      · have := congrArg TextureNode.splitDir h
        rw [hV, hH] at this
        cases this
    · rw [hstep, if_neg c1, if_neg c2]
      have hne1 : (removeLRUFromCache s.cache t.nodePath t.node).tree ≠
          (expandRootVertically t.node t.textureNodeArena texture.height).1 := by
        intro h
        have := congrArg nodeCountOf h
        rw [nodeCountOf_removeLRUFromCache, nodeCountOf_expandRootVertically] at this
        omega
      have hne2 : (removeLRUFromCache s.cache t.nodePath t.node).tree ≠
          (expandRootHorizontally t.node t.textureNodeArena texture.width).1 := by
        intro h
        have := congrArg nodeCountOf h
        rw [nodeCountOf_removeLRUFromCache, nodeCountOf_expandRootHorizontally] at this
        omega
      refine ⟨by simp [c1, hne1], by simp [c2, hne2], fun _ _ => ?_, fun _ => hne1⟩
      simp [nodeCountOf_removeLRUFromCache]

/-- C7 on two 32x32 images under the cap 64x64, after the first placement: `Vnew = Hnew = 64`,
so the root is expanded horizontally. -/
theorem packStep_expansion_choice_witness :
    (packStep (packIter 1 (packStart [textureOf 32 32, textureOf 32 32] 64 64))).root.block
      = ⟨0, 0, 63, 31, 64, 32⟩ ∧
    (packStep (packIter 1 (packStart [textureOf 32 32, textureOf 32 32] 64 64))).root.splitDir
      = Partition.HORIZONTAL :=
  have h := ((packStep_expansion_choice
    (packIter 1 (packStart [textureOf 32 32, textureOf 32 32] 64 64))
    (by decide) (by decide)).2.1.2 (by decide)).1
  ⟨by rw [h]; decide, by rw [h]; decide⟩

/-! ### Sorting (C6) -/

theorem getLongerSide_loop (l : List Texture) (r : Side) (mw mh : Nat) :
    l.foldl
      (fun (st : Side × Nat × Nat) (t : Texture) =>
        let maxWidth := if t.width > st.2.1 then t.width else st.2.1
        let maxHeight := if t.height > st.2.2 then t.height else st.2.2
        (if maxWidth > maxHeight then Side.HORIZONTAL else Side.VERTICAL, maxWidth, maxHeight))
      (r, mw, mh)
    = (if l = [] then r
        else if max mw (maxWidthOf l) > max mh (maxHeightOf l) then Side.HORIZONTAL
        else Side.VERTICAL,
       max mw (maxWidthOf l), max mh (maxHeightOf l)) := by
  induction l generalizing r mw mh with
  | nil => simp [maxWidthOf, maxHeightOf]
  | cons x xs ih =>
    rw [List.foldl_cons, ih]
    have e1 : (if x.width > mw then x.width else mw) = max mw x.width := by
      split_ifs <;> omega
    have e2 : (if x.height > mh then x.height else mh) = max mh x.height := by
      split_ifs <;> omega
    have w1 : maxWidthOf (x :: xs) = max x.width (maxWidthOf xs) := rfl
    have w2 : maxHeightOf (x :: xs) = max x.height (maxHeightOf xs) := rfl
    simp only [e1, e2, w1, w2, max_assoc, reduceCtorEq, if_false]
    by_cases hx : xs = []
    · subst hx
      simp [maxWidthOf, maxHeightOf]
    · simp [hx]

theorem getLongerSide_eq (T : List Texture) (hT : T ≠ []) :
    getLongerSide T =
      if maxWidthOf T > maxHeightOf T then Side.HORIZONTAL else Side.VERTICAL := by
  unfold getLongerSide
  rw [getLongerSide_loop]
  simp [hT]

theorem maxWidthOf_le (T : List Texture) (t : Texture) (h : t ∈ T) :
    t.width ≤ maxWidthOf T := by
  induction T with
  | nil => cases h
  | cons x xs ih =>
    have w1 : maxWidthOf (x :: xs) = max x.width (maxWidthOf xs) := rfl
    rcases List.mem_cons.1 h with h | h
    · subst h; rw [w1]; exact le_max_left _ _
    · rw [w1]; exact le_trans (ih h) (le_max_right _ _)

theorem maxHeightOf_le (T : List Texture) (t : Texture) (h : t ∈ T) :
    t.height ≤ maxHeightOf T := by
  induction T with
  | nil => cases h
  | cons x xs ih =>
    have w1 : maxHeightOf (x :: xs) = max x.height (maxHeightOf xs) := rfl
    rcases List.mem_cons.1 h with h | h
    · subst h; rw [w1]; exact le_max_left _ _
    · rw [w1]; exact le_trans (ih h) (le_max_right _ _)

theorem maxWidthOf_mem (T : List Texture) (hT : T ≠ []) :
    ∃ t ∈ T, t.width = maxWidthOf T := by
  induction T with
  | nil => exact absurd rfl hT
  | cons x xs ih =>
    have w1 : maxWidthOf (x :: xs) = max x.width (maxWidthOf xs) := rfl
    by_cases hx : xs = []
    · subst hx
      exact ⟨x, List.mem_cons_self _ _, by simp [w1, maxWidthOf]⟩
    · obtain ⟨t, ht, he⟩ := ih hx
      by_cases hc : maxWidthOf xs ≤ x.width
      · exact ⟨x, List.mem_cons_self _ _, by rw [w1]; omega⟩
      · exact ⟨t, List.mem_cons_of_mem _ ht, by rw [w1]; omega⟩

theorem maxHeightOf_mem (T : List Texture) (hT : T ≠ []) :
    ∃ t ∈ T, t.height = maxHeightOf T := by
  induction T with
  | nil => exact absurd rfl hT
  | cons x xs ih =>
    have w1 : maxHeightOf (x :: xs) = max x.height (maxHeightOf xs) := rfl
    by_cases hx : xs = []
    · subst hx
      exact ⟨x, List.mem_cons_self _ _, by simp [w1, maxHeightOf]⟩
    · obtain ⟨t, ht, he⟩ := ih hx
      by_cases hc : maxHeightOf xs ≤ x.height
      · exact ⟨x, List.mem_cons_self _ _, by rw [w1]; omega⟩
      · exact ⟨t, List.mem_cons_of_mem _ ht, by rw [w1]; omega⟩

theorem qsort_compareWidth (T : List Texture) :
    (qsort compareWidth T).Perm T ∧
    (qsort compareWidth T).Pairwise (fun a b => a.width ≥ b.width) := by
  haveI : IsTotal Texture (fun a b => compareWidth a b ≤ 0) :=
    ⟨fun a b => by simp only [compareWidth]; omega⟩
  haveI : IsTrans Texture (fun a b => compareWidth a b ≤ 0) :=
    ⟨fun a b c => by simp only [compareWidth]; omega⟩
  refine ⟨List.perm_insertionSort _ T, ?_⟩
  have h := List.sorted_insertionSort (fun a b => compareWidth a b ≤ 0) T
  refine List.Pairwise.imp ?_ h
  intro a b hab
  simp only [compareWidth] at hab
  omega

theorem qsort_compareHeight (T : List Texture) :
    (qsort compareHeight T).Perm T ∧
    (qsort compareHeight T).Pairwise (fun a b => a.height ≥ b.height) := by
  haveI : IsTotal Texture (fun a b => compareHeight a b ≤ 0) :=
    ⟨fun a b => by simp only [compareHeight]; omega⟩
  haveI : IsTrans Texture (fun a b => compareHeight a b ≤ 0) :=
    ⟨fun a b c => by simp only [compareHeight]; omega⟩
  refine ⟨List.perm_insertionSort _ T, ?_⟩
  have h := List.sorted_insertionSort (fun a b => compareHeight a b ≤ 0) T
  refine List.Pairwise.imp ?_ h
  intro a b hab
  simp only [compareHeight] at hab
  omega

theorem head_width_of_sorted (S T : List Texture) (hT : T ≠ []) (hp : S.Perm T)
    (hs : S.Pairwise (fun a b => a.width ≥ b.width)) :
    (S.getD 0 default).width = maxWidthOf T := by
  obtain ⟨t, ht, he⟩ := maxWidthOf_mem T hT
  cases S with
  | nil => exact absurd (hp.symm.eq_nil) hT
  | cons x xs =>
    simp only [List.getD_cons_zero]
    have hx : x.width ≤ maxWidthOf T := maxWidthOf_le T x (hp.subset (List.mem_cons_self _ _))
    have ht' : t ∈ x :: xs := hp.symm.subset ht
    rcases List.mem_cons.1 ht' with h | h
    · subst h; exact he
    · have := (List.pairwise_cons.1 hs).1 t h
      omega

theorem head_height_of_sorted (S T : List Texture) (hT : T ≠ []) (hp : S.Perm T)
    (hs : S.Pairwise (fun a b => a.height ≥ b.height)) :
    (S.getD 0 default).height = maxHeightOf T := by
  obtain ⟨t, ht, he⟩ := maxHeightOf_mem T hT
  cases S with
  | nil => exact absurd (hp.symm.eq_nil) hT
  | cons x xs =>
    simp only [List.getD_cons_zero]
    have hx : x.height ≤ maxHeightOf T :=
      maxHeightOf_le T x (hp.subset (List.mem_cons_self _ _))
    have ht' : t ∈ x :: xs := hp.symm.subset ht
    rcases List.mem_cons.1 ht' with h | h
    · subst h; exact he
    · have := (List.pairwise_cons.1 hs).1 t h
      omega

/-- C6: on a non-empty list `sortTextures` sorts by width descending iff the maximum width
is strictly greater than the maximum height, and by height descending otherwise (ties
included); the result is a permutation of the input, non-increasing in the chosen
dimension, and its first element carries the maximum of that dimension. -/
theorem sortTextures_spec (T : List Texture) (hT : T ≠ []) :
    (getLongerSide T = Side.HORIZONTAL ↔ maxWidthOf T > maxHeightOf T) ∧
    (getLongerSide T = Side.VERTICAL ↔ maxWidthOf T ≤ maxHeightOf T) ∧
    (maxWidthOf T > maxHeightOf T →
      sortTextures T = some (qsort compareWidth T) ∧
      (qsort compareWidth T).Perm T ∧
      (qsort compareWidth T).Pairwise (fun a b => a.width ≥ b.width) ∧
      ((qsort compareWidth T).getD 0 default).width = maxWidthOf T) ∧
    (maxWidthOf T ≤ maxHeightOf T →
      sortTextures T = some (qsort compareHeight T) ∧
      (qsort compareHeight T).Perm T ∧
      (qsort compareHeight T).Pairwise (fun a b => a.height ≥ b.height) ∧
      ((qsort compareHeight T).getD 0 default).height = maxHeightOf T) := by
  have hg := getLongerSide_eq T hT
  refine ⟨?_, ?_, fun h => ?_, fun h => ?_⟩
  · rw [hg]; split_ifs with h <;> simp [h]
  · rw [hg]; split_ifs with h
    · simp; omega
    · simp; omega
  · refine ⟨?_, (qsort_compareWidth T).1, (qsort_compareWidth T).2,
      head_width_of_sorted _ T hT (qsort_compareWidth T).1 (qsort_compareWidth T).2⟩
    simp [sortTextures, hg, h]
  · refine ⟨?_, (qsort_compareHeight T).1, (qsort_compareHeight T).2,
      head_height_of_sorted _ T hT (qsort_compareHeight T).1 (qsort_compareHeight T).2⟩
    have : ¬ maxWidthOf T > maxHeightOf T := by omega
    simp [sortTextures, hg, this]

/-- C6 on the images 8x64 and 64x8 (a tie of the maxima): the sort is by height, and the
first image is the 8x64 one. -/
theorem sortTextures_spec_witness :
    sortTextures [textureOf 64 8, textureOf 8 64]
      = some (qsort compareHeight [textureOf 64 8, textureOf 8 64]) ∧
    ((qsort compareHeight [textureOf 64 8, textureOf 8 64]).getD 0 default).height = 64 :=
  have h := (sortTextures_spec [textureOf 64 8, textureOf 8 64] (by decide)).2.2.2 (by decide)
  ⟨h.1, h.2.2.2⟩

/-! ### Geometry of well-shaped trees -/

theorem TreeOK_ne_null (n : TextureNode) (h : TreeOK n) : n ≠ TextureNode.null := by
  intro e; subst e; exact h

theorem TreeOK_rect (n : TextureNode) (h : TreeOK n) : RectOK n.block := by
  cases n with
  | null => exact absurd h id
  | node a l r b s u d => exact h.1

theorem isLeaf_node (a : Nat) (l r : TextureNode) (b : TextureRectangle) (s : Partition)
    (u d : Bool) :
    isLeaf (TextureNode.node a l r b s u d) = true ↔ l = TextureNode.null ∧ r = TextureNode.null := by
  cases l <;> cases r <;> simp [isLeaf]

theorem isLeaf_null : isLeaf TextureNode.null = true := rfl

theorem nodes_leaf (a : Nat) (b : TextureRectangle) (s : Partition) (u d : Bool) :
    nodes (TextureNode.node a TextureNode.null TextureNode.null b s u d)
      = [TextureNode.node a TextureNode.null TextureNode.null b s u d] := rfl

theorem leaves_leaf (a : Nat) (b : TextureRectangle) (s : Partition) (u d : Bool) :
    leaves (TextureNode.node a TextureNode.null TextureNode.null b s u d)
      = [TextureNode.node a TextureNode.null TextureNode.null b s u d] := rfl

theorem leaves_internal (a : Nat) (l r : TextureNode) (b : TextureRectangle) (s : Partition)
    (u d : Bool) (h : isLeaf (TextureNode.node a l r b s u d) = false) :
    leaves (TextureNode.node a l r b s u d) = leaves l ++ leaves r := by
  simp [leaves, nodes, List.filter_cons, h]

theorem isLeaf_of_TreeOK_children (a : Nat) (l r : TextureNode) (b : TextureRectangle)
    (s : Partition) (u d : Bool) (hl : TreeOK l) :
    isLeaf (TextureNode.node a l r b s u d) = false := by
  cases l with
  | null => exact absurd hl id
  | node _ _ _ _ _ _ _ => cases r <;> simp [isLeaf]

theorem mem_nodes_self (n : TextureNode) (h : n ≠ TextureNode.null) : n ∈ nodes n := by
  cases n with
  | null => exact absurd rfl h
  | node a l r b s u d => simp [nodes]

theorem mem_leaves_iff (x n : TextureNode) : x ∈ leaves n ↔ x ∈ nodes n ∧ isLeaf x = true := by
  simp [leaves]

theorem mem_usedLeaves_iff (x n : TextureNode) :
    x ∈ usedLeaves n ↔ x ∈ leaves n ∧ x.isUsed = true := by
  simp [usedLeaves]

theorem null_not_mem_nodes (n : TextureNode) : TextureNode.null ∉ nodes n := by
  induction n with
  | null => simp [nodes]
  | node a l r b s u d ihl ihr => simp [nodes, ihl, ihr]

theorem nodes_inside (n : TextureNode) (h : TreeOK n) :
    ∀ x ∈ nodes n, RectInside x.block n.block ∧ RectOK x.block := by
  induction n with
  | null => exact absurd h id
  | node a l r b s u d ihl ihr =>
    intro x hx
    simp only [nodes, List.mem_cons, List.mem_append] at hx
    obtain ⟨hb, hc⟩ := h
    rcases hx with hx | hx | hx
    · subst hx
      exact ⟨by simp only [block_node, RectInside]; omega, hb⟩
    · rcases hc with ⟨e, _, _⟩ | ⟨_, tl, tr, hs⟩
      · subst e; simp [nodes] at hx
      · obtain ⟨h1, h2⟩ := ihl tl x hx
        refine ⟨?_, h2⟩
        have rl := TreeOK_rect l tl
        have rr := TreeOK_rect r tr
        simp only [RectInside, RectOK, SplitOK, block_node] at *
        omega
    · rcases hc with ⟨_, e, _⟩ | ⟨_, tl, tr, hs⟩
      · subst e; simp [nodes] at hx
      · obtain ⟨h1, h2⟩ := ihr tr x hx
        refine ⟨?_, h2⟩
        have rl := TreeOK_rect l tl
        have rr := TreeOK_rect r tr
        simp only [RectInside, RectOK, SplitOK, block_node] at *
        omega

theorem leaves_pairwise_disjoint (n : TextureNode) (h : TreeOK n) :
    (leaves n).Pairwise (fun x y => RectDisjoint x.block y.block) := by
  induction n with
  | null => exact absurd h id
  | node a l r b s u d ihl ihr =>
    obtain ⟨hb, hc⟩ := h
    rcases hc with ⟨e1, e2, _⟩ | ⟨_, tl, tr, hs⟩
    · subst e1 e2
      simp [leaves_leaf]
    · rw [leaves_internal _ _ _ _ _ _ _ (isLeaf_of_TreeOK_children a l r b s u d tl)]
      rw [List.pairwise_append]
      refine ⟨ihl tl, ihr tr, ?_⟩
      intro x hx y hy
      have hx1 := (nodes_inside l tl x ((mem_leaves_iff x l).1 hx).1)
      have hy1 := (nodes_inside r tr y ((mem_leaves_iff y r).1 hy).1)
      have rl := TreeOK_rect l tl
      have rr := TreeOK_rect r tr
      simp only [RectInside, RectOK, SplitOK, RectDisjoint, block_node] at *
      omega

theorem leaves_area (n : TextureNode) (h : TreeOK n) :
    ((leaves n).map (fun x => x.block.width * x.block.height)).sum
      = n.block.width * n.block.height := by
  induction n with
  | null => exact absurd h id
  | node a l r b s u d ihl ihr =>
    obtain ⟨hb, hc⟩ := h
    rcases hc with ⟨e1, e2, _⟩ | ⟨_, tl, tr, hs⟩
    · subst e1 e2
      simp [leaves_leaf]
    · rw [leaves_internal _ _ _ _ _ _ _ (isLeaf_of_TreeOK_children a l r b s u d tl)]
      rw [List.map_append, List.sum_append, ihl tl, ihr tr]
      have rl := TreeOK_rect l tl
      have rr := TreeOK_rect r tr
      simp only [RectOK, SplitOK, block_node] at *
      rcases hs with hs | hs
      · have e1 : l.block.width = b.width := by omega
        have e2 : r.block.width = b.width := by omega
        have e3 : b.height = l.block.height + r.block.height := by omega
        rw [e1, e2, e3, Nat.mul_add]
      · have e1 : l.block.height = b.height := by omega
        have e2 : r.block.height = b.height := by omega
        have e3 : b.width = l.block.width + r.block.width := by omega
        rw [e1, e2, e3, Nat.add_mul]

theorem internals_consistent (n : TextureNode) (h : TreeOK n) :
    ∀ x ∈ internals n, SplitConsistent x.splitDir x.block x.left.block x.right.block := by
  induction n with
  | null => exact absurd h id
  | node a l r b s u d ihl ihr =>
    intro x hx
    obtain ⟨hb, hc⟩ := h
    simp only [internals, nodes, List.mem_filter, List.mem_cons, List.mem_append,
      Bool.not_eq_true'] at hx
    obtain ⟨hx, hleaf⟩ := hx
    rcases hc with ⟨e1, e2, _⟩ | ⟨_, tl, tr, hs⟩
    · subst e1 e2
      simp only [nodes, List.not_mem_nil, or_false] at hx
      subst hx
      simp [isLeaf] at hleaf
    · rcases hx with hx | hx | hx
      · subst hx
        have rl := TreeOK_rect l tl
        have rr := TreeOK_rect r tr
        simp only [RectOK, SplitOK, SplitConsistent, block_node, splitDir_node, left_node,
          right_node] at *
        constructor
        · intro e
          subst e
          simp only [reduceCtorEq, false_and, or_false, true_and] at hs
          omega
        · intro e
          subst e
          simp only [reduceCtorEq, false_and, false_or, true_and] at hs
          omega
      · exact ihl tl x (by simp [internals, hx, hleaf])
      · exact ihr tr x (by simp [internals, hx, hleaf])

/-! ### The arena under successful pushes -/

theorem push_ok (A : MemoryStack) (sz : Nat) (hsz : 0 < sz) (hA : ArenaOK A sz)
    (h : (_Push_ A sz).2.outOfMemory = false) :
    (_Push_ A sz).1 = arenaTop A ∧ ArenaOK (_Push_ A sz).2 sz ∧
    (_Push_ A sz).2.bytes_used = A.bytes_used + sz ∧
    (_Push_ A sz).2.base = A.base ∧ (_Push_ A sz).2.max_size = A.max_size ∧
    A.outOfMemory = false := by
  obtain ⟨h1, h2, h3⟩ := hA
  have hfit : A.base + A.bytes_used + sz ≤ 2 ^ 64 := by omega
  rw [push_eq A sz h1 hsz hfit] at h ⊢
  simp only [Bool.or_eq_false_iff, Bool.not_eq_false', decide_eq_true_eq] at h
  refine ⟨rfl, ⟨h1, h2, h.2⟩, rfl, rfl, rfl, h.1⟩

theorem push_oom_mono (A : MemoryStack) (sz : Nat) (h : (_Push_ A sz).2.outOfMemory = false) :
    A.outOfMemory = false := (push_outOfMemory A sz h).1

/-! ### Used leaves -/

theorem usedLeaves_leaf (a : Nat) (b : TextureRectangle) (s : Partition) (u d : Bool) :
    usedLeaves (TextureNode.node a TextureNode.null TextureNode.null b s u d)
      = if u then [TextureNode.node a TextureNode.null TextureNode.null b s u d] else [] := by
  cases u <;> simp [usedLeaves, leaves_leaf]

theorem usedLeaves_internal (a : Nat) (l r : TextureNode) (b : TextureRectangle)
    (s : Partition) (u d : Bool) (h : isLeaf (TextureNode.node a l r b s u d) = false) :
    usedLeaves (TextureNode.node a l r b s u d) = usedLeaves l ++ usedLeaves r := by
  simp [usedLeaves, leaves_internal _ _ _ _ _ _ _ h]

theorem addrs_node (a : Nat) (l r : TextureNode) (b : TextureRectangle) (s : Partition)
    (u d : Bool) : addrs (TextureNode.node a l r b s u d) = a :: (addrs l ++ addrs r) := by
  simp [addrs, nodes]

theorem addrs_null : addrs TextureNode.null = [] := rfl

theorem addr_mem_addrs (x n : TextureNode) (h : x ∈ nodes n) : x.addr ∈ addrs n :=
  List.mem_map_of_mem _ h

theorem usedLeaves_subset_nodes (x n : TextureNode) (h : x ∈ usedLeaves n) : x ∈ nodes n :=
  ((mem_leaves_iff x n).1 ((mem_usedLeaves_iff x n).1 h).1).1

/-! ### Searches that leave the tree alone -/

theorem Placement_refl (n : TextureNode) (A : MemoryStack) (t : Texture) (h : TreeOK n)
    (hA : ArenaOK A sizeofTextureNode) (ha : AddrsOK n A) : Placement n A t n A 0 :=
  ⟨h, rfl, rfl, hA, rfl, rfl, le_refl _, ha, fun a h => Or.inl h, fun x h => h,
    fun h => absurd rfl h⟩

theorem Placement_node (a : Nat) (l r : TextureNode) (b : TextureRectangle) (s : Partition)
    (u d d1 : Bool) (A A1 A2 : MemoryStack) (t : Texture) (l1 r1 : TextureNode)
    (res1 res2 : Nat)
    (h : TreeOK (TextureNode.node a l r b s u d))
    (hint : isLeaf (TextureNode.node a l r b s u d) = false)
    (ha : AddrsOK (TextureNode.node a l r b s u d) A)
    (pl : Placement l A t l1 A1 res1) (pr : Placement r A1 t r1 A2 res2) :
    Placement (TextureNode.node a l r b s u d) A t (TextureNode.node a l1 r1 b s u d1) A2
      (if res1 ≠ 0 then res1 else res2) := by
  obtain ⟨hb, hc⟩ := h
  rcases hc with ⟨e1, e2, _⟩ | ⟨hu, tl, tr, hs⟩
  · subst e1 e2; simp [isLeaf] at hint
  obtain ⟨tl1, bl1, al1, _, base1, max1, mono1, ⟨nd1, bd1⟩, new1, used1, found1⟩ := pl
  obtain ⟨tr1, br1, ar1, arena2, base2, max2, mono2, ⟨nd2, bd2⟩, new2, used2, found2⟩ := pr
  obtain ⟨nd, bd⟩ := ha
  rw [addrs_node] at nd bd
  have top01 : arenaTop A ≤ arenaTop A1 := by simp only [arenaTop]; omega
  have top12 : arenaTop A1 ≤ arenaTop A2 := by simp only [arenaTop]; omega
  have hnd := List.nodup_cons.1 nd
  have hnd2 := List.nodup_append.1 hnd.2
  have hleaf1 : isLeaf (TextureNode.node a l1 r1 b s u d1) = false :=
    isLeaf_of_TreeOK_children a l1 r1 b s u d1 tl1
  have inL : ∀ x ∈ addrs l, x < arenaTop A := fun x hx =>
    (bd x (List.mem_cons_of_mem _ (List.mem_append_left _ hx))).2
  have inR : ∀ x ∈ addrs r, x < arenaTop A := fun x hx =>
    (bd x (List.mem_cons_of_mem _ (List.mem_append_right _ hx))).2
  have disj : ∀ x, x ∈ addrs l1 → x ∈ addrs r1 → False := by
    intro x h1 h2
    rcases new1 x h1 with o1 | o1 <;> rcases new2 x h2 with o2 | o2
    · exact hnd2.2.2 o1 o2
    · have := inL x o1; omega
    · have := inR x o2; omega
    · have := (bd1 x h1).2; omega
  refine ⟨⟨hb, Or.inr ⟨hu, tl1, tr1, by rw [bl1, br1]; exact hs⟩⟩, rfl, rfl, arena2,
    base2.trans base1, max2.trans max1, le_trans mono1 mono2, ⟨?_, ?_⟩, ?_, ?_, ?_⟩
  · rw [addrs_node]
    refine List.nodup_cons.2 ⟨?_, List.nodup_append.2 ⟨nd1, nd2, fun x h1 h2 => disj x h1 h2⟩⟩
    intro hmem
    have ha0 := (bd a (List.mem_cons_self _ _)).2
    rcases List.mem_append.1 hmem with h1 | h1
    · rcases new1 a h1 with o | o
      · exact hnd.1 (List.mem_append_left _ o)
      · omega
    · rcases new2 a h1 with o | o
      · exact hnd.1 (List.mem_append_right _ o)
      · omega
  · intro x hx
    rw [addrs_node] at hx
    rcases List.mem_cons.1 hx with e | hx
    · subst e
      have := bd x (List.mem_cons_self _ _)
      exact ⟨by omega, by omega⟩
    · rcases List.mem_append.1 hx with h1 | h1
      · have := bd1 x h1
        exact ⟨by omega, by omega⟩
      · have := bd2 x h1
        exact ⟨by omega, by omega⟩
  · intro x hx
    rw [addrs_node] at hx ⊢
    rcases List.mem_cons.1 hx with e | hx
    · exact Or.inl (by rw [e]; exact List.mem_cons_self _ _)
    · rcases List.mem_append.1 hx with h1 | h1
      · rcases new1 x h1 with o | o
        · exact Or.inl (List.mem_cons_of_mem _ (List.mem_append_left _ o))
        · exact Or.inr o
      · rcases new2 x h1 with o | o
        · exact Or.inl (List.mem_cons_of_mem _ (List.mem_append_right _ o))
        · exact Or.inr (by omega)
  · intro x hx
    rw [usedLeaves_internal _ _ _ _ _ _ _ hint] at hx
    rw [usedLeaves_internal _ _ _ _ _ _ _ hleaf1]
    rcases List.mem_append.1 hx with h1 | h1
    · exact List.mem_append_left _ (used1 x h1)
    · exact List.mem_append_right _ (used2 x h1)
  · rw [usedLeaves_internal _ _ _ _ _ _ _ hint, usedLeaves_internal _ _ _ _ _ _ _ hleaf1]
    by_cases hres : res1 ≠ 0
    · rw [if_pos hres]
      intro _
      obtain ⟨⟨x, hx, hxa, hxw, hxh⟩, hfresh⟩ := found1 hres
      refine ⟨⟨x, List.mem_append_left _ hx, hxa, hxw, hxh⟩, ?_⟩
      intro y hy
      rcases List.mem_append.1 hy with h1 | h1
      · exact hfresh y h1
      · intro e
        have hy1 : y.addr ∈ addrs r := addr_mem_addrs y r (usedLeaves_subset_nodes y r h1)
        have hx1 : x.addr ∈ addrs l1 := addr_mem_addrs x l1 (usedLeaves_subset_nodes x l1 hx)
        rw [hxa, ← e] at hx1
        rcases new1 _ hx1 with o | o
        · exact hnd2.2.2 o hy1
        · have := inR _ hy1; omega
    · rw [if_neg hres]
      intro hres2
      obtain ⟨⟨x, hx, hxa, hxw, hxh⟩, hfresh⟩ := found2 hres2
      refine ⟨⟨x, List.mem_append_right _ hx, hxa, hxw, hxh⟩, ?_⟩
      intro y hy
      rcases List.mem_append.1 hy with h1 | h1
      · intro e
        have hy1 : y.addr ∈ addrs l := addr_mem_addrs y l (usedLeaves_subset_nodes y l h1)
        have hx1 : x.addr ∈ addrs r1 := addr_mem_addrs x r1 (usedLeaves_subset_nodes x r1 hx)
        rw [hxa, ← e] at hx1
        rcases new2 _ hx1 with o | o
        · exact hnd2.2.2 hy1 o
        · have := inL _ hy1; omega
      · exact hfresh y h1

theorem push2_ok (A : MemoryStack) (sz : Nat) (hsz : 0 < sz) (hA : ArenaOK A sz)
    (h : (_Push_ (_Push_ A sz).2 sz).2.outOfMemory = false) :
    (_Push_ A sz).1 = arenaTop A ∧ (_Push_ (_Push_ A sz).2 sz).1 = arenaTop A + sz ∧
    ArenaOK (_Push_ (_Push_ A sz).2 sz).2 sz ∧
    (_Push_ (_Push_ A sz).2 sz).2.bytes_used = A.bytes_used + 2 * sz ∧
    (_Push_ (_Push_ A sz).2 sz).2.base = A.base ∧
    (_Push_ (_Push_ A sz).2 sz).2.max_size = A.max_size ∧
    arenaTop (_Push_ (_Push_ A sz).2 sz).2 = arenaTop A + 2 * sz := by
  have h1 := push_oom_mono _ _ h
  obtain ⟨a1, a2, a3, a4, a5, _⟩ := push_ok A sz hsz hA h1
  obtain ⟨b1, b2, b3, b4, b5, _⟩ := push_ok _ sz hsz a2 h
  refine ⟨a1, ?_, b2, ?_, b4.trans a4, b5.trans a5, ?_⟩
  · rw [b1]; simp only [arenaTop, a3, a4]; omega
  · rw [b3, a3]; omega
  · simp only [arenaTop, b3, a3, b4, a4]; omega

theorem TreeOK_leaf (a : Nat) (b : TextureRectangle) (u d : Bool) (hb : RectOK b) :
    TreeOK (TextureNode.node a TextureNode.null TextureNode.null b Partition.NONE u d) :=
  ⟨hb, Or.inl ⟨rfl, rfl, rfl⟩⟩

theorem findFirstFreeBlock_placement (a : Nat) (b : TextureRectangle) (d d1 : Bool)
    (A : MemoryStack) (t : Texture) (hb : RectOK b) (hA : ArenaOK A sizeofTextureNode)
    (ha : AddrsOK
      (TextureNode.node a TextureNode.null TextureNode.null b Partition.NONE false d) A)
    (ht : TexOK t)
    (hoom : (findFirstFreeBlock
      (TextureNode.node a TextureNode.null TextureNode.null b Partition.NONE false d1)
      A t).2.1.outOfMemory = false) :
    Placement (TextureNode.node a TextureNode.null TextureNode.null b Partition.NONE false d)
      A t
      (findFirstFreeBlock
        (TextureNode.node a TextureNode.null TextureNode.null b Partition.NONE false d1) A t).1
      (findFirstFreeBlock
        (TextureNode.node a TextureNode.null TextureNode.null b Partition.NONE false d1)
        A t).2.1
      (findFirstFreeBlock
        (TextureNode.node a TextureNode.null TextureNode.null b Partition.NONE false d1)
        A t).2.2 := by
  have hsz : sizeofTextureNode = 40 := rfl
  obtain ⟨hw, hh, wpos, hpos, hr, hbt⟩ := hb
  obtain ⟨tw1, tw2, th1, th2⟩ := ht
  have haddr : A.base ≤ a ∧ a < arenaTop A := ha.2 a (by simp [addrs_node])
  by_cases hfit : t.width ≤ b.width ∧ t.height ≤ b.height
  swap
  · rw [findFirstFreeBlock_nofit _ _ _ (by simpa using hfit)]
    refine ⟨TreeOK_leaf _ _ _ _ ⟨hw, hh, wpos, hpos, hr, hbt⟩, rfl, rfl, hA, rfl, rfl, le_refl _,
      ?_, ?_, ?_, fun h => absurd rfl h⟩
    · simpa [AddrsOK, addrs_node] using ha
    · intro x hx; left; simpa [addrs_node] using hx
    · intro x hx; simp [usedLeaves_leaf] at hx
  obtain ⟨f1, f2⟩ := hfit
  by_cases hwx : b.width = t.width
  · by_cases hhx : b.height = t.height
    · rw [findFirstFreeBlock_exact _ _ _ _ _ _ _ _ _ hwx hhx]
      dsimp only
      refine ⟨TreeOK_leaf _ _ _ _ ⟨hw, hh, wpos, hpos, hr, hbt⟩, rfl, rfl, hA, rfl, rfl, le_refl _,
        ?_, ?_, ?_, fun _ => ⟨⟨TextureNode.node a TextureNode.null TextureNode.null b
          Partition.NONE true d1, by simp [usedLeaves_leaf], rfl, hwx, hhx⟩, ?_⟩⟩
      · simpa [AddrsOK, addrs_node] using ha
      · intro x hx; left; simpa [addrs_node] using hx
      · intro x hx; simp [usedLeaves_leaf] at hx
      · intro x hx; simp [usedLeaves_leaf] at hx
    · rw [findFirstFreeBlock_widthExact _ _ _ _ _ _ _ _ _ hh hbt hwx th1 (by omega)] at hoom ⊢
      obtain ⟨p1, p2, aok, pb, pbase, pmax, ptop⟩ := push2_ok A _ (by decide) hA hoom
      dsimp only at hoom ⊢
      simp only [p1, p2] at *
      refine ⟨?_, rfl, rfl, aok, pbase, pmax, by omega, ⟨?_, ?_⟩, ?_, ?_, fun _ =>
        ⟨⟨TextureNode.node (arenaTop A) TextureNode.null TextureNode.null
          ⟨b.left, b.top, b.right, b.top + t.height - 1, b.width, t.height⟩
          Partition.NONE true false, ?_, rfl, hwx, rfl⟩, ?_⟩⟩
      · simp only [TreeOK, RectOK, SplitOK, block_node, reduceCtorEq, false_and, or_false,
          false_or, true_and, and_true, and_self]
        omega
      · simp only [addrs_node, addrs_null, List.append_nil, List.nil_append, List.cons_append,
          List.nodup_cons, List.mem_cons, List.mem_singleton, List.not_mem_nil, not_false_eq_true,
          List.nodup_nil, and_true, not_or]
        omega
      · simp only [addrs_node, addrs_null, List.append_nil, List.nil_append, List.cons_append,
          List.mem_cons, List.not_mem_nil, or_false, forall_eq_or_imp, forall_eq, ptop, pbase]
        omega
      · simp only [addrs_node, addrs_null, List.append_nil, List.nil_append, List.cons_append,
          List.mem_cons, List.not_mem_nil, or_false, forall_eq_or_imp, forall_eq, true_or, true_and]
        omega
      · intro x hx; simp [usedLeaves_leaf] at hx
      · simp [usedLeaves, leaves, nodes, isLeaf]
      · intro x hx; simp [usedLeaves_leaf] at hx
  · by_cases hhx : b.height = t.height
    · have hlt : t.width < b.width := by omega
      rw [findFirstFreeBlock_heightExact _ _ _ _ _ _ _ _ _ hw hr hhx tw1 hlt] at hoom ⊢
      obtain ⟨p1, p2, aok, pb, pbase, pmax, ptop⟩ := push2_ok A _ (by decide) hA hoom
      dsimp only at hoom ⊢
      simp only [p1, p2] at *
      refine ⟨?_, rfl, rfl, aok, pbase, pmax, by omega, ⟨?_, ?_⟩, ?_, ?_, fun _ =>
        ⟨⟨TextureNode.node (arenaTop A) TextureNode.null TextureNode.null
          ⟨b.left, b.top, b.left + t.width - 1, b.bottom, t.width, b.height⟩
          Partition.NONE true false, ?_, rfl, rfl, hhx⟩, ?_⟩⟩
      · simp only [TreeOK, RectOK, SplitOK, block_node, reduceCtorEq, false_and, or_false,
          false_or, true_and, and_true, and_self]
        omega
      · simp only [addrs_node, addrs_null, List.append_nil, List.nil_append, List.cons_append,
          List.nodup_cons, List.mem_cons, List.mem_singleton, List.not_mem_nil, not_false_eq_true,
          List.nodup_nil, and_true, not_or]
        omega
      · simp only [addrs_node, addrs_null, List.append_nil, List.nil_append, List.cons_append,
          List.mem_cons, List.not_mem_nil, or_false, forall_eq_or_imp, forall_eq, ptop, pbase]
        omega
      · simp only [addrs_node, addrs_null, List.append_nil, List.nil_append, List.cons_append,
          List.mem_cons, List.not_mem_nil, or_false, forall_eq_or_imp, forall_eq, true_or, true_and]
        omega
      · intro x hx; simp [usedLeaves_leaf] at hx
      · simp [usedLeaves, leaves, nodes, isLeaf]
      · intro x hx; simp [usedLeaves_leaf] at hx
    · have hlt1 : t.width < b.width := by omega
      have hlt2 : t.height < b.height := by omega
      by_cases hasp : t.height > t.width
      · rw [findFirstFreeBlock_tall _ _ _ _ _ _ _ _ _ hw hr hh hbt tw1 hlt1 th1 hlt2 hasp] at hoom ⊢
        dsimp only at hoom ⊢
        have hoom2 := push_oom_mono _ _ (push_oom_mono _ _ hoom)
        obtain ⟨p1, p2, aok2, pb2, pbase2, pmax2, ptop2⟩ := push2_ok A _ (by decide) hA hoom2
        obtain ⟨p3, p4, aok, pb, pbase, pmax, ptop⟩ := push2_ok _ _ (by decide) aok2 hoom
        rw [ptop2] at p3 p4 ptop
        rw [pbase2] at pbase
        rw [pmax2] at pmax
        simp only [p1, p2, p3, p4] at *
        refine ⟨?_, rfl, rfl, aok, pbase, pmax, by omega, ⟨?_, ?_⟩, ?_, ?_, fun _ =>
          ⟨⟨TextureNode.node (arenaTop A + 2 * sizeofTextureNode) TextureNode.null
            TextureNode.null
            ⟨b.left, b.top, b.left + t.width - 1, b.top + t.height - 1, t.width, t.height⟩
            Partition.NONE true false, ?_, rfl, rfl, rfl⟩, ?_⟩⟩
        · simp only [TreeOK, RectOK, SplitOK, block_node, reduceCtorEq, false_and, or_false,
            false_or, true_and, and_true, and_self]
          omega
        · simp only [addrs_node, addrs_null, List.append_nil, List.nil_append, List.cons_append,
            List.nodup_cons, List.mem_cons, List.mem_singleton, List.not_mem_nil, not_false_eq_true,
            List.nodup_nil, and_true, not_or]
          omega
        · simp only [addrs_node, addrs_null, List.append_nil, List.nil_append, List.cons_append,
            List.mem_cons, List.not_mem_nil, or_false, forall_eq_or_imp, forall_eq, ptop, pbase]
          omega
        · simp only [addrs_node, addrs_null, List.append_nil, List.nil_append, List.cons_append,
            List.mem_cons, List.not_mem_nil, or_false, forall_eq_or_imp, forall_eq, true_or, true_and]
          omega
        · intro x hx; simp [usedLeaves_leaf] at hx
        · simp [usedLeaves, leaves, nodes, isLeaf]
        · intro x hx; simp [usedLeaves_leaf] at hx

      · rw [findFirstFreeBlock_wide _ _ _ _ _ _ _ _ _ hw hr hh hbt tw1 hlt1 th1 hlt2 hasp] at hoom ⊢
        dsimp only at hoom ⊢
        have hoom2 := push_oom_mono _ _ (push_oom_mono _ _ hoom)
        obtain ⟨p1, p2, aok2, pb2, pbase2, pmax2, ptop2⟩ := push2_ok A _ (by decide) hA hoom2
        obtain ⟨p3, p4, aok, pb, pbase, pmax, ptop⟩ := push2_ok _ _ (by decide) aok2 hoom
        rw [ptop2] at p3 p4 ptop
        rw [pbase2] at pbase
        rw [pmax2] at pmax
        simp only [p1, p2, p3, p4] at *
        refine ⟨?_, rfl, rfl, aok, pbase, pmax, by omega, ⟨?_, ?_⟩, ?_, ?_, fun _ =>
          ⟨⟨TextureNode.node (arenaTop A + 2 * sizeofTextureNode) TextureNode.null
            TextureNode.null
            ⟨b.left, b.top, b.left + t.width - 1, b.top + t.height - 1, t.width, t.height⟩
            Partition.NONE true false, ?_, rfl, rfl, rfl⟩, ?_⟩⟩
        · simp only [TreeOK, RectOK, SplitOK, block_node, reduceCtorEq, false_and, or_false,
            false_or, true_and, and_true, and_self]
          omega
        · simp only [addrs_node, addrs_null, List.append_nil, List.nil_append, List.cons_append,
            List.nodup_cons, List.mem_cons, List.mem_singleton, List.not_mem_nil, not_false_eq_true,
            List.nodup_nil, and_true, not_or]
          omega
        · simp only [addrs_node, addrs_null, List.append_nil, List.nil_append, List.cons_append,
            List.mem_cons, List.not_mem_nil, or_false, forall_eq_or_imp, forall_eq, ptop, pbase]
          omega
        · simp only [addrs_node, addrs_null, List.append_nil, List.nil_append, List.cons_append,
            List.mem_cons, List.not_mem_nil, or_false, forall_eq_or_imp, forall_eq, true_or, true_and]
          omega
        · intro x hx; simp [usedLeaves_leaf] at hx
        · simp [usedLeaves, leaves, nodes, isLeaf]
        · intro x hx; simp [usedLeaves_leaf] at hx


theorem splitVerticallyNew_arena (n : TextureNode) (A : MemoryStack) (w h : Nat) :
    (splitVerticallyNew n A w h).2
      = (_Push_ (_Push_ A sizeofTextureNode).2 sizeofTextureNode).2 := rfl

theorem splitHorizontallyNew_arena (n : TextureNode) (A : MemoryStack) (w h : Nat) :
    (splitHorizontallyNew n A w h).2
      = (_Push_ (_Push_ A sizeofTextureNode).2 sizeofTextureNode).2 := rfl

theorem findFirstFreeBlock_oom_mono (n : TextureNode) (A : MemoryStack) (t : Texture)
    (h : (findFirstFreeBlock n A t).2.1.outOfMemory = false) : A.outOfMemory = false := by
  unfold findFirstFreeBlock at h
  by_cases c1 : isBlockFit n t.width t.height = true
  swap
  · simpa only [c1, if_false] using h
  by_cases c2 : isBlockExactFit n t.width t.height = true
  · simpa only [c1, c2, if_true] using h
  by_cases c3 : isBlockPartiallyExactFit n t.width t.height = true
  · by_cases c4 : isBlockWidthExactFit n t.width = true
    · simp only [c1, c2, c3, c4, if_true, if_false, splitVerticallyNew_arena] at h
      exact push_oom_mono _ _ (push_oom_mono _ _ h)
    · by_cases c5 : isBlockHeightExactFit n t.height = true
      · simp only [c1, c2, c3, c4, c5, if_true, if_false, splitHorizontallyNew_arena] at h
        exact push_oom_mono _ _ (push_oom_mono _ _ h)
      · simpa only [c1, c2, c3, c4, c5, if_true, if_false] using h
  · by_cases c4 : t.height > t.width
    · simp only [c1, c2, c3, c4, if_true, if_false, splitVerticallyNew_arena,
        splitHorizontallyNew_arena] at h
      exact push_oom_mono _ _ (push_oom_mono _ _ (push_oom_mono _ _ (push_oom_mono _ _ h)))
    · simp only [c1, c2, c3, c4, if_true, if_false, splitVerticallyNew_arena,
        splitHorizontallyNew_arena] at h
      exact push_oom_mono _ _ (push_oom_mono _ _ (push_oom_mono _ _ (push_oom_mono _ _ h)))

theorem traverse_oom_mono (n : TextureNode) (A : MemoryStack) (atlas t : Texture)
    (path : List Nat)
    (h : (traverseTextureNodes n A atlas t path).textureNodeArena.outOfMemory = false) :
    A.outOfMemory = false := by
  induction n generalizing A atlas path with
  | null => exact h
  | node a l r b s u d ihl ihr =>
    simp only [traverseTextureNodes] at h
    split_ifs at h <;> (try dsimp only at h) <;>
      first
        | exact h
        | exact findFirstFreeBlock_oom_mono _ _ _ h
        | exact ihl _ _ _ h
        | exact ihr _ _ _ h
        | exact ihl _ _ _ (ihr _ _ _ h)

theorem traverse_node_eq (a : Nat) (l r : TextureNode) (b : TextureRectangle) (s : Partition)
    (u d : Bool) (A : MemoryStack) (atlas t : Texture) (path : List Nat) :
    ∃ (atlas1 : Texture) (d1 : Bool) (tl : Traversal),
      ((∃ p, tl = traverseTextureNodes l A atlas1 t p) ∨ tl = ⟨l, A, atlas1, path, 0⟩) ∧
      (u = true → d1 = d) ∧
      traverseTextureNodes (TextureNode.node a l r b s u d) A atlas t path =
        if (isLeaf (TextureNode.node a l r b s u d1) && !u) = true then
          ⟨(findFirstFreeBlock (TextureNode.node a l r b s u d1) A t).1,
            (findFirstFreeBlock (TextureNode.node a l r b s u d1) A t).2.1, atlas1, path,
            (findFirstFreeBlock (TextureNode.node a l r b s u d1) A t).2.2⟩
        else if tl.result ≠ 0 then
          ⟨TextureNode.node a tl.node r b s u d1, tl.textureNodeArena, tl.textureAtlas,
            tl.nodePath, tl.result⟩
        else
          ⟨TextureNode.node a tl.node
              (traverseTextureNodes r tl.textureNodeArena tl.textureAtlas t tl.nodePath).node
              b s u d1,
            (traverseTextureNodes r tl.textureNodeArena tl.textureAtlas t
              tl.nodePath).textureNodeArena,
            (traverseTextureNodes r tl.textureNodeArena tl.textureAtlas t
              tl.nodePath).textureAtlas,
            (traverseTextureNodes r tl.textureNodeArena tl.textureAtlas t tl.nodePath).nodePath,
            (traverseTextureNodes r tl.textureNodeArena tl.textureAtlas t
              tl.nodePath).result⟩ := by
  simp only [traverseTextureNodes]
  refine ⟨_, _, _, ?_, ?_, rfl⟩
  · split_ifs <;> simp
  · intro hu; subst hu; simp

theorem AddrsOK_mono (n : TextureNode) (A A1 : MemoryStack) (h : AddrsOK n A)
    (hb : A1.base = A.base) (hm : A.bytes_used ≤ A1.bytes_used) : AddrsOK n A1 := by
  refine ⟨h.1, fun a ha => ?_⟩
  have := h.2 a ha
  simp only [arenaTop] at *
  omega

theorem AddrsOK_left (a : Nat) (l r : TextureNode) (b : TextureRectangle) (s : Partition)
    (u d : Bool) (A : MemoryStack) (h : AddrsOK (TextureNode.node a l r b s u d) A) :
    AddrsOK l A := by
  obtain ⟨nd, bd⟩ := h
  rw [addrs_node] at nd bd
  exact ⟨(List.nodup_append.1 (List.nodup_cons.1 nd).2).1,
    fun x hx => bd x (List.mem_cons_of_mem _ (List.mem_append_left _ hx))⟩

theorem AddrsOK_right (a : Nat) (l r : TextureNode) (b : TextureRectangle) (s : Partition)
    (u d : Bool) (A : MemoryStack) (h : AddrsOK (TextureNode.node a l r b s u d) A) :
    AddrsOK r A := by
  obtain ⟨nd, bd⟩ := h
  rw [addrs_node] at nd bd
  exact ⟨(List.nodup_append.1 (List.nodup_cons.1 nd).2).2.1,
    fun x hx => bd x (List.mem_cons_of_mem _ (List.mem_append_right _ hx))⟩

/-- The traversal keeps the tree well shaped, hands out fresh addresses, keeps the used
leaves, and returns either `nullptr` or a fresh used leaf of the extent of the image. -/
theorem traverse_placement (n : TextureNode) (A : MemoryStack) (atlas t : Texture)
    (path : List Nat) (h : TreeOK n) (hA : ArenaOK A sizeofTextureNode) (ha : AddrsOK n A)
    (ht : TexOK t)
    (hoom : (traverseTextureNodes n A atlas t path).textureNodeArena.outOfMemory = false) :
    Placement n A t (traverseTextureNodes n A atlas t path).node
      (traverseTextureNodes n A atlas t path).textureNodeArena
      (traverseTextureNodes n A atlas t path).result := by
  induction n generalizing A atlas path with
  | null => exact absurd h id
  | node a l r b s u d ihl ihr =>
    obtain ⟨atlas1, d1, tl, htl, hd1, heq⟩ := traverse_node_eq a l r b s u d A atlas t path
    rw [heq] at hoom ⊢
    have hb := h.1
    rcases h.2 with ⟨e1, e2, e3⟩ | ⟨hu, tl0, tr0, hs⟩
    · -- a leaf
      subst e1 e2 e3
      cases u with
      | false =>
        have hc : (isLeaf (TextureNode.node a TextureNode.null TextureNode.null b Partition.NONE
            false d1) && !false) = true := by simp [isLeaf]
        rw [if_pos hc] at hoom ⊢
        exact findFirstFreeBlock_placement a b d d1 A t hb hA ha ht hoom
      | true =>
        have hd := hd1 rfl
        subst hd
        have hc : ¬ (isLeaf (TextureNode.node a TextureNode.null TextureNode.null b
            Partition.NONE true d1) && !true) = true := by simp
        rw [if_neg hc] at hoom ⊢
        have htl' : tl.node = TextureNode.null ∧ tl.textureNodeArena = A ∧ tl.result = 0 := by
          rcases htl with ⟨p, e⟩ | e <;> subst e <;> simp [traverseTextureNodes]
        obtain ⟨q1, q2, q3⟩ := htl'
        have hr0 : ¬ tl.result ≠ 0 := by simp [q3]
        rw [if_neg hr0]
        simp only [q1, q2, traverseTextureNodes]
        refine ⟨TreeOK_leaf _ _ _ _ hb, rfl, rfl, hA, rfl, rfl, le_refl _, ?_, ?_, ?_,
          fun h => absurd rfl h⟩
        · simpa [AddrsOK, addrs_node] using ha
        · intro x hx; left; simpa [addrs_node] using hx
        · intro x hx
          simpa [usedLeaves_leaf] using hx
    · -- an internal node
      subst hu
      have hleaf : isLeaf (TextureNode.node a l r b s false d) = false :=
        isLeaf_of_TreeOK_children a l r b s false d tl0
      have hc : ¬ (isLeaf (TextureNode.node a l r b s false d1) && !false) = true := by
        rw [isLeaf_of_TreeOK_children a l r b s false d1 tl0]; simp
      rw [if_neg hc] at hoom ⊢
      have hoomL : tl.textureNodeArena.outOfMemory = false := by
        by_cases hres : tl.result ≠ 0
        · rw [if_pos hres] at hoom; exact hoom
        · rw [if_neg hres] at hoom; exact traverse_oom_mono _ _ _ _ _ hoom
      have pl : Placement l A t tl.node tl.textureNodeArena tl.result := by
        rcases htl with ⟨p, e⟩ | e
        · subst e
          exact ihl A atlas1 p tl0 hA (AddrsOK_left a l r b s false d A ha) hoomL
        · subst e
          exact Placement_refl l A t tl0 hA (AddrsOK_left a l r b s false d A ha)
      have har : AddrsOK r tl.textureNodeArena :=
        AddrsOK_mono r A _ (AddrsOK_right a l r b s false d A ha) pl.2.2.2.2.1 pl.2.2.2.2.2.2.1
      by_cases hres : tl.result ≠ 0
      · rw [if_pos hres] at hoom ⊢
        have pr := Placement_refl r tl.textureNodeArena t tr0 pl.2.2.2.1 har
        have := Placement_node a l r b s false d d1 A _ _ t _ _ _ _ ⟨hb, Or.inr ⟨rfl, tl0, tr0, hs⟩⟩
          hleaf ha pl pr
        rw [if_pos hres] at this
        exact this
      · rw [if_neg hres] at hoom ⊢
        have pr := ihr tl.textureNodeArena tl.textureAtlas tl.nodePath tr0 pl.2.2.2.1 har hoom
        have := Placement_node a l r b s false d d1 A _ _ t _ _ _ _ ⟨hb, Or.inr ⟨rfl, tl0, tr0, hs⟩⟩
          hleaf ha pl pr
        rw [if_neg hres] at this
        exact this

/-! ### Reads and stores through a node pointer -/

theorem deref_not_mem (n : TextureNode) (a : Nat) (h : a ∉ addrs n) :
    deref n a = TextureNode.null := by
  induction n with
  | null => rfl
  | node a1 l r b s u d ihl ihr =>
    rw [addrs_node] at h
    simp only [List.mem_cons, List.mem_append, not_or] at h
    simp only [deref]
    rw [if_neg (fun e => h.1 e.symm), ihl h.2.1, ihr h.2.2]
    simp

theorem deref_mem (n x : TextureNode) (hn : (addrs n).Nodup) (hx : x ∈ nodes n) :
    deref n x.addr = x := by
  induction n with
  | null => simp [nodes] at hx
  | node a1 l r b s u d ihl ihr =>
    rw [addrs_node] at hn
    obtain ⟨h1, h2⟩ := List.nodup_cons.1 hn
    obtain ⟨h3, h4, h5⟩ := List.nodup_append.1 h2
    simp only [nodes, List.mem_cons, List.mem_append] at hx
    simp only [deref]
    rcases hx with e | hx | hx
    · subst e; simp
    · have hm : x.addr ∈ addrs l := addr_mem_addrs x l hx
      have hne : ¬ a1 = x.addr := fun e => h1 (List.mem_append_left _ (e ▸ hm))
      rw [if_neg hne, ihl h3 hx]
      have : x ≠ TextureNode.null := fun e => null_not_mem_nodes l (e ▸ hx)
      rw [if_neg (by simpa [isNull_eq_true] using this)]
    · have hm : x.addr ∈ addrs r := addr_mem_addrs x r hx
      have hne : ¬ a1 = x.addr := fun e => h1 (List.mem_append_right _ (e ▸ hm))
      have hnl : x.addr ∉ addrs l := fun e => h5 e hm
      rw [if_neg hne, deref_not_mem l _ hnl, ihr h4 hx]
      simp

theorem nodes_addr_inj (n x y : TextureNode) (hn : (addrs n).Nodup) (hx : x ∈ nodes n)
    (hy : y ∈ nodes n) (h : x.addr = y.addr) : x = y := by
  have h1 := deref_mem n x hn hx
  have h2 := deref_mem n y hn hy
  rw [h] at h1
  exact h1.symm.trans h2

theorem storeAt_id (a : Nat) (f : TextureNode → TextureNode) (n : TextureNode)
    (h : ∀ x ∈ nodes n, x.addr = a → f x = x) : storeAt a f n = n := by
  induction n with
  | null => rfl
  | node a1 l r b s u d ihl ihr =>
    have hl : storeAt a f l = l := ihl (fun x hx => h x (by simp [nodes, hx]))
    have hr : storeAt a f r = r := ihr (fun x hx => h x (by simp [nodes, hx]))
    simp only [storeAt, hl, hr]
    split_ifs with e
    · exact h _ (by simp [nodes]) e
    · rfl

/-- A store that only touches the flags `isUsed` and `splitDir` of a leaf and leaves a
well-shaped leaf behind. -/
theorem storeAt_leaf (a : Nat) (f : TextureNode → TextureNode)
    (hf : ∀ a1 b u d, ∃ u1, f (TextureNode.node a1 TextureNode.null TextureNode.null b
      Partition.NONE u d) = TextureNode.node a1 TextureNode.null TextureNode.null b
      Partition.NONE u1 d)
    (n : TextureNode) (h : TreeOK n)
    (hleaf : ∀ x ∈ nodes n, x.addr = a → isLeaf x = true) :
    TreeOK (storeAt a f n) ∧ (storeAt a f n).block = n.block ∧
    addrs (storeAt a f n) = addrs n ∧
    (∀ y ∈ usedLeaves n, y.addr ≠ a → y ∈ usedLeaves (storeAt a f n)) ∧
    (∀ x ∈ nodes (storeAt a f n), x.addr = a → isLeaf x = true) := by
  induction n with
  | null => exact absurd h id
  | node a1 l r b s u d ihl ihr =>
    obtain ⟨hb, hc⟩ := h
    rcases hc with ⟨e1, e2, e3⟩ | ⟨hu, tl, tr, hs⟩
    · subst e1 e2 e3
      simp only [storeAt]
      obtain ⟨u1, hu1⟩ := hf a1 b u d
      split_ifs with e
      · rw [hu1]
        refine ⟨TreeOK_leaf _ _ _ _ hb, rfl, by simp [addrs_node], ?_, ?_⟩
        · intro y hy hne
          cases u <;> simp [usedLeaves_leaf] at hy
          subst hy
          exact absurd e hne
        · intro x hx _
          simp only [nodes_leaf, List.mem_singleton] at hx
          subst hx
          simp [isLeaf]
      · refine ⟨TreeOK_leaf _ _ _ _ hb, rfl, rfl, fun y hy _ => hy, ?_⟩
        intro x hx _
        simp only [nodes_leaf, List.mem_singleton] at hx
        subst hx
        simp [isLeaf]
    · have hne : ¬ a1 = a := by
        intro e
        have := hleaf (TextureNode.node a1 l r b s u d) (by simp [nodes]) e
        rw [isLeaf_of_TreeOK_children a1 l r b s u d tl] at this
        cases this
      obtain ⟨l1, l2, l3, l4, l5⟩ := ihl tl (fun x hx => hleaf x (by simp [nodes, hx]))
      obtain ⟨r1, r2, r3, r4, r5⟩ := ihr tr (fun x hx => hleaf x (by simp [nodes, hx]))
      simp only [storeAt, if_neg hne]
      have hil : isLeaf (TextureNode.node a1 l r b s u d) = false :=
        isLeaf_of_TreeOK_children a1 l r b s u d tl
      have hil1 : isLeaf (TextureNode.node a1 (storeAt a f l) (storeAt a f r) b s u d) = false :=
        isLeaf_of_TreeOK_children _ _ _ _ _ _ _ l1
      refine ⟨⟨hb, Or.inr ⟨hu, l1, r1, by rw [l2, r2]; exact hs⟩⟩, rfl, ?_, ?_, ?_⟩
      · rw [addrs_node, addrs_node, l3, r3]
      · intro y hy hya
        rw [usedLeaves_internal _ _ _ _ _ _ _ hil] at hy
        rw [usedLeaves_internal _ _ _ _ _ _ _ hil1]
        rcases List.mem_append.1 hy with hy | hy
        · exact List.mem_append_left _ (l4 y hy hya)
        · exact List.mem_append_right _ (r4 y hy hya)
      · intro x hx hxa
        simp only [nodes, List.mem_cons, List.mem_append] at hx
        rcases hx with e | hx | hx
        · subst e; exact absurd hxa hne
        · exact l5 x hx hxa
        · exact r5 x hx hxa

/-! ### Root expansion keeps the tree well shaped -/

theorem expandRootVertically_ok (n : TextureNode) (A : MemoryStack) (h : Nat)
    (hn : TreeOK n) (ho : n.block.left = 0 ∧ n.block.top = 0)
    (hA : ArenaOK A sizeofTextureNode) (ha : AddrsOK n A) (h1 : 1 ≤ h)
    (hfit : n.block.height + h < 65536)
    (hoom : (expandRootVertically n A h).2.outOfMemory = false) :
    TreeOK (expandRootVertically n A h).1 ∧
    (expandRootVertically n A h).1.block.left = 0 ∧
    (expandRootVertically n A h).1.block.top = 0 ∧
    ArenaOK (expandRootVertically n A h).2 sizeofTextureNode ∧
    AddrsOK (expandRootVertically n A h).1 (expandRootVertically n A h).2 ∧
    (∀ y ∈ usedLeaves n, y ∈ usedLeaves (expandRootVertically n A h).1) ∧
    (expandRootVertically n A h).1.block.width = n.block.width ∧
    (expandRootVertically n A h).1.block.height = n.block.height + h := by
  have hsz : sizeofTextureNode = 40 := rfl
  have hr := TreeOK_rect n hn
  obtain ⟨p1, p2, aok, pb, pbase, pmax, ptop⟩ := push2_ok A _ (by decide) hA hoom
  obtain ⟨nd, bd⟩ := ha
  obtain ⟨o1, o2⟩ := ho
  simp only [RectOK] at hr
  have e1 : u16 ((n.block.height : Int) + (h : Int)) = n.block.height + h := by
    unfold u16; omega
  have e2 : u16 (((n.block.height + h : Nat) : Int) - 1) = n.block.height + h - 1 := by
    unfold u16; omega
  have e3 : u16 ((n.block.height : Int) + (h : Int) - 1) = n.block.height + h - 1 := by
    unfold u16; omega
  have hleaf : isLeaf (expandRootVertically n A h).1 = false := by
    simp [expandRootVertically, isLeaf]
  simp only [expandRootVertically, p1, p2, e1, e2, e3] at hleaf ⊢
  refine ⟨⟨?_, Or.inr ⟨rfl, hn, TreeOK_leaf _ _ _ _ ?_, ?_⟩⟩, o1, o2, aok, ⟨?_, ?_⟩, ?_, rfl, rfl⟩
  · simp only [RectOK]; omega
  · simp only [RectOK]; omega
  · simp only [SplitOK, block_node, true_and, and_true, reduceCtorEq, false_and, or_false]
    omega
  · rw [addrs_node]
    simp only [addrs_node, addrs_null, List.append_nil, List.nodup_cons, List.mem_append,
      List.mem_singleton, List.nodup_append, List.nodup_nil, List.not_mem_nil,
      not_false_eq_true, and_true, List.disjoint_singleton, not_or]
    have t1 : arenaTop A ∉ addrs n := fun hm => by have := (bd _ hm).2; omega
    have t2 : arenaTop A + sizeofTextureNode ∉ addrs n := fun hm => by
      have := (bd _ hm).2; omega
    refine ⟨⟨t1, by omega⟩, nd, ?_⟩
    simpa [List.Disjoint] using t2
  · intro x hx
    rw [addrs_node] at hx
    simp only [addrs_node, addrs_null, List.append_nil, List.mem_cons, List.mem_append,
      List.not_mem_nil, or_false] at hx
    simp only [arenaTop] at *
    rcases hx with e | hx | e
    · omega
    · have := bd x hx; omega
    · omega
  · intro y hy
    rw [usedLeaves_internal _ _ _ _ _ _ _ hleaf]
    exact List.mem_append_left _ hy

theorem expandRootHorizontally_ok (n : TextureNode) (A : MemoryStack) (w : Nat)
    (hn : TreeOK n) (ho : n.block.left = 0 ∧ n.block.top = 0)
    (hA : ArenaOK A sizeofTextureNode) (ha : AddrsOK n A) (h1 : 1 ≤ w)
    (hfit : n.block.width + w < 65536)
    (hoom : (expandRootHorizontally n A w).2.outOfMemory = false) :
    TreeOK (expandRootHorizontally n A w).1 ∧
    (expandRootHorizontally n A w).1.block.left = 0 ∧
    (expandRootHorizontally n A w).1.block.top = 0 ∧
    ArenaOK (expandRootHorizontally n A w).2 sizeofTextureNode ∧
    AddrsOK (expandRootHorizontally n A w).1 (expandRootHorizontally n A w).2 ∧
    (∀ y ∈ usedLeaves n, y ∈ usedLeaves (expandRootHorizontally n A w).1) ∧
    (expandRootHorizontally n A w).1.block.width = n.block.width + w ∧
    (expandRootHorizontally n A w).1.block.height = n.block.height := by
  have hsz : sizeofTextureNode = 40 := rfl
  have hr := TreeOK_rect n hn
  obtain ⟨p1, p2, aok, pb, pbase, pmax, ptop⟩ := push2_ok A _ (by decide) hA hoom
  obtain ⟨nd, bd⟩ := ha
  obtain ⟨o1, o2⟩ := ho
  simp only [RectOK] at hr
  have e1 : u16 ((n.block.width : Int) + (w : Int)) = n.block.width + w := by
    unfold u16; omega
  have e2 : u16 (((n.block.width + w : Nat) : Int) - 1) = n.block.width + w - 1 := by
    unfold u16; omega
  have e3 : u16 ((n.block.width : Int) + (w : Int) - 1) = n.block.width + w - 1 := by
    unfold u16; omega
  have hleaf : isLeaf (expandRootHorizontally n A w).1 = false := by
    simp [expandRootHorizontally, isLeaf]
  simp only [expandRootHorizontally, p1, p2, e1, e2, e3] at hleaf ⊢
  refine ⟨⟨?_, Or.inr ⟨rfl, hn, TreeOK_leaf _ _ _ _ ?_, ?_⟩⟩, o1, o2, aok, ⟨?_, ?_⟩, ?_, rfl, rfl⟩
  · simp only [RectOK]; omega
  · simp only [RectOK]; omega
  · simp only [SplitOK, block_node, true_and, and_true, reduceCtorEq, false_and, false_or]
    omega
  · rw [addrs_node]
    simp only [addrs_node, addrs_null, List.append_nil, List.nodup_cons, List.mem_append,
      List.mem_singleton, List.nodup_append, List.nodup_nil, List.not_mem_nil,
      not_false_eq_true, and_true, List.disjoint_singleton, not_or]
    have t1 : arenaTop A ∉ addrs n := fun hm => by have := (bd _ hm).2; omega
    have t2 : arenaTop A + sizeofTextureNode ∉ addrs n := fun hm => by
      have := (bd _ hm).2; omega
    refine ⟨⟨t1, by omega⟩, nd, ?_⟩
    simpa [List.Disjoint] using t2
  · intro x hx
    rw [addrs_node] at hx
    simp only [addrs_node, addrs_null, List.append_nil, List.mem_cons, List.mem_append,
      List.not_mem_nil, or_false] at hx
    simp only [arenaTop] at *
    rcases hx with e | hx | e
    · omega
    · have := bd x hx; omega
    · omega
  · intro y hy
    rw [usedLeaves_internal _ _ _ _ _ _ _ hleaf]
    exact List.mem_append_left _ hy

/-! ### The circular list of the LRU cache -/

theorem insertAsFirstIntoList_apply (mem : Nat → LRUNode) (s e : Nat) (hes : e ≠ s)
    (x : Nat) :
    insertAsFirstIntoList mem s e x =
      if x = (mem s).next then
        (if x = s then ⟨(mem s).textureNode, (mem s).texture, e, e⟩
         else if x = e then ⟨(mem e).textureNode, (mem e).texture, e, (mem s).next⟩
         else { mem x with prev := e })
      else if x = s then { mem s with next := e }
      else if x = e then ⟨(mem e).textureNode, (mem e).texture, s, (mem s).next⟩
      else mem x := by
  have hse : s ≠ e := fun h => hes h.symm
  simp only [insertAsFirstIntoList, Function.update_apply, if_neg hse, if_neg hes, if_true]
  by_cases c2 : x = s
  · subst c2
    by_cases c1 : x = (mem x).next
    · simp [← c1, hse]
    · simp [c1, hse, Ne.symm c1]
  · by_cases c3 : x = e
    · subst c3
      by_cases c1 : x = (mem s).next
      · simp [← c1, c2]
      · simp [c1, c2]
    · by_cases c1 : x = (mem s).next
      · simp [← c1, c2, c3]
      · simp [c1, c2, c3]

theorem insertAsFirstIntoList_fields (mem : Nat → LRUNode) (s e : Nat) (hes : e ≠ s)
    (x : Nat) :
    (insertAsFirstIntoList mem s e x).texture = (mem x).texture ∧
    (insertAsFirstIntoList mem s e x).textureNode = (mem x).textureNode := by
  rw [insertAsFirstIntoList_apply mem s e hes x]
  by_cases c1 : x = (mem s).next
  · rw [if_pos c1]
    by_cases c2 : x = s
    · rw [if_pos c2, c2]; exact ⟨rfl, rfl⟩
    · rw [if_neg c2]
      by_cases c3 : x = e
      · rw [if_pos c3, c3]; exact ⟨rfl, rfl⟩
      · rw [if_neg c3]; exact ⟨rfl, rfl⟩
  · rw [if_neg c1]
    by_cases c2 : x = s
    · rw [if_pos c2, c2]; exact ⟨rfl, rfl⟩
    · rw [if_neg c2]
      by_cases c3 : x = e
      · rw [if_pos c3, c3]; exact ⟨rfl, rfl⟩
      · rw [if_neg c3]; exact ⟨rfl, rfl⟩

theorem insertAsFirstIntoList_links (mem : Nat → LRUNode) (s e : Nat) (hes : e ≠ s)
    (hfe : (mem s).next ≠ e) (x : Nat) :
    (insertAsFirstIntoList mem s e x).next
      = (if x = s then e else if x = e then (mem s).next else (mem x).next) ∧
    (insertAsFirstIntoList mem s e x).prev
      = (if x = (mem s).next then e else if x = e then s else (mem x).prev) := by
  rw [insertAsFirstIntoList_apply mem s e hes x]
  by_cases c1 : x = (mem s).next
  · have c3 : x ≠ e := fun h => hfe (c1 ▸ h)
    rw [if_pos c1, if_pos c1, if_neg c3, if_neg c3]
    by_cases c2 : x = s
    · rw [if_pos c2, if_pos c2]; exact ⟨rfl, rfl⟩
    · rw [if_neg c2, if_neg c2]; exact ⟨rfl, rfl⟩
  · rw [if_neg c1, if_neg c1]
    by_cases c2 : x = s
    · have c3 : x ≠ e := fun h => hes (h ▸ c2)
      rw [if_pos c2, if_pos c2, if_neg (c2 ▸ c3)]; subst c2; exact ⟨rfl, rfl⟩
    · rw [if_neg c2, if_neg c2]
      by_cases c3 : x = e
      · rw [if_pos c3, if_pos c3, if_pos c3]; exact ⟨rfl, rfl⟩
      · rw [if_neg c3, if_neg c3, if_neg c3]; exact ⟨rfl, rfl⟩

theorem removeLRUFromList_fields (mem : Nat → LRUNode) (s : Nat) (x : Nat) :
    (removeLRUFromList mem s x).texture = (mem x).texture ∧
    (removeLRUFromList mem s x).textureNode = (mem x).textureNode := by
  simp only [removeLRUFromList, Function.update_apply]
  by_cases c1 : x = s
  · subst c1
    by_cases c2 : x = (mem (mem x).prev).prev
    · simp [← c2]
    · simp [c2]
  · by_cases c2 : x = (mem (mem s).prev).prev
    · simp [c1, ← c2]
    · simp [c1, c2]

theorem Linked_congr (mem mem1 : Nat → LRUNode) (l : List Nat) (p q : Nat)
    (hn : ∀ x ∈ p :: l, (mem1 x).next = (mem x).next)
    (hp : ∀ x ∈ l ++ [q], (mem1 x).prev = (mem x).prev)
    (h : Linked mem p l q) : Linked mem1 p l q := by
  induction l generalizing p with
  | nil =>
    obtain ⟨h1, h2⟩ := h
    exact ⟨by rw [hn p (by simp), h1], by rw [hp q (by simp), h2]⟩
  | cons x xs ih =>
    obtain ⟨h1, h2, h3⟩ := h
    refine ⟨by rw [hn p (by simp), h1], by rw [hp x (by simp), h2], ih x ?_ ?_ h3⟩
    · intro y hy; exact hn y (List.mem_cons_of_mem _ hy)
    · intro y hy; exact hp y (by simp only [List.cons_append, List.mem_cons]; exact Or.inr hy)

theorem Linked_snoc (mem : Nat → LRUNode) (l : List Nat) (p x q : Nat) :
    Linked mem p (l ++ [x]) q ↔ Linked mem p l x ∧ (mem x).next = q ∧ (mem q).prev = x := by
  induction l generalizing p with
  | nil => simp [Linked, and_assoc]
  | cons y ys ih => simp [Linked, ih, and_assoc]

theorem Linked_prev_mem (mem : Nat → LRUNode) (l : List Nat) (p q : Nat)
    (h : Linked mem p l q) : (mem q).prev ∈ p :: l := by
  induction l generalizing p with
  | nil => rw [h.2]; simp
  | cons x xs ih => exact List.mem_cons_of_mem _ (ih x h.2.2)

theorem lruWalk_of_Linked (mem : Nat → LRUNode) (s : Nat) (l : List Nat) (p : Nat)
    (fuel : Nat) (h : Linked mem p l s) (hs : s ∉ l) (hf : l.length ≤ fuel) :
    lruWalk mem s fuel (mem p).next = some l := by
  induction l generalizing p fuel with
  | nil =>
    rw [h.1]
    cases fuel <;> simp [lruWalk]
  | cons x xs ih =>
    obtain ⟨h1, h2, h3⟩ := h
    rw [h1]
    have hx : x ≠ s := fun e => hs (by simp [e])
    cases fuel with
    | zero => simp at hf
    | succ n =>
      simp only [lruWalk, if_neg hx]
      rw [ih x n h3 (fun e => hs (List.mem_cons_of_mem _ e)) (by simpa using hf)]
      rfl

theorem lruWalk_of_Ring (mem : Nat → LRUNode) (s : Nat) (l : List Nat) (fuel : Nat)
    (h : Ring mem s l) (hf : l.length ≤ fuel) :
    lruWalk mem s fuel (mem s).next = some l :=
  lruWalk_of_Linked mem s l s fuel h.2 (List.nodup_cons.1 h.1).1 hf

theorem Ring_insert (mem : Nat → LRUNode) (s e : Nat) (l : List Nat) (h : Ring mem s l)
    (he : e ∉ s :: l) : Ring (insertAsFirstIntoList mem s e) s (e :: l) := by
  obtain ⟨nd, lk⟩ := h
  have hes : e ≠ s := fun h => he (by simp [h])
  have hel : e ∉ l := fun h => he (List.mem_cons_of_mem _ h)
  obtain ⟨hsl, ndl⟩ := List.nodup_cons.1 nd
  have hfmem : (mem s).next ∈ s :: l := by
    cases l with
    | nil => rw [lk.1]; simp
    | cons x xs => rw [lk.1]; simp
  have hfe : (mem s).next ≠ e := fun h => he (h ▸ hfmem)
  have links := insertAsFirstIntoList_links mem s e hes hfe
  refine ⟨?_, ?_⟩
  · refine List.nodup_cons.2 ⟨?_, List.nodup_cons.2 ⟨hel, ndl⟩⟩
    simp only [List.mem_cons, not_or]
    exact ⟨fun h => hes h.symm, hsl⟩
  · refine ⟨?_, ?_, ?_⟩
    · rw [(links s).1]; simp
    · rw [(links e).2, if_neg (fun h => hfe h.symm)]; simp
    · cases l with
      | nil =>
        obtain ⟨h1, h2⟩ := lk
        refine ⟨?_, ?_⟩
        · rw [(links e).1, if_neg hes]; simp [h1]
        · rw [(links s).2, h1]; simp
      | cons x xs =>
        obtain ⟨h1, h2, h3⟩ := lk
        have hxs : x ≠ s := fun h => hsl (by simp [h])
        have hxe : x ≠ e := fun h => hel (by simp [h])
        refine ⟨?_, ?_, ?_⟩
        · rw [(links e).1, if_neg hes]; simp [h1]
        · rw [(links x).2, h1]; simp
        · refine Linked_congr mem _ xs x s ?_ ?_ h3
          · intro y hy
            have hys : y ≠ s := fun h => hsl (h ▸ hy)
            have hye : y ≠ e := fun h => hel (h ▸ hy)
            rw [(links y).1, if_neg hys, if_neg hye]
          · intro y hy
            have hyx : y ≠ x := by
              intro h
              subst h
              rcases List.mem_append.1 hy with hy | hy
              · exact (List.nodup_cons.1 ndl).1 hy
              · simp at hy; exact hxs hy
            have hye : y ≠ e := by
              intro h
              subst h
              rcases List.mem_append.1 hy with hy | hy
              · exact hel (List.mem_cons_of_mem _ hy)
              · simp at hy; exact hes hy
            rw [(links y).2, h1, if_neg hyx, if_neg hye]

theorem removeLRUFromList_links (mem : Nat → LRUNode) (s : Nat) (x : Nat) :
    (removeLRUFromList mem s x).next
      = (if x = (mem (mem s).prev).prev then s else (mem x).next) ∧
    (removeLRUFromList mem s x).prev
      = (if x = s then (mem (mem s).prev).prev else (mem x).prev) := by
  have hp : ∀ y, (Function.update mem (mem (mem s).prev).prev
      { mem (mem (mem s).prev).prev with next := s } y).prev = (mem y).prev := by
    intro y
    by_cases c : y = (mem (mem s).prev).prev
    · simp [Function.update_apply, ← c]
    · simp [Function.update_apply, c]
  simp only [removeLRUFromList, hp]
  by_cases c1 : x = s
  · subst c1
    by_cases c2 : x = (mem (mem x).prev).prev
    · simp [Function.update_apply, ← c2]
    · simp [Function.update_apply, c2]
  · by_cases c2 : x = (mem (mem s).prev).prev
    · simp [Function.update_apply, c1, ← c2]
    · simp [Function.update_apply, c1, c2]

theorem Linked_retarget (mem mem1 : Nat → LRUNode) (l : List Nat) (p t s : Nat)
    (h : Linked mem p l t) (hnd : (p :: l).Nodup)
    (h1 : (mem1 (mem t).prev).next = s) (h2 : (mem1 s).prev = (mem t).prev)
    (h3 : ∀ y ∈ p :: l, y ≠ (mem t).prev → (mem1 y).next = (mem y).next)
    (h4 : ∀ y ∈ l, (mem1 y).prev = (mem y).prev) : Linked mem1 p l s := by
  induction l generalizing p with
  | nil =>
    obtain ⟨a1, a2⟩ := h
    rw [a2] at h1 h2
    exact ⟨h1, h2⟩
  | cons x xs ih =>
    obtain ⟨a1, a2, a3⟩ := h
    obtain ⟨n1, n2⟩ := List.nodup_cons.1 hnd
    have hq : (mem t).prev ∈ x :: xs := Linked_prev_mem mem xs x t a3
    have hpq : p ≠ (mem t).prev := fun e => n1 (e ▸ hq)
    refine ⟨by rw [h3 p (by simp) hpq, a1], by rw [h4 x (by simp), a2], ?_⟩
    exact ih x a3 n2 (fun y hy => h3 y (List.mem_cons_of_mem _ hy))
      (fun y hy => h4 y (List.mem_cons_of_mem _ hy))

theorem Ring_remove (mem : Nat → LRUNode) (s t : Nat) (l : List Nat)
    (h : Ring mem s (l ++ [t])) :
    (mem s).prev = t ∧ Ring (removeLRUFromList mem s) s l := by
  obtain ⟨nd, lk⟩ := h
  obtain ⟨lk1, lk2, lk3⟩ := (Linked_snoc mem l s t s).1 lk
  have nd1 : (s :: l).Nodup := by
    have : ((s :: l) ++ [t]).Nodup := nd
    exact (List.nodup_append.1 this).1
  have hs : s ∉ l := (List.nodup_cons.1 nd1).1
  refine ⟨lk3, nd1, ?_⟩
  have links := removeLRUFromList_links mem s
  rw [lk3] at links
  refine Linked_retarget mem _ l s t s lk1 nd1 ?_ ?_ ?_ ?_
  · rw [(links _).1]; simp
  · rw [(links _).2]; simp
  · intro y _ hy
    rw [(links y).1, if_neg hy]
  · intro y hy
    have : y ≠ s := fun e => hs (e ▸ hy)
    rw [(links y).2, if_neg this]

/-! ### The cache operations on a well-formed list -/

theorem lookup_eq_none (m : List (Option Nat × Nat)) (k : Option Nat)
    (h : ∀ e ∈ m, e.1 ≠ k) : m.lookup k = none := by
  induction m with
  | nil => rfl
  | cons x xs ih =>
    obtain ⟨a, b⟩ := x
    have hx : a ≠ k := h (a, b) (by simp)
    have hne : (k == a) = false := by
      simp only [beq_eq_false_iff_ne, ne_eq]
      exact fun e => hx e.symm
    simp only [List.lookup, hne]
    exact ih (fun e he => h e (List.mem_cons_of_mem _ he))

theorem mem_hashErase (m : List (Option Nat × Nat)) (k : Option Nat) (e : Option Nat × Nat)
    (h : e ∈ hashErase m k) : e ∈ m := by
  simp only [hashErase, List.mem_filter] at h
  exact h.1

theorem insertIntoLRUCache_new (tn : Nat) (tex : Option Nat) (cache : LRUCache) (W H : Nat)
    (tree : TextureNode) (L : List Nat)
    (hlook : cache.hashLookup.lookup tex = none)
    (hA : ArenaOK cache.arena sizeofLRUNode)
    (hring : Ring cache.mem cache.sentinel L)
    (hb : ∀ x ∈ cache.sentinel :: L, x < arenaTop cache.arena)
    (hoom : (insertIntoLRUCache tn tex cache W H tree).1.arena.outOfMemory = false) :
    (insertIntoLRUCache tn tex cache W H tree).1.sentinel = cache.sentinel ∧
    Ring (insertIntoLRUCache tn tex cache W H tree).1.mem cache.sentinel
      (arenaTop cache.arena :: L) ∧
    ArenaOK (insertIntoLRUCache tn tex cache W H tree).1.arena sizeofLRUNode ∧
    (∀ x ∈ cache.sentinel :: arenaTop cache.arena :: L,
      x < arenaTop (insertIntoLRUCache tn tex cache W H tree).1.arena) ∧
    ((insertIntoLRUCache tn tex cache W H tree).1.mem (arenaTop cache.arena)).texture = tex ∧
    ((insertIntoLRUCache tn tex cache W H tree).1.mem (arenaTop cache.arena)).textureNode
      = tn ∧
    (∀ x, x ≠ arenaTop cache.arena →
      ((insertIntoLRUCache tn tex cache W H tree).1.mem x).texture = (cache.mem x).texture ∧
      ((insertIntoLRUCache tn tex cache W H tree).1.mem x).textureNode
        = (cache.mem x).textureNode) ∧
    (insertIntoLRUCache tn tex cache W H tree).1.hashLookup
      = (tex, arenaTop cache.arena) :: hashErase cache.hashLookup tex ∧
    (insertIntoLRUCache tn tex cache W H tree).2 = storeAt tn (setIsUsed true) tree ∧
    (insertIntoLRUCache tn tex cache W H tree).1.atlasWidth = W ∧
    (insertIntoLRUCache tn tex cache W H tree).1.atlasHeight = H ∧
    (insertIntoLRUCache tn tex cache W H tree).1.nodeCount
      = u32 ((cache.nodeCount : Int) + 1) := by
  have hsz : sizeofLRUNode = 32 := rfl
  have hoom1 : (_Push_ cache.arena sizeofLRUNode).2.outOfMemory = false := by
    simpa only [insertIntoLRUCache, hlook] using hoom
  obtain ⟨p1, p2, p3, p4, p5, _⟩ := push_ok cache.arena sizeofLRUNode (by decide) hA hoom1
  have he : arenaTop cache.arena ∉ cache.sentinel :: L := fun hm => by
    have := hb _ hm; omega
  have hes : arenaTop cache.arena ≠ cache.sentinel := fun e => he (by simp [e])
  have heq : insertIntoLRUCache tn tex cache W H tree =
      ({ cache with
          arena := (_Push_ cache.arena sizeofLRUNode).2
          mem := insertAsFirstIntoList
            (Function.update cache.mem (arenaTop cache.arena)
              { textureNode := tn, texture := tex,
                prev := (cache.mem (arenaTop cache.arena)).prev,
                next := (cache.mem (arenaTop cache.arena)).next })
            cache.sentinel (arenaTop cache.arena)
          nodeCount := u32 ((cache.nodeCount : Int) + 1)
          atlasWidth := W
          atlasHeight := H
          hashLookup := (tex, arenaTop cache.arena) :: hashErase cache.hashLookup tex },
        storeAt tn (setIsUsed true) tree) := by
    simp only [insertIntoLRUCache, hlook, p1, Function.update_idem, Function.update_same]
  rw [heq]
  dsimp only
  have hring2 : Ring (Function.update cache.mem (arenaTop cache.arena)
      { textureNode := tn, texture := tex,
        prev := (cache.mem (arenaTop cache.arena)).prev,
        next := (cache.mem (arenaTop cache.arena)).next }) cache.sentinel L := by
    refine ⟨hring.1, Linked_congr cache.mem _ L _ _ ?_ ?_ hring.2⟩
    · intro x hx
      rw [Function.update_noteq (fun e => he (by rw [← e]; exact hx))]
    · intro x hx
      have : x ∈ cache.sentinel :: L := by
        rcases List.mem_append.1 hx with h | h
        · exact List.mem_cons_of_mem _ h
        · simp at h; simp [h]
      rw [Function.update_noteq (fun e => he (by rw [← e]; exact this))]
  refine ⟨rfl, Ring_insert _ _ _ _ hring2 he, p2, ?_, ?_, ?_, ?_, rfl, rfl, rfl, rfl, rfl⟩
  · intro x hx
    simp only [arenaTop, p3, p4] at *
    rcases List.mem_cons.1 hx with e | hx
    · have := hb x (by simp [e]); omega
    · rcases List.mem_cons.1 hx with e | hx
      · omega
      · have := hb x (List.mem_cons_of_mem _ hx); omega
  · rw [(insertAsFirstIntoList_fields _ _ _ hes _).1, Function.update_same]
  · rw [(insertAsFirstIntoList_fields _ _ _ hes _).2, Function.update_same]
  · intro x hx
    rw [(insertAsFirstIntoList_fields _ _ _ hes _).1, (insertAsFirstIntoList_fields _ _ _ hes _).2,
      Function.update_noteq hx]
    exact ⟨rfl, rfl⟩

theorem removeLRUFromCache_cases (cache : LRUCache) (path : List Nat) (tree : TextureNode)
    (L : List Nat) (hring : Ring cache.mem cache.sentinel L)
    (hst : (cache.mem cache.sentinel).texture = none)
    (hkeys : ∀ e ∈ cache.hashLookup, e.1 ≠ none) :
    removeLRUFromCache cache path tree = ⟨0, cache, path, tree⟩ ∨
    ∃ L0 t, L = L0 ++ [t] ∧ (cache.mem cache.sentinel).prev = t ∧ cache.nodeCount ≠ 0 ∧
      (cache.hashLookup.lookup (cache.mem t).texture).isSome = true ∧
      removeLRUFromCache cache path tree =
        ⟨t,
         { cache with
            hashLookup := hashErase cache.hashLookup (cache.mem t).texture
            mem := removeLRUFromList cache.mem cache.sentinel
            nodeCount := u32 ((cache.nodeCount : Int) - 1) },
         [],
         storeAt (cache.mem t).textureNode (setSplitDir Partition.NONE)
           (storeAt (cache.mem t).textureNode (setIsUsed false) tree)⟩ ∧
      Ring (removeLRUFromList cache.mem cache.sentinel) cache.sentinel L0 := by
  by_cases h1 : cache.nodeCount ≠ 0
  swap
  · left
    simp only [removeLRUFromCache, h1, if_false]
  by_cases h2 : (cache.hashLookup.lookup
      (cache.mem (cache.mem cache.sentinel).prev).texture).isSome = true
  swap
  · left
    simp only [removeLRUFromCache, h1, h2, if_true, if_false]
    simp
  right
  rcases List.eq_nil_or_concat L with e | ⟨L0, t, e⟩
  · subst e
    have : (cache.mem cache.sentinel).prev = cache.sentinel := hring.2.2
    rw [this, hst, lookup_eq_none _ _ hkeys] at h2
    simp at h2
  · rw [List.concat_eq_append] at e
    subst e
    obtain ⟨e1, r1⟩ := Ring_remove cache.mem cache.sentinel t L0 hring
    have h1n : ¬ cache.nodeCount = 0 := h1
    rw [e1] at h2
    refine ⟨L0, t, rfl, e1, h1, h2, ?_, r1⟩
    simp only [removeLRUFromCache, e1]
    rw [if_pos h1, if_pos h2]

/-! ### One iteration of the pack loop, case by case -/

theorem packStep_done (s : PackState) (h : ¬ s.textureIndex < s.textureCount) :
    packStep s = s := by
  simp only [packStep, h, if_false]

theorem packStep_placed (s : PackState) (hidx : s.textureIndex < s.textureCount)
    (hres : (traverseTextureNodes s.root s.textureNodeArena s.textureAtlas
      (s.textures.getD s.textureIndex default) []).result ≠ 0) :
    packStep s =
      { s with
        textures := s.textures.set s.textureIndex
          { s.textures.getD s.textureIndex default with
            x := (deref (traverseTextureNodes s.root s.textureNodeArena s.textureAtlas
              (s.textures.getD s.textureIndex default) []).node
              (traverseTextureNodes s.root s.textureNodeArena s.textureAtlas
              (s.textures.getD s.textureIndex default) []).result).block.left
            y := (deref (traverseTextureNodes s.root s.textureNodeArena s.textureAtlas
              (s.textures.getD s.textureIndex default) []).node
              (traverseTextureNodes s.root s.textureNodeArena s.textureAtlas
              (s.textures.getD s.textureIndex default) []).result).block.top }
        textureNodeArena := (traverseTextureNodes s.root s.textureNodeArena s.textureAtlas
          (s.textures.getD s.textureIndex default) []).textureNodeArena
        textureAtlas := (traverseTextureNodes s.root s.textureNodeArena s.textureAtlas
          (s.textures.getD s.textureIndex default) []).textureAtlas
        textureIndex := s.textureIndex + 1
        cache := (insertIntoLRUCache
          (traverseTextureNodes s.root s.textureNodeArena s.textureAtlas
            (s.textures.getD s.textureIndex default) []).result
          (some s.textureIndex) s.cache s.root.block.width s.root.block.height
          (traverseTextureNodes s.root s.textureNodeArena s.textureAtlas
            (s.textures.getD s.textureIndex default) []).node).1
        root := (insertIntoLRUCache
          (traverseTextureNodes s.root s.textureNodeArena s.textureAtlas
            (s.textures.getD s.textureIndex default) []).result
          (some s.textureIndex) s.cache s.root.block.width s.root.block.height
          (traverseTextureNodes s.root s.textureNodeArena s.textureAtlas
            (s.textures.getD s.textureIndex default) []).node).2 } := by
  simp only [packStep, hidx, if_true, hres, ne_eq, not_false_eq_true, (traverse_block _ _ _ _ _).1]

theorem packStep_noplace (s : PackState) (hidx : s.textureIndex < s.textureCount)
    (hres : (traverseTextureNodes s.root s.textureNodeArena s.textureAtlas
      (s.textures.getD s.textureIndex default) []).result = 0) :
    packStep s =
      if u16 ((s.root.block.height : Int) + (s.textures.getD s.textureIndex default).height)
            < u16 ((s.root.block.width : Int) + (s.textures.getD s.textureIndex default).width) ∧
          u16 ((s.root.block.height : Int) + (s.textures.getD s.textureIndex default).height)
            ≤ s.maxAtlasWidth then
        { s with
          textureNodeArena := (expandRootVertically
            (traverseTextureNodes s.root s.textureNodeArena s.textureAtlas
              (s.textures.getD s.textureIndex default) []).node
            (traverseTextureNodes s.root s.textureNodeArena s.textureAtlas
              (s.textures.getD s.textureIndex default) []).textureNodeArena
            (s.textures.getD s.textureIndex default).height).2
          textureAtlas := (traverseTextureNodes s.root s.textureNodeArena s.textureAtlas
            (s.textures.getD s.textureIndex default) []).textureAtlas
          root := (expandRootVertically
            (traverseTextureNodes s.root s.textureNodeArena s.textureAtlas
              (s.textures.getD s.textureIndex default) []).node
            (traverseTextureNodes s.root s.textureNodeArena s.textureAtlas
              (s.textures.getD s.textureIndex default) []).textureNodeArena
            (s.textures.getD s.textureIndex default).height).1 }
      else if u16 ((s.root.block.height : Int)
              + (s.textures.getD s.textureIndex default).height)
            ≥ u16 ((s.root.block.width : Int) + (s.textures.getD s.textureIndex default).width) ∧
          u16 ((s.root.block.width : Int) + (s.textures.getD s.textureIndex default).width)
            ≤ s.maxAtlasHeight then
        { s with
          textureNodeArena := (expandRootHorizontally
            (traverseTextureNodes s.root s.textureNodeArena s.textureAtlas
              (s.textures.getD s.textureIndex default) []).node
            (traverseTextureNodes s.root s.textureNodeArena s.textureAtlas
              (s.textures.getD s.textureIndex default) []).textureNodeArena
            (s.textures.getD s.textureIndex default).width).2
          textureAtlas := (traverseTextureNodes s.root s.textureNodeArena s.textureAtlas
            (s.textures.getD s.textureIndex default) []).textureAtlas
          root := (expandRootHorizontally
            (traverseTextureNodes s.root s.textureNodeArena s.textureAtlas
              (s.textures.getD s.textureIndex default) []).node
            (traverseTextureNodes s.root s.textureNodeArena s.textureAtlas
              (s.textures.getD s.textureIndex default) []).textureNodeArena
            (s.textures.getD s.textureIndex default).width).1 }
      else
        { s with
          textureNodeArena := (traverseTextureNodes s.root s.textureNodeArena s.textureAtlas
            (s.textures.getD s.textureIndex default) []).textureNodeArena
          textureAtlas := (traverseTextureNodes s.root s.textureNodeArena s.textureAtlas
            (s.textures.getD s.textureIndex default) []).textureAtlas
          cache := (removeLRUFromCache s.cache
            (traverseTextureNodes s.root s.textureNodeArena s.textureAtlas
              (s.textures.getD s.textureIndex default) []).nodePath
            (traverseTextureNodes s.root s.textureNodeArena s.textureAtlas
              (s.textures.getD s.textureIndex default) []).node).cache
          root := (removeLRUFromCache s.cache
            (traverseTextureNodes s.root s.textureNodeArena s.textureAtlas
              (s.textures.getD s.textureIndex default) []).nodePath
            (traverseTextureNodes s.root s.textureNodeArena s.textureAtlas
              (s.textures.getD s.textureIndex default) []).node).tree } := by
  simp only [packStep, hidx, if_true, hres, ne_eq, not_true_eq_false, if_false,
    (traverse_block _ _ _ _ _).1]

theorem PackInv_tree (s : PackState) (L : List Nat) (h : PackInv s L) (r1 : TextureNode)
    (A1 : MemoryStack) (atlas : Texture)
    (h1 : TreeOK r1) (h2 : r1.block.left = 0 ∧ r1.block.top = 0)
    (h3 : ArenaOK A1 sizeofTextureNode) (h4 : AddrsOK r1 A1)
    (h5 : ∀ y ∈ usedLeaves s.root, y ∈ usedLeaves r1) :
    PackInv { s with textureNodeArena := A1, textureAtlas := atlas, root := r1 } L := by
  obtain ⟨a1, a2, a3, _, _, _, _, _, a9, a10, a11, a12, a13, a14, a15⟩ := h
  refine ⟨a1, a2, a3, h1, h2.1, h2.2, h3, h4, a9, a10, a11, a12, a13, ?_, a15⟩
  intro x hx
  obtain ⟨j, hj, ht, y, hy, rest⟩ := a14 x hx
  exact ⟨j, hj, ht, y, h5 y hy, rest⟩

theorem getD_mem_of_lt (l : List Texture) (i : Nat) (h : i < l.length) :
    l.getD i default ∈ l := by
  rw [List.getD_eq_getElem _ _ h]
  exact List.getElem_mem h

theorem setIsUsed_true_id (x : TextureNode) (h : x.isUsed = true) : setIsUsed true x = x := by
  cases x with
  | null => rfl
  | node a l r b s u d => simp only [isUsed_node] at h; subst h; rfl

theorem getD_set_self (l : List Texture) (i : Nat) (a : Texture) (h : i < l.length) :
    (l.set i a).getD i default = a := by
  simp [List.getD_eq_getElem?_getD, h]

theorem getD_set_ne (l : List Texture) (i j : Nat) (a : Texture) (h : i ≠ j) :
    (l.set i a).getD j default = l.getD j default := by
  simp [List.getD_eq_getElem?_getD, List.getElem?_set_ne h]

theorem packStep_inv_placed (s : PackState) (L : List Nat) (h : PackInv s L)
    (hidx : s.textureIndex < s.textureCount)
    (hres : (traverseTextureNodes s.root s.textureNodeArena s.textureAtlas
      (s.textures.getD s.textureIndex default) []).result ≠ 0)
    (hoom1 : (packStep s).textureNodeArena.outOfMemory = false)
    (hoom2 : (packStep s).cache.arena.outOfMemory = false) :
    PackInv (packStep s) (arenaTop s.cache.arena :: L) := by
  obtain ⟨a1, a2, a3, a4, a5, a6, a7, a8, a9, a10, a11, a12, a13, a14, a15⟩ := h
  rw [packStep_placed s hidx hres] at hoom1 hoom2 ⊢
  dsimp only at hoom1 hoom2 ⊢
  generalize htr : traverseTextureNodes s.root s.textureNodeArena s.textureAtlas
      (s.textures.getD s.textureIndex default) [] = tr at hres hoom1 hoom2 ⊢
  have hlen : s.textureIndex < s.textures.length := by omega
  have htex : TexOK (s.textures.getD s.textureIndex default) :=
    a3 _ (getD_mem_of_lt _ _ hlen)
  have P := traverse_placement s.root s.textureNodeArena s.textureAtlas
    (s.textures.getD s.textureIndex default) [] a4 a7 a8 htex (by rw [htr]; exact hoom1)
  rw [htr] at P
  obtain ⟨p1, p2, p3, p4, p5, p6, p7, p8, p9, p10, p11⟩ := P
  obtain ⟨⟨y, hy, hya, hyw, hyh⟩, hfresh⟩ := p11 hres
  have hynodes : y ∈ nodes tr.node := usedLeaves_subset_nodes y _ hy
  have hyused : y.isUsed = true := ((mem_usedLeaves_iff y _).1 hy).2
  have hderef : deref tr.node tr.result = y := by
    rw [← hya]; exact deref_mem tr.node y p8.1 hynodes
  have hlook : s.cache.hashLookup.lookup (some s.textureIndex) = none := by
    apply lookup_eq_none
    intro e he heq
    obtain ⟨j, hj, hje⟩ := a13 e he
    rw [hje] at heq
    have := Option.some.inj heq
    omega
  obtain ⟨i1, i2, i3, i4, i5, i6, i7, i8, i9, _, _, _⟩ :=
    insertIntoLRUCache_new tr.result (some s.textureIndex) s.cache s.root.block.width
      s.root.block.height tr.node L hlook a9 a10 a11 hoom2
  have hstore : storeAt tr.result (setIsUsed true) tr.node = tr.node := by
    apply storeAt_id
    intro x hx hxa
    have : x = y := nodes_addr_inj tr.node x y p8.1 hx hynodes (hxa.trans hya.symm)
    rw [this]
    exact setIsUsed_true_id y hyused
  unfold PackInv
  dsimp only
  rw [i9, hstore]
  have he : arenaTop s.cache.arena ∉ s.cache.sentinel :: L := fun hm => by
    have := a11 _ hm; omega
  refine ⟨by rw [List.length_set]; exact a1, by omega, ?_, p1, by rw [p2]; exact a5,
    by rw [p2]; exact a6, p4, p8, i3, by rw [i1]; exact i2, by rw [i1]; exact i4, ?_, ?_, ?_, ?_⟩
  · intro t ht
    rcases List.mem_or_eq_of_mem_set ht with h | h
    · exact a3 t h
    · subst h; exact htex
  · rw [i1, (i7 _ (fun e => he (by rw [← e]; simp))).1]
    exact a12
  · intro e he'
    rw [i8] at he'
    rcases List.mem_cons.1 he' with h | h
    · exact ⟨s.textureIndex, by omega, by rw [h]⟩
    · obtain ⟨j, hj, hje⟩ := a13 e (mem_hashErase _ _ _ h)
      exact ⟨j, by omega, hje⟩
  · intro x hx
    rcases List.mem_cons.1 hx with e | hx
    · subst e
      refine ⟨s.textureIndex, by omega, i5, y, hy, by rw [i6, hya], ?_⟩
      rw [getD_set_self _ _ _ hlen, hderef]
      exact ⟨rfl, rfl, hyw, hyh⟩
    · obtain ⟨j, hj, ht, y1, hy1, e1, rest⟩ := a14 x hx
      have hxe : x ≠ arenaTop s.cache.arena := fun e => he (by rw [← e]; exact List.mem_cons_of_mem _ hx)
      refine ⟨j, by omega, by rw [(i7 x hxe).1]; exact ht, y1, p10 y1 hy1,
        by rw [(i7 x hxe).2]; exact e1, ?_⟩
      rw [getD_set_ne _ _ _ _ (by omega)]
      exact rest
  · rw [List.map_cons, i6]
    have hmap : L.map (fun x => ((insertIntoLRUCache tr.result (some s.textureIndex) s.cache
        s.root.block.width s.root.block.height tr.node).1.mem x).textureNode)
        = L.map (fun x => (s.cache.mem x).textureNode) := by
      apply List.map_congr_left
      intro x hx
      exact (i7 x (fun e => he (by rw [← e]; exact List.mem_cons_of_mem _ hx))).2
    rw [hmap]
    refine List.nodup_cons.2 ⟨?_, a15⟩
    intro hm
    obtain ⟨x, hx, hxe⟩ := List.mem_map.1 hm
    obtain ⟨j, hj, ht, y1, hy1, e1, rest⟩ := a14 x hx
    exact hfresh y1 hy1 (e1.trans hxe)

theorem expandRootVertically_arena (n : TextureNode) (A : MemoryStack) (h : Nat) :
    (expandRootVertically n A h).2
      = (_Push_ (_Push_ A sizeofTextureNode).2 sizeofTextureNode).2 := rfl

theorem expandRootHorizontally_arena (n : TextureNode) (A : MemoryStack) (w : Nat) :
    (expandRootHorizontally n A w).2
      = (_Push_ (_Push_ A sizeofTextureNode).2 sizeofTextureNode).2 := rfl

theorem packStep_inv_noplace (s : PackState) (L : List Nat) (h : PackInv s L)
    (hidx : s.textureIndex < s.textureCount)
    (hres : (traverseTextureNodes s.root s.textureNodeArena s.textureAtlas
      (s.textures.getD s.textureIndex default) []).result = 0)
    (hfit : SumsFit s)
    (hoom1 : (packStep s).textureNodeArena.outOfMemory = false) :
    ∃ L1, PackInv (packStep s) L1 := by
  have hsums := hfit hidx hres
  obtain ⟨a1, a2, a3, a4, a5, a6, a7, a8, a9, a10, a11, a12, a13, a14, a15⟩ := h
  have hlen : s.textureIndex < s.textures.length := by omega
  have htex : TexOK (s.textures.getD s.textureIndex default) :=
    a3 _ (getD_mem_of_lt _ _ hlen)
  have e1 : u16 ((s.root.block.height : Int) + (s.textures.getD s.textureIndex default).height)
      = s.root.block.height + (s.textures.getD s.textureIndex default).height := by
    unfold u16; omega
  have e2 : u16 ((s.root.block.width : Int) + (s.textures.getD s.textureIndex default).width)
      = s.root.block.width + (s.textures.getD s.textureIndex default).width := by
    unfold u16; omega
  rw [packStep_noplace s hidx hres, e1, e2] at hoom1 ⊢
  generalize htr : traverseTextureNodes s.root s.textureNodeArena s.textureAtlas
      (s.textures.getD s.textureIndex default) [] = tr at hres hoom1 ⊢
  have hP : tr.textureNodeArena.outOfMemory = false →
      Placement s.root s.textureNodeArena (s.textures.getD s.textureIndex default) tr.node
        tr.textureNodeArena tr.result := by
    intro ho
    have P := traverse_placement s.root s.textureNodeArena s.textureAtlas
      (s.textures.getD s.textureIndex default) [] a4 a7 a8 htex (by rw [htr]; exact ho)
    rw [htr] at P
    exact P
  have hinv : PackInv s L :=
    ⟨a1, a2, a3, a4, a5, a6, a7, a8, a9, a10, a11, a12, a13, a14, a15⟩
  split_ifs at hoom1 ⊢ with c1 c2
  · -- vertical expansion
    dsimp only at hoom1
    rw [expandRootVertically_arena] at hoom1
    obtain ⟨p1, p2, p3, p4, p5, p6, p7, p8, p9, p10, p11⟩ :=
      hP (push_oom_mono _ _ (push_oom_mono _ _ hoom1))
    rw [← expandRootVertically_arena tr.node _ (s.textures.getD s.textureIndex default).height]
      at hoom1
    obtain ⟨q1, q2, q3, q4, q5, q6, _, _⟩ := expandRootVertically_ok tr.node tr.textureNodeArena
      (s.textures.getD s.textureIndex default).height p1 ⟨by rw [p2]; exact a5, by rw [p2]; exact a6⟩
      p4 p8 htex.2.2.1 (by rw [p2]; exact hsums.1) hoom1
    exact ⟨L, PackInv_tree s L hinv _ _ _ q1 ⟨q2, q3⟩ q4 q5 (fun y hy => q6 y (p10 y hy))⟩
  · -- horizontal expansion
    dsimp only at hoom1
    rw [expandRootHorizontally_arena] at hoom1
    obtain ⟨p1, p2, p3, p4, p5, p6, p7, p8, p9, p10, p11⟩ :=
      hP (push_oom_mono _ _ (push_oom_mono _ _ hoom1))
    rw [← expandRootHorizontally_arena tr.node _ (s.textures.getD s.textureIndex default).width]
      at hoom1
    obtain ⟨q1, q2, q3, q4, q5, q6, _, _⟩ := expandRootHorizontally_ok tr.node
      tr.textureNodeArena (s.textures.getD s.textureIndex default).width p1
      ⟨by rw [p2]; exact a5, by rw [p2]; exact a6⟩
      p4 p8 htex.1 (by rw [p2]; exact hsums.2) hoom1
    exact ⟨L, PackInv_tree s L hinv _ _ _ q1 ⟨q2, q3⟩ q4 q5 (fun y hy => q6 y (p10 y hy))⟩
  · -- eviction
    dsimp only at hoom1
    obtain ⟨p1, p2, p3, p4, p5, p6, p7, p8, p9, p10, p11⟩ := hP hoom1
    have hkeys : ∀ e ∈ s.cache.hashLookup, e.1 ≠ none := by
      intro e he
      obtain ⟨j, _, hj⟩ := a13 e he
      rw [hj]; simp
    rcases removeLRUFromCache_cases s.cache tr.nodePath tr.node L a10 a12 hkeys with
      hrm | ⟨L0, t, hL, ht, _, _, hrm, hring⟩
    · rw [hrm]
      exact ⟨L, PackInv_tree s L hinv _ _ _ p1 ⟨by rw [p2]; exact a5, by rw [p2]; exact a6⟩ p4 p8
        p10⟩
    · rw [hrm]
      dsimp only
      subst hL
      obtain ⟨jt, hjt, htt, yt, hyt, hyta, _⟩ := a14 t (by simp)
      have hyt1 : yt ∈ usedLeaves tr.node := p10 yt hyt
      have hytn : yt ∈ nodes tr.node := usedLeaves_subset_nodes yt _ hyt1
      have hytl : isLeaf yt = true :=
        ((mem_leaves_iff yt _).1 ((mem_usedLeaves_iff yt _).1 hyt1).1).2
      have hleaf : ∀ x ∈ nodes tr.node, x.addr = (s.cache.mem t).textureNode →
          isLeaf x = true := by
        intro x hx hxa
        have : x = yt := nodes_addr_inj tr.node x yt p8.1 hx hytn (hxa.trans hyta.symm)
        rw [this]; exact hytl
      obtain ⟨s1, s2, s3, s4, s5⟩ := storeAt_leaf (s.cache.mem t).textureNode (setIsUsed false)
        (fun a1 b u d => ⟨false, rfl⟩) tr.node p1 hleaf
      obtain ⟨t1, t2, t3, t4, _⟩ := storeAt_leaf (s.cache.mem t).textureNode
        (setSplitDir Partition.NONE) (fun a1 b u d => ⟨u, rfl⟩) _ s1 s5
      have hnd : (L0 ++ [t]).Nodup := (List.nodup_cons.1 a10.1).2
      have hmapnd := a15
      rw [List.map_append, List.nodup_append] at hmapnd
      refine ⟨L0, a1, a2, a3, t1, by rw [t2, s2, p2]; exact a5, by rw [t2, s2, p2]; exact a6, p4,
        ?_, a9, hring, ?_, ?_, ?_, ?_, ?_⟩
      · refine ⟨by rw [show addrs _ = addrs tr.node from t3.trans s3]; exact p8.1, ?_⟩
        intro a ha
        rw [show addrs _ = addrs tr.node from t3.trans s3] at ha
        exact p8.2 a ha
      · intro x hx
        apply a11
        rcases List.mem_cons.1 hx with e | hx
        · simp [e]
        · exact List.mem_cons_of_mem _ (List.mem_append_left _ hx)
      · rw [(removeLRUFromList_fields _ _ _).1]; exact a12
      · intro e he
        exact a13 e (mem_hashErase _ _ _ he)
      · intro x hx
        obtain ⟨j, hj, htx, y1, hy1, hy1a, rest⟩ := a14 x (List.mem_append_left _ hx)
        have hne : y1.addr ≠ (s.cache.mem t).textureNode := by
          rw [hy1a]
          intro e
          exact hmapnd.2.2 (List.mem_map_of_mem _ hx) (by simp [e])
        refine ⟨j, hj, by rw [(removeLRUFromList_fields _ _ _).1]; exact htx, y1,
          t4 y1 (s4 y1 (p10 y1 hy1) hne) hne,
          by rw [(removeLRUFromList_fields _ _ _).2]; exact hy1a, rest⟩
      · have hmap : L0.map (fun x => (removeLRUFromList s.cache.mem s.cache.sentinel x).textureNode)
            = L0.map (fun x => (s.cache.mem x).textureNode) := by
          apply List.map_congr_left
          intro x _
          exact (removeLRUFromList_fields _ _ _).2
        rw [hmap]
        exact hmapnd.1

/-! ### Out-of-memory is sticky -/

theorem removeLRUFromCache_arena (cache : LRUCache) (path : List Nat) (tree : TextureNode) :
    (removeLRUFromCache cache path tree).cache.arena = cache.arena := by
  simp only [removeLRUFromCache]
  split_ifs <;> rfl

theorem insertIntoLRUCache_oom_mono (tn : Nat) (tex : Option Nat) (cache : LRUCache)
    (W H : Nat) (tree : TextureNode)
    (h : (insertIntoLRUCache tn tex cache W H tree).1.arena.outOfMemory = false) :
    cache.arena.outOfMemory = false := by
  unfold insertIntoLRUCache at h
  cases hl : cache.hashLookup.lookup tex with
  | some c => rw [hl] at h; exact h
  | none => rw [hl] at h; exact push_oom_mono _ _ h

theorem packStep_oom_mono (s : PackState) :
    ((packStep s).textureNodeArena.outOfMemory = false →
      s.textureNodeArena.outOfMemory = false) ∧
    ((packStep s).cache.arena.outOfMemory = false → s.cache.arena.outOfMemory = false) := by
  by_cases hidx : s.textureIndex < s.textureCount
  swap
  · rw [packStep_done s hidx]; exact ⟨id, id⟩
  by_cases hres : (traverseTextureNodes s.root s.textureNodeArena s.textureAtlas
      (s.textures.getD s.textureIndex default) []).result = 0
  · rw [packStep_noplace s hidx hres]
    split_ifs
    · refine ⟨fun h => ?_, id⟩
      exact traverse_oom_mono _ _ _ _ _ (push_oom_mono _ _ (push_oom_mono _ _ h))
    · refine ⟨fun h => ?_, id⟩
      exact traverse_oom_mono _ _ _ _ _ (push_oom_mono _ _ (push_oom_mono _ _ h))
    · refine ⟨fun h => traverse_oom_mono _ _ _ _ _ h, fun h => ?_⟩
      dsimp only at h
      rw [removeLRUFromCache_arena] at h
      exact h
  · rw [packStep_placed s hidx hres]
    exact ⟨fun h => traverse_oom_mono _ _ _ _ _ h,
      fun h => insertIntoLRUCache_oom_mono _ _ _ _ _ _ h⟩

theorem packIter_succ (k : Nat) (s : PackState) :
    packIter (k + 1) s = packStep (packIter k s) := by
  simp only [packIter, Function.iterate_succ_apply']

theorem packIter_oom_mono (s : PackState) (j k : Nat) (hjk : j ≤ k) :
    ((packIter k s).textureNodeArena.outOfMemory = false →
      (packIter j s).textureNodeArena.outOfMemory = false) ∧
    ((packIter k s).cache.arena.outOfMemory = false →
      (packIter j s).cache.arena.outOfMemory = false) := by
  induction k with
  | zero =>
    have : j = 0 := by omega
    subst this; exact ⟨id, id⟩
  | succ n ih =>
    by_cases hj : j = n + 1
    · subst hj; exact ⟨id, id⟩
    · obtain ⟨i1, i2⟩ := ih (by omega)
      rw [packIter_succ]
      exact ⟨fun h => i1 ((packStep_oom_mono _).1 h), fun h => i2 ((packStep_oom_mono _).2 h)⟩

/-! ### The invariant along a run -/

theorem packStep_inv (s : PackState) (L : List Nat) (h : PackInv s L) (hfit : SumsFit s)
    (hoom1 : (packStep s).textureNodeArena.outOfMemory = false)
    (hoom2 : (packStep s).cache.arena.outOfMemory = false) :
    ∃ L1, PackInv (packStep s) L1 := by
  by_cases hidx : s.textureIndex < s.textureCount
  swap
  · rw [packStep_done s hidx]; exact ⟨L, h⟩
  by_cases hres : (traverseTextureNodes s.root s.textureNodeArena s.textureAtlas
      (s.textures.getD s.textureIndex default) []).result = 0
  · exact packStep_inv_noplace s L h hidx hres hfit hoom1
  · exact ⟨_, packStep_inv_placed s L h hidx hres hoom1 hoom2⟩

theorem packIter_inv (s : PackState) (L : List Nat) (h : PackInv s L) (k : Nat)
    (hfit : ∀ j, j < k → SumsFit (packIter j s))
    (hoom1 : (packIter k s).textureNodeArena.outOfMemory = false)
    (hoom2 : (packIter k s).cache.arena.outOfMemory = false) :
    ∃ L1, PackInv (packIter k s) L1 := by
  induction k with
  | zero => exact ⟨L, h⟩
  | succ n ih =>
    obtain ⟨m1, m2⟩ := packIter_oom_mono s n (n + 1) (by omega)
    obtain ⟨L1, h1⟩ := ih (fun j hj => hfit j (by omega)) (m1 hoom1) (m2 hoom2)
    rw [packIter_succ] at hoom1 hoom2 ⊢
    exact packStep_inv _ L1 h1 (hfit n (by omega)) hoom1 hoom2

theorem packInit_inv (textures : List Texture) (ptr n ptr2 m : Nat) (atlas : Texture)
    (hne : textures ≠ []) (htex : ∀ t ∈ textures, TexOK t)
    (hp : 0 < ptr) (hn : ptr + n + sizeofTextureNode ≤ 2 ^ 64)
    (hp2 : 0 < ptr2) (hm : ptr2 + m + 2 * sizeofLRUNode ≤ 2 ^ 64)
    (hoom1 : (packInit textures (InitStackMemory ptr n) textures.length (makeLRUList ptr2 m)
      atlas).textureNodeArena.outOfMemory = false)
    (hoom2 : (packInit textures (InitStackMemory ptr n) textures.length (makeLRUList ptr2 m)
      atlas).cache.arena.outOfMemory = false) :
    PackInv (packInit textures (InitStackMemory ptr n) textures.length (makeLRUList ptr2 m)
      atlas) [] := by
  have hsz : sizeofTextureNode = 40 := rfl
  have hsz2 : sizeofLRUNode = 32 := rfl
  have hA : ArenaOK (InitStackMemory ptr n) sizeofTextureNode :=
    ⟨hp, hn, Nat.zero_le _⟩
  have hm1 : usize ((m : Int) + (sizeofLRUNode : Int)) = m + sizeofLRUNode := by
    unfold usize; omega
  have hA2 : ArenaOK (InitStackMemory ptr2 (usize ((m : Int) + (sizeofLRUNode : Int))))
      sizeofLRUNode := by
    rw [hm1]; exact ⟨hp2, by simp only [InitStackMemory]; omega, Nat.zero_le _⟩
  obtain ⟨p1, p2, p3, p4, p5, _⟩ := push_ok _ _ (by decide) hA hoom1
  obtain ⟨q1, q2, q3, q4, q5, _⟩ := push_ok _ _ (by decide) hA2 hoom2
  cases textures with
  | nil => exact absurd rfl hne
  | cons t0 ts =>
    obtain ⟨w1, w2, h1, h2⟩ := htex t0 (by simp)
    have e1 : u16 ((0 : Int) + (t0.width : Int) - 1) = t0.width - 1 := by unfold u16; omega
    have e2 : u16 ((0 : Int) + (t0.height : Int) - 1) = t0.height - 1 := by unfold u16; omega
    have b1 : (InitStackMemory ptr n).base = ptr := rfl
    have b2 : (InitStackMemory ptr n).bytes_used = 0 := rfl
    have b3 : (InitStackMemory ptr2 (usize ((m : Int) + (sizeofLRUNode : Int)))).base = ptr2 :=
      rfl
    have b4 : (InitStackMemory ptr2 (usize ((m : Int) + (sizeofLRUNode : Int)))).bytes_used
        = 0 := rfl
    have t1 : arenaTop (InitStackMemory ptr n) = ptr := by simp only [arenaTop, b1, b2]; rfl
    have t2 : arenaTop (InitStackMemory ptr2 (usize ((m : Int) + (sizeofLRUNode : Int))))
        = ptr2 := by simp only [arenaTop, b3, b4]; rfl
    rw [t1] at p1
    rw [t2] at q1
    unfold PackInv
    dsimp only [packInit, makeLRUList]
    rw [List.getD_cons_zero, e1, e2, p1, q1]
    refine ⟨rfl, Nat.zero_le _, htex, TreeOK_leaf _ _ _ _ ?_, rfl, rfl, p2, ⟨?_, ?_⟩, q2, ⟨?_, ?_⟩,
      ?_, ?_, ?_, ?_, ?_⟩
    · simp only [RectOK]; omega
    · simp [addrs_node, addrs_null]
    · intro a ha
      simp only [addrs_node, addrs_null, List.append_nil, List.mem_singleton] at ha
      subst ha
      simp only [arenaTop, p3, p4, b1, b2]
      omega
    · simp
    · simp only [Linked, initList, Function.update_same, and_self]
    · intro x hx
      simp only [List.mem_singleton] at hx
      subst hx
      simp only [arenaTop, q3, q4, b3, b4]
      omega
    · simp only [initList, Function.update_same]
      rfl
    · intro e he; cases he
    · intro x hx; cases hx
    · simp

/-! ### Non-overlap (C1) -/

theorem RectDisjoint_symm (b c : TextureRectangle) (h : RectDisjoint b c) :
    RectDisjoint c b := by
  simp only [RectDisjoint] at *; omega

theorem PackInv_usedLeaves_disjoint (s : PackState) (L : List Nat) (h : PackInv s L) :
    (usedLeaves s.root).Pairwise (fun x y => RectDisjoint x.block y.block) :=
  List.Pairwise.sublist (List.filter_sublist _) (leaves_pairwise_disjoint s.root h.2.2.2.1)

theorem PackInv_images_disjoint (s : PackState) (L : List Nat) (h : PackInv s L) :
    L.Pairwise (fun p q => ImagesDisjoint (lruTexture s p) (lruTexture s q)) := by
  obtain ⟨a1, a2, a3, a4, a5, a6, a7, a8, a9, a10, a11, a12, a13, a14, a15⟩ := h
  have hnd : L.Pairwise (fun p q => (s.cache.mem p).textureNode ≠ (s.cache.mem q).textureNode) :=
    List.pairwise_map.1 a15
  refine List.Pairwise.imp_of_mem ?_ hnd
  intro p q hp hq hne
  obtain ⟨j1, _, t1, y1, hy1, e1, l1, tp1, w1, h1⟩ := a14 p hp
  obtain ⟨j2, _, t2, y2, hy2, e2, l2, tp2, w2, h2⟩ := a14 q hq
  have m1 : y1 ∈ leaves s.root := ((mem_usedLeaves_iff y1 _).1 hy1).1
  have m2 : y2 ∈ leaves s.root := ((mem_usedLeaves_iff y2 _).1 hy2).1
  have hy : y1 ≠ y2 := by
    intro e
    apply hne
    rw [← e1, ← e2, e]
  have hd : RectDisjoint y1.block y2.block :=
    List.Pairwise.forall (fun x y hxy => RectDisjoint_symm _ _ hxy)
      (leaves_pairwise_disjoint s.root a4) m1 m2 hy
  have r1 := (nodes_inside s.root a4 y1 ((mem_leaves_iff y1 _).1 m1).1).2
  have r2 := (nodes_inside s.root a4 y2 ((mem_leaves_iff y2 _).1 m2).1).2
  simp only [lruTexture, t1, t2, Option.getD_some, ImagesDisjoint, ← l1, ← l2, ← tp1, ← tp2,
    ← w1, ← w2, ← h1, ← h2]
  simp only [RectDisjoint, RectOK] at hd r1 r2
  omega

/-- C1: in every state the pack loop reaches from a fresh root, for images of positive
extent, as long as no 16-bit sum of the loop wraps (and no arena has run out of memory),
any two distinct used leaves of the partition tree have non-intersecting rectangles, the
forward walk over the LRU list reaches the sentinel, and any two images held in the list
occupy disjoint rectangles `[x, x+width-1] x [y, y+height-1]`. -/
theorem pack_nonoverlap (textures : List Texture) (ptr n ptr2 m : Nat) (atlas : Texture)
    (k : Nat) (htex : ∀ t ∈ textures, TexOK t)
    (hp : 0 < ptr) (hn : ptr + n + sizeofTextureNode ≤ 2 ^ 64)
    (hp2 : 0 < ptr2) (hm : ptr2 + m + 2 * sizeofLRUNode ≤ 2 ^ 64)
    (hfit : ∀ j, j < k → SumsFit (packIter j (packInit textures (InitStackMemory ptr n)
      textures.length (makeLRUList ptr2 m) atlas)))
    (hoom1 : (packIter k (packInit textures (InitStackMemory ptr n) textures.length
      (makeLRUList ptr2 m) atlas)).textureNodeArena.outOfMemory = false)
    (hoom2 : (packIter k (packInit textures (InitStackMemory ptr n) textures.length
      (makeLRUList ptr2 m) atlas)).cache.arena.outOfMemory = false) :
    (usedLeaves (packIter k (packInit textures (InitStackMemory ptr n) textures.length
      (makeLRUList ptr2 m) atlas)).root).Pairwise
        (fun x y => RectDisjoint x.block y.block) ∧
    ∃ L, (∀ fuel, L.length ≤ fuel →
        lruList (packIter k (packInit textures (InitStackMemory ptr n) textures.length
          (makeLRUList ptr2 m) atlas)).cache fuel = some L) ∧
      L.Pairwise (fun p q =>
        ImagesDisjoint
          (lruTexture (packIter k (packInit textures (InitStackMemory ptr n) textures.length
            (makeLRUList ptr2 m) atlas)) p)
          (lruTexture (packIter k (packInit textures (InitStackMemory ptr n) textures.length
            (makeLRUList ptr2 m) atlas)) q)) := by
  by_cases hne : textures = []
  · subst hne
    have hk : ∀ k, packIter k (packInit [] (InitStackMemory ptr n) ([] : List Texture).length
        (makeLRUList ptr2 m) atlas)
        = packInit [] (InitStackMemory ptr n) ([] : List Texture).length
          (makeLRUList ptr2 m) atlas := by
      intro k
      induction k with
      | zero => rfl
      | succ i ih =>
        rw [packIter_succ, ih]
        exact packStep_done _ (by simp [packInit])
    rw [hk]
    refine ⟨by simp [packInit, usedLeaves_leaf], [], ?_, List.Pairwise.nil⟩
    intro fuel _
    have hr : Ring (makeLRUList ptr2 m).mem (makeLRUList ptr2 m).sentinel [] := by
      refine ⟨by simp, ?_⟩
      simp only [Linked, makeLRUList, initList, Function.update_same, and_self]
    exact lruWalk_of_Ring _ _ [] fuel hr (Nat.zero_le _)
  · obtain ⟨m1, m2⟩ := packIter_oom_mono (packInit textures (InitStackMemory ptr n)
      textures.length (makeLRUList ptr2 m) atlas) 0 k (Nat.zero_le _)
    have h0 := packInit_inv textures ptr n ptr2 m atlas hne htex hp hn hp2 hm (m1 hoom1)
      (m2 hoom2)
    obtain ⟨L, hL⟩ := packIter_inv _ [] h0 k hfit hoom1 hoom2
    refine ⟨PackInv_usedLeaves_disjoint _ L hL, L, ?_, PackInv_images_disjoint _ L hL⟩
    intro fuel hf
    exact lruWalk_of_Ring _ _ L fuel hL.2.2.2.2.2.2.2.2.2.1 hf

/-- C1 on five 32x32 images under the cap 64x64, after nine iterations (four placements,
two expansions, an eviction and the fifth placement). -/
theorem pack_nonoverlap_witness :
    (usedLeaves (packIter 9 (packStart (List.replicate 5 (textureOf 32 32)) 64 64)).root).Pairwise
        (fun x y => RectDisjoint x.block y.block) ∧
    ∃ L, (∀ fuel, L.length ≤ fuel →
        lruList (packIter 9 (packStart (List.replicate 5 (textureOf 32 32)) 64 64)).cache fuel
          = some L) ∧
      L.Pairwise (fun p q =>
        ImagesDisjoint
          (lruTexture (packIter 9 (packStart (List.replicate 5 (textureOf 32 32)) 64 64)) p)
          (lruTexture (packIter 9 (packStart (List.replicate 5 (textureOf 32 32)) 64 64)) q)) :=
  pack_nonoverlap (List.replicate 5 (textureOf 32 32)) 4096 840 1048576 160
    ⟨"", List.replicate (64 * 64 * 4) 0, 4, 0, 0, 64, 64⟩ 9
    (by decide) (by decide) (by decide) (by decide) (by decide) (by decide) (by decide)
    (by decide)

/-! ### The 16-bit wrap in root expansion (C4, C5, C10) -/

/-- C4 fails on the images 1x65535 and 1x2 under the cap 2x65535: after the first
placement the vertical expansion wraps, the root block becomes `[0,0,0,0]` with extent 1x1,
and its left leaf, the old root `[0,0,0,65534]`, does not lie inside it; the leaf areas
add up to 65537, not to 1. No arena has run out of memory. -/
theorem pack_tiling_fails_on_wrap :
    (packIter 2 (packStart [textureOf 1 65535, textureOf 1 2] 2 65535)).textureNodeArena.outOfMemory
      = false ∧
    (packIter 2 (packStart [textureOf 1 65535, textureOf 1 2] 2 65535)).cache.arena.outOfMemory
      = false ∧
    (packIter 2 (packStart [textureOf 1 65535, textureOf 1 2] 2 65535)).root.block
      = ⟨0, 0, 0, 0, 1, 1⟩ ∧
    (leaves (packIter 2 (packStart [textureOf 1 65535, textureOf 1 2] 2 65535)).root).map
      TextureNode.block = [⟨0, 0, 0, 65534, 1, 65535⟩, ⟨0, 65535, 0, 0, 1, 2⟩] ∧
    ¬ (∀ x ∈ leaves (packIter 2 (packStart [textureOf 1 65535, textureOf 1 2] 2 65535)).root,
        RectInside x.block
          (packIter 2 (packStart [textureOf 1 65535, textureOf 1 2] 2 65535)).root.block) ∧
    ((leaves (packIter 2 (packStart [textureOf 1 65535, textureOf 1 2] 2 65535)).root).map
      (fun x => x.block.width * x.block.height)).sum = 65537 := by
  decide

/-- C5 fails on the same run: the root is a VERTICAL-split internal node of height 1 whose
children have heights 65535 and 2, so the assertion
`node->block.height == left->block.height + right->block.height` of the next traversal
fails. -/
theorem pack_split_consistency_fails_on_wrap :
    (packIter 2 (packStart [textureOf 1 65535, textureOf 1 2] 2 65535)).root.splitDir
      = Partition.VERTICAL ∧
    (packIter 2 (packStart [textureOf 1 65535, textureOf 1 2] 2 65535)).root.block.height = 1 ∧
    (packIter 2 (packStart [textureOf 1 65535, textureOf 1 2] 2 65535)).root.left.block.height
      = 65535 ∧
    (packIter 2 (packStart [textureOf 1 65535, textureOf 1 2] 2 65535)).root.right.block.height
      = 2 ∧
    ¬ SplitConsistent
      (packIter 2 (packStart [textureOf 1 65535, textureOf 1 2] 2 65535)).root.splitDir
      (packIter 2 (packStart [textureOf 1 65535, textureOf 1 2] 2 65535)).root.block
      (packIter 2 (packStart [textureOf 1 65535, textureOf 1 2] 2 65535)).root.left.block
      (packIter 2 (packStart [textureOf 1 65535, textureOf 1 2] 2 65535)).root.right.block := by
  decide

/-- C10 fails on the same run: the root height is 65535 after the first iteration (and is
recorded as the atlas height in the cache at the first insert) and 1 after the second. -/
theorem pack_extent_decreases_on_wrap :
    (packIter 1 (packStart [textureOf 1 65535, textureOf 1 2] 2 65535)).root.block.height
      = 65535 ∧
    (packIter 1 (packStart [textureOf 1 65535, textureOf 1 2] 2 65535)).cache.atlasHeight
      = 65535 ∧
    (packIter 2 (packStart [textureOf 1 65535, textureOf 1 2] 2 65535)).root.block.height = 1 ∧
    ¬ ((packIter 1 (packStart [textureOf 1 65535, textureOf 1 2] 2 65535)).root.block.height
      ≤ (packIter 2 (packStart [textureOf 1 65535, textureOf 1 2] 2 65535)).root.block.height) := by
  decide

/-! ### What holds as long as no 16-bit sum wraps -/

/-- Without a wrap of a 16-bit sum (and without running out of memory), in every state of
the pack loop the leaves tile the root rectangle: every leaf lies inside the root block, the
leaves are pairwise disjoint, their areas add up to `root.width * root.height`; and every
internal node is split consistently. -/
theorem pack_tiling (textures : List Texture) (ptr n ptr2 m : Nat) (atlas : Texture)
    (k : Nat) (hne : textures ≠ []) (htex : ∀ t ∈ textures, TexOK t)
    (hp : 0 < ptr) (hn : ptr + n + sizeofTextureNode ≤ 2 ^ 64)
    (hp2 : 0 < ptr2) (hm : ptr2 + m + 2 * sizeofLRUNode ≤ 2 ^ 64)
    (hfit : ∀ j, j < k → SumsFit (packIter j (packInit textures (InitStackMemory ptr n)
      textures.length (makeLRUList ptr2 m) atlas)))
    (hoom1 : (packIter k (packInit textures (InitStackMemory ptr n) textures.length
      (makeLRUList ptr2 m) atlas)).textureNodeArena.outOfMemory = false)
    (hoom2 : (packIter k (packInit textures (InitStackMemory ptr n) textures.length
      (makeLRUList ptr2 m) atlas)).cache.arena.outOfMemory = false) :
    (∀ x ∈ leaves (packIter k (packInit textures (InitStackMemory ptr n) textures.length
        (makeLRUList ptr2 m) atlas)).root,
      RectInside x.block (packIter k (packInit textures (InitStackMemory ptr n)
        textures.length (makeLRUList ptr2 m) atlas)).root.block) ∧
    (leaves (packIter k (packInit textures (InitStackMemory ptr n) textures.length
      (makeLRUList ptr2 m) atlas)).root).Pairwise
        (fun x y => RectDisjoint x.block y.block) ∧
    ((leaves (packIter k (packInit textures (InitStackMemory ptr n) textures.length
      (makeLRUList ptr2 m) atlas)).root).map (fun x => x.block.width * x.block.height)).sum
      = (packIter k (packInit textures (InitStackMemory ptr n) textures.length
          (makeLRUList ptr2 m) atlas)).root.block.width
        * (packIter k (packInit textures (InitStackMemory ptr n) textures.length
          (makeLRUList ptr2 m) atlas)).root.block.height ∧
    (∀ x ∈ internals (packIter k (packInit textures (InitStackMemory ptr n) textures.length
        (makeLRUList ptr2 m) atlas)).root,
      SplitConsistent x.splitDir x.block x.left.block x.right.block) := by
  obtain ⟨m1, m2⟩ := packIter_oom_mono (packInit textures (InitStackMemory ptr n)
    textures.length (makeLRUList ptr2 m) atlas) 0 k (Nat.zero_le _)
  have h0 := packInit_inv textures ptr n ptr2 m atlas hne htex hp hn hp2 hm (m1 hoom1)
    (m2 hoom2)
  obtain ⟨L, hL⟩ := packIter_inv _ [] h0 k hfit hoom1 hoom2
  have ht := hL.2.2.2.1
  exact ⟨fun x hx => (nodes_inside _ ht x ((mem_leaves_iff x _).1 hx).1).1,
    leaves_pairwise_disjoint _ ht, leaves_area _ ht, internals_consistent _ ht⟩

theorem storeAt_block_setIsUsed (a : Nat) (v : Bool) (n : TextureNode) :
    (storeAt a (setIsUsed v) n).block = n.block := by
  cases n with
  | null => rfl
  | node a1 l r b s u d =>
    simp only [storeAt]
    split_ifs <;> rfl

theorem storeAt_block_setSplitDir (a : Nat) (v : Partition) (n : TextureNode) :
    (storeAt a (setSplitDir v) n).block = n.block := by
  cases n with
  | null => rfl
  | node a1 l r b s u d =>
    simp only [storeAt]
    split_ifs <;> rfl

theorem insertIntoLRUCache_block (tn : Nat) (tex : Option Nat) (cache : LRUCache) (W H : Nat)
    (tree : TextureNode) :
    (insertIntoLRUCache tn tex cache W H tree).2.block = tree.block := by
  unfold insertIntoLRUCache
  cases cache.hashLookup.lookup tex with
  | some c => rfl
  | none => exact storeAt_block_setIsUsed _ _ _

theorem insertIntoLRUCache_extent (tn : Nat) (tex : Option Nat) (cache : LRUCache) (W H : Nat)
    (tree : TextureNode) :
    ((insertIntoLRUCache tn tex cache W H tree).1.atlasWidth = W ∧
      (insertIntoLRUCache tn tex cache W H tree).1.atlasHeight = H) ∨
    ((insertIntoLRUCache tn tex cache W H tree).1.atlasWidth = cache.atlasWidth ∧
      (insertIntoLRUCache tn tex cache W H tree).1.atlasHeight = cache.atlasHeight) := by
  unfold insertIntoLRUCache
  cases cache.hashLookup.lookup tex with
  | some c => exact Or.inr ⟨rfl, rfl⟩
  | none => exact Or.inl ⟨rfl, rfl⟩

theorem removeLRUFromCache_block (cache : LRUCache) (path : List Nat) (tree : TextureNode) :
    (removeLRUFromCache cache path tree).tree.block = tree.block ∧
    (removeLRUFromCache cache path tree).cache.atlasWidth = cache.atlasWidth ∧
    (removeLRUFromCache cache path tree).cache.atlasHeight = cache.atlasHeight := by
  simp only [removeLRUFromCache]
  split_ifs
  · exact ⟨by rw [storeAt_block_setSplitDir, storeAt_block_setIsUsed], rfl, rfl⟩
  · exact ⟨rfl, rfl, rfl⟩
  · exact ⟨rfl, rfl, rfl⟩

theorem expandRootVertically_extent (n : TextureNode) (A : MemoryStack) (h : Nat) :
    (expandRootVertically n A h).1.block.width = n.block.width ∧
    (expandRootVertically n A h).1.block.height = u16 ((n.block.height : Int) + h) := by
  simp [expandRootVertically]

theorem expandRootHorizontally_extent (n : TextureNode) (A : MemoryStack) (w : Nat) :
    (expandRootHorizontally n A w).1.block.height = n.block.height ∧
    (expandRootHorizontally n A w).1.block.width = u16 ((n.block.width : Int) + w) := by
  simp [expandRootHorizontally]

/-- One iteration of the pack loop in whose body no 16-bit sum wraps does not decrease the
width or the height of the root block. -/
theorem packStep_extent_monotone (s : PackState) (hfit : SumsFit s) :
    s.root.block.width ≤ (packStep s).root.block.width ∧
    s.root.block.height ≤ (packStep s).root.block.height := by
  by_cases hidx : s.textureIndex < s.textureCount
  swap
  · rw [packStep_done s hidx]; exact ⟨le_refl _, le_refl _⟩
  by_cases hres : (traverseTextureNodes s.root s.textureNodeArena s.textureAtlas
      (s.textures.getD s.textureIndex default) []).result = 0
  · have hsums := hfit hidx hres
    have hb := (traverse_block s.root s.textureNodeArena s.textureAtlas
      (s.textures.getD s.textureIndex default) []).1
    rw [packStep_noplace s hidx hres]
    split_ifs
    · dsimp only
      rw [(expandRootVertically_extent _ _ _).1, (expandRootVertically_extent _ _ _).2, hb]
      refine ⟨le_refl _, ?_⟩
      unfold u16; omega
    · dsimp only
      rw [(expandRootHorizontally_extent _ _ _).1, (expandRootHorizontally_extent _ _ _).2, hb]
      refine ⟨?_, le_refl _⟩
      unfold u16; omega
    · dsimp only
      rw [(removeLRUFromCache_block _ _ _).1, hb]
      exact ⟨le_refl _, le_refl _⟩
  · rw [packStep_placed s hidx hres]
    dsimp only
    rw [insertIntoLRUCache_block, (traverse_block _ _ _ _ _).1]
    exact ⟨le_refl _, le_refl _⟩

/-! ### The packed extent and the cap (C9) -/

theorem packStep_caps (s : PackState) :
    (packStep s).maxAtlasWidth = s.maxAtlasWidth ∧
    (packStep s).maxAtlasHeight = s.maxAtlasHeight := by
  by_cases hidx : s.textureIndex < s.textureCount
  swap
  · rw [packStep_done s hidx]; exact ⟨rfl, rfl⟩
  by_cases hres : (traverseTextureNodes s.root s.textureNodeArena s.textureAtlas
      (s.textures.getD s.textureIndex default) []).result = 0
  · rw [packStep_noplace s hidx hres]
    split_ifs <;> exact ⟨rfl, rfl⟩
  · rw [packStep_placed s hidx hres]
    exact ⟨rfl, rfl⟩

theorem packStep_bounded (s : PackState) (M : Nat)
    (hcap : s.maxAtlasWidth = M ∧ s.maxAtlasHeight = M)
    (hroot : s.root.block.width ≤ M ∧ s.root.block.height ≤ M)
    (hcache : s.cache.atlasWidth ≤ M ∧ s.cache.atlasHeight ≤ M) :
    ((packStep s).root.block.width ≤ M ∧ (packStep s).root.block.height ≤ M) ∧
    ((packStep s).cache.atlasWidth ≤ M ∧ (packStep s).cache.atlasHeight ≤ M) := by
  by_cases hidx : s.textureIndex < s.textureCount
  swap
  · rw [packStep_done s hidx]; exact ⟨hroot, hcache⟩
  by_cases hres : (traverseTextureNodes s.root s.textureNodeArena s.textureAtlas
      (s.textures.getD s.textureIndex default) []).result = 0
  · have hb := (traverse_block s.root s.textureNodeArena s.textureAtlas
      (s.textures.getD s.textureIndex default) []).1
    rw [packStep_noplace s hidx hres]
    split_ifs with c1 c2
    · dsimp only
      rw [(expandRootVertically_extent _ _ _).1, (expandRootVertically_extent _ _ _).2, hb]
      exact ⟨⟨hroot.1, by omega⟩, hcache⟩
    · dsimp only
      rw [(expandRootHorizontally_extent _ _ _).1, (expandRootHorizontally_extent _ _ _).2, hb]
      exact ⟨⟨by omega, hroot.2⟩, hcache⟩
    · dsimp only
      rw [(removeLRUFromCache_block _ _ _).1, (removeLRUFromCache_block _ _ _).2.1,
        (removeLRUFromCache_block _ _ _).2.2, hb]
      exact ⟨hroot, hcache⟩
  · rw [packStep_placed s hidx hres]
    dsimp only
    rw [insertIntoLRUCache_block, (traverse_block _ _ _ _ _).1]
    refine ⟨hroot, ?_⟩
    rcases insertIntoLRUCache_extent
      (traverseTextureNodes s.root s.textureNodeArena s.textureAtlas
        (s.textures.getD s.textureIndex default) []).result (some s.textureIndex) s.cache
      s.root.block.width s.root.block.height
      (traverseTextureNodes s.root s.textureNodeArena s.textureAtlas
        (s.textures.getD s.textureIndex default) []).node with h | h
    · rw [h.1, h.2]; exact hroot
    · rw [h.1, h.2]; exact hcache

/-- C9, amended: when the cap is square (`maxAtlasWidth = maxAtlasHeight = M`) and the first
image, which seeds the root, has width and height at most `M`, then at every point of the
pack loop the root block's width and height and the `atlasWidth`, `atlasHeight` recorded in
the cache are at most `M`. -/
theorem pack_extent_bounded_square (textures : List Texture) (arena : MemoryStack)
    (count : Nat) (cache : LRUCache) (atlas : Texture) (M k : Nat)
    (hsq : atlas.width = M ∧ atlas.height = M)
    (hseed : (textures.getD 0 default).width ≤ M ∧ (textures.getD 0 default).height ≤ M)
    (hcache : cache.atlasWidth ≤ M ∧ cache.atlasHeight ≤ M) :
    (packIter k (packInit textures arena count cache atlas)).root.block.width ≤ M ∧
    (packIter k (packInit textures arena count cache atlas)).root.block.height ≤ M ∧
    (packIter k (packInit textures arena count cache atlas)).cache.atlasWidth ≤ M ∧
    (packIter k (packInit textures arena count cache atlas)).cache.atlasHeight ≤ M := by
  have key : ∀ k,
      ((packIter k (packInit textures arena count cache atlas)).maxAtlasWidth = M ∧
        (packIter k (packInit textures arena count cache atlas)).maxAtlasHeight = M) ∧
      ((packIter k (packInit textures arena count cache atlas)).root.block.width ≤ M ∧
        (packIter k (packInit textures arena count cache atlas)).root.block.height ≤ M) ∧
      ((packIter k (packInit textures arena count cache atlas)).cache.atlasWidth ≤ M ∧
        (packIter k (packInit textures arena count cache atlas)).cache.atlasHeight ≤ M) := by
    intro k
    induction k with
    | zero => exact ⟨hsq, hseed, hcache⟩
    | succ i ih =>
      rw [packIter_succ]
      obtain ⟨h1, h2, h3⟩ := ih
      refine ⟨?_, packStep_bounded _ M h1 h2 h3⟩
      rw [(packStep_caps _).1, (packStep_caps _).2]
      exact h1
  obtain ⟨_, h2, h3⟩ := key k
  exact ⟨h2.1, h2.2, h3.1, h3.2⟩

/-- C9 at five 32x32 images under the cap 64x64, after nine iterations. -/
theorem pack_extent_bounded_square_witness :
    (packIter 9 (packStart (List.replicate 5 (textureOf 32 32)) 64 64)).root.block.width ≤ 64 ∧
    (packIter 9 (packStart (List.replicate 5 (textureOf 32 32)) 64 64)).root.block.height ≤ 64 ∧
    (packIter 9 (packStart (List.replicate 5 (textureOf 32 32)) 64 64)).cache.atlasWidth ≤ 64 ∧
    (packIter 9 (packStart (List.replicate 5 (textureOf 32 32)) 64 64)).cache.atlasHeight ≤ 64 :=
  pack_extent_bounded_square (List.replicate 5 (textureOf 32 32))
    (InitStackMemory 4096 ((1 + (List.replicate 5 (textureOf 32 32)).length * 4)
      * sizeofTextureNode))
    (List.replicate 5 (textureOf 32 32)).length
    (makeLRUList 1048576 ((List.replicate 5 (textureOf 32 32)).length * sizeofLRUNode))
    ⟨"", List.replicate (64 * 64 * 4) 0, 4, 0, 0, 64, 64⟩ 64 9
    (by decide) (by decide) (by decide)

/-- C9 as stated fails: a single 100x100 image under the cap 64x64 seeds a 100x100 root;
and under the cap 100x10 two 8x6 images make the root 8x12 (the vertical expansion is
tested against `maxAtlasWidth`), above `maxAtlasHeight = 10`, which is also the height
recorded in the cache at the second insert. -/
theorem pack_extent_exceeds_cap :
    ¬ ((packIter 0 (packStart [textureOf 100 100] 64 64)).root.block.width ≤ 64 ∧
       (packIter 0 (packStart [textureOf 100 100] 64 64)).root.block.height ≤ 64) ∧
    ¬ ((packIter 2 (packStart [textureOf 8 6, textureOf 8 6] 100 10)).root.block.height ≤ 10) ∧
    ¬ ((packIter 3 (packStart [textureOf 8 6, textureOf 8 6] 100 10)).cache.atlasHeight
        ≤ 10) := by
  decide

/-! ## The arena operations on the whole range of `size_t` -/

/-- Where neither `bytes_used + num_bytes` nor the address leaves the 64-bit range and the
element count stays below `2^32`, `_Push_` fires `CheckMemory` exactly when
`bytes_used + num_bytes > max_size`, returns the old top, and adds `num_bytes` and one. -/
theorem push_spec_nowrap (ms : MemoryStack) (n : Nat)
    (h : ms.base + ms.bytes_used + n < 2 ^ 64) (hc : ms.elementCount + 1 < 2 ^ 32)
    (h0 : ms.outOfMemory = false) :
    ((_Push_ ms n).2.outOfMemory = true ↔ ms.bytes_used + n > ms.max_size) ∧
    (_Push_ ms n).1 = ms.base + ms.bytes_used ∧
    (_Push_ ms n).2.bytes_used = ms.bytes_used + n ∧
    (_Push_ ms n).2.elementCount = ms.elementCount + 1 ∧
    (_Push_ ms n).2.base = ms.base ∧ (_Push_ ms n).2.max_size = ms.max_size := by
  have e1 : usize ((ms.bytes_used : Int) + n) = ms.bytes_used + n := by
    simp only [usize]; omega
  have e2 : usize ((ms.base : Int) + ms.bytes_used) = ms.base + ms.bytes_used := by
    simp only [usize]; omega
  have e3 : u32 ((ms.elementCount : Int) + 1) = ms.elementCount + 1 := by
    simp only [u32]; omega
  simp only [_Push_, Nat.cast_add, Nat.cast_one, e1, e2, e3, h0, Bool.false_or,
    Bool.not_eq_true', decide_eq_false_iff_not, not_le, gt_iff_lt, and_self, and_true]

/-- For an arena with less than `2^31` bytes in use and a request of at most `2^31` bytes,
`_Pop_` fires `CheckMemory` exactly on underflow, and otherwise takes `num_bytes` off
`bytes_used` and returns the new top. -/
theorem pop_spec_small (ms : MemoryStack) (n : Nat)
    (hu : ms.bytes_used < 2 ^ 31) (hn : n ≤ 2 ^ 31) (hb : ms.base + ms.bytes_used < 2 ^ 64)
    (h0 : ms.outOfMemory = false) :
    ((_Pop_ ms n).2.outOfMemory = true ↔ n > ms.bytes_used) ∧
    (n ≤ ms.bytes_used →
      (_Pop_ ms n).2.bytes_used = ms.bytes_used - n ∧
      (_Pop_ ms n).1 = ms.base + (ms.bytes_used - n)) := by
  by_cases hle : n ≤ ms.bytes_used
  · have e1 : usize ((ms.bytes_used : Int) - n) = ms.bytes_used - n := by
      simp only [usize]; omega
    have e2 : usize ((ms.base : Int) + ((ms.bytes_used - n : Nat) : Int))
        = ms.base + (ms.bytes_used - n) := by
      simp only [usize]; omega
    have e3 : toInt32 (((ms.bytes_used - n : Nat) : Int)) ≥ 0 := by
      simp only [toInt32]; omega
    simp only [_Pop_, e1, Nat.cast_add, e2, e3, h0, decide_True, Bool.not_true, Bool.or_self,
      Bool.false_eq_true, gt_iff_lt, false_iff, not_lt, hle, and_self, implies_true]
  · have e1 : usize ((ms.bytes_used : Int) - n)
        = 18446744073709551616 - (n - ms.bytes_used) := by
      simp only [usize]; omega
    have e3 : ¬ toInt32 (((18446744073709551616 - (n - ms.bytes_used) : Nat) : Int)) ≥ 0 := by
      simp only [toInt32]; omega
    simp only [_Pop_, e1, e3, h0, decide_False, Bool.not_false, Bool.or_true, gt_iff_lt,
      true_iff, hle, false_implies, and_true]
    omega

/-- C19 fails where the `size_t` sum wraps: with 8 of 64 bytes in use, a request of
`2^64 - 8` bytes exceeds the reservation, yet `CheckMemory` does not fire, `bytes_used` is
`0` afterwards, and the next push of 8 bytes returns the base address once more. -/
theorem push_check_misses_wrapped_sum :
    8 + 18446744073709551608 > (64 : Nat) ∧
    (_Push_ ⟨4096, 64, 8, 1, false⟩ 18446744073709551608).2.outOfMemory = false ∧
    (_Push_ ⟨4096, 64, 8, 1, false⟩ 18446744073709551608).2.bytes_used = 0 ∧
    (_Push_ ⟨4096, 64, 0, 0, false⟩ 8).1 = 4096 ∧
    (_Push_ (_Push_ ⟨4096, 64, 8, 1, false⟩ 18446744073709551608).2 8).1 = 4096 ∧
    (_Push_ (_Push_ ⟨4096, 64, 8, 1, false⟩ 18446744073709551608).2 8).2.outOfMemory
      = false := by
  decide

/-- C20 fails in both directions. An arena of `2^32` bytes with `2^31 + 8` bytes in use
pops 8 bytes, which is no underflow, and `CheckMemory` fires; an empty arena pops `2^32`
bytes, which is an underflow, and `CheckMemory` does not fire. -/
theorem pop_check_is_not_underflow_check :
    (8 ≤ 2147483656 ∧
      (_Pop_ ⟨4096, 4294967296, 2147483656, 2, false⟩ 8).2.outOfMemory = true ∧
      (_Pop_ ⟨4096, 4294967296, 2147483656, 2, false⟩ 8).2.bytes_used = 2147483648) ∧
    (4294967296 > 0 ∧
      (_Pop_ ⟨4096, 4294967296, 0, 0, false⟩ 4294967296).2.outOfMemory = false ∧
      (_Pop_ ⟨4096, 4294967296, 0, 0, false⟩ 4294967296).2.bytes_used
        = 18446744069414584320) := by
  decide

/-! ## The pack loop when nothing can be evicted -/

/-- An iteration that finds no place, is refused both expansions, has nothing to evict and
whose traversal leaves the tree, the arena and the atlas as they are, changes nothing. -/
theorem packStep_stuck (s : PackState) (hidx : s.textureIndex < s.textureCount)
    (hres : (traverseTextureNodes s.root s.textureNodeArena s.textureAtlas
      (s.textures.getD s.textureIndex default) []).result = 0)
    (hV : ¬ (u16 ((s.root.block.height : Int) + (s.textures.getD s.textureIndex default).height)
            < u16 ((s.root.block.width : Int) + (s.textures.getD s.textureIndex default).width) ∧
          u16 ((s.root.block.height : Int) + (s.textures.getD s.textureIndex default).height)
            ≤ s.maxAtlasWidth))
    (hH : ¬ (u16 ((s.root.block.height : Int) + (s.textures.getD s.textureIndex default).height)
            ≥ u16 ((s.root.block.width : Int) + (s.textures.getD s.textureIndex default).width) ∧
          u16 ((s.root.block.width : Int) + (s.textures.getD s.textureIndex default).width)
            ≤ s.maxAtlasHeight))
    (hcount : s.cache.nodeCount = 0)
    (hnode : (traverseTextureNodes s.root s.textureNodeArena s.textureAtlas
      (s.textures.getD s.textureIndex default) []).node = s.root)
    (harena : (traverseTextureNodes s.root s.textureNodeArena s.textureAtlas
      (s.textures.getD s.textureIndex default) []).textureNodeArena = s.textureNodeArena)
    (hatlas : (traverseTextureNodes s.root s.textureNodeArena s.textureAtlas
      (s.textures.getD s.textureIndex default) []).textureAtlas = s.textureAtlas) :
    packStep s = s := by
  rw [packStep_noplace s hidx hres, if_neg hV, if_neg hH, hnode, harena, hatlas]
  have hrm : ∀ p, removeLRUFromCache s.cache p s.root = ⟨0, s.cache, p, s.root⟩ := by
    intro p
    simp only [removeLRUFromCache, hcount, ne_eq, not_true_eq_false, if_false]
  rw [hrm]

/-- A state that an iteration does not change and in which the loop condition holds is
never left. -/
theorem packLoop_stuck (s : PackState) (hidx : s.textureIndex < s.textureCount)
    (h : packStep s = s) (fuel : Nat) : packLoop fuel s = none := by
  induction fuel with
  | zero => simp only [packLoop, hidx, if_true]
  | succ f ih => simp only [packLoop, hidx, if_true, h, ih]

/-- A state that an iteration does not change stays as it is. -/
theorem packIter_stuck (s : PackState) (h : packStep s = s) (k : Nat) : packIter k s = s := by
  induction k with
  | zero => rfl
  | succ k ih => rw [packIter_succ, ih, h]

/-- C11 fails on a 10x64 and a 64x10 image under the cap 64x64. The first image is placed,
the second finds no place and both expansions (to 74) are refused, the first is evicted, and
the second still does not fit the 10x64 root. From the third iteration on the cache is empty
and nothing changes: the index of the current image stays 1, and `packTexturesIntoAtlas`
does not return, whatever the number of iterations allowed. -/
theorem pack_never_returns_on_empty_cache :
    sortTextures [textureOf 10 64, textureOf 64 10]
      = some [textureOf 10 64, textureOf 64 10] ∧
    (∀ k, 3 ≤ k →
      (packIter k (packStart [textureOf 10 64, textureOf 64 10] 64 64)).textureIndex = 1 ∧
      (packIter k (packStart [textureOf 10 64, textureOf 64 10] 64 64)).textureCount = 2 ∧
      (packIter k (packStart [textureOf 10 64, textureOf 64 10] 64 64)).cache.nodeCount = 0) ∧
    ∀ fuel, packTexturesIntoAtlas fuel [textureOf 10 64, textureOf 64 10]
      (InitStackMemory 4096 ((1 + 2 * 4) * sizeofTextureNode)) 2
      (makeLRUList 1048576 (2 * sizeofLRUNode))
      ⟨"", List.replicate (64 * 64 * 4) 0, 4, 0, 0, 64, 64⟩ = none := by
  have hstuck : packStep (packIter 3 (packStart [textureOf 10 64, textureOf 64 10] 64 64))
      = packIter 3 (packStart [textureOf 10 64, textureOf 64 10] 64 64) :=
    packStep_stuck _ (by decide) (by decide) (by decide) (by decide) (by decide) (by decide)
      (by decide) rfl
  refine ⟨by decide, ?_, ?_⟩
  · intro k hk
    obtain ⟨j, rfl⟩ : ∃ j, k = j + 3 := ⟨k - 3, by omega⟩
    have e : packIter (j + 3) (packStart [textureOf 10 64, textureOf 64 10] 64 64)
        = packIter 3 (packStart [textureOf 10 64, textureOf 64 10] 64 64) := by
      rw [packIter, Function.iterate_add_apply]
      exact packIter_stuck _ hstuck j
    rw [e]
    decide
  · intro fuel
    have h3 : ∀ f, packLoop (f + 3) (packStart [textureOf 10 64, textureOf 64 10] 64 64)
        = none := by
      intro f
      have e : packLoop (f + 3) (packStart [textureOf 10 64, textureOf 64 10] 64 64)
          = packLoop f (packIter 3 (packStart [textureOf 10 64, textureOf 64 10] 64 64)) := by
        have i0 : (packStart [textureOf 10 64, textureOf 64 10] 64 64).textureIndex
            < (packStart [textureOf 10 64, textureOf 64 10] 64 64).textureCount := by decide
        have i1 : (packStep (packStart [textureOf 10 64, textureOf 64 10] 64 64)).textureIndex
            < (packStep (packStart [textureOf 10 64, textureOf 64 10] 64 64)).textureCount := by
          decide
        have i2 : (packStep (packStep
              (packStart [textureOf 10 64, textureOf 64 10] 64 64))).textureIndex
            < (packStep (packStep
              (packStart [textureOf 10 64, textureOf 64 10] 64 64))).textureCount := by decide
        simp only [packLoop, i0, i1, i2, if_true]
        rfl
      rw [e]
      exact packLoop_stuck _ (by decide) hstuck f
    have hloop : packLoop fuel (packStart [textureOf 10 64, textureOf 64 10] 64 64) = none := by
      rcases Nat.lt_or_ge fuel 3 with hlt | hge
      · have i0 : (packStart [textureOf 10 64, textureOf 64 10] 64 64).textureIndex
            < (packStart [textureOf 10 64, textureOf 64 10] 64 64).textureCount := by decide
        have i1 : (packStep (packStart [textureOf 10 64, textureOf 64 10] 64 64)).textureIndex
            < (packStep (packStart [textureOf 10 64, textureOf 64 10] 64 64)).textureCount := by
          decide
        have i2 : (packStep (packStep
              (packStart [textureOf 10 64, textureOf 64 10] 64 64))).textureIndex
            < (packStep (packStep
              (packStart [textureOf 10 64, textureOf 64 10] 64 64))).textureCount := by decide
        interval_cases fuel <;> simp only [packLoop, i0, i1, i2, if_true]
      · obtain ⟨f, rfl⟩ : ∃ f, fuel = f + 3 := ⟨fuel - 3, by omega⟩
        exact h3 f
    show Option.map _ (packLoop fuel (packStart [textureOf 10 64, textureOf 64 10] 64 64)) = none
    rw [hloop]
    rfl

/-! ## The size of the tree-node arena -/

/-- C12 fails on a 6x4 and a 1x5 image (in sorted order) under the cap 64x64. The second
image does not fit; the root grows three times to the right and once downwards before the
image is placed by one more split. After six iterations both images are placed, eleven
nodes have been pushed on an arena sized for `1 + 4 * 2 = 9`, and `CheckMemory` has
fired. -/
theorem pack_exhausts_node_arena :
    sortTextures [textureOf 6 4, textureOf 1 5] = some [textureOf 6 4, textureOf 1 5] ∧
    (packStart [textureOf 6 4, textureOf 1 5] 64 64).textureNodeArena.max_size
      = (1 + 4 * 2) * sizeofTextureNode ∧
    (packIter 5 (packStart [textureOf 6 4, textureOf 1 5] 64 64)).textureNodeArena.elementCount
      = 9 ∧
    (packIter 5 (packStart [textureOf 6 4, textureOf 1 5] 64 64)).textureNodeArena.outOfMemory
      = false ∧
    (packIter 6 (packStart [textureOf 6 4, textureOf 1 5] 64 64)).textureIndex = 2 ∧
    (packIter 6 (packStart [textureOf 6 4, textureOf 1 5] 64 64)).textureNodeArena.elementCount
      = 11 ∧
    nodeCountOf (packIter 6 (packStart [textureOf 6 4, textureOf 1 5] 64 64)).root = 11 ∧
    (packIter 6 (packStart [textureOf 6 4, textureOf 1 5] 64 64)).textureNodeArena.bytes_used
      = 11 * sizeofTextureNode ∧
    (packIter 6 (packStart [textureOf 6 4, textureOf 1 5] 64 64)).textureNodeArena.outOfMemory
      = true := by
  decide

/-! ## Inserting an image that is already in the cache -/

/-- A walk that has entered a cycle of two nodes, neither of them the sentinel, does not
end. -/
theorem lruWalk_cycle (mem : Nat → LRUNode) (s a b : Nat) (ha : a ≠ s) (hb : b ≠ s)
    (hab : (mem a).next = b) (hba : (mem b).next = a) (fuel : Nat) :
    lruWalk mem s fuel a = none ∧ lruWalk mem s fuel b = none := by
  induction fuel with
  | zero => simp only [lruWalk, ha, hb, if_false, and_self]
  | succ f ih =>
    simp only [lruWalk, ha, hb, if_false, hab, hba, ih.1, ih.2, Option.map_none', and_self]

/-- C13 fails on the cache of two 32x32 images packed under the cap 64x64, when the image
placed first is inserted once more. Before the call the walk visits the node of the second
image and then the node of the first. The call links the node of the first image in after
the sentinel without taking it out of its old place: afterwards the two nodes point at each
other and the walk from `sentinel->next` never comes back to the sentinel. -/
theorem insert_present_breaks_walk :
    lruList (packIter 3 (packStart [textureOf 32 32, textureOf 32 32] 64 64)).cache 2
      = some [1048640, 1048608] ∧
    (packIter 3 (packStart [textureOf 32 32, textureOf 32 32] 64 64)).cache.hashLookup.lookup
      (some 0) = some 1048608 ∧
    ((packIter 3 (packStart [textureOf 32 32, textureOf 32 32] 64 64)).cache.mem
      1048608).textureNode = 4096 ∧
    (insertIntoLRUCache 4096 (some 0)
      (packIter 3 (packStart [textureOf 32 32, textureOf 32 32] 64 64)).cache 64 32
      (packIter 3 (packStart [textureOf 32 32, textureOf 32 32] 64 64)).root).1.nodeCount
      = 2 ∧
    ∀ fuel, lruList (insertIntoLRUCache 4096 (some 0)
      (packIter 3 (packStart [textureOf 32 32, textureOf 32 32] 64 64)).cache 64 32
      (packIter 3 (packStart [textureOf 32 32, textureOf 32 32] 64 64)).root).1 fuel = none := by
  refine ⟨by decide, by decide, by decide, by decide, ?_⟩
  intro fuel
  have h := lruWalk_cycle (insertIntoLRUCache 4096 (some 0)
      (packIter 3 (packStart [textureOf 32 32, textureOf 32 32] 64 64)).cache 64 32
      (packIter 3 (packStart [textureOf 32 32, textureOf 32 32] 64 64)).root).1.mem
    1048576 1048608 1048640 (by decide) (by decide) (by decide) (by decide) fuel
  exact h.1

/-! ## The extent published at the end of packing -/

/-- The loop leaves the caps alone and ends only when the loop condition fails. -/
theorem packLoop_some (fuel : Nat) (s r : PackState) (h : packLoop fuel s = some r) :
    r.maxAtlasWidth = s.maxAtlasWidth ∧ r.maxAtlasHeight = s.maxAtlasHeight ∧
    ¬ r.textureIndex < r.textureCount := by
  induction fuel generalizing s with
  | zero =>
    by_cases hidx : s.textureIndex < s.textureCount
    · simp only [packLoop, hidx, if_true] at h
      exact absurd h (by simp)
    · simp only [packLoop, hidx, if_false, Option.some.injEq] at h
      subst h
      exact ⟨rfl, rfl, hidx⟩
  | succ f ih =>
    by_cases hidx : s.textureIndex < s.textureCount
    · simp only [packLoop, hidx, if_true] at h
      obtain ⟨h1, h2, h3⟩ := ih (packStep s) h
      rw [(packStep_caps s).1] at h1
      rw [(packStep_caps s).2] at h2
      exact ⟨h1, h2, h3⟩
    · simp only [packLoop, hidx, if_false, Option.some.injEq] at h
      subst h
      exact ⟨rfl, rfl, hidx⟩

/-- What `packTexturesIntoAtlas` returns once its loop has ended in the state `r`. -/
theorem packTexturesIntoAtlas_of_loop (fuel : Nat) (textures : List Texture)
    (arena : MemoryStack) (count : Nat) (cache : LRUCache) (atlas : Texture) (r : PackState)
    (h : packLoop fuel (packInit textures arena count cache atlas) = some r) :
    packTexturesIntoAtlas fuel textures arena count cache atlas
      = some { r with
          textureAtlas := { r.textureAtlas with
            width := min r.root.block.width r.maxAtlasWidth
            height := min r.root.block.height r.maxAtlasHeight }
          cache := { r.cache with
            atlasWidth := min r.root.block.width r.maxAtlasWidth
            atlasHeight := min r.root.block.height r.maxAtlasHeight } } := by
  simp only [packTexturesIntoAtlas, h, Option.map_some']

/-- Once the loop has ended within `fuel` iterations, more fuel gives the same state. -/
theorem packLoop_mono (fuel : Nat) (s r : PackState) (h : packLoop fuel s = some r)
    (fuel1 : Nat) (hle : fuel ≤ fuel1) : packLoop fuel1 s = some r := by
  induction fuel generalizing s fuel1 with
  | zero =>
    by_cases hidx : s.textureIndex < s.textureCount
    · simp only [packLoop, hidx, if_true] at h
      exact absurd h (by simp)
    · simp only [packLoop, hidx, if_false] at h
      cases fuel1 with
      | zero => simp only [packLoop, hidx, if_false, h]
      | succ f => simp only [packLoop, hidx, if_false, h]
  | succ f ih =>
    obtain ⟨f1, rfl⟩ : ∃ f1, fuel1 = f1 + 1 := ⟨fuel1 - 1, by omega⟩
    by_cases hidx : s.textureIndex < s.textureCount
    · simp only [packLoop, hidx, if_true] at h ⊢
      exact ih (packStep s) h f1 (by omega)
    · simp only [packLoop, hidx, if_false] at h ⊢
      exact h

/-! ## The stores into the pixel buffer -/

theorem writeU32_length (mem : List Nat) (off v : Nat) :
    (writeU32 mem off v).length = mem.length := by
  simp only [writeU32, List.length_set]

/-- A fill changes neither the size of the pixel buffer nor the extent data of the atlas. -/
theorem render_extent (node : TextureNode) (atlas : Texture) :
    ((renderBlockIntoTextureAtlas node atlas).memory.length,
      (renderBlockIntoTextureAtlas node atlas).width,
      (renderBlockIntoTextureAtlas node atlas).bpp)
      = (atlas.memory.length, atlas.width, atlas.bpp) := by
  have inner : ∀ (l : List Nat) (st : List Nat × Nat),
      (l.foldl (fun (st : List Nat × Nat) _ => (writeU32 st.1 st.2 0xffff00ff, st.2 + 4))
        st).1.length = st.1.length := by
    intro l
    induction l with
    | nil => intro st; rfl
    | cons x xs ih =>
      intro st
      rw [List.foldl_cons, ih]
      exact writeU32_length _ _ _
  have outer : ∀ (l : List Nat) (w : Nat) (st : List Nat × Nat),
      (l.foldl (fun (st : List Nat × Nat) _ =>
        (List.range w).foldl
          (fun (st : List Nat × Nat) _ => (writeU32 st.1 st.2 0xffff00ff, st.2 + 4)) st)
        st).1.length = st.1.length := by
    intro l w
    induction l with
    | nil => intro st; rfl
    | cons x xs ih =>
      intro st
      rw [List.foldl_cons, ih]
      exact inner _ _
  have e : (renderBlockIntoTextureAtlas node atlas).memory.length = atlas.memory.length :=
    outer _ _ _
  rw [e]
  rfl

/-- Whether the stores of a fill lie inside the buffer depends on the atlas only through the
size of its buffer, its width and its bytes per pixel. -/
theorem renderStoresInside_congr (x : TextureNode) (a1 a2 : Texture)
    (h : (a1.memory.length, a1.width, a1.bpp) = (a2.memory.length, a2.width, a2.bpp)) :
    renderStoresInside x a1 ↔ renderStoresInside x a2 := by
  simp only [Prod.mk.injEq] at h
  obtain ⟨h1, h2, h3⟩ := h
  unfold renderStoresInside
  rw [h1, h2, h3]

/-- A traversal changes neither the size of the pixel buffer nor the extent data of the
atlas. -/
theorem traverse_atlas_extent (n : TextureNode) (A : MemoryStack) (atlas t : Texture)
    (path : List Nat) :
    ((traverseTextureNodes n A atlas t path).textureAtlas.memory.length,
      (traverseTextureNodes n A atlas t path).textureAtlas.width,
      (traverseTextureNodes n A atlas t path).textureAtlas.bpp)
      = (atlas.memory.length, atlas.width, atlas.bpp) := by
  induction n generalizing A atlas path with
  | null => rfl
  | node a l r b s u d ihl ihr =>
    have hr := render_extent (TextureNode.node a l r b s u d) atlas
    simp only [traverseTextureNodes]
    split_ifs <;> (try dsimp only) <;>
      first
        | rfl
        | exact hr
        | exact ihl _ _ _
        | exact ihr _ _ _
        | exact (ihl _ _ _).trans hr
        | exact (ihr _ _ _).trans hr
        | exact (ihr _ _ _).trans (ihl _ _ _)
        | exact (ihr _ _ _).trans ((ihl _ _ _).trans hr)

/-- When the fill of every node of the tree that is neither used nor drawn lies inside the
buffer, so does every store of a traversal of the tree. -/
theorem traverseStoresInside_of_nodes (n : TextureNode) (A : MemoryStack) (atlas t : Texture)
    (path : List Nat)
    (h : ∀ x ∈ nodes n, x.isUsed = false → x.isDrawn = false → renderStoresInside x atlas) :
    traverseStoresInside n A atlas t path = true := by
  induction n generalizing A atlas path with
  | null => rfl
  | node a l r b s u d ihl ihr =>
    have hl : ∀ (atlas1 : Texture) (A1 : MemoryStack) (p : List Nat),
        (atlas1.memory.length, atlas1.width, atlas1.bpp)
          = (atlas.memory.length, atlas.width, atlas.bpp) →
        traverseStoresInside l A1 atlas1 t p = true := by
      intro atlas1 A1 p hd
      apply ihl
      intro x hx hu hdr
      rw [renderStoresInside_congr x atlas1 atlas hd]
      exact h x (by simp only [nodes, List.mem_cons, List.mem_append]; exact Or.inr (Or.inl hx))
        hu hdr
    have hr : ∀ (atlas1 : Texture) (A1 : MemoryStack) (p : List Nat),
        (atlas1.memory.length, atlas1.width, atlas1.bpp)
          = (atlas.memory.length, atlas.width, atlas.bpp) →
        traverseStoresInside r A1 atlas1 t p = true := by
      intro atlas1 A1 p hd
      apply ihr
      intro x hx hu hdr
      rw [renderStoresInside_congr x atlas1 atlas hd]
      exact h x (by simp only [nodes, List.mem_cons, List.mem_append]; exact Or.inr (Or.inr hx))
        hu hdr
    have hre := render_extent (TextureNode.node a l r b s u d) atlas
    have hself : u = false → d = false →
        renderStoresInside (TextureNode.node a l r b s u d) atlas := fun hu hd =>
      h _ (by simp only [nodes, List.mem_cons, true_or]) hu hd
    have hhere : (if (!u && !d) = true then
        decide (renderStoresInside (TextureNode.node a l r b s u d) atlas) else true) = true := by
      split_ifs with hf
      · simp only [Bool.and_eq_true, Bool.not_eq_true'] at hf
        exact decide_eq_true (hself hf.1 hf.2)
      · rfl
    have hat : ((if (!u && !d) = true then
          renderBlockIntoTextureAtlas (TextureNode.node a l r b s u d) atlas
        else atlas).memory.length,
        (if (!u && !d) = true then
          renderBlockIntoTextureAtlas (TextureNode.node a l r b s u d) atlas
        else atlas).width,
        (if (!u && !d) = true then
          renderBlockIntoTextureAtlas (TextureNode.node a l r b s u d) atlas
        else atlas).bpp) = (atlas.memory.length, atlas.width, atlas.bpp) := by
      split_ifs
      · exact hre
      · rfl
    unfold traverseStoresInside
    simp only [hhere, Bool.true_and]
    split_ifs <;> (try dsimp only) <;> (try simp only [Bool.and_eq_true]) <;>
      first
        | rfl
        | exact hl _ _ _ (by first | exact hre | rfl)
        | exact ⟨trivial, hr _ _ _ (by first | exact hre | rfl)⟩
        | exact ⟨hl _ _ _ (by first | exact hre | rfl),
            hr _ _ _ (by first | exact hre | rfl)⟩
        | exact ⟨hl _ _ _ (by first | exact hre | rfl),
            hr _ _ _ ((traverse_atlas_extent _ _ _ _ _).trans (by first | exact hre | rfl))⟩

/-- An iteration of the pack loop changes neither the size of the pixel buffer nor the
extent data of the atlas. -/
theorem packStep_atlas_extent (s : PackState) :
    ((packStep s).textureAtlas.memory.length, (packStep s).textureAtlas.width,
      (packStep s).textureAtlas.bpp)
      = (s.textureAtlas.memory.length, s.textureAtlas.width, s.textureAtlas.bpp) := by
  have hT := traverse_atlas_extent s.root s.textureNodeArena s.textureAtlas
    (s.textures.getD s.textureIndex default) []
  by_cases hidx : s.textureIndex < s.textureCount
  swap
  · rw [packStep_done s hidx]
  by_cases hres : (traverseTextureNodes s.root s.textureNodeArena s.textureAtlas
      (s.textures.getD s.textureIndex default) []).result ≠ 0
  · rw [packStep_placed s hidx hres]
    exact hT
  · rw [packStep_noplace s hidx (not_not.1 hres)]
    split_ifs <;> exact hT

theorem packIter_atlas_extent (k : Nat) (s : PackState) :
    ((packIter k s).textureAtlas.memory.length, (packIter k s).textureAtlas.width,
      (packIter k s).textureAtlas.bpp)
      = (s.textureAtlas.memory.length, s.textureAtlas.width, s.textureAtlas.bpp) := by
  induction k with
  | zero => rfl
  | succ k ih =>
    rw [packIter_succ]
    exact (packStep_atlas_extent _).trans ih

/-- The stores of a fill lie inside the buffer iff the block is empty or the last store
does. -/
theorem renderStoresInside_iff (node : TextureNode) (textureAtlas : Texture) :
    renderStoresInside node textureAtlas ↔
      (node.block.width * node.block.height = 0 ∨
        u32 ((node.block.top : Int) * u32 (textureAtlas.width * textureAtlas.bpp))
          + u32 ((node.block.left : Int) * textureAtlas.bpp)
          + 4 * (node.block.width * node.block.height) ≤ textureAtlas.memory.length) := by
  unfold renderStoresInside
  constructor
  · intro h
    by_cases h0 : node.block.width * node.block.height = 0
    · exact Or.inl h0
    · right
      have := h (node.block.width * node.block.height - 1) (by omega)
      omega
  · rintro (h | h) i hi
    · omega
    · omega

/-- An iteration stores only inside the pixel buffer when the fill of every node of the
tree that is neither used nor drawn ends inside a buffer of `len` bytes, for an atlas of
width `w` and `bpp` bytes per pixel. -/
theorem StoresInside_of_nodes (s : PackState) (len w bpp : Nat)
    (hd : (s.textureAtlas.memory.length, s.textureAtlas.width, s.textureAtlas.bpp)
      = (len, w, bpp))
    (h : ∀ x ∈ nodes s.root, x.isUsed = false → x.isDrawn = false →
      u32 ((x.block.top : Int) * u32 (w * bpp)) + u32 ((x.block.left : Int) * bpp)
        + 4 * (x.block.width * x.block.height) ≤ len) :
    StoresInside s := by
  intro _
  apply traverseStoresInside_of_nodes
  intro x hx hu hdr
  rw [renderStoresInside_iff]
  simp only [Prod.mk.injEq] at hd
  rw [hd.1, hd.2.1, hd.2.2]
  exact Or.inr (h x hx hu hdr)

theorem traverseStoresInside_fresh_leaf (a : Nat) (b : TextureRectangle) (sd : Partition)
    (A : MemoryStack) (atlas t : Texture) (p : List Nat) :
    traverseStoresInside (TextureNode.node a TextureNode.null TextureNode.null b sd false false)
        A atlas t p
      = decide (renderStoresInside
          (TextureNode.node a TextureNode.null TextureNode.null b sd false false) atlas) := by
  unfold traverseStoresInside
  rfl

/-- A traversal changes nothing in the atlas but the content of the pixel buffer. -/
theorem traverse_atlas_frame (n : TextureNode) (A : MemoryStack) (atlas t : Texture)
    (path : List Nat) :
    { (traverseTextureNodes n A atlas t path).textureAtlas with memory := [] }
      = { atlas with memory := [] } := by
  induction n generalizing A atlas path with
  | null => rfl
  | node a l r b s u d ihl ihr =>
    have hr : { renderBlockIntoTextureAtlas (TextureNode.node a l r b s u d) atlas with
        memory := [] } = { atlas with memory := [] } := rfl
    simp only [traverseTextureNodes]
    split_ifs <;> (try dsimp only) <;>
      first
        | rfl
        | exact hr
        | exact ihl _ _ _
        | exact ihr _ _ _
        | exact (ihl _ _ _).trans hr
        | exact (ihr _ _ _).trans hr
        | exact (ihr _ _ _).trans (ihl _ _ _)

/-- An iteration of the pack loop changes nothing in the atlas but the content of the pixel
buffer. -/
theorem packStep_atlas_frame (s : PackState) :
    { (packStep s).textureAtlas with memory := [] } = { s.textureAtlas with memory := [] } := by
  have hT := traverse_atlas_frame s.root s.textureNodeArena s.textureAtlas
    (s.textures.getD s.textureIndex default) []
  by_cases hidx : s.textureIndex < s.textureCount
  swap
  · rw [packStep_done s hidx]
  by_cases hres : (traverseTextureNodes s.root s.textureNodeArena s.textureAtlas
      (s.textures.getD s.textureIndex default) []).result ≠ 0
  · rw [packStep_placed s hidx hres]
    exact hT
  · rw [packStep_noplace s hidx (not_not.1 hres)]
    split_ifs <;> exact hT

/-! ## The extent the call publishes -/

/-- A loop that has ended within `fuel` iterations has ended in one of the first `fuel`
iterates, the first in which no image is left. -/
theorem packLoop_some_iter (fuel : Nat) (s r : PackState) (h : packLoop fuel s = some r) :
    ∃ k, k ≤ fuel ∧ r = packIter k s ∧
      (∀ j, j < k → (packIter j s).textureIndex < (packIter j s).textureCount) ∧
      ¬ (packIter k s).textureIndex < (packIter k s).textureCount := by
  induction fuel generalizing s with
  | zero =>
    by_cases hidx : s.textureIndex < s.textureCount
    · simp only [packLoop, hidx, if_true] at h
      exact absurd h (by simp)
    · simp only [packLoop, hidx, if_false, Option.some.injEq] at h
      exact ⟨0, Nat.le_refl _, h.symm, fun j hj => absurd hj (Nat.not_lt_zero j), hidx⟩
  | succ f ih =>
    by_cases hidx : s.textureIndex < s.textureCount
    · simp only [packLoop, hidx, if_true] at h
      obtain ⟨k, hk, e, hlt, hdone⟩ := ih (packStep s) h
      have e1 : ∀ j, packIter j (packStep s) = packIter (j + 1) s := fun j =>
        (Function.iterate_succ_apply packStep j s).symm
      refine ⟨k + 1, by omega, by rw [← e1]; exact e, ?_, by rw [← e1]; exact hdone⟩
      intro j hj
      cases j with
      | zero => exact hidx
      | succ i =>
        rw [← e1]
        exact hlt i (by omega)
    · simp only [packLoop, hidx, if_false, Option.some.injEq] at h
      exact ⟨0, Nat.zero_le _, h.symm, fun j hj => absurd hj (Nat.not_lt_zero j), hidx⟩

/-- A loop that reaches, with an image left, a state that an iteration does not change does
not end. -/
theorem packLoop_never_of_stuck (n : Nat) (s : PackState)
    (hlt : ∀ j, j ≤ n → (packIter j s).textureIndex < (packIter j s).textureCount)
    (hstuck : packStep (packIter n s) = packIter n s) (fuel : Nat) :
    packLoop fuel s = none := by
  cases hr : packLoop fuel s with
  | none => rfl
  | some r =>
    exfalso
    obtain ⟨k, _, _, _, hdone⟩ := packLoop_some_iter fuel s r hr
    apply hdone
    rcases Nat.lt_or_ge n k with hk | hk
    · obtain ⟨j, rfl⟩ : ∃ j, k = j + n := ⟨k - n, by omega⟩
      have e : packIter (j + n) s = packIter n s := by
        rw [packIter, Function.iterate_add_apply]
        exact packIter_stuck _ hstuck j
      rw [e]
      exact hlt n (Nat.le_refl _)
    · exact hlt k hk

/-- C18 (counterexample): the images 1x64 and 64x1, in the order `sortTextures` gives, under
the cap 64x64. The first image is placed on the 1x64 root; the second finds no place, both
expansions (to 65) are refused, and the first image is evicted; after that the second image
still does not fit the root, both expansions are refused again, the cache is empty, and the
iteration changes nothing. No sum wraps, no arena is exhausted and every store lies inside
the pixel buffer, and the call does not return, whatever the number of iterations allowed:
it publishes no atlas extent. -/
theorem pack_publishes_no_extent :
    sortTextures [textureOf 1 64, textureOf 64 1] = some [textureOf 1 64, textureOf 64 1] ∧
    (∀ k, SumsFit (packIter k (packStart [textureOf 1 64, textureOf 64 1] 64 64)) ∧
      (packIter k (packStart [textureOf 1 64, textureOf 64 1] 64 64)).textureNodeArena.outOfMemory
        = false ∧
      (packIter k (packStart [textureOf 1 64, textureOf 64 1] 64 64)).cache.arena.outOfMemory
        = false ∧
      StoresInside (packIter k (packStart [textureOf 1 64, textureOf 64 1] 64 64)) ∧
      (packIter k (packStart [textureOf 1 64, textureOf 64 1] 64 64)).textureIndex
        < (packIter k (packStart [textureOf 1 64, textureOf 64 1] 64 64)).textureCount) ∧
    ∀ fuel, packRun fuel [textureOf 1 64, textureOf 64 1] 64 64 = none := by
  have hstuck : packStep (packIter 3 (packStart [textureOf 1 64, textureOf 64 1] 64 64))
      = packIter 3 (packStart [textureOf 1 64, textureOf 64 1] 64 64) :=
    packStep_stuck _ (by decide) (by decide) (by decide) (by decide) (by decide) (by decide)
      (by decide) rfl
  have hiter : ∀ k, 3 ≤ k → packIter k (packStart [textureOf 1 64, textureOf 64 1] 64 64)
      = packIter 3 (packStart [textureOf 1 64, textureOf 64 1] 64 64) := by
    intro k hk
    obtain ⟨j, rfl⟩ : ∃ j, k = j + 3 := ⟨k - 3, by omega⟩
    rw [packIter, Function.iterate_add_apply]
    exact packIter_stuck _ hstuck j
  have hidx : ∀ j, j ≤ 3 →
      (packIter j (packStart [textureOf 1 64, textureOf 64 1] 64 64)).textureIndex
        < (packIter j (packStart [textureOf 1 64, textureOf 64 1] 64 64)).textureCount := by
    intro j hj
    interval_cases j <;> decide
  refine ⟨by decide, ?_, ?_⟩
  · intro k
    have hd : ((packIter k (packStart [textureOf 1 64, textureOf 64 1] 64
          64)).textureAtlas.memory.length,
        (packIter k (packStart [textureOf 1 64, textureOf 64 1] 64 64)).textureAtlas.width,
        (packIter k (packStart [textureOf 1 64, textureOf 64 1] 64 64)).textureAtlas.bpp)
        = (16384, 64, 4) := by
      rw [packIter_atlas_extent]
      show ((List.replicate (64 * 64 * 4) 0).length, 64, 4) = _
      rw [List.length_replicate]
    refine ⟨?_, ?_, ?_, StoresInside_of_nodes _ _ _ _ hd ?_, ?_⟩
    all_goals
      rcases Nat.lt_or_ge k 3 with hk | hk
      · interval_cases k <;> decide
      · rw [hiter k hk]
        decide
  · intro fuel
    show Option.map _ (packLoop fuel (packStart [textureOf 1 64, textureOf 64 1] 64 64)) = none
    rw [packLoop_never_of_stuck 3 _ hidx hstuck fuel]
    rfl

/-- C18 (amended): when `packTexturesIntoAtlas` returns within `fuel` iterations, it returns
the same state for every larger `fuel`, all images have been gone through, the atlas extent
it has stored is `(min root.width maxAtlasWidth, min root.height maxAtlasHeight)`, where the
caps are the extent the atlas came in with, the cache records the same extent, and both
components are within the caps. The root, the texture table and the index it returns are
those of the first state of the loop in which no image is left. -/
theorem pack_final_extent (fuel : Nat) (textures : List Texture) (arena : MemoryStack)
    (count : Nat) (cache : LRUCache) (atlas : Texture) (s : PackState)
    (h : packTexturesIntoAtlas fuel textures arena count cache atlas = some s) :
    (∀ fuel1, fuel ≤ fuel1 →
      packTexturesIntoAtlas fuel1 textures arena count cache atlas = some s) ∧
    ¬ s.textureIndex < s.textureCount ∧
    s.maxAtlasWidth = atlas.width ∧ s.maxAtlasHeight = atlas.height ∧
    s.textureAtlas.width = min s.root.block.width atlas.width ∧
    s.textureAtlas.height = min s.root.block.height atlas.height ∧
    s.cache.atlasWidth = s.textureAtlas.width ∧
    s.cache.atlasHeight = s.textureAtlas.height ∧
    s.textureAtlas.width ≤ atlas.width ∧ s.textureAtlas.height ≤ atlas.height ∧
    ∃ k, k ≤ fuel ∧
      (∀ j, j < k →
        (packIter j (packInit textures arena count cache atlas)).textureIndex
          < (packIter j (packInit textures arena count cache atlas)).textureCount) ∧
      s.root = (packIter k (packInit textures arena count cache atlas)).root ∧
      s.textures = (packIter k (packInit textures arena count cache atlas)).textures ∧
      s.textureIndex = (packIter k (packInit textures arena count cache atlas)).textureIndex := by
  simp only [packTexturesIntoAtlas, Option.map_eq_some'] at h
  obtain ⟨r, hr, rfl⟩ := h
  obtain ⟨h1, h2, h3⟩ := packLoop_some fuel _ r hr
  obtain ⟨k, hk, e, hlt, _⟩ := packLoop_some_iter fuel _ r hr
  have e1 : r.maxAtlasWidth = atlas.width := h1
  have e2 : r.maxAtlasHeight = atlas.height := h2
  refine ⟨?_, h3, e1, e2, ?_, ?_, rfl, rfl, ?_, ?_, k, hk, hlt, ?_, ?_, ?_⟩
  · intro fuel1 hle
    simp only [packTexturesIntoAtlas, packLoop_mono fuel _ r hr fuel1 hle, Option.map_some']
  · show min r.root.block.width r.maxAtlasWidth = _
    rw [e1]
  · show min r.root.block.height r.maxAtlasHeight = _
    rw [e2]
  · show min r.root.block.width r.maxAtlasWidth ≤ _
    rw [e1]; exact Nat.min_le_right _ _
  · show min r.root.block.height r.maxAtlasHeight ≤ _
    rw [e2]; exact Nat.min_le_right _ _
  · show r.root = _
    rw [e]
  · show r.textures = _
    rw [e]
  · show r.textureIndex = _
    rw [e]

/-- C18 (amended) at two 32x32 images under the cap 64x64: the call returns after three
iterations with the extent 64x32. -/
theorem pack_final_extent_witness :
    ∃ s, packTexturesIntoAtlas 3 [textureOf 32 32, textureOf 32 32]
        (InitStackMemory 4096 ((1 + 2 * 4) * sizeofTextureNode)) 2
        (makeLRUList 1048576 (2 * sizeofLRUNode))
        ⟨"", List.replicate (64 * 64 * 4) 0, 4, 0, 0, 64, 64⟩ = some s ∧
      s.textureAtlas.width = 64 ∧ s.textureAtlas.height = 32 ∧
      s.cache.atlasWidth = 64 ∧ s.cache.atlasHeight = 32 := by
  have i0 : (packStart [textureOf 32 32, textureOf 32 32] 64 64).textureIndex
      < (packStart [textureOf 32 32, textureOf 32 32] 64 64).textureCount := by decide
  have i1 : (packStep (packStart [textureOf 32 32, textureOf 32 32] 64 64)).textureIndex
      < (packStep (packStart [textureOf 32 32, textureOf 32 32] 64 64)).textureCount := by
    decide
  have i2 : (packStep (packStep
        (packStart [textureOf 32 32, textureOf 32 32] 64 64))).textureIndex
      < (packStep (packStep
        (packStart [textureOf 32 32, textureOf 32 32] 64 64))).textureCount := by decide
  have i3 : ¬ (packStep (packStep (packStep
        (packStart [textureOf 32 32, textureOf 32 32] 64 64)))).textureIndex
      < (packStep (packStep (packStep
        (packStart [textureOf 32 32, textureOf 32 32] 64 64)))).textureCount := by decide
  have hl : packLoop 3 (packStart [textureOf 32 32, textureOf 32 32] 64 64)
      = some (packStep (packStep (packStep
        (packStart [textureOf 32 32, textureOf 32 32] 64 64)))) := by
    simp only [packLoop, i0, i1, i2, i3, if_true, if_false]
  have hP := packTexturesIntoAtlas_of_loop 3 [textureOf 32 32, textureOf 32 32]
    (InitStackMemory 4096 ((1 + 2 * 4) * sizeofTextureNode)) 2
    (makeLRUList 1048576 (2 * sizeofLRUNode))
    ⟨"", List.replicate (64 * 64 * 4) 0, 4, 0, 0, 64, 64⟩ _ hl
  obtain ⟨_, _, _, _, h4, h5, h6, h7, _, _, _⟩ := pack_final_extent 3
    [textureOf 32 32, textureOf 32 32]
    (InitStackMemory 4096 ((1 + 2 * 4) * sizeofTextureNode)) 2
    (makeLRUList 1048576 (2 * sizeofLRUNode))
    ⟨"", List.replicate (64 * 64 * 4) 0, 4, 0, 0, 64, 64⟩ _ hP
  refine ⟨_, hP, ?_, ?_, ?_, ?_⟩
  · rw [h4]; decide
  · rw [h5]; decide
  · rw [h6, h4]; decide
  · rw [h7, h5]; decide

/-! ## The cache invariant -/

theorem lookup_hashErase (m : List (Option Nat × Nat)) (k k1 : Option Nat) :
    (hashErase m k).lookup k1 = if k1 = k then none else m.lookup k1 := by
  induction m with
  | nil => simp only [hashErase, List.filter_nil, List.lookup, ite_self]
  | cons x xs ih =>
    obtain ⟨a, b⟩ := x
    simp only [hashErase] at ih
    by_cases hak : a = k
    · subst hak
      have e : (hashErase ((a, b) :: xs) a) = hashErase xs a := by
        simp only [hashErase, List.filter_cons, decide_True, Bool.not_true]
        rfl
      rw [e]
      simp only [hashErase]
      rw [ih]
      by_cases h1 : k1 = a
      · simp only [h1, if_true]
      · have hne : (k1 == a) = false := by
          simp only [beq_eq_false_iff_ne, ne_eq]; exact h1
        simp only [h1, if_false, List.lookup, hne]
    · have e : (hashErase ((a, b) :: xs) k) = (a, b) :: hashErase xs k := by
        simp only [hashErase, List.filter_cons, hak, decide_False, Bool.not_false, if_true]
      rw [e]
      by_cases h1 : k1 = a
      · subst h1
        have hbeq : (k1 == k1) = true := by simp only [beq_self_eq_true]
        simp only [List.lookup, hbeq, hak, if_false]
      · have hne : (k1 == a) = false := by
          simp only [beq_eq_false_iff_ne, ne_eq]; exact h1
        simp only [List.lookup, hne]
        simp only [hashErase]
        exact ih

theorem lookup_cons (m : List (Option Nat × Nat)) (k k1 : Option Nat) (v : Nat) :
    ((k, v) :: m).lookup k1 = if k1 = k then some v else m.lookup k1 := by
  by_cases h1 : k1 = k
  · subst h1
    have hbeq : (k1 == k1) = true := by simp only [beq_self_eq_true]
    simp only [List.lookup, hbeq, if_true]
  · have hne : (k1 == k) = false := by
      simp only [beq_eq_false_iff_ne, ne_eq]; exact h1
    simp only [List.lookup, hne, h1, if_false]

theorem Linked_append (mem : Nat → LRUNode) (l1 l2 : List Nat) (p x q : Nat) :
    Linked mem p (l1 ++ x :: l2) q ↔ Linked mem p l1 x ∧ Linked mem x l2 q := by
  induction l1 generalizing p with
  | nil => simp only [List.nil_append, Linked, and_assoc]
  | cons y ys ih =>
    show ((mem p).next = y ∧ (mem y).prev = p ∧ Linked mem y (ys ++ x :: l2) q) ↔ _
    rw [ih]
    simp only [Linked, and_assoc]

theorem removeElementFromList_fields (mem : Nat → LRUNode) (e x : Nat) :
    (removeElementFromList mem e x).texture = (mem x).texture ∧
    (removeElementFromList mem e x).textureNode = (mem x).textureNode := by
  unfold removeElementFromList
  dsimp only
  by_cases h1 : x = (Function.update mem (mem e).prev
      { mem (mem e).prev with next := (mem e).next } e).next
  · rw [← h1, Function.update_same]
    by_cases h2 : x = (mem e).prev
    · rw [← h2, Function.update_same]; exact ⟨rfl, rfl⟩
    · rw [Function.update_noteq h2]; exact ⟨rfl, rfl⟩
  · rw [Function.update_noteq h1]
    by_cases h2 : x = (mem e).prev
    · rw [← h2, Function.update_same]; exact ⟨rfl, rfl⟩
    · rw [Function.update_noteq h2]; exact ⟨rfl, rfl⟩

theorem removeElementFromList_links (mem : Nat → LRUNode) (e : Nat) (he : e ≠ (mem e).prev)
    (x : Nat) :
    (removeElementFromList mem e x).next
      = (if x = (mem e).prev then (mem e).next else (mem x).next) ∧
    (removeElementFromList mem e x).prev
      = (if x = (mem e).next then (mem e).prev else (mem x).prev) := by
  unfold removeElementFromList
  dsimp only
  have e1 : Function.update mem (mem e).prev { mem (mem e).prev with next := (mem e).next } e
      = mem e := Function.update_noteq he _ _
  rw [e1]
  by_cases h1 : x = (mem e).next
  · rw [← h1, Function.update_same, if_pos rfl]
    by_cases h2 : x = (mem e).prev
    · rw [← h2, Function.update_same, if_pos rfl]; exact ⟨rfl, rfl⟩
    · rw [Function.update_noteq h2, if_neg h2]; exact ⟨rfl, rfl⟩
  · rw [Function.update_noteq h1, if_neg h1]
    by_cases h2 : x = (mem e).prev
    · rw [← h2, Function.update_same, if_pos rfl]; exact ⟨rfl, rfl⟩
    · rw [Function.update_noteq h2, if_neg h2]; exact ⟨rfl, rfl⟩

theorem Linked_links (mem : Nat → LRUNode) (l : List Nat) (p q : Nat)
    (h : Linked mem p l q) :
    (mem (mem p).next).prev = p ∧ (mem (mem q).prev).next = q ∧
    ∀ y ∈ l, (mem (mem y).next).prev = y ∧ (mem (mem y).prev).next = y := by
  induction l generalizing p with
  | nil =>
    obtain ⟨h1, h2⟩ := h
    refine ⟨by rw [h1, h2], by rw [h2, h1], ?_⟩
    intro y hy
    exact absurd hy (List.not_mem_nil y)
  | cons x xs ih =>
    obtain ⟨h1, h2, h3⟩ := h
    obtain ⟨i1, i2, i3⟩ := ih x h3
    refine ⟨by rw [h1, h2], i2, ?_⟩
    intro y hy
    rcases List.mem_cons.1 hy with e | hy1
    · subst e
      exact ⟨i1, by rw [h2, h1]⟩
    · exact i3 y hy1

/-- In a well-formed ring every node, the sentinel included, is the `prev` of its `next` and
the `next` of its `prev`. -/
theorem Ring_links (mem : Nat → LRUNode) (s : Nat) (l : List Nat) (h : Ring mem s l) :
    ∀ y ∈ s :: l, (mem (mem y).next).prev = y ∧ (mem (mem y).prev).next = y := by
  obtain ⟨i1, i2, i3⟩ := Linked_links mem l s s h.2
  intro y hy
  rcases List.mem_cons.1 hy with e | hy1
  · subst e; exact ⟨i1, i2⟩
  · exact i3 y hy1

theorem Ring_removeElement (mem : Nat → LRUNode) (s x : Nat) (l1 l2 : List Nat)
    (h : Ring mem s (l1 ++ x :: l2)) :
    Ring (removeElementFromList mem x) s (l1 ++ l2) := by
  obtain ⟨nd, lk⟩ := h
  obtain ⟨lkA, lkB⟩ := (Linked_append mem l1 l2 s x s).1 lk
  obtain ⟨hs, nd2⟩ := List.nodup_cons.1 nd
  have hsl1 : s ∉ l1 := fun hh => hs (List.mem_append_left _ hh)
  have hsx : s ≠ x := fun e => hs (List.mem_append_right _ (e ▸ List.mem_cons_self _ _))
  have hsl2 : s ∉ l2 := fun hh =>
    hs (List.mem_append_right _ (List.mem_cons_of_mem _ hh))
  obtain ⟨ndl1, ndxl2, disj⟩ := List.nodup_append.1 nd2
  obtain ⟨hxl2, ndl2⟩ := List.nodup_cons.1 ndxl2
  have hxl1 : x ∉ l1 := fun hh => disj hh (List.mem_cons_self _ _)
  have hdisj : ∀ y, y ∈ l1 → y ∉ l2 := fun y h1 h2 => disj h1 (List.mem_cons_of_mem _ h2)
  have nd1 : (s :: l1).Nodup := List.nodup_cons.2 ⟨hsl1, ndl1⟩
  have hp : (mem x).prev ∈ s :: l1 := Linked_prev_mem mem l1 s x lkA
  have hxp : x ≠ (mem x).prev := by
    intro e
    rw [← e] at hp
    rcases List.mem_cons.1 hp with e1 | h1
    · exact hsx e1.symm
    · exact hxl1 h1
  have links := removeElementFromList_links mem x hxp
  have hpl2 : (mem x).prev ∉ l2 := by
    intro hh
    rcases List.mem_cons.1 hp with e1 | h1
    · exact hsl2 (e1 ▸ hh)
    · exact hdisj _ h1 hh
  have ndr : (s :: (l1 ++ l2)).Nodup := by
    refine List.nodup_cons.2 ⟨?_, ?_⟩
    · intro hh
      rcases List.mem_append.1 hh with h1 | h1
      · exact hsl1 h1
      · exact hsl2 h1
    · exact List.nodup_append.2 ⟨ndl1, ndl2, fun y h1 h2 => hdisj y h1 h2⟩
  refine ⟨ndr, ?_⟩
  cases l2 with
  | nil =>
    obtain ⟨b1, b2⟩ := lkB
    rw [List.append_nil]
    refine Linked_retarget mem _ l1 s x s lkA nd1 ?_ ?_ ?_ ?_
    · rw [(links _).1, if_pos rfl, b1]
    · rw [(links _).2, b1, if_pos rfl]
    · intro y _ hy
      rw [(links y).1, if_neg hy]
    · intro y hy
      have : y ≠ (mem x).next := by
        rw [b1]; exact fun e => hsl1 (e ▸ hy)
      rw [(links y).2, if_neg this]
  | cons n l3 =>
    obtain ⟨b1, b2, b3⟩ := lkB
    obtain ⟨hnl3, ndl3⟩ := List.nodup_cons.1 ndl2
    refine (Linked_append _ l1 l3 s n s).2 ⟨?_, ?_⟩
    · refine Linked_retarget mem _ l1 s x n lkA nd1 ?_ ?_ ?_ ?_
      · rw [(links _).1, if_pos rfl, b1]
      · rw [(links _).2, b1, if_pos rfl]
      · intro y _ hy
        rw [(links y).1, if_neg hy]
      · intro y hy
        have : y ≠ (mem x).next := by
          rw [b1]; exact fun e => hdisj y hy (e ▸ List.mem_cons_self _ _)
        rw [(links y).2, if_neg this]
    · refine Linked_congr mem _ l3 n s ?_ ?_ b3
      · intro y hy
        have : y ≠ (mem x).prev := fun e => hpl2 (e ▸ hy)
        rw [(links y).1, if_neg this]
      · intro y hy
        have : y ≠ (mem x).next := by
          rw [b1]
          rcases List.mem_append.1 hy with h1 | h1
          · exact fun e => hnl3 (e ▸ h1)
          · rw [List.mem_singleton] at h1
            rw [h1]
            exact fun e => hsl2 (e ▸ List.mem_cons_self _ _)
        rw [(links y).2, if_neg this]

theorem CacheInv_tex_inj (c : LRUCache) (L : List Nat) (h : CacheInv c L) (x y : Nat)
    (hx : x ∈ L) (hy : y ∈ L) (e : (c.mem x).texture = (c.mem y).texture) : x = y := by
  have h1 := h.2.2.1 x hx
  have h2 := h.2.2.1 y hy
  rw [e, h2] at h1
  exact (Option.some.inj h1).symm

/-- Taking the node `x` out of the list and its image out of the lookup keeps the cache
invariant. -/
theorem CacheInv_remove (c c1 : LRUCache) (l1 l2 : List Nat) (x : Nat)
    (h : CacheInv c (l1 ++ x :: l2))
    (hs : c1.sentinel = c.sentinel)
    (hring : Ring c1.mem c.sentinel (l1 ++ l2))
    (htex : ∀ y, (c1.mem y).texture = (c.mem y).texture)
    (hlook : c1.hashLookup = hashErase c.hashLookup (c.mem x).texture)
    (hcount : c1.nodeCount = u32 ((c.nodeCount : Int) - 1))
    (hsmall : c.nodeCount < 2 ^ 32) :
    CacheInv c1 (l1 ++ l2) := by
  have hxmem : x ∈ l1 ++ x :: l2 := List.mem_append_right _ (List.mem_cons_self _ _)
  have hsub : ∀ y, y ∈ l1 ++ l2 → y ∈ l1 ++ x :: l2 := by
    intro y hy
    rcases List.mem_append.1 hy with h1 | h1
    · exact List.mem_append_left _ h1
    · exact List.mem_append_right _ (List.mem_cons_of_mem _ h1)
  have hnd : (l1 ++ x :: l2).Nodup := (List.nodup_cons.1 h.1.1).2
  have hxnot : x ∉ l1 ++ l2 := by
    obtain ⟨_, ndx, disj⟩ := List.nodup_append.1 hnd
    intro hh
    rcases List.mem_append.1 hh with h1 | h1
    · exact disj h1 (List.mem_cons_self _ _)
    · exact (List.nodup_cons.1 ndx).1 h1
  have hne : ∀ y, y ∈ l1 ++ l2 → (c.mem y).texture ≠ (c.mem x).texture := by
    intro y hy e
    have := CacheInv_tex_inj c _ h y x (hsub y hy) hxmem e
    exact hxnot (this ▸ hy)
  refine ⟨by rw [hs]; exact hring, ?_, ?_, ?_⟩
  · intro k
    rw [hlook, lookup_hashErase]
    by_cases hk : k = (c.mem x).texture
    · rw [if_pos hk]
      constructor
      · intro hh; exact absurd hh (by simp)
      · rintro ⟨y, hy, e⟩
        rw [htex] at e
        exact absurd (e.trans hk) (hne y hy)
    · rw [if_neg hk, h.2.1 k]
      constructor
      · rintro ⟨y, hy, e⟩
        refine ⟨y, ?_, by rw [htex]; exact e⟩
        rcases List.mem_append.1 hy with h1 | h1
        · exact List.mem_append_left _ h1
        · rcases List.mem_cons.1 h1 with h2 | h2
          · subst h2; exact absurd e.symm hk
          · exact List.mem_append_right _ h2
      · rintro ⟨y, hy, e⟩
        exact ⟨y, hsub y hy, by rw [← htex]; exact e⟩
  · intro y hy
    rw [hlook, lookup_hashErase, htex, if_neg (hne y hy)]
    exact h.2.2.1 y (hsub y hy)
  · rw [hcount, h.2.2.2]
    have hlen : (l1 ++ x :: l2).length = (l1 ++ l2).length + 1 := by
      simp only [List.length_append, List.length_cons]; omega
    have hb := h.2.2.2 ▸ hsmall
    rw [hlen] at hb ⊢
    simp only [u32]
    omega

theorem removeLRUFromCache_empty (c : LRUCache) (p : List Nat) (tree : TextureNode)
    (h : c.nodeCount = 0) : removeLRUFromCache c p tree = ⟨0, c, p, tree⟩ := by
  simp only [removeLRUFromCache, h, ne_eq, not_true_eq_false, if_false]

theorem removeLRUFromCache_tail (c : LRUCache) (p : List Nat) (tree : TextureNode)
    (L0 : List Nat) (t : Nat) (h : CacheInv c (L0 ++ [t])) :
    removeLRUFromCache c p tree =
      ⟨t,
       { c with
          hashLookup := hashErase c.hashLookup (c.mem t).texture
          mem := removeLRUFromList c.mem c.sentinel
          nodeCount := u32 ((c.nodeCount : Int) - 1) },
       [],
       storeAt (c.mem t).textureNode (setSplitDir Partition.NONE)
         (storeAt (c.mem t).textureNode (setIsUsed false) tree)⟩ := by
  have hprev : (c.mem c.sentinel).prev = t := (Ring_remove c.mem c.sentinel t L0 h.1).1
  have hcount : c.nodeCount ≠ 0 := by
    rw [h.2.2.2]; simp only [List.length_append, List.length_singleton]; omega
  have hlook : (c.hashLookup.lookup (c.mem t).texture).isSome = true := by
    rw [h.2.2.1 t (List.mem_append_right _ (List.mem_singleton_self t))]; rfl
  simp only [removeLRUFromCache, hcount, ne_eq, not_false_eq_true, if_true, hprev, hlook]

/-- An insert of an image that is not in the lookup puts a new node, the old top of the
arena, in front of the list. -/
theorem insertIntoLRUCache_ok (tn : Nat) (tex : Option Nat) (c : LRUCache) (W H : Nat)
    (tree : TextureNode) (L : List Nat) (h : CacheOK c L)
    (hlook : c.hashLookup.lookup tex = none)
    (hoom : (insertIntoLRUCache tn tex c W H tree).1.arena.outOfMemory = false) :
    CacheOK (insertIntoLRUCache tn tex c W H tree).1 (arenaTop c.arena :: L) ∧
    (insertIntoLRUCache tn tex c W H tree).1.sentinel = c.sentinel ∧
    ((insertIntoLRUCache tn tex c W H tree).1.mem (arenaTop c.arena)).texture = tex ∧
    (∀ x ∈ L, ((insertIntoLRUCache tn tex c W H tree).1.mem x).texture
      = (c.mem x).texture) := by
  obtain ⟨hinv, hA, hb, hbytes, hmax⟩ := h
  obtain ⟨hring, hkeys, heach, hcount⟩ := hinv
  have hsz : sizeofLRUNode = 32 := rfl
  obtain ⟨n1, n2, n3, n4, n5, n6, n7, n8, n9, n10, n11, n12⟩ :=
    insertIntoLRUCache_new tn tex c W H tree L hlook hA hring hb hoom
  have harena : (insertIntoLRUCache tn tex c W H tree).1.arena
      = (_Push_ c.arena sizeofLRUNode).2 := by
    simp only [insertIntoLRUCache, hlook]
  have hoom1 : (_Push_ c.arena sizeofLRUNode).2.outOfMemory = false := by
    rw [← harena]; exact hoom
  obtain ⟨p1, p2, p3, p4, p5, p6⟩ := push_ok c.arena sizeofLRUNode (by decide) hA hoom1
  have hle1 : c.arena.bytes_used + 32 ≤ c.arena.max_size := by
    have := p2.2.2
    rw [p3, p5, hsz] at this
    exact this
  rw [hsz] at hbytes hmax
  have hLne : ∀ x ∈ L, x ≠ arenaTop c.arena := by
    intro x hx e
    have := hb x (List.mem_cons_of_mem _ hx)
    omega
  have htexL : ∀ x ∈ L, ((insertIntoLRUCache tn tex c W H tree).1.mem x).texture
      = (c.mem x).texture := fun x hx => (n7 x (hLne x hx)).1
  have htexne : ∀ x ∈ L, (c.mem x).texture ≠ tex := by
    intro x hx e
    have := heach x hx
    rw [e, hlook] at this
    exact absurd this (by simp)
  refine ⟨⟨⟨?_, ?_, ?_, ?_⟩, n3, ?_, ?_, ?_⟩, n1, n5, htexL⟩
  · rw [n1]; exact n2
  · intro k
    rw [n8, lookup_cons, lookup_hashErase]
    by_cases hk : k = tex
    · simp only [hk, if_true, Option.isSome_some, true_iff]
      exact ⟨arenaTop c.arena, List.mem_cons_self _ _, n5⟩
    · simp only [hk, if_false]
      rw [hkeys k]
      constructor
      · rintro ⟨y, hy, e⟩
        exact ⟨y, List.mem_cons_of_mem _ hy, by rw [htexL y hy]; exact e⟩
      · rintro ⟨y, hy, e⟩
        rcases List.mem_cons.1 hy with h1 | h1
        · subst h1
          rw [n5] at e
          exact absurd e.symm hk
        · exact ⟨y, h1, by rw [← htexL y h1]; exact e⟩
  · intro y hy
    rw [n8, lookup_cons, lookup_hashErase]
    rcases List.mem_cons.1 hy with h1 | h1
    · subst h1
      rw [n5]
      simp only [if_true]
    · rw [htexL y h1]
      simp only [htexne y h1, if_false]
      exact heach y h1
  · rw [n12, hcount]
    simp only [List.length_cons, u32]
    omega
  · rw [n1]; exact n4
  · rw [harena, p3]
    simp only [List.length_cons]
    rw [hsz]
    omega
  · rw [harena, p5, hsz]; exact hmax

/-- An eviction takes the last node off the list (and does nothing on the empty list). -/
theorem removeLRUFromCache_ok (c : LRUCache) (p : List Nat) (tree : TextureNode)
    (L : List Nat) (h : CacheOK c L) :
    CacheOK (removeLRUFromCache c p tree).cache L.dropLast ∧
    (removeLRUFromCache c p tree).cache.sentinel = c.sentinel ∧
    (removeLRUFromCache c p tree).cache.arena = c.arena ∧
    (∀ x, ((removeLRUFromCache c p tree).cache.mem x).texture = (c.mem x).texture) := by
  obtain ⟨hinv, hA, hb, hbytes, hmax⟩ := h
  have hsz : sizeofLRUNode = 32 := rfl
  rcases List.eq_nil_or_concat L with e | ⟨L0, t, e⟩
  · subst e
    have h0 : c.nodeCount = 0 := by rw [hinv.2.2.2]; rfl
    rw [removeLRUFromCache_empty c p tree h0]
    exact ⟨⟨hinv, hA, hb, hbytes, hmax⟩, rfl, rfl, fun _ => rfl⟩
  · rw [List.concat_eq_append] at e
    subst e
    rw [removeLRUFromCache_tail c p tree L0 t hinv]
    dsimp only
    have hdrop : (L0 ++ [t]).dropLast = L0 := List.dropLast_concat
    rw [hdrop]
    have hring := (Ring_remove c.mem c.sentinel t L0 hinv.1).2
    have hsmall : c.nodeCount < 2 ^ 32 := by
      rw [hinv.2.2.2]
      have hle : c.arena.bytes_used ≤ c.arena.max_size := hA.2.2
      rw [hsz] at hbytes hmax
      omega
    have hinv1 := CacheInv_remove c
      { c with
        hashLookup := hashErase c.hashLookup (c.mem t).texture
        mem := removeLRUFromList c.mem c.sentinel
        nodeCount := u32 ((c.nodeCount : Int) - 1) } L0 [] t hinv rfl
      (by rw [List.append_nil]; exact hring)
      (fun y => (removeLRUFromList_fields c.mem c.sentinel y).1) rfl rfl hsmall
    rw [List.append_nil] at hinv1
    refine ⟨⟨hinv1, hA, ?_, ?_, hmax⟩, rfl, rfl,
      fun y => (removeLRUFromList_fields c.mem c.sentinel y).1⟩
    · intro x hx
      apply hb x
      rcases List.mem_cons.1 hx with h1 | h1
      · exact h1 ▸ List.mem_cons_self _ _
      · exact List.mem_cons_of_mem _ (List.mem_append_left _ h1)
    · show (L0.length + 1) * sizeofLRUNode ≤ c.arena.bytes_used
      simp only [List.length_append, List.length_singleton] at hbytes
      rw [hsz] at hbytes ⊢
      omega

/-- The targeted removal takes a node that is on the list out of it, and does nothing when
the node is one it ignores. -/
theorem removeNodeFromCache_ok (c : LRUCache) (x : Nat) (tree : TextureNode) (L : List Nat)
    (h : CacheOK c L) (hal : OpAllowed c (CacheOp.removeNode x)) :
    (∃ L1, CacheOK (removeNodeFromCache c x tree).1 L1) ∧
    (removeNodeFromCache c x tree).1.sentinel = c.sentinel ∧
    (removeNodeFromCache c x tree).1.arena = c.arena := by
  have hsz : sizeofLRUNode = 32 := rfl
  by_cases g1 : x ≠ 0 ∧ (c.mem x).texture ≠ none
  swap
  · have e : removeNodeFromCache c x tree = (c, tree) := by
      unfold removeNodeFromCache
      rw [if_neg g1]
    rw [e]
    exact ⟨⟨L, h⟩, rfl, rfl⟩
  by_cases g2 : (c.hashLookup.lookup (c.mem x).texture).isNone = true
  · have e : removeNodeFromCache c x tree = (c, tree) := by
      unfold removeNodeFromCache
      rw [if_pos g1, if_pos g2]
    rw [e]
    exact ⟨⟨L, h⟩, rfl, rfl⟩
  have e : removeNodeFromCache c x tree =
      ({ c with
          hashLookup := hashErase c.hashLookup (c.mem x).texture
          mem := removeElementFromList c.mem x
          nodeCount := u32 ((c.nodeCount : Int) - 1) },
       storeAt (c.mem x).textureNode (setSplitDir Partition.NONE)
         (storeAt (c.mem x).textureNode clearChildren
           (storeAt (c.mem x).textureNode (setIsUsed false) tree))) := by
    unfold removeNodeFromCache
    rw [if_pos g1, if_neg g2]
  rw [e]
  dsimp only
  obtain ⟨hinv, hA, hb, hbytes, hmax⟩ := h
  have hwalk : lruList c c.nodeCount = some L :=
    lruWalk_of_Ring c.mem c.sentinel L c.nodeCount hinv.1 (by rw [hinv.2.2.2])
  have hxL : x ∈ L := by
    rcases hal with h1 | h1 | h1 | h1
    · rw [hwalk] at h1; exact h1
    · exact absurd h1 g1.1
    · exact absurd h1 g1.2
    · rw [h1] at g2; exact absurd rfl g2
  obtain ⟨l1, l2, rfl⟩ := List.append_of_mem hxL
  have hsmall : c.nodeCount < 2 ^ 32 := by
    rw [hinv.2.2.2]
    have hle : c.arena.bytes_used ≤ c.arena.max_size := hA.2.2
    rw [hsz] at hbytes hmax
    omega
  have hinv1 := CacheInv_remove c
    { c with
      hashLookup := hashErase c.hashLookup (c.mem x).texture
      mem := removeElementFromList c.mem x
      nodeCount := u32 ((c.nodeCount : Int) - 1) } l1 l2 x hinv rfl
    (Ring_removeElement c.mem c.sentinel x l1 l2 hinv.1)
    (fun y => (removeElementFromList_fields c.mem x y).1) rfl rfl hsmall
  refine ⟨⟨l1 ++ l2, hinv1, hA, ?_, ?_, hmax⟩, rfl, rfl⟩
  · intro y hy
    apply hb y
    rcases List.mem_cons.1 hy with h1 | h1
    · exact h1 ▸ List.mem_cons_self _ _
    · refine List.mem_cons_of_mem _ ?_
      rcases List.mem_append.1 h1 with h2 | h2
      · exact List.mem_append_left _ h2
      · exact List.mem_append_right _ (List.mem_cons_of_mem _ h2)
  · show ((l1 ++ l2).length + 1) * sizeofLRUNode ≤ c.arena.bytes_used
    simp only [List.length_append, List.length_cons] at hbytes ⊢
    rw [hsz] at hbytes ⊢
    omega

/-- The cache `makeLRUList` returns is well formed and empty. -/
theorem makeLRUList_ok (ptr listSize : Nat) (hp : 0 < ptr)
    (hm : ptr + listSize + 2 * sizeofLRUNode ≤ 2 ^ 64) (hl : listSize < 2 ^ 32) :
    CacheOK (makeLRUList ptr listSize) [] ∧
    (makeLRUList ptr listSize).arena.outOfMemory = false := by
  have hsz : sizeofLRUNode = 32 := rfl
  rw [hsz] at hm
  have hm1 : usize ((listSize : Int) + (sizeofLRUNode : Int)) = listSize + 32 := by
    rw [hsz]; unfold usize; omega
  have hpush := push_eq (InitStackMemory ptr (listSize + 32)) sizeofLRUNode hp (by decide)
    (by simp only [InitStackMemory, hsz]; omega)
  have hring : Ring (makeLRUList ptr listSize).mem (makeLRUList ptr listSize).sentinel [] := by
    refine ⟨List.nodup_singleton _, ?_⟩
    simp only [Linked, makeLRUList, initList, Function.update_same, and_self]
  have harena : (makeLRUList ptr listSize).arena
      = (_Push_ (InitStackMemory ptr (listSize + 32)) sizeofLRUNode).2 := by
    simp only [makeLRUList, hm1]
  have hsent : (makeLRUList ptr listSize).sentinel
      = (_Push_ (InitStackMemory ptr (listSize + 32)) sizeofLRUNode).1 := by
    simp only [makeLRUList, hm1]
  rw [hpush] at harena hsent
  simp only [InitStackMemory, hsz] at harena hsent
  have hp0 : decide (ptr = 0) = false := by
    simp only [decide_eq_false_iff_not]; omega
  refine ⟨⟨⟨hring, ?_, ?_, rfl⟩, ?_, ?_, ?_, ?_⟩, ?_⟩
  · intro k
    constructor
    · intro hh
      have : (makeLRUList ptr listSize).hashLookup = [] := rfl
      rw [this] at hh
      exact absurd hh (by simp)
    · rintro ⟨y, hy, _⟩
      exact absurd hy (List.not_mem_nil y)
  · intro y hy
    exact absurd hy (List.not_mem_nil y)
  · rw [harena]
    refine ⟨hp, ?_, ?_⟩
    · show ptr + (listSize + 32) + sizeofLRUNode ≤ 2 ^ 64
      rw [hsz]; omega
    · show 0 + 32 ≤ listSize + 32
      omega
  · intro y hy
    rw [List.mem_singleton] at hy
    rw [hy, hsent, harena]
    show ptr + 0 < ptr + (0 + 32)
    omega
  · rw [harena]
    show (0 + 1) * sizeofLRUNode ≤ 0 + 32
    rw [hsz]
  · rw [harena]
    show listSize + 32 < 2 ^ 32 + sizeofLRUNode
    rw [hsz]; omega
  · rw [harena]
    show (decide (ptr = 0) || !(decide (0 + 32 ≤ listSize + 32))) = false
    rw [hp0]
    simp only [Bool.false_or, Bool.not_eq_false', decide_eq_true_eq]
    omega

theorem applyOp_oom_mono (st : LRUCache × TextureNode) (op : CacheOp)
    (h : (applyOp st op).1.arena.outOfMemory = false) : st.1.arena.outOfMemory = false := by
  cases op with
  | insert tn tex w hh => exact insertIntoLRUCache_oom_mono tn tex st.1 w hh st.2 h
  | removeLRU =>
    have e : (applyOp st CacheOp.removeLRU).1.arena = st.1.arena := by
      simp only [applyOp, removeLRUFromCache]
      split_ifs <;> rfl
    rw [e] at h; exact h
  | removeNode x =>
    have e : (applyOp st (CacheOp.removeNode x)).1.arena = st.1.arena := by
      simp only [applyOp, removeNodeFromCache]
      split_ifs <;> rfl
    rw [e] at h; exact h

theorem runOps_oom_mono (ops : List CacheOp) (st : LRUCache × TextureNode)
    (h : (runOps st ops).1.arena.outOfMemory = false) : st.1.arena.outOfMemory = false := by
  induction ops generalizing st with
  | nil => exact h
  | cons op ops ih => exact applyOp_oom_mono st op (ih (applyOp st op) h)

/-- Every allowed call keeps the cache well formed, as long as the arena holds out. -/
theorem applyOp_ok (st : LRUCache × TextureNode) (op : CacheOp) (L : List Nat)
    (h : CacheOK st.1 L) (hal : OpAllowed st.1 op)
    (hoom : (applyOp st op).1.arena.outOfMemory = false) :
    ∃ L1, CacheOK (applyOp st op).1 L1 := by
  cases op with
  | insert tn tex w hh =>
    exact ⟨_, (insertIntoLRUCache_ok tn tex st.1 w hh st.2 L h hal hoom).1⟩
  | removeLRU => exact ⟨_, (removeLRUFromCache_ok st.1 [] st.2 L h).1⟩
  | removeNode x => exact (removeNodeFromCache_ok st.1 x st.2 L h hal).1

theorem runOps_ok (ops : List CacheOp) (st : LRUCache × TextureNode) (L : List Nat)
    (h : CacheOK st.1 L) (hal : OpsAllowed st ops)
    (hoom : (runOps st ops).1.arena.outOfMemory = false) :
    ∃ L1, CacheOK (runOps st ops).1 L1 := by
  induction ops generalizing st L with
  | nil => exact ⟨L, h⟩
  | cons op ops ih =>
    obtain ⟨L1, h1⟩ := applyOp_ok st op L h hal.1
      (runOps_oom_mono ops (applyOp st op) hoom)
    exact ih (applyOp st op) L1 h1 hal.2 hoom

/-- C14, with the calls of `removeNodeFromCache` restricted to nodes that are on the list or
that the function ignores: after any sequence of inserts of images not yet present, of
evictions and of such removals that starts from `makeLRUList` and does not exhaust the
arena, the cache holds a list `L` for which the invariant holds: the memory holds the
well-formed ring `sentinel, L`, which the forward walk enumerates; every node of the ring,
the sentinel included, is the `prev` of its `next` and the `next` of its `prev`; the keys of
the lookup are the images of the list nodes; every such image is mapped to its node; and
`nodeCount` is the length of `L`. -/
theorem cache_ops_keep_invariant (ptr listSize : Nat) (tree : TextureNode)
    (ops : List CacheOp) (hp : 0 < ptr) (hm : ptr + listSize + 2 * sizeofLRUNode ≤ 2 ^ 64)
    (hl : listSize < 2 ^ 32)
    (hal : OpsAllowed (makeLRUList ptr listSize, tree) ops)
    (hoom : (runOps (makeLRUList ptr listSize, tree) ops).1.arena.outOfMemory = false) :
    ∃ L, CacheInv (runOps (makeLRUList ptr listSize, tree) ops).1 L ∧
      (∀ fuel, L.length ≤ fuel →
        lruList (runOps (makeLRUList ptr listSize, tree) ops).1 fuel = some L) ∧
      (∀ y ∈ (runOps (makeLRUList ptr listSize, tree) ops).1.sentinel :: L,
        ((runOps (makeLRUList ptr listSize, tree) ops).1.mem
          ((runOps (makeLRUList ptr listSize, tree) ops).1.mem y).next).prev = y ∧
        ((runOps (makeLRUList ptr listSize, tree) ops).1.mem
          ((runOps (makeLRUList ptr listSize, tree) ops).1.mem y).prev).next = y) ∧
      (∀ k, ((runOps (makeLRUList ptr listSize, tree) ops).1.hashLookup.lookup k).isSome
          = true ↔
        ∃ x ∈ L, ((runOps (makeLRUList ptr listSize, tree) ops).1.mem x).texture = k) ∧
      (∀ x ∈ L, (runOps (makeLRUList ptr listSize, tree) ops).1.hashLookup.lookup
        ((runOps (makeLRUList ptr listSize, tree) ops).1.mem x).texture = some x) ∧
      (runOps (makeLRUList ptr listSize, tree) ops).1.nodeCount = L.length := by
  obtain ⟨L, hok⟩ := runOps_ok ops (makeLRUList ptr listSize, tree) []
    (makeLRUList_ok ptr listSize hp hm hl).1 hal hoom
  refine ⟨L, hok.1, ?_, ?_, hok.1.2.1, hok.1.2.2.1, hok.1.2.2.2⟩
  · intro fuel hf
    exact lruWalk_of_Ring _ _ L fuel hok.1.1 hf
  · exact Ring_links _ _ L hok.1.1

/-- C14 on a run that inserts two images, removes the node of the first, evicts the tail
and inserts the first image again. -/
theorem cache_ops_keep_invariant_witness :
    OpsAllowed (makeLRUList 1048576 96, twoLeafTree) opsOnListNodes ∧
    (runOps (makeLRUList 1048576 96, twoLeafTree) opsOnListNodes).1.arena.outOfMemory
      = false ∧
    ∃ L, CacheInv (runOps (makeLRUList 1048576 96, twoLeafTree) opsOnListNodes).1 L ∧
      lruList (runOps (makeLRUList 1048576 96, twoLeafTree) opsOnListNodes).1 L.length
        = some L :=
  ⟨by decide, by decide,
    (cache_ops_keep_invariant 1048576 96 twoLeafTree opsOnListNodes (by decide) (by decide)
      (by decide) (by decide) (by decide)).imp
      (fun L h => ⟨h.1, h.2.1 L.length (Nat.le_refl _)⟩)⟩

/-- C14 as stated fails when `removeNodeFromCache` is handed the node an eviction returned,
after the image of that node has been inserted again. Every insert is of an image that is
not in the lookup and the arena holds out. At the end the list holds the nodes of image 0
and image 1, the lookup has lost image 0, and `nodeCount` is 1: no list satisfies the
invariant. -/
theorem cache_invariant_broken_by_evicted_node :
    (makeLRUList 1048576 96).hashLookup.lookup (some 0) = none ∧
    (runOps (makeLRUList 1048576 96, twoLeafTree)
      (opsWithEvictedNode.take 1)).1.hashLookup.lookup (some 1) = none ∧
    (removeLRUFromCache (runOps (makeLRUList 1048576 96, twoLeafTree)
      (opsWithEvictedNode.take 2)).1 [] (runOps (makeLRUList 1048576 96, twoLeafTree)
      (opsWithEvictedNode.take 2)).2).result = 1048608 ∧
    (runOps (makeLRUList 1048576 96, twoLeafTree)
      (opsWithEvictedNode.take 3)).1.hashLookup.lookup (some 0) = none ∧
    (runOps (makeLRUList 1048576 96, twoLeafTree) opsWithEvictedNode).1.arena.outOfMemory
      = false ∧
    lruList (runOps (makeLRUList 1048576 96, twoLeafTree) opsWithEvictedNode).1 2
      = some [1048672, 1048640] ∧
    ((runOps (makeLRUList 1048576 96, twoLeafTree) opsWithEvictedNode).1.mem
      1048672).texture = some 0 ∧
    (runOps (makeLRUList 1048576 96, twoLeafTree) opsWithEvictedNode).1.hashLookup.lookup
      (some 0) = none ∧
    (runOps (makeLRUList 1048576 96, twoLeafTree) opsWithEvictedNode).1.nodeCount = 1 ∧
    ¬ ∃ L, CacheInv (runOps (makeLRUList 1048576 96, twoLeafTree) opsWithEvictedNode).1 L := by
  refine ⟨by decide, by decide, by decide, by decide, ?_⟩
  refine ⟨by decide, by decide, by decide, ?_⟩
  refine ⟨by decide, by decide, ?_⟩
  rintro ⟨L, h⟩
  have hlen : L.length = 1 := by
    rw [← h.2.2.2]; decide
  have hw := lruWalk_of_Ring _ _ L 1 h.1 (by omega)
  have hn : lruWalk (runOps (makeLRUList 1048576 96, twoLeafTree) opsWithEvictedNode).1.mem
      (runOps (makeLRUList 1048576 96, twoLeafTree) opsWithEvictedNode).1.sentinel 1
      ((runOps (makeLRUList 1048576 96, twoLeafTree) opsWithEvictedNode).1.mem
        (runOps (makeLRUList 1048576 96, twoLeafTree) opsWithEvictedNode).1.sentinel).next
      = none := by decide
  rw [hn] at hw
  exact absurd hw (by simp)

/-! ## The order of the list -/

theorem lookup_none_of_not_listed (c : LRUCache) (L : List Nat) (h : CacheInv c L)
    (k : Option Nat) (hk : ∀ x ∈ L, (c.mem x).texture ≠ k) : c.hashLookup.lookup k = none := by
  have := h.2.1 k
  cases hl : c.hashLookup.lookup k with
  | none => rfl
  | some v =>
    rw [hl] at this
    obtain ⟨x, hx, e⟩ := this.1 rfl
    exact absurd e (hk x hx)

theorem runOps_inserts (imgs : List (Nat × Option Nat)) (W H : Nat)
    (st : LRUCache × TextureNode) (L : List Nat) (h : CacheOK st.1 L)
    (hnd : (imgs.map Prod.snd).Nodup)
    (hnew : ∀ p ∈ imgs, ∀ x ∈ L, (st.1.mem x).texture ≠ p.2)
    (hoom : (runOps st (imgs.map (fun p => CacheOp.insert p.1 p.2 W H))).1.arena.outOfMemory
      = false) :
    ∃ L1, CacheOK (runOps st (imgs.map (fun p => CacheOp.insert p.1 p.2 W H))).1 (L1 ++ L) ∧
      L1.map (fun x =>
        ((runOps st (imgs.map (fun p => CacheOp.insert p.1 p.2 W H))).1.mem x).texture)
        = (imgs.map Prod.snd).reverse ∧
      ∀ x ∈ L, ((runOps st (imgs.map (fun p => CacheOp.insert p.1 p.2 W H))).1.mem x).texture
        = (st.1.mem x).texture := by
  induction imgs generalizing st L with
  | nil => exact ⟨[], h, rfl, fun _ _ => rfl⟩
  | cons p rest ih =>
    obtain ⟨tn, tex⟩ := p
    have hnd1 := List.nodup_cons.1 hnd
    have hlook : st.1.hashLookup.lookup tex = none :=
      lookup_none_of_not_listed st.1 L h.1 tex
        (fun x hx => hnew (tn, tex) (List.mem_cons_self _ _) x hx)
    have hoom1 : (insertIntoLRUCache tn tex st.1 W H st.2).1.arena.outOfMemory = false :=
      runOps_oom_mono _ (applyOp st (CacheOp.insert tn tex W H)) hoom
    obtain ⟨s1, _, s3, s4⟩ := insertIntoLRUCache_ok tn tex st.1 W H st.2 L h hlook hoom1
    have hnew1 : ∀ q ∈ rest, ∀ x ∈ arenaTop st.1.arena :: L,
        ((insertIntoLRUCache tn tex st.1 W H st.2).1.mem x).texture ≠ q.2 := by
      intro q hq x hx
      rcases List.mem_cons.1 hx with e | hx1
      · subst e
        rw [s3]
        intro e
        exact hnd1.1 (List.mem_map.2 ⟨q, hq, e.symm⟩)
      · rw [s4 x hx1]
        exact hnew q (List.mem_cons_of_mem _ hq) x hx1
    obtain ⟨L1, i1, i2, i3⟩ := ih (insertIntoLRUCache tn tex st.1 W H st.2)
      (arenaTop st.1.arena :: L) s1 hnd1.2 hnew1 hoom
    refine ⟨L1 ++ [arenaTop st.1.arena], ?_, ?_, ?_⟩
    · rw [List.append_assoc]; exact i1
    · have e1 := i3 (arenaTop st.1.arena) (List.mem_cons_self _ _)
      rw [s3] at e1
      show List.map (fun x => ((runOps (insertIntoLRUCache tn tex st.1 W H st.2)
          (rest.map (fun p => CacheOp.insert p.1 p.2 W H))).1.mem x).texture)
          (L1 ++ [arenaTop st.1.arena]) = (tex :: rest.map Prod.snd).reverse
      rw [List.map_append, i2, List.reverse_cons, List.map_cons, List.map_nil, e1]
    · intro x hx
      have e1 := i3 x (List.mem_cons_of_mem _ hx)
      exact e1.trans (s4 x hx)

/-- C16: pairwise distinct images inserted into the cache `makeLRUList` returns, the arena
holding out: the forward walk from `sentinel->next` ends at the sentinel and the images of
the nodes it visits are the inserted images in reverse order, the last one first. -/
theorem insert_order_reversed (ptr listSize : Nat) (tree : TextureNode)
    (imgs : List (Nat × Option Nat)) (W H : Nat) (hp : 0 < ptr)
    (hm : ptr + listSize + 2 * sizeofLRUNode ≤ 2 ^ 64) (hl : listSize < 2 ^ 32)
    (hnd : (imgs.map Prod.snd).Nodup)
    (hoom : (runOps (makeLRUList ptr listSize, tree)
      (imgs.map (fun p => CacheOp.insert p.1 p.2 W H))).1.arena.outOfMemory = false)
    (fuel : Nat) (hf : imgs.length ≤ fuel) :
    (lruList (runOps (makeLRUList ptr listSize, tree)
        (imgs.map (fun p => CacheOp.insert p.1 p.2 W H))).1 fuel).map
      (List.map (fun x => ((runOps (makeLRUList ptr listSize, tree)
        (imgs.map (fun p => CacheOp.insert p.1 p.2 W H))).1.mem x).texture))
      = some (imgs.map Prod.snd).reverse := by
  obtain ⟨L1, i1, i2, _⟩ := runOps_inserts imgs W H (makeLRUList ptr listSize, tree) []
    (makeLRUList_ok ptr listSize hp hm hl).1 hnd
    (fun _ _ x hx => absurd hx (List.not_mem_nil x)) hoom
  rw [List.append_nil] at i1
  have hlen : L1.length = imgs.length := by
    have := congrArg List.length i2
    simpa only [List.length_map, List.length_reverse] using this
  have hw : lruList (runOps (makeLRUList ptr listSize, tree)
      (imgs.map (fun p => CacheOp.insert p.1 p.2 W H))).1 fuel = some L1 :=
    lruWalk_of_Ring _ _ L1 fuel i1.1.1 (by omega)
  rw [hw, Option.map_some', i2]

/-- C16 at two images. -/
theorem insert_order_reversed_witness :
    (lruList (runOps (makeLRUList 1048576 96, twoLeafTree)
        ([(4136, some 0), (4176, some 1)].map (fun p => CacheOp.insert p.1 p.2 16 8))).1 2).map
      (List.map (fun x => ((runOps (makeLRUList 1048576 96, twoLeafTree)
        ([(4136, some 0), (4176, some 1)].map
          (fun p => CacheOp.insert p.1 p.2 16 8))).1.mem x).texture))
      = some [some 1, some 0] :=
  insert_order_reversed 1048576 96 twoLeafTree [(4136, some 0), (4176, some 1)] 16 8
    (by decide) (by decide) (by decide) (by decide) (by decide) 2 (by decide)

/-! ## The eviction -/

theorem nodes_storeAt_setIsUsed (a : Nat) (v : Bool) (n : TextureNode) :
    (nodes (storeAt a (setIsUsed v) n)).map
        (fun m => (m.addr, m.block, m.splitDir, m.isUsed, m.isDrawn))
      = (nodes n).map
        (fun m => (m.addr, m.block, m.splitDir, if m.addr = a then v else m.isUsed,
          m.isDrawn)) := by
  induction n with
  | null => rfl
  | node a1 l r b s u d ihl ihr =>
    by_cases h : a1 = a
    · simp only [storeAt, h, if_true, setIsUsed, nodes, List.map_cons, List.map_append, ihl,
        ihr, addr_node, block_node, splitDir_node, isUsed_node, isDrawn_node]
    · simp only [storeAt, h, if_false, nodes, List.map_cons, List.map_append, ihl, ihr,
        addr_node, block_node, splitDir_node, isUsed_node, isDrawn_node]

theorem nodes_storeAt_setSplitDir (a : Nat) (v : Partition) (n : TextureNode) :
    (nodes (storeAt a (setSplitDir v) n)).map
        (fun m => (m.addr, m.block, m.splitDir, m.isUsed, m.isDrawn))
      = (nodes n).map
        (fun m => (m.addr, m.block, if m.addr = a then v else m.splitDir, m.isUsed,
          m.isDrawn)) := by
  induction n with
  | null => rfl
  | node a1 l r b s u d ihl ihr =>
    by_cases h : a1 = a
    · simp only [storeAt, h, if_true, setSplitDir, nodes, List.map_cons, List.map_append, ihl,
        ihr, addr_node, block_node, splitDir_node, isUsed_node, isDrawn_node]
    · simp only [storeAt, h, if_false, nodes, List.map_cons, List.map_append, ihl, ihr,
        addr_node, block_node, splitDir_node, isUsed_node, isDrawn_node]

/-- What the two stores of an eviction do to the tree: the node at the address `a` gets
`isUsed = false` and `splitDir = NONE`, and nothing else changes. -/
theorem nodes_evicted (a : Nat) (n : TextureNode) :
    (nodes (storeAt a (setSplitDir Partition.NONE) (storeAt a (setIsUsed false) n))).map
        (fun m => (m.addr, m.block, m.splitDir, m.isUsed, m.isDrawn))
      = (nodes n).map
        (fun m => (m.addr, m.block, if m.addr = a then Partition.NONE else m.splitDir,
          if m.addr = a then false else m.isUsed, m.isDrawn)) := by
  have h1 := nodes_storeAt_setSplitDir a Partition.NONE (storeAt a (setIsUsed false) n)
  have h2 := nodes_storeAt_setIsUsed a false n
  rw [h1]
  have h3 := congrArg (List.map (fun (q : Nat × TextureRectangle × Partition × Bool × Bool) =>
    (q.1, q.2.1, (if q.1 = a then Partition.NONE else q.2.2.1), q.2.2.2.1, q.2.2.2.2))) h2
  simp only [List.map_map] at h3
  exact h3

/-- C15: on a well-formed cache with the list `L`. With `nodeCount = 0` the call returns no
node and leaves the cache, the path and the tree as they are. With `nodeCount >= 1` the
list is `L0 ++ [t]` with `t = sentinel->prev`; the call returns `t`; the cache is well
formed with the list `L0`, which the forward walk enumerates, and no node has changed its
image or its leaf; the image of `t` is no longer in the lookup and every other key is
mapped as before; `nodeCount` has gone down by one; and in the tree the node at the address
of the leaf of `t` has `isUsed = false` and `splitDir = NONE`, nothing else has changed. -/
theorem removeLRUFromCache_spec (c : LRUCache) (p : List Nat) (tree : TextureNode)
    (L : List Nat) (h : CacheInv c L) (hsmall : c.nodeCount < 2 ^ 32) :
    (c.nodeCount = 0 → removeLRUFromCache c p tree = ⟨0, c, p, tree⟩) ∧
    (1 ≤ c.nodeCount → ∃ L0 t, L = L0 ++ [t] ∧ t = (c.mem c.sentinel).prev ∧
      (removeLRUFromCache c p tree).result = t ∧
      CacheInv (removeLRUFromCache c p tree).cache L0 ∧
      (∀ fuel, L0.length ≤ fuel → lruList (removeLRUFromCache c p tree).cache fuel = some L0) ∧
      (∀ x, ((removeLRUFromCache c p tree).cache.mem x).texture = (c.mem x).texture ∧
        ((removeLRUFromCache c p tree).cache.mem x).textureNode = (c.mem x).textureNode) ∧
      (removeLRUFromCache c p tree).cache.hashLookup.lookup (c.mem t).texture = none ∧
      (∀ k, k ≠ (c.mem t).texture →
        (removeLRUFromCache c p tree).cache.hashLookup.lookup k = c.hashLookup.lookup k) ∧
      (removeLRUFromCache c p tree).cache.nodeCount + 1 = c.nodeCount ∧
      (nodes (removeLRUFromCache c p tree).tree).map
          (fun m => (m.addr, m.block, m.splitDir, m.isUsed, m.isDrawn))
        = (nodes tree).map
          (fun m => (m.addr, m.block,
            if m.addr = (c.mem t).textureNode then Partition.NONE else m.splitDir,
            if m.addr = (c.mem t).textureNode then false else m.isUsed, m.isDrawn))) := by
  refine ⟨removeLRUFromCache_empty c p tree, ?_⟩
  intro hpos
  rcases List.eq_nil_or_concat L with e | ⟨L0, t, e⟩
  · subst e
    have h0 : c.nodeCount = 0 := by rw [h.2.2.2]; rfl
    omega
  rw [List.concat_eq_append] at e
  subst e
  have hprev : (c.mem c.sentinel).prev = t := (Ring_remove c.mem c.sentinel t L0 h.1).1
  have hring := (Ring_remove c.mem c.sentinel t L0 h.1).2
  have hinv1 := CacheInv_remove c
    { c with
      hashLookup := hashErase c.hashLookup (c.mem t).texture
      mem := removeLRUFromList c.mem c.sentinel
      nodeCount := u32 ((c.nodeCount : Int) - 1) } L0 [] t h rfl
    (by rw [List.append_nil]; exact hring)
    (fun y => (removeLRUFromList_fields c.mem c.sentinel y).1) rfl rfl hsmall
  rw [List.append_nil] at hinv1
  refine ⟨L0, t, rfl, hprev.symm, ?_⟩
  rw [removeLRUFromCache_tail c p tree L0 t h]
  dsimp only
  refine ⟨rfl, hinv1, ?_, ?_, ?_, ?_, ?_, nodes_evicted _ tree⟩
  · intro fuel hf
    exact lruWalk_of_Ring _ _ L0 fuel hring hf
  · exact fun y => removeLRUFromList_fields c.mem c.sentinel y
  · rw [lookup_hashErase, if_pos rfl]
  · intro k hk
    rw [lookup_hashErase, if_neg hk]
  · simp only [u32]
    omega

/-- C15 on the cache of two images: the call returns the node of the image inserted first
and one node is left. -/
theorem removeLRUFromCache_spec_witness :
    ∃ L, CacheInv (runOps (makeLRUList 1048576 96, twoLeafTree)
        [CacheOp.insert 4136 (some 0) 16 8, CacheOp.insert 4176 (some 1) 16 8]).1 L ∧
      ∃ L0 t, L = L0 ++ [t] ∧
        (removeLRUFromCache (runOps (makeLRUList 1048576 96, twoLeafTree)
          [CacheOp.insert 4136 (some 0) 16 8, CacheOp.insert 4176 (some 1) 16 8]).1 []
          twoLeafTree).result = t ∧
        CacheInv (removeLRUFromCache (runOps (makeLRUList 1048576 96, twoLeafTree)
          [CacheOp.insert 4136 (some 0) 16 8, CacheOp.insert 4176 (some 1) 16 8]).1 []
          twoLeafTree).cache L0 := by
  obtain ⟨L, hok⟩ := runOps_ok
    [CacheOp.insert 4136 (some 0) 16 8, CacheOp.insert 4176 (some 1) 16 8]
    (makeLRUList 1048576 96, twoLeafTree) []
    (makeLRUList_ok 1048576 96 (by decide) (by decide) (by decide)).1 (by decide) (by decide)
  obtain ⟨L0, t, h1, _, h3, h4, _⟩ := (removeLRUFromCache_spec
    (runOps (makeLRUList 1048576 96, twoLeafTree)
      [CacheOp.insert 4136 (some 0) 16 8, CacheOp.insert 4176 (some 1) 16 8]).1 []
    twoLeafTree L hok.1 (by decide)).2 (by decide)
  exact ⟨L, hok.1, L0, t, h1, h3, h4⟩

/-! ## Building the atlas -/

theorem u32_of_lt (n : Nat) (h : n < 2 ^ 32) : u32 (n : Int) = n := by
  simp only [u32]; omega

/-- Every value `main` returns is `0`. -/
theorem main_exitCode_zero (argc : Int) (argv : List String)
    (generate : String → Option (List String)) (r : MainResult)
    (h : main argc argv generate = some r) : r.exitCode = 0 := by
  by_cases h1 : argc = 2
  · by_cases h2 : argv.getD 1 "" = "help"
    · have e : main argc argv generate = some ⟨0, ["This program packs .png files into a " ++
          "texture atlas to the specified folder path provided by the user from the " ++
          "command line\n"], []⟩ := by
        unfold main; rw [if_pos h1]; simp only [h2, if_true]; rfl
      rw [e] at h; cases h; rfl
    · have e : main argc argv generate = (generate (argv.getD 1 "")).map
          fun out => ⟨0, "Start of program!\n" :: out, []⟩ := by
        unfold main; rw [if_pos h1]; simp only [h2, if_false]
      rw [e] at h
      cases hg : generate (argv.getD 1 "") with
      | none => rw [hg] at h; cases h
      | some out => rw [hg] at h; cases h; rfl
  · have e : main argc argv generate = some ⟨0, [],
        ["Invalid usage of: " ++ argv.getD 0 "" ++ "\n",
         "Valid usage: " ++ argv.getD 0 "" ++ " \x27path to image folder\x27\n"]⟩ := by
      unfold main; rw [if_neg h1]
    rw [e] at h; cases h; rfl

/-- C23 (counterexample): called with no argument (`argc = 1`), `main` returns `0`. -/
theorem main_returns_zero_without_argument :
    main 1 ["atlas.exe"] (fun _ => none) =
      some ⟨0, [], ["Invalid usage of: atlas.exe\n",
        "Valid usage: atlas.exe \x27path to image folder\x27\n"]⟩ := by
  rfl

/-- C23 (amended): for every invocation of `main` with `argc ≠ 2` the function returns, it
has written the two usage lines to `stderr` and nothing to `stdout`, and the value it
returns is `0`; for `argc = 2` with the argument `"help"` it returns `0` as well. -/
theorem main_exit_codes (argc : Int) (argv : List String)
    (generate : String → Option (List String)) :
    (argc ≠ 2 →
      main argc argv generate =
        some ⟨0, [],
          ["Invalid usage of: " ++ argv.getD 0 "" ++ "\n",
           "Valid usage: " ++ argv.getD 0 "" ++ " \x27path to image folder\x27\n"]⟩) ∧
    (argc = 2 → argv.getD 1 "" = "help" →
      ∃ r, main argc argv generate = some r ∧ r.exitCode = 0 ∧ r.stderr = []) := by
  constructor
  · intro h
    unfold main
    rw [if_neg h]
  · intro h1 h2
    unfold main
    rw [if_pos h1]
    simp only [h2, if_true]
    exact ⟨_, rfl, rfl, rfl⟩

/-- C23 (amended) at three arguments and at the argument `help`. -/
theorem main_exit_codes_witness :
    (main 3 ["atlas.exe", "a", "b"] (fun _ => none) =
      some ⟨0, [],
        ["Invalid usage of: " ++ "atlas.exe" ++ "\n",
         "Valid usage: " ++ "atlas.exe" ++ " \x27path to image folder\x27\n"]⟩) ∧
    (∃ r, main 2 ["atlas.exe", "help"] (fun _ => none) = some r ∧ r.exitCode = 0 ∧
      r.stderr = []) :=
  ⟨(main_exit_codes 3 ["atlas.exe", "a", "b"] (fun _ => none)).1 (by decide),
   (main_exit_codes 2 ["atlas.exe", "help"] (fun _ => none)).2 rfl rfl⟩

/-! ## The diagnostic fill -/

/-- C26 (failing input): on an atlas of 4x2 pixels the block `[0,1] x [0,1]` of extent 2x2
lies inside the atlas, and `renderBlockIntoTextureAtlas` stores the colour into the four
pixels of row 0 (the bytes 0 to 15): the pixels `(0,1)` and `(1,1)` of the block (the bytes
16 to 23) are left as they were, and the pixels `(2,0)` and `(3,0)` outside the block are
overwritten. -/
theorem render_fills_contiguous_pixels :
    (renderBlockIntoTextureAtlas
      (TextureNode.node 4096 TextureNode.null TextureNode.null ⟨0, 0, 1, 1, 2, 2⟩
        Partition.NONE false false)
      ⟨"", List.replicate 32 0, 4, 0, 0, 4, 2⟩).memory =
      [255, 0, 255, 255, 255, 0, 255, 255, 255, 0, 255, 255, 255, 0, 255, 255,
       0, 0, 0, 0, 0, 0, 0, 0, 0, 0, 0, 0, 0, 0, 0, 0] := by
  decide

/-! ## Clearing the cache -/

/-- C30 (failing input): the cache made for two images holds one image; `clearLRUCache`
pops two slots, the image's and the sentinel's, so the arena is empty and its next slot is
the sentinel's. The following `insertIntoLRUCache` gets the sentinel's address for its node:
the sentinel stays self-linked, the walk over the list meets no node, and `nodeCount` is 1. -/
theorem clearLRUCache_frees_sentinel_slot :
    (clearLRUCache (insertIntoLRUCache 4136 (some 0) (makeLRUList 1048576 64) 16 8
        twoLeafTree).1).arena.bytes_used = 0 ∧
    (_Push_ (clearLRUCache (insertIntoLRUCache 4136 (some 0) (makeLRUList 1048576 64) 16 8
        twoLeafTree).1).arena sizeofLRUNode).1 = 1048576 ∧
    (clearLRUCache (insertIntoLRUCache 4136 (some 0) (makeLRUList 1048576 64) 16 8
        twoLeafTree).1).sentinel = 1048576 ∧
    (insertIntoLRUCache 4176 (some 1)
      (clearLRUCache (insertIntoLRUCache 4136 (some 0) (makeLRUList 1048576 64) 16 8
        twoLeafTree).1) 16 8 twoLeafTree).1.hashLookup = [(some 1, 1048576)] ∧
    (insertIntoLRUCache 4176 (some 1)
      (clearLRUCache (insertIntoLRUCache 4136 (some 0) (makeLRUList 1048576 64) 16 8
        twoLeafTree).1) 16 8 twoLeafTree).1.nodeCount = 1 ∧
    (insertIntoLRUCache 4176 (some 1)
      (clearLRUCache (insertIntoLRUCache 4136 (some 0) (makeLRUList 1048576 64) 16 8
        twoLeafTree).1) 16 8 twoLeafTree).1.mem 1048576 = ⟨4176, some 1, 1048576, 1048576⟩ ∧
    lruList (insertIntoLRUCache 4176 (some 1)
      (clearLRUCache (insertIntoLRUCache 4136 (some 0) (makeLRUList 1048576 64) 16 8
        twoLeafTree).1) 16 8 twoLeafTree).1 1 = some [] := by
  decide

/-! ## The frame of an eviction -/

theorem storeAt_addr (a : Nat) (f : TextureNode → TextureNode)
    (hf : ∀ a1 l r b s u d, (f (TextureNode.node a1 l r b s u d)).addr = a1)
    (n : TextureNode) : (storeAt a f n).addr = n.addr := by
  cases n with
  | null => rfl
  | node a1 l r b s u d =>
    simp only [storeAt]
    split_ifs
    · rw [hf]; rfl
    · rfl

/-- A store that writes only the fields `isUsed` and `splitDir` of the node at address `a`
leaves the address, the block, the child links and `isDrawn` of every node as they are, and
`isUsed` and `splitDir` of every node at another address. -/
theorem nodes_storeAt_flags (a : Nat) (f : TextureNode → TextureNode)
    (hf : ∀ a1 l r b s u d, ∃ s1 u1,
      f (TextureNode.node a1 l r b s u d) = TextureNode.node a1 l r b s1 u1 d)
    (n : TextureNode) :
    (nodes (storeAt a f n)).map
        (fun m => (m.addr, m.block, m.left.addr, m.right.addr, m.isDrawn,
          if m.addr = a then none else some (m.isUsed, m.splitDir)))
      = (nodes n).map
        (fun m => (m.addr, m.block, m.left.addr, m.right.addr, m.isDrawn,
          if m.addr = a then none else some (m.isUsed, m.splitDir))) := by
  have hfa : ∀ a1 l r b s u d, (f (TextureNode.node a1 l r b s u d)).addr = a1 := by
    intro a1 l r b s u d
    obtain ⟨s1, u1, e⟩ := hf a1 l r b s u d
    rw [e]; rfl
  induction n with
  | null => rfl
  | node a1 l r b s u d ihl ihr =>
    have hl := storeAt_addr a f hfa l
    have hr := storeAt_addr a f hfa r
    by_cases h : a1 = a
    · obtain ⟨s1, u1, e⟩ := hf a1 (storeAt a f l) (storeAt a f r) b s u d
      simp only [storeAt, h, if_true, nodes, List.map_cons, List.map_append, ihl,
        ihr, addr_node, block_node, isDrawn_node]
      rw [h] at e
      rw [e]
      simp only [nodes, List.map_cons, List.map_append, ihl,
        ihr, addr_node, block_node, isDrawn_node, if_true, left_node,
        right_node, hl, hr]
    · simp only [storeAt, h, if_false, nodes, List.map_cons, List.map_append, ihl, ihr,
        addr_node, block_node, isDrawn_node, left_node, right_node, hl, hr,
        isUsed_node, splitDir_node]

/-- The two outcomes of `removeLRUFromCache`. -/
theorem removeLRUFromCache_eq (cache : LRUCache) (nodePath : List Nat) (tree : TextureNode) :
    ((cache.nodeCount = 0 ∨ (cache.hashLookup.lookup
        (cache.mem (cache.mem cache.sentinel).prev).texture).isSome = false) ∧
      removeLRUFromCache cache nodePath tree = ⟨0, cache, nodePath, tree⟩) ∨
    (cache.nodeCount ≠ 0 ∧ (cache.hashLookup.lookup
        (cache.mem (cache.mem cache.sentinel).prev).texture).isSome = true ∧
      removeLRUFromCache cache nodePath tree =
        ⟨(cache.mem cache.sentinel).prev,
         { cache with
            hashLookup := hashErase cache.hashLookup
              (cache.mem (cache.mem cache.sentinel).prev).texture
            mem := removeLRUFromList cache.mem cache.sentinel
            nodeCount := u32 ((cache.nodeCount : Int) - 1) },
         [],
         storeAt (cache.mem (cache.mem cache.sentinel).prev).textureNode
           (setSplitDir Partition.NONE)
           (storeAt (cache.mem (cache.mem cache.sentinel).prev).textureNode
             (setIsUsed false) tree)⟩) := by
  by_cases h1 : cache.nodeCount ≠ 0
  swap
  · left
    refine ⟨Or.inl (not_not.1 h1), ?_⟩
    simp only [removeLRUFromCache, h1, if_false]
  by_cases h2 : (cache.hashLookup.lookup
      (cache.mem (cache.mem cache.sentinel).prev).texture).isSome = true
  · right
    refine ⟨h1, h2, ?_⟩
    unfold removeLRUFromCache
    rw [if_pos h1]
    simp only [h2, if_true]
  · left
    refine ⟨Or.inr (by rw [← Bool.not_eq_true]; exact h2), ?_⟩
    unfold removeLRUFromCache
    rw [if_pos h1]
    simp only [h2, if_false]
    rfl

/-- C25: for every cache and tree, `removeLRUFromCache` leaves the address, the block, the
two child links and `isDrawn` of every node of the tree unchanged, and `isUsed` and
`splitDir` of every node but the one the evicted entry points to; the tree has the same
nodes in the same order (nothing is merged), and it is unchanged when nothing is evicted.
The entries of the list keep their image and their leaf, and an iteration of the pack loop
that places no image, as the evicting one, leaves the texture table, and with it the
recorded `(x, y)` of every image, unchanged. -/
theorem removeLRUFromCache_frame (cache : LRUCache) (nodePath : List Nat)
    (tree : TextureNode) :
    (nodes (removeLRUFromCache cache nodePath tree).tree).map
        (fun m => (m.addr, m.block, m.left.addr, m.right.addr, m.isDrawn,
          if m.addr = (cache.mem (cache.mem cache.sentinel).prev).textureNode then none
          else some (m.isUsed, m.splitDir)))
      = (nodes tree).map
        (fun m => (m.addr, m.block, m.left.addr, m.right.addr, m.isDrawn,
          if m.addr = (cache.mem (cache.mem cache.sentinel).prev).textureNode then none
          else some (m.isUsed, m.splitDir))) ∧
    ((cache.nodeCount = 0 ∨ (cache.hashLookup.lookup
        (cache.mem (cache.mem cache.sentinel).prev).texture).isSome = false) →
      (removeLRUFromCache cache nodePath tree).tree = tree) ∧
    (∀ x, ((removeLRUFromCache cache nodePath tree).cache.mem x).texture =
        (cache.mem x).texture ∧
      ((removeLRUFromCache cache nodePath tree).cache.mem x).textureNode =
        (cache.mem x).textureNode) ∧
    (∀ s : PackState,
      (traverseTextureNodes s.root s.textureNodeArena s.textureAtlas
        (s.textures.getD s.textureIndex default) []).result = 0 →
      (packStep s).textures = s.textures) := by
  refine ⟨?_, ?_, ?_, ?_⟩
  · rcases removeLRUFromCache_eq cache nodePath tree with ⟨_, e⟩ | ⟨_, _, e⟩
    · rw [e]
    · rw [e]
      show (nodes (storeAt _ (setSplitDir Partition.NONE) (storeAt _ (setIsUsed false)
        tree))).map _ = _
      rw [nodes_storeAt_flags _ (setSplitDir Partition.NONE)
          (fun a1 l r b s u d => ⟨_, _, rfl⟩),
        nodes_storeAt_flags _ (setIsUsed false) (fun a1 l r b s u d => ⟨_, _, rfl⟩)]
  · intro h
    rcases removeLRUFromCache_eq cache nodePath tree with ⟨_, e⟩ | ⟨h1, h2, _⟩
    · rw [e]
    · rcases h with h | h
      · exact absurd h h1
      · rw [h2] at h; cases h
  · intro x
    rcases removeLRUFromCache_eq cache nodePath tree with ⟨_, e⟩ | ⟨_, _, e⟩
    · rw [e]; exact ⟨rfl, rfl⟩
    · rw [e]
      exact removeLRUFromList_fields cache.mem cache.sentinel x
  · intro s h
    by_cases hi : s.textureIndex < s.textureCount
    · simp only [packStep, hi, if_true, h, ne_eq, not_true_eq_false, if_false]
      split_ifs <;> rfl
    · simp only [packStep, hi, if_false]

/-- C25 on the cache of two images over the tree of two 8x8 leaves (the evicted entry
points to the leaf at 4136), on the empty cache, and on the iteration of the run of five
32x32 images under the cap 64x64 that evicts. -/
theorem removeLRUFromCache_frame_witness :
    (nodes (removeLRUFromCache
        (runOps (makeLRUList 1048576 64, twoLeafTree)
          [CacheOp.insert 4136 (some 0) 16 8, CacheOp.insert 4176 (some 1) 16 8]).1 []
        (runOps (makeLRUList 1048576 64, twoLeafTree)
          [CacheOp.insert 4136 (some 0) 16 8, CacheOp.insert 4176 (some 1) 16 8]).2).tree).map
        (fun m => (m.addr, m.block, m.left.addr, m.right.addr, m.isDrawn,
          if m.addr = 4136 then none else some (m.isUsed, m.splitDir)))
      = [(4096, ⟨0, 0, 15, 7, 16, 8⟩, 4136, 4176, true, some (false, Partition.HORIZONTAL)),
         (4136, ⟨0, 0, 7, 7, 8, 8⟩, 0, 0, true, none),
         (4176, ⟨8, 0, 15, 7, 8, 8⟩, 0, 0, true, some (true, Partition.NONE))] ∧
    (removeLRUFromCache (makeLRUList 1048576 64) [] twoLeafTree).tree = twoLeafTree ∧
    (packStep (packIter 6 (packStart (List.replicate 5 (textureOf 32 32)) 64 64))).textures =
      (packIter 6 (packStart (List.replicate 5 (textureOf 32 32)) 64 64)).textures :=
  ⟨((removeLRUFromCache_frame
      (runOps (makeLRUList 1048576 64, twoLeafTree)
        [CacheOp.insert 4136 (some 0) 16 8, CacheOp.insert 4176 (some 1) 16 8]).1 []
      (runOps (makeLRUList 1048576 64, twoLeafTree)
        [CacheOp.insert 4136 (some 0) 16 8, CacheOp.insert 4176 (some 1) 16 8]).2).1.trans
      rfl),
   (removeLRUFromCache_frame (makeLRUList 1048576 64) [] twoLeafTree).2.1 (Or.inl rfl),
   (removeLRUFromCache_frame (makeLRUList 1048576 64) [] twoLeafTree).2.2.2
     (packIter 6 (packStart (List.replicate 5 (textureOf 32 32)) 64 64)) (by decide)⟩

/-! ## The assertions of the split functions -/

/-- C27: for every leaf with a well-formed block and every image extent `(w, h)` with
`w, h ≥ 1`, every node of the tree `findFirstFreeBlock` leaves behind has a well-formed block
(positive width and height, `right ≥ left`, `bottom ≥ top`), and the four assertions hold at
the end of every call of `splitVerticallyNew` and `splitHorizontallyNew` the function makes:
the one call of the width-exact and of the height-exact branch, and the two calls of either
order of the strict-interior branch. -/
theorem findFirstFreeBlock_asserts (a : Nat) (b : TextureRectangle) (s : Partition)
    (u d : Bool) (A : MemoryStack) (t : Texture) (hb : RectOK b) (ht : TexOK t) :
    (∀ x ∈ nodes (findFirstFreeBlock
        (TextureNode.node a TextureNode.null TextureNode.null b s u d) A t).1,
      RectOK x.block) ∧
    (t.width ≤ b.width → t.height ≤ b.height → ¬ (b.width = t.width ∧ b.height = t.height) →
      (b.width = t.width →
        splitAsserts (splitVerticallyNew
          (TextureNode.node a TextureNode.null TextureNode.null b s u d) A
          t.width t.height).1) ∧
      (b.width ≠ t.width → b.height = t.height →
        splitAsserts (splitHorizontallyNew
          (TextureNode.node a TextureNode.null TextureNode.null b s u d) A
          t.width t.height).1) ∧
      (b.width ≠ t.width → b.height ≠ t.height → t.height > t.width →
        splitAsserts (splitHorizontallyNew
          (TextureNode.node a TextureNode.null TextureNode.null b s u d) A
          t.width t.height).1 ∧
        splitAsserts (splitVerticallyNew
          (splitHorizontallyNew
            (TextureNode.node a TextureNode.null TextureNode.null b s u d) A
            t.width t.height).1.left
          (splitHorizontallyNew
            (TextureNode.node a TextureNode.null TextureNode.null b s u d) A
            t.width t.height).2 t.width t.height).1) ∧
      (b.width ≠ t.width → b.height ≠ t.height → ¬ t.height > t.width →
        splitAsserts (splitVerticallyNew
          (TextureNode.node a TextureNode.null TextureNode.null b s u d) A
          t.width t.height).1 ∧
        splitAsserts (splitHorizontallyNew
          (splitVerticallyNew
            (TextureNode.node a TextureNode.null TextureNode.null b s u d) A
            t.width t.height).1.left
          (splitVerticallyNew
            (TextureNode.node a TextureNode.null TextureNode.null b s u d) A
            t.width t.height).2 t.width t.height).1)) := by
  obtain ⟨b1, b2, b3, b4, b5, b6⟩ := hb
  obtain ⟨t1, t2, t3, t4⟩ := ht
  constructor
  · by_cases hfit : t.width ≤ b.width ∧ t.height ≤ b.height
    swap
    · rw [findFirstFreeBlock_nofit _ _ _ hfit]
      intro x hx
      rw [nodes_leaf, List.mem_singleton] at hx
      rw [hx]
      exact ⟨b1, b2, b3, b4, b5, b6⟩
    obtain ⟨f1, f2⟩ := hfit
    by_cases hw : b.width = t.width
    · by_cases hh : b.height = t.height
      · rw [findFirstFreeBlock_exact _ _ _ _ _ _ _ _ _ hw hh]
        intro x hx
        rw [nodes_leaf, List.mem_singleton] at hx
        rw [hx]
        exact ⟨b1, b2, b3, b4, b5, b6⟩
      · rw [findFirstFreeBlock_widthExact _ _ _ _ _ _ _ _ _ b2 b6 hw t3 (by omega)]
        intro x hx
        simp only [nodes, List.mem_cons, List.mem_append, List.not_mem_nil, or_false,
          List.nil_append] at hx
        rcases hx with e | e | e <;> rw [e] <;> simp only [block_node, RectOK] <;> omega
    · by_cases hh : b.height = t.height
      · rw [findFirstFreeBlock_heightExact _ _ _ _ _ _ _ _ _ b1 b5 hh t1 (by omega)]
        intro x hx
        simp only [nodes, List.mem_cons, List.mem_append, List.not_mem_nil, or_false,
          List.nil_append] at hx
        rcases hx with e | e | e <;> rw [e] <;> simp only [block_node, RectOK] <;> omega
      · by_cases hasp : t.height > t.width
        · rw [findFirstFreeBlock_tall _ _ _ _ _ _ _ _ _ b1 b5 b2 b6 t1 (by omega) t3
            (by omega) hasp]
          intro x hx
          simp only [nodes, List.mem_cons, List.mem_append, List.not_mem_nil, or_false,
            List.nil_append, List.cons_append] at hx
          rcases hx with e | e | e | e | e <;> rw [e] <;> simp only [block_node, RectOK] <;>
            omega
        · rw [findFirstFreeBlock_wide _ _ _ _ _ _ _ _ _ b1 b5 b2 b6 t1 (by omega) t3
            (by omega) hasp]
          intro x hx
          simp only [nodes, List.mem_cons, List.mem_append, List.not_mem_nil, or_false,
            List.nil_append, List.cons_append] at hx
          rcases hx with e | e | e | e | e <;> rw [e] <;> simp only [block_node, RectOK] <;>
            omega
  · intro f1 f2 hne
    refine ⟨?_, ?_, ?_, ?_⟩
    · intro hw
      rw [splitVerticallyNew_eq _ _ _ _ _ _ _ _ _ _ b2 b6 t3 (by omega)]
      simp only [splitAsserts, right_node, left_node, block_node]
      omega
    · intro hw hh
      rw [splitHorizontallyNew_eq _ _ _ _ _ _ _ _ _ _ b1 b5 t1 (by omega)]
      simp only [splitAsserts, right_node, left_node, block_node]
      omega
    · intro hw hh _
      rw [splitHorizontallyNew_eq _ _ _ _ _ _ _ _ _ _ b1 b5 t1 (by omega)]
      simp only [left_node]
      rw [splitVerticallyNew_eq _ _ _
        ⟨b.left, b.top, b.left + t.width - 1, b.bottom, t.width, b.height⟩ _ _ _ _ _ _
        b2 b6 t3 (by dsimp only; omega)]
      simp only [splitAsserts, right_node, left_node, block_node]
      omega
    · intro hw hh _
      rw [splitVerticallyNew_eq _ _ _ _ _ _ _ _ _ _ b2 b6 t3 (by omega)]
      simp only [left_node]
      rw [splitHorizontallyNew_eq _ _ _
        ⟨b.left, b.top, b.right, b.top + t.height - 1, b.width, t.height⟩ _ _ _ _ _ _
        b1 b5 t1 (by dsimp only; omega)]
      simp only [splitAsserts, right_node, left_node, block_node]
      omega

/-- C27 at a free 64x64 leaf and a 20x30 image (strict interior fit, taller than wide): the
five nodes left behind have well-formed blocks, and the assertions hold after the
horizontal split and after the vertical split of its left child. -/
theorem findFirstFreeBlock_asserts_witness :
    (∀ x ∈ nodes (findFirstFreeBlock
        (TextureNode.node 4096 TextureNode.null TextureNode.null ⟨0, 0, 63, 63, 64, 64⟩
          Partition.NONE false true)
        (_Push_ (InitStackMemory 4096 840) sizeofTextureNode).2 (textureOf 20 30)).1,
      RectOK x.block) ∧
    splitAsserts (splitHorizontallyNew
      (TextureNode.node 4096 TextureNode.null TextureNode.null ⟨0, 0, 63, 63, 64, 64⟩
        Partition.NONE false true)
      (_Push_ (InitStackMemory 4096 840) sizeofTextureNode).2 20 30).1 ∧
    splitAsserts (splitVerticallyNew
      (splitHorizontallyNew
        (TextureNode.node 4096 TextureNode.null TextureNode.null ⟨0, 0, 63, 63, 64, 64⟩
          Partition.NONE false true)
        (_Push_ (InitStackMemory 4096 840) sizeofTextureNode).2 20 30).1.left
      (splitHorizontallyNew
        (TextureNode.node 4096 TextureNode.null TextureNode.null ⟨0, 0, 63, 63, 64, 64⟩
          Partition.NONE false true)
        (_Push_ (InitStackMemory 4096 840) sizeofTextureNode).2 20 30).2 20 30).1 :=
  ⟨(findFirstFreeBlock_asserts 4096 ⟨0, 0, 63, 63, 64, 64⟩ Partition.NONE false true
      (_Push_ (InitStackMemory 4096 840) sizeofTextureNode).2 (textureOf 20 30)
      (by decide) (by decide)).1,
   ((findFirstFreeBlock_asserts 4096 ⟨0, 0, 63, 63, 64, 64⟩ Partition.NONE false true
      (_Push_ (InitStackMemory 4096 840) sizeofTextureNode).2 (textureOf 20 30)
      (by decide) (by decide)).2 (by decide) (by decide) (by decide)).2.2.1
      (by decide) (by decide) (by decide)⟩

/-! ## The cache along a run

The list nodes, the lookup and the node count of the cache do not depend on the tree and on
the atlas extent passed to `insertIntoLRUCache`. -/

theorem CacheAgree_refl (c : LRUCache) : CacheAgree c c := ⟨rfl, rfl, rfl, rfl, rfl⟩

theorem CacheAgree_of_eq (c d e : LRUCache) (h : c = d) (hd : CacheAgree d e) :
    CacheAgree c e := by
  rw [h]; exact hd

theorem insert_agree (tn : Nat) (tex : Option Nat) (c d : LRUCache) (w h w1 h1 : Nat)
    (tree tree1 : TextureNode) (hcd : CacheAgree c d) :
    CacheAgree (insertIntoLRUCache tn tex c w h tree).1
      (insertIntoLRUCache tn tex d w1 h1 tree1).1 := by
  obtain ⟨e1, e2, e3, e4, e5⟩ := hcd
  unfold insertIntoLRUCache
  rw [e2]
  cases hl : d.hashLookup.lookup tex with
  | some x =>
    dsimp only [CacheAgree]
    rw [e1, e3, e4, e5]
    exact ⟨rfl, rfl, rfl, rfl, rfl⟩
  | none =>
    dsimp only [CacheAgree]
    rw [e1, e3, e4, e5]
    exact ⟨rfl, rfl, rfl, rfl, rfl⟩

theorem removeLRUFromCache_evict (cache : LRUCache) (nodePath : List Nat) (tree : TextureNode)
    (h1 : cache.nodeCount ≠ 0)
    (h2 : (cache.hashLookup.lookup
      (cache.mem (cache.mem cache.sentinel).prev).texture).isSome = true) :
    removeLRUFromCache cache nodePath tree =
      ⟨(cache.mem cache.sentinel).prev,
       { cache with
          hashLookup := hashErase cache.hashLookup
            (cache.mem (cache.mem cache.sentinel).prev).texture
          mem := removeLRUFromList cache.mem cache.sentinel
          nodeCount := u32 ((cache.nodeCount : Int) - 1) },
       [],
       storeAt (cache.mem (cache.mem cache.sentinel).prev).textureNode
         (setSplitDir Partition.NONE)
         (storeAt (cache.mem (cache.mem cache.sentinel).prev).textureNode
           (setIsUsed false) tree)⟩ := by
  rcases removeLRUFromCache_eq cache nodePath tree with ⟨h, _⟩ | ⟨_, _, e⟩
  · rcases h with h | h
    · exact absurd h h1
    · rw [h2] at h; cases h
  · exact e

theorem removeLRUFromCache_keep (cache : LRUCache) (nodePath : List Nat) (tree : TextureNode)
    (h : cache.nodeCount = 0 ∨ (cache.hashLookup.lookup
      (cache.mem (cache.mem cache.sentinel).prev).texture).isSome = false) :
    removeLRUFromCache cache nodePath tree = ⟨0, cache, nodePath, tree⟩ := by
  rcases removeLRUFromCache_eq cache nodePath tree with ⟨_, e⟩ | ⟨h1, h2, _⟩
  · exact e
  · rcases h with h | h
    · exact absurd h h1
    · rw [h2] at h; cases h

theorem removeLRU_agree (c d : LRUCache) (p p1 : List Nat) (tree tree1 : TextureNode)
    (hcd : CacheAgree c d) :
    CacheAgree (removeLRUFromCache c p tree).cache (removeLRUFromCache d p1 tree1).cache ∧
    (removeLRUFromCache c p tree).tree = (removeLRUFromCache d p tree).tree := by
  obtain ⟨e1, e2, e3, e4, e5⟩ := hcd
  by_cases g : d.nodeCount ≠ 0 ∧
      (d.hashLookup.lookup (d.mem (d.mem d.sentinel).prev).texture).isSome = true
  · have gc : c.nodeCount ≠ 0 ∧
        (c.hashLookup.lookup (c.mem (c.mem c.sentinel).prev).texture).isSome = true := by
      rw [e1, e2, e3, e5]; exact g
    rw [removeLRUFromCache_evict c p tree gc.1 gc.2,
      removeLRUFromCache_evict d p1 tree1 g.1 g.2, removeLRUFromCache_evict d p tree g.1 g.2]
    dsimp only [CacheAgree]
    rw [e1, e2, e3, e4, e5]
    exact ⟨⟨rfl, rfl, rfl, rfl, rfl⟩, rfl⟩
  · have g1 : d.nodeCount = 0 ∨
        (d.hashLookup.lookup (d.mem (d.mem d.sentinel).prev).texture).isSome = false := by
      by_cases g0 : d.nodeCount = 0
      · exact Or.inl g0
      · right
        rw [← Bool.not_eq_true]
        exact fun h => g ⟨g0, h⟩
    have gc : c.nodeCount = 0 ∨
        (c.hashLookup.lookup (c.mem (c.mem c.sentinel).prev).texture).isSome = false := by
      rw [e1, e2, e3, e5]; exact g1
    rw [removeLRUFromCache_keep c p tree gc,
      removeLRUFromCache_keep d p1 tree1 g1, removeLRUFromCache_keep d p tree g1]
    exact ⟨⟨e1, e2, e3, e4, e5⟩, rfl⟩

theorem listed_agree (s : PackState) (d : LRUCache) (fuel : Nat) (h : CacheAgree s.cache d) :
    listedImages s fuel = (lruList d fuel).map (List.map (fun x => (d.mem x).texture)) := by
  obtain ⟨e1, e2, e3, e4, e5⟩ := h
  unfold listedImages lruList
  rw [e1, e5]

/-! ## Runs of the packer -/

/-- The traversal of a free leaf: the leaf is filled if it has not been drawn, and
`findFirstFreeBlock` decides. -/
theorem traverse_free_leaf (a : Nat) (b : TextureRectangle) (s : Partition) (d : Bool)
    (A : MemoryStack) (atlas t : Texture) (path : List Nat) :
    traverseTextureNodes (TextureNode.node a TextureNode.null TextureNode.null b s false d)
        A atlas t path =
      ⟨(findFirstFreeBlock
          (TextureNode.node a TextureNode.null TextureNode.null b s false true) A t).1,
        (findFirstFreeBlock
          (TextureNode.node a TextureNode.null TextureNode.null b s false true) A t).2.1,
        if d = true then atlas
        else renderBlockIntoTextureAtlas
          (TextureNode.node a TextureNode.null TextureNode.null b s false d) atlas,
        path,
        (findFirstFreeBlock
          (TextureNode.node a TextureNode.null TextureNode.null b s false true) A t).2.2⟩ := by
  cases d <;> rfl

/-- The traversal of a used leaf finds nothing and changes nothing. -/
theorem traverse_used_leaf (a : Nat) (b : TextureRectangle) (d : Bool)
    (A : MemoryStack) (atlas t : Texture) (path : List Nat) :
    traverseTextureNodes
        (TextureNode.node a TextureNode.null TextureNode.null b Partition.NONE true d)
        A atlas t path =
      ⟨TextureNode.node a TextureNode.null TextureNode.null b Partition.NONE true d, A, atlas,
        path, 0⟩ := by
  rfl

/-- The loop returns the state after `k` iterations when the image index is below the count
before each of them and no longer after the last. -/
theorem packLoop_of_iter (k : Nat) (s : PackState)
    (hlt : ∀ j, j < k → (packIter j s).textureIndex < (packIter j s).textureCount)
    (hdone : ¬ (packIter k s).textureIndex < (packIter k s).textureCount) :
    packLoop k s = some (packIter k s) := by
  induction k generalizing s with
  | zero =>
    have h0 : packIter 0 s = s := rfl
    rw [h0] at hdone
    simp only [packLoop, hdone, if_false, h0]
  | succ k ih =>
    have h0 : s.textureIndex < s.textureCount := hlt 0 (Nat.succ_pos k)
    have e : ∀ j, packIter (j + 1) s = packIter j (packStep s) := fun j =>
      Function.iterate_succ_apply packStep j s
    simp only [packLoop, h0, if_true]
    rw [e k]
    apply ih
    · intro j hj
      rw [← e j]
      exact hlt (j + 1) (Nat.succ_lt_succ hj)
    · rw [← e k]
      exact hdone

theorem packStart_single (t : Texture) (maxW maxH : Nat)
    (h1 : 1 ≤ t.width) (h2 : t.width < 65536) (h3 : 1 ≤ t.height) (h4 : t.height < 65536) :
    (packStart [t] maxW maxH).root =
      TextureNode.node 4096 TextureNode.null TextureNode.null
        ⟨0, 0, t.width - 1, t.height - 1, t.width, t.height⟩ Partition.NONE false false := by
  have e1 : u16 ((0 : Int) + t.width - 1) = t.width - 1 := by
    rw [u16_of_lt _ (by omega) (by omega)]; omega
  have e2 : u16 ((0 : Int) + t.height - 1) = t.height - 1 := by
    rw [u16_of_lt _ (by omega) (by omega)]; omega
  show TextureNode.node 4096 TextureNode.null TextureNode.null
    ⟨0, 0, u16 ((0 : Int) + t.width - 1), u16 ((0 : Int) + t.height - 1), t.width, t.height⟩
    Partition.NONE false false = _
  rw [e1, e2]

theorem packStep_single (t : Texture) (maxW maxH : Nat)
    (h1 : 1 ≤ t.width) (h2 : t.width < 65536) (h3 : 1 ≤ t.height) (h4 : t.height < 65536) :
    (packStep (packStart [t] maxW maxH)).textureIndex = 1 ∧
    (packStep (packStart [t] maxW maxH)).textureCount = 1 ∧
    (packStep (packStart [t] maxW maxH)).maxAtlasWidth = maxW ∧
    (packStep (packStart [t] maxW maxH)).maxAtlasHeight = maxH ∧
    (packStep (packStart [t] maxW maxH)).textures = [{ t with x := 0, y := 0 }] ∧
    (packStep (packStart [t] maxW maxH)).root =
      TextureNode.node 4096 TextureNode.null TextureNode.null
        ⟨0, 0, t.width - 1, t.height - 1, t.width, t.height⟩ Partition.NONE true true ∧
    (packStep (packStart [t] maxW maxH)).textureNodeArena.elementCount = 1 ∧
    CacheAgree (packStep (packStart [t] maxW maxH)).cache
      (insertIntoLRUCache 4096 (some 0) (makeLRUList 1048576 32) 0 0 TextureNode.null).1 := by
  have hidx : (packStart [t] maxW maxH).textureIndex < (packStart [t] maxW maxH).textureCount :=
    Nat.zero_lt_one
  have hroot := packStart_single t maxW maxH h1 h2 h3 h4
  have hT : traverseTextureNodes (packStart [t] maxW maxH).root
      (packStart [t] maxW maxH).textureNodeArena (packStart [t] maxW maxH).textureAtlas
      ((packStart [t] maxW maxH).textures.getD (packStart [t] maxW maxH).textureIndex default) []
      = ⟨TextureNode.node 4096 TextureNode.null TextureNode.null
          ⟨0, 0, t.width - 1, t.height - 1, t.width, t.height⟩ Partition.NONE true true,
        (packStart [t] maxW maxH).textureNodeArena,
        renderBlockIntoTextureAtlas (TextureNode.node 4096 TextureNode.null TextureNode.null
          ⟨0, 0, t.width - 1, t.height - 1, t.width, t.height⟩ Partition.NONE false false)
          (packStart [t] maxW maxH).textureAtlas, [], 4096⟩ := by
    rw [hroot, traverse_free_leaf]
    have e : (packStart [t] maxW maxH).textures.getD (packStart [t] maxW maxH).textureIndex
      default = t := rfl
    rw [e, findFirstFreeBlock_exact _ _ _ _ _ _ _ _ _ rfl rfl]
    rfl
  have hres : (traverseTextureNodes (packStart [t] maxW maxH).root
      (packStart [t] maxW maxH).textureNodeArena (packStart [t] maxW maxH).textureAtlas
      ((packStart [t] maxW maxH).textures.getD (packStart [t] maxW maxH).textureIndex default)
      []).result ≠ 0 := by
    rw [hT]; show (4096 : Nat) ≠ 0; decide
  have hs := packStep_placed _ hidx hres
  rw [hT] at hs
  rw [hs]
  refine ⟨rfl, rfl, rfl, rfl, rfl, rfl, rfl, ?_⟩
  show CacheAgree (insertIntoLRUCache 4096 (some 0) (makeLRUList 1048576 32) t.width t.height
    (TextureNode.node 4096 TextureNode.null TextureNode.null
      ⟨0, 0, t.width - 1, t.height - 1, t.width, t.height⟩ Partition.NONE true true)).1 _
  exact insert_agree _ _ _ _ _ _ _ _ _ _ (CacheAgree_refl _)

/-- C21: for every single image of extent `(w, h)` with `1 ≤ w ≤ maxAtlasWidth` and
`1 ≤ h ≤ maxAtlasHeight` the call returns, for every fuel of at least one iteration, with
an atlas of extent exactly `(w, h)`, the image placed at `(0, 0)` and exactly one entry in
the LRU list (the image). The loop makes one iteration, which is the placement: the tree is
still the one seed leaf (now used), the node arena has handed out one node, so there has
been no expansion, no split and no eviction. -/
theorem pack_single_image (t : Texture) (maxW maxH : Nat)
    (h1 : 1 ≤ t.width) (h2 : t.width ≤ maxW) (h3 : 1 ≤ t.height) (h4 : t.height ≤ maxH)
    (hW : maxW < 65536) (hH : maxH < 65536) :
    ∃ s, (∀ fuel, 1 ≤ fuel → packRun fuel [t] maxW maxH = some s) ∧
      s.textureAtlas.width = t.width ∧ s.textureAtlas.height = t.height ∧
      placementOf s 0 = (0, 0, t.width, t.height) ∧
      listedImages s 1 = some [some 0] ∧ s.cache.nodeCount = 1 ∧
      s.textureIndex = 1 ∧
      s.root = TextureNode.node 4096 TextureNode.null TextureNode.null
        ⟨0, 0, t.width - 1, t.height - 1, t.width, t.height⟩ Partition.NONE true true ∧
      s.textureNodeArena.elementCount = 1 := by
  obtain ⟨k1, k2, k3, k4, k5, k6, k7, k8⟩ :=
    packStep_single t maxW maxH h1 (by omega) h3 (by omega)
  have hloop : packLoop 1 (packStart [t] maxW maxH) = some (packStep (packStart [t] maxW maxH)) :=
    packLoop_of_iter 1 _
      (fun j hj => by
        have e : j = 0 := by omega
        rw [e]
        exact Nat.zero_lt_one)
      (by
        show ¬ (packStep (packStart [t] maxW maxH)).textureIndex <
          (packStep (packStart [t] maxW maxH)).textureCount
        rw [k1, k2]; omega)
  refine ⟨_, fun fuel hf =>
    packTexturesIntoAtlas_of_loop fuel _ _ _ _ _ _ (packLoop_mono 1 _ _ hloop fuel hf), ?_⟩
  have e6 : (packStep (packStart [t] maxW maxH)).root.block.width = t.width := by rw [k6]; rfl
  have e7 : (packStep (packStart [t] maxW maxH)).root.block.height = t.height := by rw [k6]; rfl
  refine ⟨?_, ?_, ?_, ?_, ?_, k1, k6, k7⟩
  · show min _ _ = _
    rw [e6, k3]; omega
  · show min _ _ = _
    rw [e7, k4]; omega
  · show placementOf (packStep (packStart [t] maxW maxH)) 0 = _
    unfold placementOf
    rw [k5]
    rfl
  · have e := listed_agree
      { packStep (packStart [t] maxW maxH) with
        cache := { (packStep (packStart [t] maxW maxH)).cache with
          atlasWidth := min (packStep (packStart [t] maxW maxH)).root.block.width
            (packStep (packStart [t] maxW maxH)).maxAtlasWidth
          atlasHeight := min (packStep (packStart [t] maxW maxH)).root.block.height
            (packStep (packStart [t] maxW maxH)).maxAtlasHeight } }
      _ 1 k8
    exact e.trans (by decide)
  · exact k8.2.2.1.trans (by decide)

/-- C21 at one 16x16 image under the cap 64x64. -/
theorem pack_single_image_witness :
    ∃ s, (∀ fuel, 1 ≤ fuel → packRun fuel [textureOf 16 16] 64 64 = some s) ∧
      s.textureAtlas.width = 16 ∧ s.textureAtlas.height = 16 ∧
      placementOf s 0 = (0, 0, 16, 16) ∧
      listedImages s 1 = some [some 0] ∧ s.cache.nodeCount = 1 ∧
      s.textureIndex = 1 ∧
      s.root = TextureNode.node 4096 TextureNode.null TextureNode.null
        ⟨0, 0, 15, 15, 16, 16⟩ Partition.NONE true true ∧
      s.textureNodeArena.elementCount = 1 :=
  pack_single_image (textureOf 16 16) 64 64 (by decide) (by decide) (by decide) (by decide)
    (by decide) (by decide)

/-! ## Containment under a square cap -/

/-- C29 (failing input): the images 1x65534 and 1x2 under the square cap 65535x65535. The
call returns after three iterations. The sum `65534 + 2` of the vertical expansion wraps to
`0`, so the final root and the final atlas have the extent `(1, 0)`, while the list holds
both images, at `(0, 0)` and `(0, 65534)`: `y + height` is 65534 and 65536, above the atlas
height 0. No arena has run out of memory. -/
theorem pack_images_outside_atlas_on_wrap :
    (packRun 3 [textureOf 1 65534, textureOf 1 2] 65535 65535).map
      (fun s => (s.root.block.width, s.root.block.height, s.textureAtlas.width,
        s.textureAtlas.height, placementOf s 0, placementOf s 1, listedImages s 2,
        s.textureNodeArena.outOfMemory, s.cache.arena.outOfMemory))
      = some (1, 0, 1, 0, (0, 0, 1, 65534), (0, 65534, 1, 2), some [some 1, some 0],
          false, false) := by
  rfl

/-! ## The traversal finds the first free leaf that fits -/

/-- The traversal of an internal node: the left child is searched if the pre-check of the
split direction lets the image through, and the right child if the left search (or the
skipped left child) gave no placement. -/
theorem traverse_internal (a : Nat) (l r : TextureNode) (b : TextureRectangle) (s : Partition)
    (d : Bool) (A : MemoryStack) (atlas t : Texture) (path : List Nat)
    (hleaf : isLeaf (TextureNode.node a l r b s false d) = false) :
    ∃ (atlas1 : Texture) (d1 : Bool) (tl : Traversal),
      ((tl = traverseTextureNodes l A atlas1 t (path ++ [a]) ∧
          ((s = Partition.VERTICAL ∧ t.height ≤ l.block.height) ∨
           (s = Partition.HORIZONTAL ∧ t.width ≤ l.block.width))) ∨
        (tl = ⟨l, A, atlas1, path, 0⟩ ∧
          ¬ ((s = Partition.VERTICAL ∧ t.height ≤ l.block.height) ∨
             (s = Partition.HORIZONTAL ∧ t.width ≤ l.block.width)))) ∧
      traverseTextureNodes (TextureNode.node a l r b s false d) A atlas t path =
        if tl.result ≠ 0 then
          ⟨TextureNode.node a tl.node r b s false d1, tl.textureNodeArena, tl.textureAtlas,
            tl.nodePath, tl.result⟩
        else
          ⟨TextureNode.node a tl.node
              (traverseTextureNodes r tl.textureNodeArena tl.textureAtlas t tl.nodePath).node
              b s false d1,
            (traverseTextureNodes r tl.textureNodeArena tl.textureAtlas t
              tl.nodePath).textureNodeArena,
            (traverseTextureNodes r tl.textureNodeArena tl.textureAtlas t
              tl.nodePath).textureAtlas,
            (traverseTextureNodes r tl.textureNodeArena tl.textureAtlas t tl.nodePath).nodePath,
            (traverseTextureNodes r tl.textureNodeArena tl.textureAtlas t
              tl.nodePath).result⟩ := by
  have hl : ∀ d1, isLeaf (TextureNode.node a l r b s false d1) = false := fun d1 => hleaf
  simp only [traverseTextureNodes, hl, Bool.false_and, Bool.false_eq_true, if_false]
  refine ⟨if (!false && !d) = true then
      renderBlockIntoTextureAtlas (TextureNode.node a l r b s false d) atlas else atlas,
    if (!false && !d) = true then true else d, ?_⟩
  cases s with
  | NONE =>
    refine ⟨⟨l, A, _, path, 0⟩, Or.inr ⟨rfl, by simp⟩, ?_⟩
    simp only [reduceCtorEq, if_false]
  | VERTICAL =>
    by_cases c : t.height ≤ l.block.height
    · refine ⟨traverseTextureNodes l A _ t (path ++ [a]), Or.inl ⟨rfl, Or.inl ⟨rfl, c⟩⟩, ?_⟩
      simp only [c, if_true]
    · refine ⟨⟨l, A, _, path, 0⟩, Or.inr ⟨rfl, by simp [c]⟩, ?_⟩
      simp only [c, if_true, if_false]
  | HORIZONTAL =>
    by_cases c : t.width ≤ l.block.width
    · refine ⟨traverseTextureNodes l A _ t (path ++ [a]), Or.inl ⟨rfl, Or.inr ⟨rfl, c⟩⟩, ?_⟩
      simp only [c, if_true, reduceCtorEq, if_false]
    · refine ⟨⟨l, A, _, path, 0⟩, Or.inr ⟨rfl, by simp [c]⟩, ?_⟩
      simp only [c, if_true, if_false, reduceCtorEq]

/-- On a leaf the image fits into, `findFirstFreeBlock` returns a pointer that is not null. -/
theorem findFirstFreeBlock_fit (a : Nat) (b : TextureRectangle) (s : Partition) (u d : Bool)
    (A : MemoryStack) (t : Texture) (ha : a ≠ 0) (hb : RectOK b) (ht : TexOK t)
    (hbase : 0 < A.base) (hroom : A.base + A.bytes_used + 4 * sizeofTextureNode ≤ 2 ^ 64)
    (hfit : t.width ≤ b.width ∧ t.height ≤ b.height) :
    (findFirstFreeBlock (TextureNode.node a TextureNode.null TextureNode.null b s u d)
      A t).2.2 ≠ 0 := by
  obtain ⟨b1, b2, b3, b4, b5, b6⟩ := hb
  obtain ⟨t1, t2, t3, t4⟩ := ht
  obtain ⟨f1, f2⟩ := hfit
  have hsz : sizeofTextureNode = 40 := rfl
  have p1 : (_Push_ A sizeofTextureNode).1 = A.base + A.bytes_used :=
    push_fst A _ hbase (by decide) (by omega)
  have q1 : (_Push_ A sizeofTextureNode).2.bytes_used = A.bytes_used + sizeofTextureNode :=
    push_bytes_used A _ hbase (by decide) (by omega)
  have r1 : (_Push_ A sizeofTextureNode).2.base = A.base := rfl
  have q2 : (_Push_ (_Push_ A sizeofTextureNode).2 sizeofTextureNode).2.bytes_used =
      A.bytes_used + sizeofTextureNode + sizeofTextureNode := by
    rw [push_bytes_used _ _ (by rw [r1]; exact hbase) (by decide) (by rw [r1, q1]; omega), q1]
  have r2 : (_Push_ (_Push_ A sizeofTextureNode).2 sizeofTextureNode).2.base = A.base := rfl
  have p3 : (_Push_ (_Push_ (_Push_ A sizeofTextureNode).2 sizeofTextureNode).2
      sizeofTextureNode).1 = A.base + (A.bytes_used + sizeofTextureNode + sizeofTextureNode) := by
    rw [push_fst _ _ (by rw [r2]; exact hbase) (by decide) (by rw [r2, q2]; omega), r2, q2]
  by_cases hw : b.width = t.width
  · by_cases hh : b.height = t.height
    · rw [findFirstFreeBlock_exact _ _ _ _ _ _ _ _ _ hw hh]
      exact ha
    · rw [findFirstFreeBlock_widthExact _ _ _ _ _ _ _ _ _ b2 b6 hw t3 (by omega)]
      show (_Push_ A sizeofTextureNode).1 ≠ 0
      omega
  · by_cases hh : b.height = t.height
    · rw [findFirstFreeBlock_heightExact _ _ _ _ _ _ _ _ _ b1 b5 hh t1 (by omega)]
      show (_Push_ A sizeofTextureNode).1 ≠ 0
      omega
    · by_cases hasp : t.height > t.width
      · rw [findFirstFreeBlock_tall _ _ _ _ _ _ _ _ _ b1 b5 b2 b6 t1 (by omega) t3 (by omega)
          hasp]
        show (_Push_ (_Push_ (_Push_ A sizeofTextureNode).2 sizeofTextureNode).2
          sizeofTextureNode).1 ≠ 0
        omega
      · rw [findFirstFreeBlock_wide _ _ _ _ _ _ _ _ _ b1 b5 b2 b6 t1 (by omega) t3 (by omega)
          hasp]
        show (_Push_ (_Push_ (_Push_ A sizeofTextureNode).2 sizeofTextureNode).2
          sizeofTextureNode).1 ≠ 0
        omega

/-- No leaf of a well-shaped tree is wider or higher than the block of the root. -/
theorem leaves_extent_le (n : TextureNode) (h : TreeOK n) (x : TextureNode)
    (hx : x ∈ leaves n) :
    x.block.width ≤ n.block.width ∧ x.block.height ≤ n.block.height := by
  have hx1 : x ∈ nodes n := List.mem_of_mem_filter hx
  obtain ⟨⟨i1, i2, i3, i4⟩, r1, r2, _, _, _, _⟩ := nodes_inside n h x hx1
  obtain ⟨q1, q2, _, _, _, _⟩ := TreeOK_rect n h
  constructor <;> omega

/-- The search of `traverseTextureNodes` against the list of leaves: when no free leaf fits,
the call returns null and leaves the arena alone; otherwise it hands the first free leaf that
fits (by then marked drawn) to `findFirstFreeBlock` with the arena it was called with. -/
theorem traverse_find (t : Texture) (ht : TexOK t) (A : MemoryStack) (hbase : 0 < A.base)
    (hroom : A.base + A.bytes_used + 4 * sizeofTextureNode ≤ 2 ^ 64)
    (n : TextureNode) (atlas : Texture) (path : List Nat) (h : TreeOK n) (h0 : 0 ∉ addrs n) :
    ((leaves n).find? (fun x => !x.isUsed && isBlockFit x t.width t.height) = none →
      (traverseTextureNodes n A atlas t path).result = 0 ∧
      (traverseTextureNodes n A atlas t path).textureNodeArena = A) ∧
    (∀ x, (leaves n).find? (fun x => !x.isUsed && isBlockFit x t.width t.height) = some x →
      (traverseTextureNodes n A atlas t path).result =
        (findFirstFreeBlock (TextureNode.node x.addr TextureNode.null TextureNode.null
          x.block x.splitDir false true) A t).2.2 ∧
      (traverseTextureNodes n A atlas t path).result ≠ 0 ∧
      (traverseTextureNodes n A atlas t path).textureNodeArena =
        (findFirstFreeBlock (TextureNode.node x.addr TextureNode.null TextureNode.null
          x.block x.splitDir false true) A t).2.1 ∧
      (findFirstFreeBlock (TextureNode.node x.addr TextureNode.null TextureNode.null
          x.block x.splitDir false true) A t).1 ∈
        nodes (traverseTextureNodes n A atlas t path).node) := by
  induction n generalizing atlas path with
  | null => exact absurd h id
  | node a l r b s u d ihl ihr =>
    have hb := h.1
    have ha : a ≠ 0 := by
      intro e
      apply h0
      rw [addrs_node, e]
      exact List.mem_cons_self _ _
    have h0l : 0 ∉ addrs l := by
      intro e
      apply h0
      rw [addrs_node]
      exact List.mem_cons_of_mem _ (List.mem_append_left _ e)
    have h0r : 0 ∉ addrs r := by
      intro e
      apply h0
      rw [addrs_node]
      exact List.mem_cons_of_mem _ (List.mem_append_right _ e)
    rcases h.2 with ⟨e1, e2, e3⟩ | ⟨hu, tl0, tr0, hs⟩
    · subst e1 e2 e3
      cases u with
      | true =>
        rw [traverse_used_leaf, leaves_leaf]
        refine ⟨fun _ => ⟨rfl, rfl⟩, fun x hx => ?_⟩
        simp at hx
      | false =>
        rw [traverse_free_leaf, leaves_leaf]
        by_cases hfit : t.width ≤ b.width ∧ t.height ≤ b.height
        · have hfind : List.find? (fun x => !x.isUsed && isBlockFit x t.width t.height)
              [TextureNode.node a TextureNode.null TextureNode.null b Partition.NONE false d]
              = some (TextureNode.node a TextureNode.null TextureNode.null b Partition.NONE
                false d) := by
            simp [List.find?, isBlockFit, hfit]
          rw [hfind]
          refine ⟨fun e => Option.noConfusion e, fun x hx => ?_⟩
          cases hx
          refine ⟨rfl, findFirstFreeBlock_fit a b _ _ _ A t ha hb ht hbase hroom hfit, rfl,
            mem_nodes_self _ ?_⟩
          intro e
          have h2 := (findFirstFreeBlock_block a TextureNode.null TextureNode.null b
            Partition.NONE false true A t).2
          simp only [addr_node, block_node, splitDir_node] at e
          rw [e] at h2
          exact ha h2.symm
        · have hfind : List.find? (fun x => !x.isUsed && isBlockFit x t.width t.height)
              [TextureNode.node a TextureNode.null TextureNode.null b Partition.NONE false d]
              = none := by
            simp only [List.find?_eq_none, List.mem_singleton, forall_eq, isBlockFit,
              isUsed_node, block_node, Bool.not_false, Bool.true_and, Bool.and_eq_true,
              decide_eq_true_eq, ge_iff_le, true_and]
            exact hfit
          rw [hfind, findFirstFreeBlock_nofit _ _ _ hfit]
          exact ⟨fun _ => ⟨rfl, rfl⟩, fun x hx => by cases hx⟩
    · subst hu
      have hleaf := isLeaf_of_TreeOK_children a l r b s false d tl0
      obtain ⟨atlas1, d1, tl, htl, heq⟩ := traverse_internal a l r b s d A atlas t path hleaf
      rw [heq, leaves_internal _ _ _ _ _ _ _ hleaf, List.find?_append]
      have hL : ((leaves l).find? (fun x => !x.isUsed && isBlockFit x t.width t.height) = none →
            tl.result = 0 ∧ tl.textureNodeArena = A) ∧
          (∀ x, (leaves l).find? (fun x => !x.isUsed && isBlockFit x t.width t.height)
              = some x →
            tl.result = (findFirstFreeBlock (TextureNode.node x.addr TextureNode.null
              TextureNode.null x.block x.splitDir false true) A t).2.2 ∧ tl.result ≠ 0 ∧
            tl.textureNodeArena = (findFirstFreeBlock (TextureNode.node x.addr
              TextureNode.null TextureNode.null x.block x.splitDir false true) A t).2.1 ∧
            (findFirstFreeBlock (TextureNode.node x.addr TextureNode.null TextureNode.null
              x.block x.splitDir false true) A t).1 ∈ nodes tl.node) := by
        rcases htl with ⟨e, _⟩ | ⟨e, hskip⟩
        · rw [e]
          exact ihl atlas1 (path ++ [a]) tl0 h0l
        · have hnone : (leaves l).find?
              (fun x => !x.isUsed && isBlockFit x t.width t.height) = none := by
            rw [List.find?_eq_none]
            intro x hx
            obtain ⟨w1, w2⟩ := leaves_extent_le l tl0 x hx
            simp only [isBlockFit, Bool.and_eq_true, decide_eq_true_eq, ge_iff_le, not_and]
            intro _ hw hh
            rcases hs with ⟨es, _⟩ | ⟨es, _⟩
            · exact hskip (Or.inl ⟨es, by omega⟩)
            · exact hskip (Or.inr ⟨es, by omega⟩)
          rw [e]
          exact ⟨fun _ => ⟨rfl, rfl⟩, fun x hx => by rw [hnone] at hx; cases hx⟩
      cases hf : (leaves l).find? (fun x => !x.isUsed && isBlockFit x t.width t.height) with
      | some x =>
        obtain ⟨k1, k2, k3, k4⟩ := hL.2 x hf
        rw [if_pos k2]
        refine ⟨fun e => by simp at e, fun y hy => ?_⟩
        simp at hy
        subst hy
        refine ⟨k1, k2, k3, ?_⟩
        simp only [nodes, List.mem_cons, List.mem_append]
        exact Or.inr (Or.inl k4)
      | none =>
        obtain ⟨k1, k2⟩ := hL.1 hf
        rw [if_neg (by rw [k1]; simp), k2]
        have hR := ihr tl.textureAtlas tl.nodePath tr0 h0r
        refine ⟨fun e => hR.1 (by simpa using e), fun y hy => ?_⟩
        obtain ⟨q1, q2, q3, q4⟩ := hR.2 y (by simpa using hy)
        refine ⟨q1, q2, q3, ?_⟩
        simp only [nodes, List.mem_cons, List.mem_append]
        exact Or.inr (Or.inr q4)

/-- C24: on a well-shaped tree (internal nodes are split in two, used nodes are leaves) and
an image of extent at least 1x1, `traverseTextureNodes` returns a placement iff some free
leaf has `width ≥ w` and `height ≥ h`; and when `x` is the first such leaf in the
left-to-right order of the leaves, the call hands `x` (marked drawn) to `findFirstFreeBlock`
with the arena it was called with: the pointer and the arena it returns are those of that
call, and the node this call leaves at the address of `x`, with the block of `x`, is a node
of the tree afterwards. So a right child is searched whenever the left one gave nothing, and
a skipped left child holds no free leaf that fits. -/
theorem traverse_first_fit (n : TextureNode) (A : MemoryStack) (atlas t : Texture)
    (path : List Nat) (h : TreeOK n) (ht : TexOK t) (h0 : 0 ∉ addrs n) (hbase : 0 < A.base)
    (hroom : A.base + A.bytes_used + 4 * sizeofTextureNode ≤ 2 ^ 64) :
    ((traverseTextureNodes n A atlas t path).result ≠ 0 ↔
      ∃ x ∈ leaves n, x.isUsed = false ∧ t.width ≤ x.block.width ∧
        t.height ≤ x.block.height) ∧
    (∀ pre x post, leaves n = pre ++ x :: post →
      (∀ y ∈ pre, ¬ (y.isUsed = false ∧ t.width ≤ y.block.width ∧
        t.height ≤ y.block.height)) →
      x.isUsed = false → t.width ≤ x.block.width → t.height ≤ x.block.height →
      (traverseTextureNodes n A atlas t path).result =
        (findFirstFreeBlock (TextureNode.node x.addr TextureNode.null TextureNode.null
          x.block x.splitDir false true) A t).2.2 ∧
      (traverseTextureNodes n A atlas t path).textureNodeArena =
        (findFirstFreeBlock (TextureNode.node x.addr TextureNode.null TextureNode.null
          x.block x.splitDir false true) A t).2.1 ∧
      (findFirstFreeBlock (TextureNode.node x.addr TextureNode.null TextureNode.null
          x.block x.splitDir false true) A t).1 ∈
        nodes (traverseTextureNodes n A atlas t path).node ∧
      (findFirstFreeBlock (TextureNode.node x.addr TextureNode.null TextureNode.null
          x.block x.splitDir false true) A t).1.addr = x.addr ∧
      (findFirstFreeBlock (TextureNode.node x.addr TextureNode.null TextureNode.null
          x.block x.splitDir false true) A t).1.block = x.block) := by
  obtain ⟨hnone, hsome⟩ := traverse_find t ht A hbase hroom n atlas path h h0
  have hp : ∀ y : TextureNode,
      ((!y.isUsed && isBlockFit y t.width t.height) = true ↔
        (y.isUsed = false ∧ t.width ≤ y.block.width ∧ t.height ≤ y.block.height)) := by
    intro y
    simp only [isBlockFit, Bool.and_eq_true, decide_eq_true_eq, ge_iff_le,
      Bool.not_eq_true']
  constructor
  · constructor
    · intro hres
      cases hf : (leaves n).find? (fun x => !x.isUsed && isBlockFit x t.width t.height) with
      | none => exact absurd (hnone hf).1 hres
      | some x =>
        have hpx := (List.find?_eq_some.1 hf).1
        exact ⟨x, List.mem_of_find?_eq_some hf, (hp x).1 hpx⟩
    · rintro ⟨x, hx, hfit⟩
      cases hf : (leaves n).find? (fun x => !x.isUsed && isBlockFit x t.width t.height) with
      | none =>
        rw [List.find?_eq_none] at hf
        exact absurd ((hp x).2 hfit) (hf x hx)
      | some y => exact (hsome y hf).2.1
  · intro pre x post hl hpre hu hw hh
    have hf : (leaves n).find? (fun x => !x.isUsed && isBlockFit x t.width t.height)
        = some x := by
      rw [List.find?_eq_some]
      refine ⟨(hp x).2 ⟨hu, hw, hh⟩, pre, post, hl, fun y hy => ?_⟩
      have hy1 := hpre y hy
      rw [← hp y] at hy1
      cases hv : (!y.isUsed && isBlockFit y t.width t.height) with
      | true => exact absurd hv hy1
      | false => rfl
    obtain ⟨k1, _, k3, k4⟩ := hsome x hf
    obtain ⟨m1, m2⟩ := findFirstFreeBlock_block x.addr TextureNode.null TextureNode.null
      x.block x.splitDir false true A t
    exact ⟨k1, k3, k4, m2, m1⟩

/-- C24 on the 16x8 tree whose left 8x8 leaf is used and whose right 8x8 leaf is free, and
an image of extent 4x8: the left leaf is searched and gives nothing, the right leaf is the
first free leaf that fits, and it is the one that gets split. -/
theorem traverse_first_fit_witness :
    ((traverseTextureNodes halfUsedTree ⟨4096, 840, 120, 3, false⟩
        ⟨"", List.replicate 512 0, 4, 0, 0, 16, 8⟩ (textureOf 4 8) []).result ≠ 0 ↔
      ∃ x ∈ leaves halfUsedTree, x.isUsed = false ∧ (textureOf 4 8).width ≤ x.block.width ∧
        (textureOf 4 8).height ≤ x.block.height) ∧
    (traverseTextureNodes halfUsedTree ⟨4096, 840, 120, 3, false⟩
        ⟨"", List.replicate 512 0, 4, 0, 0, 16, 8⟩ (textureOf 4 8) []).result =
      (findFirstFreeBlock (TextureNode.node 4176 TextureNode.null TextureNode.null
        ⟨8, 0, 15, 7, 8, 8⟩ Partition.NONE false true) ⟨4096, 840, 120, 3, false⟩
        (textureOf 4 8)).2.2 ∧
    (findFirstFreeBlock (TextureNode.node 4176 TextureNode.null TextureNode.null
        ⟨8, 0, 15, 7, 8, 8⟩ Partition.NONE false true) ⟨4096, 840, 120, 3, false⟩
        (textureOf 4 8)).1 ∈
      nodes (traverseTextureNodes halfUsedTree ⟨4096, 840, 120, 3, false⟩
        ⟨"", List.replicate 512 0, 4, 0, 0, 16, 8⟩ (textureOf 4 8) []).node :=
  have hT : TreeOK halfUsedTree :=
    ⟨by decide, Or.inr ⟨rfl, TreeOK_leaf _ _ _ _ (by decide), TreeOK_leaf _ _ _ _ (by decide),
      Or.inr (by decide)⟩⟩
  have h := traverse_first_fit halfUsedTree ⟨4096, 840, 120, 3, false⟩
    ⟨"", List.replicate 512 0, 4, 0, 0, 16, 8⟩ (textureOf 4 8) [] hT (by decide) (by decide)
    (by decide) (by decide)
  have h2 := h.2
    [TextureNode.node 4136 TextureNode.null TextureNode.null ⟨0, 0, 7, 7, 8, 8⟩
      Partition.NONE true true]
    (TextureNode.node 4176 TextureNode.null TextureNode.null ⟨8, 0, 15, 7, 8, 8⟩
      Partition.NONE false true) [] rfl (by decide) rfl (by decide) (by decide)
  ⟨h.1, h2.1, h2.2.2.1⟩

/-! ## The measure of the pack loop: what one iteration does -/

theorem eraseDrawn_node (a : Nat) (l r : TextureNode) (b : TextureRectangle) (s : Partition)
    (u d : Bool) :
    eraseDrawn (TextureNode.node a l r b s u d) =
      TextureNode.node a (eraseDrawn l) (eraseDrawn r) b s u false := rfl

/-- A traversal that finds no free leaf that fits changes nothing in the tree but `isDrawn`
flags. -/
theorem traverse_nofit_erase (t : Texture) (ht : TexOK t) (A : MemoryStack)
    (hbase : 0 < A.base) (hroom : A.base + A.bytes_used + 4 * sizeofTextureNode ≤ 2 ^ 64)
    (n : TextureNode) (atlas : Texture) (path : List Nat) (h : TreeOK n) (h0 : 0 ∉ addrs n)
    (hnone : (leaves n).find? (fun x => !x.isUsed && isBlockFit x t.width t.height) = none) :
    eraseDrawn (traverseTextureNodes n A atlas t path).node = eraseDrawn n := by
  induction n generalizing atlas path with
  | null => exact absurd h id
  | node a l r b s u d ihl ihr =>
    have h0l : 0 ∉ addrs l := by
      intro e
      apply h0
      rw [addrs_node]
      exact List.mem_cons_of_mem _ (List.mem_append_left _ e)
    have h0r : 0 ∉ addrs r := by
      intro e
      apply h0
      rw [addrs_node]
      exact List.mem_cons_of_mem _ (List.mem_append_right _ e)
    rcases h.2 with ⟨e1, e2, e3⟩ | ⟨hu, tl0, tr0, hs⟩
    · subst e1 e2 e3
      cases u with
      | true => rw [traverse_used_leaf]
      | false =>
        rw [traverse_free_leaf]
        rw [leaves_leaf] at hnone
        have hfit : ¬ (t.width ≤ b.width ∧ t.height ≤ b.height) := by
          intro hf
          have hp : List.find? (fun x => !x.isUsed && isBlockFit x t.width t.height)
              [TextureNode.node a TextureNode.null TextureNode.null b Partition.NONE false d]
              = some (TextureNode.node a TextureNode.null TextureNode.null b Partition.NONE
                false d) := by
            simp [List.find?, isBlockFit, hf]
          rw [hp] at hnone
          cases hnone
        rw [findFirstFreeBlock_nofit _ _ _ hfit]
        rfl
    · subst hu
      have hleaf := isLeaf_of_TreeOK_children a l r b s false d tl0
      obtain ⟨atlas1, d1, tl, htl, heq⟩ := traverse_internal a l r b s d A atlas t path hleaf
      rw [leaves_internal _ _ _ _ _ _ _ hleaf, List.find?_append] at hnone
      have hnl : (leaves l).find? (fun x => !x.isUsed && isBlockFit x t.width t.height)
          = none := by
        cases hf : (leaves l).find? (fun x => !x.isUsed && isBlockFit x t.width t.height) with
        | none => rfl
        | some x => rw [hf] at hnone; simp at hnone
      have hnr : (leaves r).find? (fun x => !x.isUsed && isBlockFit x t.width t.height)
          = none := by
        rw [hnl] at hnone
        simpa using hnone
      have hL : tl.result = 0 ∧ tl.textureNodeArena = A ∧
          eraseDrawn tl.node = eraseDrawn l := by
        rcases htl with ⟨e, _⟩ | ⟨e, _⟩
        · rw [e]
          obtain ⟨k1, k2⟩ := (traverse_find t ht A hbase hroom l atlas1 (path ++ [a]) tl0
            h0l).1 hnl
          exact ⟨k1, k2, ihl atlas1 (path ++ [a]) tl0 h0l hnl⟩
        · rw [e]
          exact ⟨rfl, rfl, rfl⟩
      obtain ⟨k1, k2, k3⟩ := hL
      rw [heq, if_neg (by rw [k1]; simp), k2]
      rw [eraseDrawn_node, eraseDrawn_node, k3, ihr tl.textureAtlas tl.nodePath tr0 h0r hnr]

/-- The outcome of a traversal that returns null. -/
theorem traverse_null (t : Texture) (ht : TexOK t) (A : MemoryStack)
    (hbase : 0 < A.base) (hroom : A.base + A.bytes_used + 4 * sizeofTextureNode ≤ 2 ^ 64)
    (n : TextureNode) (atlas : Texture) (path : List Nat) (h : TreeOK n) (h0 : 0 ∉ addrs n)
    (hres : (traverseTextureNodes n A atlas t path).result = 0) :
    (traverseTextureNodes n A atlas t path).textureNodeArena = A ∧
    eraseDrawn (traverseTextureNodes n A atlas t path).node = eraseDrawn n := by
  obtain ⟨k1, k2⟩ := traverse_find t ht A hbase hroom n atlas path h h0
  have hnone : (leaves n).find? (fun x => !x.isUsed && isBlockFit x t.width t.height)
      = none := by
    cases hf : (leaves n).find? (fun x => !x.isUsed && isBlockFit x t.width t.height) with
    | none => rfl
    | some x => exact absurd hres (k2 x hf).2.1
  exact ⟨(k1 hnone).2, traverse_nofit_erase t ht A hbase hroom n atlas path h h0 hnone⟩

theorem storeAt_block (a : Nat) (f : TextureNode → TextureNode)
    (hf : ∀ a1 l r b s u d, (f (TextureNode.node a1 l r b s u d)).block = b)
    (n : TextureNode) : (storeAt a f n).block = n.block := by
  cases n with
  | null => rfl
  | node a1 l r b s u d =>
    simp only [storeAt]
    split_ifs
    · rw [hf]; rfl
    · rfl

/-- What the invariant of the pack loop gives for the traversal of the next iteration. -/
theorem PackInv_search (s : PackState) (L : List Nat) (hinv : PackInv s L)
    (hroom : s.textureNodeArena.base + s.textureNodeArena.max_size + 4 * sizeofTextureNode
      ≤ 2 ^ 64)
    (hidx : s.textureIndex < s.textureCount) :
    TexOK (s.textures.getD s.textureIndex default) ∧ TreeOK s.root ∧ 0 ∉ addrs s.root ∧
    0 < s.textureNodeArena.base ∧
    s.textureNodeArena.base + s.textureNodeArena.bytes_used + 4 * sizeofTextureNode
      ≤ 2 ^ 64 := by
  obtain ⟨a1, a2, a3, a4, a5, a6, a7, a8, _⟩ := hinv
  refine ⟨a3 _ (getD_mem_of_lt _ _ (by omega)), a4, ?_, a7.1, ?_⟩
  · intro h0
    have := (a8.2 0 h0).1
    have := a7.1
    omega
  · have := a7.2.2
    omega

/-- An iteration in which no placement is found, both expansions are refused and the cache
is empty changes nothing but `isDrawn` flags and the atlas buffer. -/
theorem iteration_on_empty (s : PackState) (L : List Nat) (hinv : PackInv s L)
    (hroom : s.textureNodeArena.base + s.textureNodeArena.max_size + 4 * sizeofTextureNode
      ≤ 2 ^ 64)
    (hst : EvictsOnEmpty s) :
    (packStep s).textures = s.textures ∧ (packStep s).textureIndex = s.textureIndex ∧
    (packStep s).textureCount = s.textureCount ∧ (packStep s).cache = s.cache ∧
    (packStep s).textureNodeArena = s.textureNodeArena ∧
    (packStep s).maxAtlasWidth = s.maxAtlasWidth ∧
    (packStep s).maxAtlasHeight = s.maxAtlasHeight ∧
    eraseDrawn (packStep s).root = eraseDrawn s.root ∧
    (packStep s).root.block = s.root.block := by
  obtain ⟨hidx, hres, hV, hH, hcount⟩ := hst
  obtain ⟨q1, q2, q3, q4, q5⟩ := PackInv_search s L hinv hroom hidx
  obtain ⟨n1, n2⟩ := traverse_null _ q1 _ q4 q5 s.root s.textureAtlas [] q2 q3 hres
  have hp := packStep_noplace s hidx hres
  rw [if_neg hV, if_neg hH, removeLRUFromCache_empty _ _ _ hcount] at hp
  rw [hp]
  refine ⟨rfl, rfl, rfl, rfl, n1, rfl, rfl, n2, ?_⟩
  exact (traverse_block s.root s.textureNodeArena s.textureAtlas _ []).1

/-- An iteration that evicts: no placement is found, both expansions are refused and the
cache holds an entry. -/
theorem iteration_evicts (s : PackState) (L : List Nat) (hc : CacheOK s.cache L)
    (hidx : s.textureIndex < s.textureCount)
    (hres : (traverseTextureNodes s.root s.textureNodeArena s.textureAtlas
      (s.textures.getD s.textureIndex default) []).result = 0)
    (hV : ¬ (u16 ((s.root.block.height : Int) + (s.textures.getD s.textureIndex default).height)
          < u16 ((s.root.block.width : Int) + (s.textures.getD s.textureIndex default).width) ∧
        u16 ((s.root.block.height : Int) + (s.textures.getD s.textureIndex default).height)
          ≤ s.maxAtlasWidth))
    (hH : ¬ (u16 ((s.root.block.height : Int) + (s.textures.getD s.textureIndex default).height)
          ≥ u16 ((s.root.block.width : Int) + (s.textures.getD s.textureIndex default).width) ∧
        u16 ((s.root.block.width : Int) + (s.textures.getD s.textureIndex default).width)
          ≤ s.maxAtlasHeight))
    (hcount : s.cache.nodeCount ≠ 0) :
    (packStep s).textureIndex = s.textureIndex ∧
    (packStep s).textureCount = s.textureCount ∧
    (packStep s).textures = s.textures ∧
    (packStep s).root.block = s.root.block ∧
    (packStep s).cache.nodeCount + 1 = s.cache.nodeCount ∧
    CacheOK (packStep s).cache L.dropLast ∧ L ≠ [] := by
  have hp := packStep_noplace s hidx hres
  rw [if_neg hV, if_neg hH] at hp
  have hok := (removeLRUFromCache_ok s.cache
    (traverseTextureNodes s.root s.textureNodeArena s.textureAtlas
      (s.textures.getD s.textureIndex default) []).nodePath
    (traverseTextureNodes s.root s.textureNodeArena s.textureAtlas
      (s.textures.getD s.textureIndex default) []).node L hc).1
  have hne : L ≠ [] := by
    intro e
    apply hcount
    rw [hc.1.2.2.2, e]
    rfl
  have hlen : L.dropLast.length + 1 = L.length := by
    rw [List.length_dropLast]
    have : 0 < L.length := List.length_pos.2 hne
    omega
  rw [hp]
  refine ⟨rfl, rfl, rfl, ?_, ?_, hok, hne⟩
  · show (removeLRUFromCache _ _ _).tree.block = _
    rw [(removeLRUFromCache_block _ _ _).1]
    exact (traverse_block s.root s.textureNodeArena s.textureAtlas _ []).1
  · show (removeLRUFromCache _ _ _).cache.nodeCount + 1 = _
    rw [hok.1.2.2.2, hc.1.2.2.2]
    exact hlen

/-- An iteration that expands the root vertically. -/
theorem iteration_expands_vertically (s : PackState)
    (hidx : s.textureIndex < s.textureCount)
    (hres : (traverseTextureNodes s.root s.textureNodeArena s.textureAtlas
      (s.textures.getD s.textureIndex default) []).result = 0)
    (hV : u16 ((s.root.block.height : Int) + (s.textures.getD s.textureIndex default).height)
          < u16 ((s.root.block.width : Int) + (s.textures.getD s.textureIndex default).width) ∧
        u16 ((s.root.block.height : Int) + (s.textures.getD s.textureIndex default).height)
          ≤ s.maxAtlasWidth)
    (hfit : SumsFit s) (htex : TexOK (s.textures.getD s.textureIndex default)) :
    (packStep s).textureIndex = s.textureIndex ∧
    (packStep s).textureCount = s.textureCount ∧
    (packStep s).textures = s.textures ∧ (packStep s).cache = s.cache ∧
    (packStep s).root.block.width = s.root.block.width ∧
    (packStep s).root.block.height =
      s.root.block.height + (s.textures.getD s.textureIndex default).height ∧
    s.root.block.height < (packStep s).root.block.height ∧
    (packStep s).root.block.height ≤ s.maxAtlasWidth := by
  have hp := packStep_noplace s hidx hres
  rw [if_pos hV] at hp
  obtain ⟨f1, _⟩ := hfit hidx hres
  have e : u16 ((s.root.block.height : Int) + (s.textures.getD s.textureIndex default).height)
      = s.root.block.height + (s.textures.getD s.textureIndex default).height := by
    rw [u16_of_lt _ (by omega) (by omega)]; omega
  obtain ⟨x1, x2⟩ := expandRootVertically_extent
    (traverseTextureNodes s.root s.textureNodeArena s.textureAtlas
      (s.textures.getD s.textureIndex default) []).node
    (traverseTextureNodes s.root s.textureNodeArena s.textureAtlas
      (s.textures.getD s.textureIndex default) []).textureNodeArena
    (s.textures.getD s.textureIndex default).height
  have tb := (traverse_block s.root s.textureNodeArena s.textureAtlas
    (s.textures.getD s.textureIndex default) []).1
  rw [tb] at x1 x2
  rw [e] at x2 hV
  have hw : (packStep s).root.block.width = s.root.block.width := by rw [hp]; exact x1
  have hh : (packStep s).root.block.height =
      s.root.block.height + (s.textures.getD s.textureIndex default).height := by
    rw [hp]; exact x2
  refine ⟨by rw [hp], by rw [hp], by rw [hp], by rw [hp], hw, hh, ?_, ?_⟩
  · rw [hh]
    have := htex.2.2.1
    omega
  · rw [hh]
    exact hV.2

/-- An iteration that expands the root horizontally. -/
theorem iteration_expands_horizontally (s : PackState)
    (hidx : s.textureIndex < s.textureCount)
    (hres : (traverseTextureNodes s.root s.textureNodeArena s.textureAtlas
      (s.textures.getD s.textureIndex default) []).result = 0)
    (hV : ¬ (u16 ((s.root.block.height : Int) + (s.textures.getD s.textureIndex default).height)
          < u16 ((s.root.block.width : Int) + (s.textures.getD s.textureIndex default).width) ∧
        u16 ((s.root.block.height : Int) + (s.textures.getD s.textureIndex default).height)
          ≤ s.maxAtlasWidth))
    (hH : u16 ((s.root.block.height : Int) + (s.textures.getD s.textureIndex default).height)
          ≥ u16 ((s.root.block.width : Int) + (s.textures.getD s.textureIndex default).width) ∧
        u16 ((s.root.block.width : Int) + (s.textures.getD s.textureIndex default).width)
          ≤ s.maxAtlasHeight)
    (hfit : SumsFit s) (htex : TexOK (s.textures.getD s.textureIndex default)) :
    (packStep s).textureIndex = s.textureIndex ∧
    (packStep s).textureCount = s.textureCount ∧
    (packStep s).textures = s.textures ∧ (packStep s).cache = s.cache ∧
    (packStep s).root.block.height = s.root.block.height ∧
    (packStep s).root.block.width =
      s.root.block.width + (s.textures.getD s.textureIndex default).width ∧
    s.root.block.width < (packStep s).root.block.width ∧
    (packStep s).root.block.width ≤ s.maxAtlasHeight := by
  have hp := packStep_noplace s hidx hres
  rw [if_neg hV, if_pos hH] at hp
  obtain ⟨_, f2⟩ := hfit hidx hres
  have e : u16 ((s.root.block.width : Int) + (s.textures.getD s.textureIndex default).width)
      = s.root.block.width + (s.textures.getD s.textureIndex default).width := by
    rw [u16_of_lt _ (by omega) (by omega)]; omega
  obtain ⟨x1, x2⟩ := expandRootHorizontally_extent
    (traverseTextureNodes s.root s.textureNodeArena s.textureAtlas
      (s.textures.getD s.textureIndex default) []).node
    (traverseTextureNodes s.root s.textureNodeArena s.textureAtlas
      (s.textures.getD s.textureIndex default) []).textureNodeArena
    (s.textures.getD s.textureIndex default).width
  have tb := (traverse_block s.root s.textureNodeArena s.textureAtlas
    (s.textures.getD s.textureIndex default) []).1
  rw [tb] at x1 x2
  rw [e] at x2 hH
  have hh : (packStep s).root.block.height = s.root.block.height := by rw [hp]; exact x1
  have hw : (packStep s).root.block.width =
      s.root.block.width + (s.textures.getD s.textureIndex default).width := by
    rw [hp]; exact x2
  refine ⟨by rw [hp], by rw [hp], by rw [hp], by rw [hp], hh, hw, ?_, ?_⟩
  · rw [hw]
    have := htex.1
    omega
  · rw [hw]
    exact hH.2

/-- An iteration that finds a placement advances the image index. -/
theorem iteration_places (s : PackState) (hidx : s.textureIndex < s.textureCount)
    (hres : (traverseTextureNodes s.root s.textureNodeArena s.textureAtlas
      (s.textures.getD s.textureIndex default) []).result ≠ 0) :
    (packStep s).textureIndex = s.textureIndex + 1 ∧
    (packStep s).textureCount = s.textureCount := by
  rw [packStep_placed s hidx hres]
  exact ⟨rfl, rfl⟩

/-- Every iteration but the one that tries to evict from the empty cache decreases the
measure. -/
theorem iteration_measure (s : PackState) (L0 L : List Nat) (hinv : PackInv s L0)
    (hc : CacheOK s.cache L) (hidx : s.textureIndex < s.textureCount) (hfit : SumsFit s)
    (hns : ¬ EvictsOnEmpty s) : measureLt (packMeasure (packStep s)) (packMeasure s) := by
  have htex : TexOK (s.textures.getD s.textureIndex default) :=
    hinv.2.2.1 _ (getD_mem_of_lt _ _ (by have := hinv.1; omega))
  obtain ⟨m1, m2⟩ := packStep_caps s
  unfold measureLt packMeasure
  by_cases hres : (traverseTextureNodes s.root s.textureNodeArena s.textureAtlas
      (s.textures.getD s.textureIndex default) []).result ≠ 0
  · obtain ⟨p1, p2⟩ := iteration_places s hidx hres
    left
    show (packStep s).textureCount - (packStep s).textureIndex
      < s.textureCount - s.textureIndex
    rw [p1, p2]
    omega
  have hres0 := not_not.1 hres
  by_cases hV : u16 ((s.root.block.height : Int)
        + (s.textures.getD s.textureIndex default).height)
      < u16 ((s.root.block.width : Int) + (s.textures.getD s.textureIndex default).width) ∧
      u16 ((s.root.block.height : Int) + (s.textures.getD s.textureIndex default).height)
        ≤ s.maxAtlasWidth
  · obtain ⟨p1, p2, _, _, p5, _, p7, p8⟩ :=
      iteration_expands_vertically s hidx hres0 hV hfit htex
    right
    refine ⟨by show (packStep s).textureCount - (packStep s).textureIndex = _; rw [p1, p2],
      Or.inl ?_⟩
    show ((packStep s).maxAtlasWidth - (packStep s).root.block.height)
      + ((packStep s).maxAtlasHeight - (packStep s).root.block.width)
      < (s.maxAtlasWidth - s.root.block.height) + (s.maxAtlasHeight - s.root.block.width)
    rw [m1, m2, p5]
    omega
  by_cases hH : u16 ((s.root.block.height : Int)
        + (s.textures.getD s.textureIndex default).height)
      ≥ u16 ((s.root.block.width : Int) + (s.textures.getD s.textureIndex default).width) ∧
      u16 ((s.root.block.width : Int) + (s.textures.getD s.textureIndex default).width)
        ≤ s.maxAtlasHeight
  · obtain ⟨p1, p2, _, _, p5, _, p7, p8⟩ :=
      iteration_expands_horizontally s hidx hres0 hV hH hfit htex
    right
    refine ⟨by show (packStep s).textureCount - (packStep s).textureIndex = _; rw [p1, p2],
      Or.inl ?_⟩
    show ((packStep s).maxAtlasWidth - (packStep s).root.block.height)
      + ((packStep s).maxAtlasHeight - (packStep s).root.block.width)
      < (s.maxAtlasWidth - s.root.block.height) + (s.maxAtlasHeight - s.root.block.width)
    rw [m1, m2, p5]
    omega
  have hcount : s.cache.nodeCount ≠ 0 := fun e => hns ⟨hidx, hres0, hV, hH, e⟩
  obtain ⟨p1, p2, _, p4, p5, _, _⟩ := iteration_evicts s L hc hidx hres0 hV hH hcount
  right
  refine ⟨by show (packStep s).textureCount - (packStep s).textureIndex = _; rw [p1, p2],
    Or.inr ⟨?_, ?_⟩⟩
  · show ((packStep s).maxAtlasWidth - (packStep s).root.block.height)
      + ((packStep s).maxAtlasHeight - (packStep s).root.block.width)
      = (s.maxAtlasWidth - s.root.block.height) + (s.maxAtlasHeight - s.root.block.width)
    rw [m1, m2, p4]
  · show (packStep s).cache.nodeCount < s.cache.nodeCount
    omega

/-! ## The measure of the pack loop: invariants along a run -/

theorem findFirstFreeBlock_arena_frame (n : TextureNode) (A : MemoryStack) (t : Texture) :
    (findFirstFreeBlock n A t).2.1.base = A.base ∧
    (findFirstFreeBlock n A t).2.1.max_size = A.max_size := by
  unfold findFirstFreeBlock
  by_cases c1 : isBlockFit n t.width t.height = true
  swap
  · simp only [c1, Bool.false_eq_true, if_false, and_self]
  by_cases c2 : isBlockExactFit n t.width t.height = true
  · simp only [c1, c2, if_true, and_self]
  by_cases c3 : isBlockPartiallyExactFit n t.width t.height = true
  · by_cases c4 : isBlockWidthExactFit n t.width = true
    · simp only [c1, c2, c3, c4, if_true, if_false, Bool.false_eq_true, splitVerticallyNew_arena, push_base,
        push_max_size, and_self]
    · by_cases c5 : isBlockHeightExactFit n t.height = true
      · simp only [c1, c2, c3, c4, c5, if_true, if_false, Bool.false_eq_true, splitHorizontallyNew_arena,
          push_base, push_max_size, and_self]
      · simp only [c1, c2, c3, c4, c5, if_true, if_false, Bool.false_eq_true, and_self]
  · by_cases c4 : t.height > t.width
    · simp only [c1, c2, c3, c4, if_true, if_false, Bool.false_eq_true, splitVerticallyNew_arena,
        splitHorizontallyNew_arena, push_base, push_max_size, and_self]
    · simp only [c1, c2, c3, c4, if_true, if_false, Bool.false_eq_true, splitVerticallyNew_arena,
        splitHorizontallyNew_arena, push_base, push_max_size, and_self]

theorem traverse_arena_frame (n : TextureNode) (A : MemoryStack) (atlas t : Texture)
    (path : List Nat) :
    (traverseTextureNodes n A atlas t path).textureNodeArena.base = A.base ∧
    (traverseTextureNodes n A atlas t path).textureNodeArena.max_size = A.max_size := by
  induction n generalizing A atlas path with
  | null => exact ⟨rfl, rfl⟩
  | node a l r b s u d ihl ihr =>
    obtain ⟨atlas1, d1, tl, htl, _, heq⟩ := traverse_node_eq a l r b s u d A atlas t path
    have hL : tl.textureNodeArena.base = A.base ∧ tl.textureNodeArena.max_size = A.max_size := by
      rcases htl with ⟨p, e⟩ | e
      · rw [e]; exact ihl A atlas1 p
      · rw [e]; exact ⟨rfl, rfl⟩
    rw [heq]
    split_ifs
    · exact findFirstFreeBlock_arena_frame _ _ _
    · exact hL
    · have hR := ihr tl.textureNodeArena tl.textureAtlas tl.nodePath
      exact ⟨hR.1.trans hL.1, hR.2.trans hL.2⟩

theorem packStep_arena_frame (s : PackState) :
    (packStep s).textureNodeArena.base = s.textureNodeArena.base ∧
    (packStep s).textureNodeArena.max_size = s.textureNodeArena.max_size := by
  have hT := traverse_arena_frame s.root s.textureNodeArena s.textureAtlas
    (s.textures.getD s.textureIndex default) []
  by_cases hidx : s.textureIndex < s.textureCount
  swap
  · rw [packStep_done s hidx]; exact ⟨rfl, rfl⟩
  by_cases hres : (traverseTextureNodes s.root s.textureNodeArena s.textureAtlas
      (s.textures.getD s.textureIndex default) []).result ≠ 0
  · rw [packStep_placed s hidx hres]
    exact hT
  · rw [packStep_noplace s hidx (not_not.1 hres)]
    split_ifs
    · dsimp only
      rw [expandRootVertically_arena, push_base, push_base, push_max_size, push_max_size]
      exact hT
    · dsimp only
      rw [expandRootHorizontally_arena, push_base, push_base, push_max_size, push_max_size]
      exact hT
    · exact hT

/-- The cache invariant is kept by an iteration of the pack loop. -/
theorem packStep_cacheOK (s : PackState) (L0 L : List Nat) (hinv : PackInv s L0)
    (hc : CacheOK s.cache L)
    (hoom2 : (packStep s).cache.arena.outOfMemory = false) :
    ∃ L1, CacheOK (packStep s).cache L1 := by
  by_cases hidx : s.textureIndex < s.textureCount
  swap
  · rw [packStep_done s hidx]; exact ⟨L, hc⟩
  by_cases hres : (traverseTextureNodes s.root s.textureNodeArena s.textureAtlas
      (s.textures.getD s.textureIndex default) []).result ≠ 0
  · rw [packStep_placed s hidx hres] at hoom2 ⊢
    have hlook : s.cache.hashLookup.lookup (some s.textureIndex) = none := by
      apply lookup_eq_none
      intro e he heq
      obtain ⟨j, hj, ej⟩ := hinv.2.2.2.2.2.2.2.2.2.2.2.2.1 e he
      rw [ej] at heq
      have := Option.some.inj heq
      omega
    exact ⟨_, (insertIntoLRUCache_ok _ _ _ _ _ _ L hc hlook hoom2).1⟩
  · rw [packStep_noplace s hidx (not_not.1 hres)]
    split_ifs
    · exact ⟨L, hc⟩
    · exact ⟨L, hc⟩
    · exact ⟨_, (removeLRUFromCache_ok _ _ _ L hc).1⟩

/-! ## The measure of the pack loop: termination -/

theorem measureLt_wf : WellFounded measureLt := by
  have h : WellFounded (Prod.Lex (fun a b : Nat => a < b)
      (Prod.Lex (fun a b : Nat => a < b) (fun a b : Nat => a < b))) :=
    WellFounded.prod_lex wellFounded_lt (WellFounded.prod_lex wellFounded_lt wellFounded_lt)
  refine Subrelation.wf ?_ h
  intro a b hab
  rw [Prod.lex_def]
  rcases hab with h1 | ⟨h1, h2⟩
  · exact Or.inl h1
  · refine Or.inr ⟨h1, ?_⟩
    rw [Prod.lex_def]
    exact h2

/-- Once the image index has reached the count after `n` iterations, the loop returns, with
fuel `n`, the state after `n` iterations. -/
theorem packLoop_of_done (n : Nat) (s : PackState)
    (h : ¬ (packIter n s).textureIndex < (packIter n s).textureCount) :
    packLoop n s = some (packIter n s) := by
  induction n generalizing s with
  | zero =>
    have h0 : packIter 0 s = s := rfl
    rw [h0] at h ⊢
    simp only [packLoop, h, if_false]
  | succ n ih =>
    have e : packIter (n + 1) s = packIter n (packStep s) :=
      Function.iterate_succ_apply packStep n s
    by_cases h0 : s.textureIndex < s.textureCount
    · simp only [packLoop, h0, if_true]
      rw [e] at h ⊢
      exact ih _ h
    · simp only [packLoop, h0, if_false]
      rw [packIter_stuck s (packStep_done s h0)]

theorem pack_terminates_aux (m : Nat × Nat × Nat) :
    ∀ s : PackState, packMeasure s = m → (∃ L0, PackInv s L0) → (∃ L, CacheOK s.cache L) →
    (∀ k, SumsFit (packIter k s) ∧ (packIter k s).textureNodeArena.outOfMemory = false ∧
      (packIter k s).cache.arena.outOfMemory = false ∧ ¬ EvictsOnEmpty (packIter k s)) →
    ∃ n, ¬ (packIter n s).textureIndex < (packIter n s).textureCount := by
  induction m using measureLt_wf.induction with
  | _ m ih =>
    intro s hm hinv hc hgood
    by_cases hidx : s.textureIndex < s.textureCount
    swap
    · exact ⟨0, hidx⟩
    obtain ⟨L0, hinv0⟩ := hinv
    obtain ⟨L, hc0⟩ := hc
    obtain ⟨g1, _, _, g4⟩ := hgood 0
    obtain ⟨_, o1, o2, _⟩ := hgood 1
    have e1 : packIter 1 s = packStep s := rfl
    have e0 : packIter 0 s = s := rfl
    rw [e1] at o1 o2
    rw [e0] at g1 g4
    have hlt := iteration_measure s L0 L hinv0 hc0 hidx g1 g4
    have hinv1 := packStep_inv s L0 hinv0 g1 o1 o2
    have hc1 := packStep_cacheOK s L0 L hinv0 hc0 o2
    have hgood1 : ∀ k, SumsFit (packIter k (packStep s)) ∧
        (packIter k (packStep s)).textureNodeArena.outOfMemory = false ∧
        (packIter k (packStep s)).cache.arena.outOfMemory = false ∧
        ¬ EvictsOnEmpty (packIter k (packStep s)) := by
      intro k
      have e : packIter (k + 1) s = packIter k (packStep s) :=
        Function.iterate_succ_apply packStep k s
      rw [← e]
      exact hgood (k + 1)
    obtain ⟨n, hn⟩ := ih (packMeasure (packStep s)) (by rw [← hm]; exact hlt) (packStep s) rfl
      hinv1 hc1 hgood1
    refine ⟨n + 1, ?_⟩
    have e : packIter (n + 1) s = packIter n (packStep s) :=
      Function.iterate_succ_apply packStep n s
    rw [e]
    exact hn

theorem packIter_done (n : Nat) (s : PackState)
    (h : ¬ (packIter n s).textureIndex < (packIter n s).textureCount) (k : Nat)
    (hk : n ≤ k) : packIter k s = packIter n s := by
  obtain ⟨j, rfl⟩ := Nat.exists_eq_add_of_le hk
  have e : packIter (n + j) s = packIter j (packIter n s) := by
    unfold packIter
    rw [Nat.add_comm, Function.iterate_add_apply]
  rw [e]
  exact packIter_stuck _ (packStep_done _ h) j

/-! ## The measure of the pack loop: the runs that return -/

theorem fill_end_le (W H l t w h : Nat) (hw : l + w ≤ W) (hh : t + h ≤ H) (h1 : 1 ≤ h) :
    t * (W * 4) + l * 4 + 4 * (w * h) ≤ W * H * 4 := by
  obtain ⟨c, rfl⟩ : ∃ c, H = t + 1 + c := ⟨H - t - 1, by omega⟩
  obtain ⟨e, rfl⟩ : ∃ e, W = l + w + e := ⟨W - l - w, by omega⟩
  have k3 : w * h ≤ w * (1 + c) := Nat.mul_le_mul_left _ (by omega)
  have e1 : (l + w + e) * (t + 1 + c) * 4
      = t * ((l + w + e) * 4) + l * 4 + 4 * (w * (1 + c)) + 4 * (l * c + e + e * c) := by ring
  rw [e1]
  omega

/-- In a state of the pack loop whose root is at most `W x H`, every iteration stores only
inside a pixel buffer of `W * H` pixels of four bytes (addressed without `u32` wrap). -/
theorem StoresInside_of_root_le (s : PackState) (L : List Nat) (hinv : PackInv s L)
    (W H : Nat)
    (hd : (s.textureAtlas.memory.length, s.textureAtlas.width, s.textureAtlas.bpp)
      = (W * H * 4, W, 4))
    (hW : s.root.block.width ≤ W) (hH : s.root.block.height ≤ H)
    (hsz : W * H * 4 < 2 ^ 32) : StoresInside s := by
  obtain ⟨_, _, _, a4, a5, a6, _⟩ := hinv
  obtain ⟨q1, q2, q3, q4, _, _⟩ := TreeOK_rect s.root a4
  apply StoresInside_of_nodes s _ _ _ hd
  intro x hx _ _
  obtain ⟨⟨i1, i2, i3, i4⟩, r1, r2, r3, r4, _, _⟩ := nodes_inside s.root a4 x hx
  have hxw : x.block.left + x.block.width ≤ W := by omega
  have hxh : x.block.top + x.block.height ≤ H := by omega
  have hfin := fill_end_le W H x.block.left x.block.top x.block.width x.block.height hxw hxh r4
  have hpos : 0 < x.block.width * x.block.height := Nat.mul_pos r3 r4
  have c1 : ((W : Int) * ((4 : Nat) : Int)) = ((W * 4 : Nat) : Int) := by push_cast; ring
  have c2 : ((x.block.top : Int) * ((W * 4 : Nat) : Int))
      = ((x.block.top * (W * 4) : Nat) : Int) := by push_cast; ring
  have c3 : ((x.block.left : Int) * ((4 : Nat) : Int))
      = ((x.block.left * 4 : Nat) : Int) := by push_cast; ring
  have b1 : W * 4 < 2 ^ 32 := by
    have : W * 1 ≤ W * H := Nat.mul_le_mul_left W (by omega)
    omega
  rw [c1, u32_of_lt _ b1, c2, u32_of_lt _ (by omega), c3, u32_of_lt _ (by omega)]
  exact hfin

/-- Under a square cap the root extent stays within the cap, from a state in which it is. -/
theorem packIter_root_le (s : PackState) (M : Nat)
    (hcap : s.maxAtlasWidth = M ∧ s.maxAtlasHeight = M)
    (hroot : s.root.block.width ≤ M ∧ s.root.block.height ≤ M)
    (hcache : s.cache.atlasWidth ≤ M ∧ s.cache.atlasHeight ≤ M) (k : Nat) :
    ((packIter k s).maxAtlasWidth = M ∧ (packIter k s).maxAtlasHeight = M) ∧
    ((packIter k s).root.block.width ≤ M ∧ (packIter k s).root.block.height ≤ M) ∧
    ((packIter k s).cache.atlasWidth ≤ M ∧ (packIter k s).cache.atlasHeight ≤ M) := by
  induction k with
  | zero => exact ⟨hcap, hroot, hcache⟩
  | succ i ih =>
    rw [packIter_succ]
    obtain ⟨h1, h2, h3⟩ := ih
    refine ⟨?_, packStep_bounded _ M h1 h2 h3⟩
    rw [(packStep_caps _).1, (packStep_caps _).2]
    exact h1

/-- Under a square cap of `M x M` pixels that the first image respects, no iteration of a
run in which no sum wraps and no arena is exhausted stores outside the pixel buffer. -/
theorem pack_stores_inside_square (textures : List Texture) (M k : Nat)
    (hne : textures ≠ []) (htex : ∀ t ∈ textures, TexOK t) (hlen : textures.length < 2 ^ 32)
    (hM : M * M * 4 < 2 ^ 32)
    (hseed : (textures.getD 0 default).width ≤ M ∧ (textures.getD 0 default).height ≤ M)
    (hfit : ∀ j, j < k → SumsFit (packIter j (packStart textures M M)))
    (hoom1 : (packIter k (packStart textures M M)).textureNodeArena.outOfMemory = false)
    (hoom2 : (packIter k (packStart textures M M)).cache.arena.outOfMemory = false) :
    StoresInside (packIter k (packStart textures M M)) := by
  have hsz : sizeofTextureNode = 40 := rfl
  have hsz2 : sizeofLRUNode = 32 := rfl
  obtain ⟨m1, m2⟩ := packIter_oom_mono (packStart textures M M) 0 k (Nat.zero_le _)
  have h0 : PackInv (packStart textures M M) [] :=
    packInit_inv textures 4096 _ 1048576 _ _ hne htex (by decide) (by rw [hsz]; omega)
      (by decide) (by rw [hsz2]; omega) (m1 hoom1) (m2 hoom2)
  obtain ⟨L, hL⟩ := packIter_inv _ [] h0 k hfit hoom1 hoom2
  obtain ⟨_, hr, _⟩ := packIter_root_le (packStart textures M M) M ⟨rfl, rfl⟩ hseed
    ⟨Nat.zero_le _, Nat.zero_le _⟩ k
  refine StoresInside_of_root_le _ L hL M M ?_ hr.1 hr.2 hM
  rw [packIter_atlas_extent]
  show ((List.replicate (M * M * 4) 0).length, M, 4) = _
  rw [List.length_replicate]

/-- C28 (counterexample): three runs on images of positive extent in which no 16-bit sum
wraps.
First, the images 3x1, 1x1 and 1x2 under the cap 3x3: no store leaves the pixel buffer and
no arena is exhausted. After five iterations (two placements, an expansion and two
evictions) the iteration for the third image finds no placement, both expansions are
refused and the cache is empty; the traversal of this iteration visits the free leaf at
`(0, 1)`, which had not been drawn, fills it and sets its `isDrawn`, so the tree after the
iteration differs from the tree before it. The measure is unchanged.
Second, one image of 100x100 under the cap 64x64: no iteration evicts on an empty cache and
no arena is exhausted, but the first iteration fills the seed leaf, 10000 pixels from the
start of a buffer of 64x64 pixels, so it stores outside the buffer.
Third, the images 6x4 and 1x5 under the cap 64x64: no iteration evicts on an empty cache and
every store lies inside the pixel buffer, but the sixth iteration exhausts the node
arena. -/
theorem pack_measure_exceptions :
    (EvictsOnEmpty (packIter 5 (packStart [textureOf 3 1, textureOf 1 1, textureOf 1 2] 3 3)) ∧
      (packStep (packIter 5 (packStart [textureOf 3 1, textureOf 1 1, textureOf 1 2] 3 3))).root
        ≠ (packIter 5 (packStart [textureOf 3 1, textureOf 1 1, textureOf 1 2] 3 3)).root ∧
      packMeasure (packStep (packIter 5
          (packStart [textureOf 3 1, textureOf 1 1, textureOf 1 2] 3 3)))
        = packMeasure (packIter 5
          (packStart [textureOf 3 1, textureOf 1 1, textureOf 1 2] 3 3)) ∧
      (∀ j, j < 6 →
        SumsFit (packIter j (packStart [textureOf 3 1, textureOf 1 1, textureOf 1 2] 3 3)) ∧
        StoresInside (packIter j
          (packStart [textureOf 3 1, textureOf 1 1, textureOf 1 2] 3 3)) ∧
        (packIter j (packStart [textureOf 3 1, textureOf 1 1, textureOf 1 2] 3
          3)).textureNodeArena.outOfMemory = false ∧
        (packIter j (packStart [textureOf 3 1, textureOf 1 1, textureOf 1 2] 3
          3)).cache.arena.outOfMemory = false)) ∧
    (TexOK (textureOf 100 100) ∧
      (∀ k, SumsFit (packIter k (packStart [textureOf 100 100] 64 64)) ∧
        ¬ EvictsOnEmpty (packIter k (packStart [textureOf 100 100] 64 64)) ∧
        (packIter k (packStart [textureOf 100 100] 64 64)).textureNodeArena.outOfMemory
          = false ∧
        (packIter k (packStart [textureOf 100 100] 64 64)).cache.arena.outOfMemory = false) ∧
      ¬ StoresInside (packStart [textureOf 100 100] 64 64)) ∧
    (TexOK (textureOf 6 4) ∧ TexOK (textureOf 1 5) ∧
      (∀ k, SumsFit (packIter k (packStart [textureOf 6 4, textureOf 1 5] 64 64)) ∧
        ¬ EvictsOnEmpty (packIter k (packStart [textureOf 6 4, textureOf 1 5] 64 64)) ∧
        StoresInside (packIter k (packStart [textureOf 6 4, textureOf 1 5] 64 64))) ∧
      (packIter 5 (packStart [textureOf 6 4, textureOf 1 5] 64 64)).textureNodeArena.outOfMemory
        = false ∧
      (packIter 6 (packStart [textureOf 6 4, textureOf 1 5] 64 64)).textureNodeArena.outOfMemory
        = true) := by
  refine ⟨by decide, ⟨by decide, ?_, ?_⟩, by decide, by decide, ?_, by decide, by decide⟩
  · intro k
    rcases Nat.lt_or_ge k 1 with hk | hk
    · interval_cases k
      decide
    · rw [packIter_done 1 _ (by decide) k hk]
      decide
  · intro h
    have h1 : traverseStoresInside (TextureNode.node 4096 TextureNode.null TextureNode.null
        ⟨0, 0, 99, 99, 100, 100⟩ Partition.NONE false false)
        (packStart [textureOf 100 100] 64 64).textureNodeArena
        ⟨"", List.replicate 16384 0, 4, 0, 0, 64, 64⟩ (textureOf 100 100) [] = true :=
      h (by decide)
    rw [traverseStoresInside_fresh_leaf] at h1
    have h3 := of_decide_eq_true h1 4096 (by norm_num)
    rw [List.length_replicate] at h3
    revert h3
    decide
  · intro k
    have hd : ((packIter k (packStart [textureOf 6 4, textureOf 1 5] 64
          64)).textureAtlas.memory.length,
        (packIter k (packStart [textureOf 6 4, textureOf 1 5] 64 64)).textureAtlas.width,
        (packIter k (packStart [textureOf 6 4, textureOf 1 5] 64 64)).textureAtlas.bpp)
        = (16384, 64, 4) := by
      rw [packIter_atlas_extent]
      show ((List.replicate (64 * 64 * 4) 0).length, 64, 4) = _
      rw [List.length_replicate]
    refine ⟨?_, ?_, StoresInside_of_nodes _ _ _ _ hd ?_⟩
    all_goals
      rcases Nat.lt_or_ge k 6 with hk | hk
      · interval_cases k <;> decide
      · rw [packIter_done 6 _ (by decide) k hk]
        decide

/-- C28 (amended): let the state satisfy the invariants of the pack loop (all images have
positive `u16` extents) and let no 16-bit sum wrap. An iteration that finds a placement
advances the image index; one that expands grows exactly one root dimension, strictly and
not above the cap it was tested against, and leaves the index and the cache alone; one that
evicts removes exactly the tail of the LRU list and leaves the index and the root extent
alone. Each of them decreases the lexicographic measure (images remaining,
`(maxAtlasWidth - root.height) + (maxAtlasHeight - root.width)`, `cache.nodeCount`). The
iteration in which both expansions are refused while the cache is empty leaves the measure,
the texture table, the index, the cache, the node arena, the caps, the tree up to its
`isDrawn` flags and the atlas up to the content of its pixel buffer unchanged. Hence the
loop returns on every run in which eviction is never attempted on an empty cache, no sum
wraps, no arena runs out of memory and every store of the diagnostic fill lies inside the
pixel buffer of the atlas. -/
theorem pack_measure_decreases (s : PackState) (L : List Nat) (hinv : PackInv s L)
    (hc : CacheOK s.cache L)
    (hroom : s.textureNodeArena.base + s.textureNodeArena.max_size + 4 * sizeofTextureNode
      ≤ 2 ^ 64) :
    (s.textureIndex < s.textureCount → SumsFit s →
      (¬ EvictsOnEmpty s → measureLt (packMeasure (packStep s)) (packMeasure s)) ∧
      (EvictsOnEmpty s →
        packMeasure (packStep s) = packMeasure s ∧
        (packStep s).textures = s.textures ∧ (packStep s).textureIndex = s.textureIndex ∧
        (packStep s).textureCount = s.textureCount ∧ (packStep s).cache = s.cache ∧
        (packStep s).textureNodeArena = s.textureNodeArena ∧
        (packStep s).maxAtlasWidth = s.maxAtlasWidth ∧
        (packStep s).maxAtlasHeight = s.maxAtlasHeight ∧
        eraseDrawn (packStep s).root = eraseDrawn s.root ∧
        { (packStep s).textureAtlas with memory := [] }
          = { s.textureAtlas with memory := [] } ∧
        (packStep s).textureAtlas.memory.length = s.textureAtlas.memory.length) ∧
      ((traverseTextureNodes s.root s.textureNodeArena s.textureAtlas
          (s.textures.getD s.textureIndex default) []).result ≠ 0 →
        (packStep s).textureIndex = s.textureIndex + 1) ∧
      ((traverseTextureNodes s.root s.textureNodeArena s.textureAtlas
          (s.textures.getD s.textureIndex default) []).result = 0 → verticalTest s →
        (packStep s).textureIndex = s.textureIndex ∧ (packStep s).cache = s.cache ∧
        (packStep s).root.block.width = s.root.block.width ∧
        s.root.block.height < (packStep s).root.block.height ∧
        (packStep s).root.block.height ≤ s.maxAtlasWidth) ∧
      ((traverseTextureNodes s.root s.textureNodeArena s.textureAtlas
          (s.textures.getD s.textureIndex default) []).result = 0 → ¬ verticalTest s →
        horizontalTest s →
        (packStep s).textureIndex = s.textureIndex ∧ (packStep s).cache = s.cache ∧
        (packStep s).root.block.height = s.root.block.height ∧
        s.root.block.width < (packStep s).root.block.width ∧
        (packStep s).root.block.width ≤ s.maxAtlasHeight) ∧
      ((traverseTextureNodes s.root s.textureNodeArena s.textureAtlas
          (s.textures.getD s.textureIndex default) []).result = 0 → ¬ verticalTest s →
        ¬ horizontalTest s → s.cache.nodeCount ≠ 0 →
        (packStep s).textureIndex = s.textureIndex ∧
        (packStep s).root.block = s.root.block ∧
        (packStep s).cache.nodeCount + 1 = s.cache.nodeCount ∧
        L ≠ [] ∧ lruList s.cache L.length = some L ∧
        lruList (packStep s).cache L.length = some L.dropLast)) ∧
    ((∀ k, SumsFit (packIter k s) ∧ (packIter k s).textureNodeArena.outOfMemory = false ∧
        (packIter k s).cache.arena.outOfMemory = false ∧ StoresInside (packIter k s) ∧
        ¬ EvictsOnEmpty (packIter k s)) →
      ∃ fuel r, packLoop fuel s = some r ∧
        ∀ fuel1, fuel ≤ fuel1 → packLoop fuel1 s = some r) := by
  constructor
  · intro hidx hfit
    have htex : TexOK (s.textures.getD s.textureIndex default) :=
      hinv.2.2.1 _ (getD_mem_of_lt _ _ (by have := hinv.1; omega))
    refine ⟨fun hns => iteration_measure s L L hinv hc hidx hfit hns, ?_, ?_, ?_, ?_, ?_⟩
    · intro hst
      obtain ⟨p1, p2, p3, p4, p5, p6, p7, p8, p9⟩ := iteration_on_empty s L hinv hroom hst
      refine ⟨?_, p1, p2, p3, p4, p5, p6, p7, p8, packStep_atlas_frame s,
        congrArg Prod.fst (packStep_atlas_extent s)⟩
      unfold packMeasure
      rw [p2, p3, p4, p6, p7, p9]
    · intro hres
      exact (iteration_places s hidx hres).1
    · intro hres hV
      obtain ⟨p1, _, _, p4, p5, _, p7, p8⟩ :=
        iteration_expands_vertically s hidx hres hV hfit htex
      exact ⟨p1, p4, p5, p7, p8⟩
    · intro hres hV hH
      obtain ⟨p1, _, _, p4, p5, _, p7, p8⟩ :=
        iteration_expands_horizontally s hidx hres hV hH hfit htex
      exact ⟨p1, p4, p5, p7, p8⟩
    · intro hres hV hH hcount
      obtain ⟨p1, _, _, p4, p5, p6, p7⟩ := iteration_evicts s L hc hidx hres hV hH hcount
      refine ⟨p1, p4, p5, p7, lruWalk_of_Ring _ _ L _ hc.1.1 (Nat.le_refl _), ?_⟩
      exact lruWalk_of_Ring _ _ L.dropLast _ p6.1.1
        (by rw [List.length_dropLast]; omega)
  · intro hgood
    obtain ⟨n, hn⟩ := pack_terminates_aux (packMeasure s) s rfl ⟨L, hinv⟩ ⟨L, hc⟩
      (fun k => ⟨(hgood k).1, (hgood k).2.1, (hgood k).2.2.1, (hgood k).2.2.2.2⟩)
    have h1 := packLoop_of_done n s hn
    exact ⟨n, _, h1, fun fuel1 hle => packLoop_mono n s _ h1 fuel1 hle⟩

/-- C28 (amended) on the run on two 32x32 images under the cap 64x64: the first iteration (a
placement) decreases the measure, and the loop returns; no iteration of the run wraps a sum,
exhausts an arena, stores outside the pixel buffer or evicts on an empty cache. -/
theorem pack_measure_decreases_witness :
    measureLt (packMeasure (packStep (packStart [textureOf 32 32, textureOf 32 32] 64 64)))
      (packMeasure (packStart [textureOf 32 32, textureOf 32 32] 64 64)) ∧
    ∃ fuel r, packLoop fuel (packStart [textureOf 32 32, textureOf 32 32] 64 64) = some r ∧
      ∀ fuel1, fuel ≤ fuel1 →
        packLoop fuel1 (packStart [textureOf 32 32, textureOf 32 32] 64 64) = some r :=
  have hinv : PackInv (packStart [textureOf 32 32, textureOf 32 32] 64 64) [] :=
    packInit_inv [textureOf 32 32, textureOf 32 32] 4096 _ 1048576 _ _ (by decide) (by decide)
      (by decide) (by decide) (by decide) (by decide) (by decide) (by decide)
  have hc : CacheOK (packStart [textureOf 32 32, textureOf 32 32] 64 64).cache [] :=
    (makeLRUList_ok 1048576 _ (by decide) (by decide) (by decide)).1
  have hgood : ∀ k, SumsFit (packIter k (packStart [textureOf 32 32, textureOf 32 32] 64 64)) ∧
      (packIter k (packStart [textureOf 32 32, textureOf 32 32] 64 64)).textureNodeArena.outOfMemory
        = false ∧
      (packIter k (packStart [textureOf 32 32, textureOf 32 32] 64 64)).cache.arena.outOfMemory
        = false ∧
      StoresInside (packIter k (packStart [textureOf 32 32, textureOf 32 32] 64 64)) ∧
      ¬ EvictsOnEmpty (packIter k (packStart [textureOf 32 32, textureOf 32 32] 64 64)) := by
    intro k
    have hd : ((packIter k (packStart [textureOf 32 32, textureOf 32 32] 64
          64)).textureAtlas.memory.length,
        (packIter k (packStart [textureOf 32 32, textureOf 32 32] 64 64)).textureAtlas.width,
        (packIter k (packStart [textureOf 32 32, textureOf 32 32] 64 64)).textureAtlas.bpp)
        = (16384, 64, 4) := by
      rw [packIter_atlas_extent]
      show ((List.replicate (64 * 64 * 4) 0).length, 64, 4) = _
      rw [List.length_replicate]
    refine ⟨?_, ?_, ?_, StoresInside_of_nodes _ _ _ _ hd ?_, ?_⟩
    all_goals
      by_cases hk : k ≤ 3
      · interval_cases k <;> decide
      · rw [packIter_done 3 _ (by decide) k (by omega)]
        decide
  have h := pack_measure_decreases (packStart [textureOf 32 32, textureOf 32 32] 64 64) []
    hinv hc (by decide)
  ⟨(h.1 (by decide) (by decide)).1 (by decide), h.2 hgood⟩

/-- Under the invariant of the pack loop every image on the LRU list lies inside the root
extent. -/
theorem PackInv_images_inside (s : PackState) (L : List Nat) (h : PackInv s L) :
    ∀ x ∈ L, (lruTexture s x).x + (lruTexture s x).width ≤ s.root.block.width ∧
      (lruTexture s x).y + (lruTexture s x).height ≤ s.root.block.height := by
  obtain ⟨a1, a2, a3, a4, a5, a6, a7, a8, a9, a10, a11, a12, a13, a14, a15⟩ := h
  intro x hx
  obtain ⟨j, _, t1, y, hy, e1, l1, tp1, w1, h1⟩ := a14 x hx
  have m1 : y ∈ nodes s.root := usedLeaves_subset_nodes y _ hy
  obtain ⟨⟨i1, i2, i3, i4⟩, r1, r2, _, _, _, _⟩ := nodes_inside s.root a4 y m1
  obtain ⟨q1, q2, _, _, _, _⟩ := TreeOK_rect s.root a4
  simp only [lruTexture, t1, Option.getD_some, ← l1, ← tp1, ← w1, ← h1]
  constructor <;> omega

/-- Where no 16-bit sum of the loop wraps (and no arena runs out of memory), every image on
the LRU list lies inside the root extent, in every state the pack loop reaches from a fresh
root for images of positive extent. -/
theorem pack_images_inside_without_wrap (textures : List Texture) (ptr n ptr2 m : Nat)
    (atlas : Texture) (k : Nat) (hne : textures ≠ []) (htex : ∀ t ∈ textures, TexOK t)
    (hp : 0 < ptr) (hn : ptr + n + sizeofTextureNode ≤ 2 ^ 64)
    (hp2 : 0 < ptr2) (hm : ptr2 + m + 2 * sizeofLRUNode ≤ 2 ^ 64)
    (hfit : ∀ j, j < k → SumsFit (packIter j (packInit textures (InitStackMemory ptr n)
      textures.length (makeLRUList ptr2 m) atlas)))
    (hoom1 : (packIter k (packInit textures (InitStackMemory ptr n) textures.length
      (makeLRUList ptr2 m) atlas)).textureNodeArena.outOfMemory = false)
    (hoom2 : (packIter k (packInit textures (InitStackMemory ptr n) textures.length
      (makeLRUList ptr2 m) atlas)).cache.arena.outOfMemory = false) :
    ∃ L, (∀ fuel, L.length ≤ fuel →
        lruList (packIter k (packInit textures (InitStackMemory ptr n) textures.length
          (makeLRUList ptr2 m) atlas)).cache fuel = some L) ∧
      ∀ x ∈ L,
        (lruTexture (packIter k (packInit textures (InitStackMemory ptr n) textures.length
          (makeLRUList ptr2 m) atlas)) x).x +
        (lruTexture (packIter k (packInit textures (InitStackMemory ptr n) textures.length
          (makeLRUList ptr2 m) atlas)) x).width ≤
        (packIter k (packInit textures (InitStackMemory ptr n) textures.length
          (makeLRUList ptr2 m) atlas)).root.block.width ∧
        (lruTexture (packIter k (packInit textures (InitStackMemory ptr n) textures.length
          (makeLRUList ptr2 m) atlas)) x).y +
        (lruTexture (packIter k (packInit textures (InitStackMemory ptr n) textures.length
          (makeLRUList ptr2 m) atlas)) x).height ≤
        (packIter k (packInit textures (InitStackMemory ptr n) textures.length
          (makeLRUList ptr2 m) atlas)).root.block.height := by
  obtain ⟨m1, m2⟩ := packIter_oom_mono (packInit textures (InitStackMemory ptr n)
    textures.length (makeLRUList ptr2 m) atlas) 0 k (Nat.zero_le _)
  have h0 := packInit_inv textures ptr n ptr2 m atlas hne htex hp hn hp2 hm (m1 hoom1)
    (m2 hoom2)
  obtain ⟨L, hL⟩ := packIter_inv _ [] h0 k hfit hoom1 hoom2
  refine ⟨L, fun fuel hf => lruWalk_of_Ring _ _ L fuel hL.2.2.2.2.2.2.2.2.2.1 hf,
    PackInv_images_inside _ L hL⟩

/-- What `clearLRUCache` resets, for every cache: the count, the recorded extent, the
lookup, and the links of the sentinel. -/
theorem clearLRUCache_resets (cache : LRUCache) :
    (clearLRUCache cache).nodeCount = 0 ∧ (clearLRUCache cache).atlasWidth = 0 ∧
    (clearLRUCache cache).atlasHeight = 0 ∧ (clearLRUCache cache).hashLookup = [] ∧
    (clearLRUCache cache).sentinel = cache.sentinel ∧
    ((clearLRUCache cache).mem cache.sentinel).next = cache.sentinel ∧
    ((clearLRUCache cache).mem cache.sentinel).prev = cache.sentinel := by
  refine ⟨rfl, rfl, rfl, rfl, rfl, ?_, ?_⟩
  · show ((initList cache.mem cache.sentinel) cache.sentinel).next = _
    simp only [initList, Function.update_same]
  · show ((initList cache.mem cache.sentinel) cache.sentinel).prev = _
    simp only [initList, Function.update_same]

/-! ## Five squares under a cap of two by two squares -/

/-- The traversal reads only the extent of the image. -/
theorem findFirstFreeBlock_extent_only (n : TextureNode) (A : MemoryStack) (t : Texture) :
    findFirstFreeBlock n A t = findFirstFreeBlock n A (textureOf t.width t.height) := rfl

theorem traverse_extent_only (n : TextureNode) (A : MemoryStack) (atlas t : Texture)
    (path : List Nat) :
    traverseTextureNodes n A atlas t path =
      traverseTextureNodes n A atlas (textureOf t.width t.height) path := by
  induction n generalizing A atlas path with
  | null => rfl
  | node a l r b s u d ihl ihr =>
    have e1 : (textureOf t.width t.height).width = t.width := rfl
    have e2 : (textureOf t.width t.height).height = t.height := rfl
    simp only [traverseTextureNodes, e1, e2, ← findFirstFreeBlock_extent_only]
    simp only [← ihl, ← ihr]

/-- The traversal of an internal node, with the leaf test resolved. -/
theorem traverse_split (a : Nat) (l r : TextureNode) (b : TextureRectangle) (sd : Partition)
    (d : Bool) (A : MemoryStack) (atlas t : Texture) (path : List Nat)
    (hl : l.isNull = false) :
    traverseTextureNodes (TextureNode.node a l r b sd false d) A atlas t path =
      (fun tl : Traversal =>
        if tl.result ≠ 0 then
          (⟨TextureNode.node a tl.node r b sd false true, tl.textureNodeArena,
            tl.textureAtlas, tl.nodePath, tl.result⟩ : Traversal)
        else
          ⟨TextureNode.node a tl.node
              (traverseTextureNodes r tl.textureNodeArena tl.textureAtlas t tl.nodePath).node
              b sd false true,
            (traverseTextureNodes r tl.textureNodeArena tl.textureAtlas t
              tl.nodePath).textureNodeArena,
            (traverseTextureNodes r tl.textureNodeArena tl.textureAtlas t
              tl.nodePath).textureAtlas,
            (traverseTextureNodes r tl.textureNodeArena tl.textureAtlas t tl.nodePath).nodePath,
            (traverseTextureNodes r tl.textureNodeArena tl.textureAtlas t
              tl.nodePath).result⟩)
      (if sd = Partition.VERTICAL then
          if t.height ≤ l.block.height then
            traverseTextureNodes l A
              (if d = true then atlas
               else renderBlockIntoTextureAtlas (TextureNode.node a l r b sd false d) atlas)
              t (path ++ [a])
          else ⟨l, A, if d = true then atlas
               else renderBlockIntoTextureAtlas (TextureNode.node a l r b sd false d) atlas,
               path, 0⟩
        else if sd = Partition.HORIZONTAL then
          if t.width ≤ l.block.width then
            traverseTextureNodes l A
              (if d = true then atlas
               else renderBlockIntoTextureAtlas (TextureNode.node a l r b sd false d) atlas)
              t (path ++ [a])
          else ⟨l, A, if d = true then atlas
               else renderBlockIntoTextureAtlas (TextureNode.node a l r b sd false d) atlas,
               path, 0⟩
        else ⟨l, A, if d = true then atlas
               else renderBlockIntoTextureAtlas (TextureNode.node a l r b sd false d) atlas,
               path, 0⟩) := by
  have hleaf : ∀ d1, isLeaf (TextureNode.node a l r b sd false d1) = false := by
    intro d1
    simp [isLeaf, hl]
  cases d <;>
    simp only [traverseTextureNodes, hleaf, Bool.false_and, Bool.false_eq_true, if_false,
      Bool.not_false, Bool.not_true, Bool.and_self, Bool.and_false, if_true]

/-- The horizontal root expansion when the new width is a `u16` value. -/
theorem expandRootHorizontally_eq (a : Nat) (l r : TextureNode) (b : TextureRectangle)
    (sd : Partition) (u d : Bool) (A : MemoryStack) (w : Nat) (h1 : 1 ≤ w)
    (hw : b.width + w < 65536) :
    expandRootHorizontally (TextureNode.node a l r b sd u d) A w =
      (TextureNode.node (_Push_ A sizeofTextureNode).1 (TextureNode.node a l r b sd u d)
        (TextureNode.node (_Push_ (_Push_ A sizeofTextureNode).2 sizeofTextureNode).1
          TextureNode.null TextureNode.null
          ⟨b.width, b.top, b.width + w - 1, b.bottom, w, b.height⟩ Partition.NONE false false)
        ⟨b.left, b.top, b.width + w - 1, b.bottom, b.width + w, b.height⟩
        Partition.HORIZONTAL false false,
       (_Push_ (_Push_ A sizeofTextureNode).2 sizeofTextureNode).2) := by
  have e1 : u16 ((b.width : Int) + w) = b.width + w := by
    rw [u16_of_lt _ (by omega) (by omega)]; omega
  have e2 : u16 ((b.width : Int) + w - 1) = b.width + w - 1 := by
    rw [u16_of_lt _ (by omega) (by omega)]; omega
  have e3 : u16 (((b.width + w : Nat) : Int) - 1) = b.width + w - 1 := by
    rw [u16_of_lt _ (by omega) (by omega)]; omega
  simp only [expandRootHorizontally, block_node, e1, e2, e3]

/-- The vertical root expansion when the new height is a `u16` value. -/
theorem expandRootVertically_eq (a : Nat) (l r : TextureNode) (b : TextureRectangle)
    (sd : Partition) (u d : Bool) (A : MemoryStack) (h : Nat) (h1 : 1 ≤ h)
    (hh : b.height + h < 65536) :
    expandRootVertically (TextureNode.node a l r b sd u d) A h =
      (TextureNode.node (_Push_ A sizeofTextureNode).1 (TextureNode.node a l r b sd u d)
        (TextureNode.node (_Push_ (_Push_ A sizeofTextureNode).2 sizeofTextureNode).1
          TextureNode.null TextureNode.null
          ⟨b.left, b.height, b.right, b.height + h - 1, b.width, h⟩ Partition.NONE false false)
        ⟨b.left, b.top, b.right, b.height + h - 1, b.width, b.height + h⟩
        Partition.VERTICAL false false,
       (_Push_ (_Push_ A sizeofTextureNode).2 sizeofTextureNode).2) := by
  have e1 : u16 ((b.height : Int) + h) = b.height + h := by
    rw [u16_of_lt _ (by omega) (by omega)]; omega
  have e2 : u16 ((b.height : Int) + h - 1) = b.height + h - 1 := by
    rw [u16_of_lt _ (by omega) (by omega)]; omega
  have e3 : u16 (((b.height + h : Nat) : Int) - 1) = b.height + h - 1 := by
    rw [u16_of_lt _ (by omega) (by omega)]; omega
  simp only [expandRootVertically, block_node, e1, e2, e3]

/-- The pushes of the node arena of the run on five images. -/
theorem five_push (n : Nat) (h1 : 1 ≤ n) (h6 : n ≤ 6) :
    _Push_ ⟨4096, 840, n * 40, n, false⟩ sizeofTextureNode =
      (4096 + n * 40, ⟨4096, 840, (n + 1) * 40, n + 1, false⟩) := by
  interval_cases n <;> rfl

/-- An insert of an image that is not in the lookup marks its leaf used. -/
theorem insert_tree_new (tn : Nat) (tex : Option Nat) (c : LRUCache) (w h : Nat)
    (tree : TextureNode) (hl : c.hashLookup.lookup tex = none) :
    (insertIntoLRUCache tn tex c w h tree).2 = storeAt tn (setIsUsed true) tree := by
  unfold insertIntoLRUCache
  rw [hl]

theorem fiveCache_lookup :
    (fiveCache 0).hashLookup.lookup (some 0) = none ∧
    (fiveCache 1).hashLookup.lookup (some 1) = none ∧
    (fiveCache 2).hashLookup.lookup (some 2) = none ∧
    (fiveCache 3).hashLookup.lookup (some 3) = none ∧
    (fiveCache 5).hashLookup.lookup (some 4) = none := by
  decide

theorem fiveCache_tail :
    (fiveCache 4).nodeCount ≠ 0 ∧
    ((fiveCache 4).hashLookup.lookup
      ((fiveCache 4).mem ((fiveCache 4).mem (fiveCache 4).sentinel).prev).texture).isSome
      = true ∧
    ((fiveCache 4).mem ((fiveCache 4).mem (fiveCache 4).sentinel).prev).textureNode = 4096 ∧
    ((fiveCache 4).mem ((fiveCache 4).mem (fiveCache 4).sentinel).prev).texture = some 0 := by
  decide

theorem fiveTextures_get (ts : List Texture) (s i : Nat) (hi : i < 5) :
    (fiveTextures ts s i).getD i default = ts.getD i default := by
  interval_cases i <;> simp [fiveTextures]

/-- The image of the current iteration of the run on five images has the extent `s x s`,
so its traversal is the one of `textureOf s s`. -/
theorem five_traverse (ts : List Texture) (s k : Nat) (st : PackState)
    (hlen : ts.length = 5) (hext : ∀ t ∈ ts, t.width = s ∧ t.height = s)
    (h : FiveState ts s k st) (hk : fiveIndex k < 5) :
    st.textures.getD st.textureIndex default = ts.getD (fiveIndex k) default ∧
    (ts.getD (fiveIndex k) default).width = s ∧ (ts.getD (fiveIndex k) default).height = s ∧
    traverseTextureNodes st.root st.textureNodeArena st.textureAtlas
        (st.textures.getD st.textureIndex default) [] =
      traverseTextureNodes (fiveTree s k) ⟨4096, 840, fiveNodes k * 40, fiveNodes k, false⟩
        st.textureAtlas (textureOf s s) [] := by
  obtain ⟨c1, c2, c3, c4, c5, c6, c7, c8⟩ := h
  have htex : st.textures.getD st.textureIndex default = ts.getD (fiveIndex k) default := by
    rw [c5, c4]; exact fiveTextures_get ts s _ hk
  obtain ⟨hw, hh⟩ := hext _ (getD_mem_of_lt ts (fiveIndex k) (by omega))
  refine ⟨htex, hw, hh, ?_⟩
  rw [traverse_extent_only, htex, hw, hh, c6, c7]

/-- An iteration of the run on five images that finds a placement. -/
theorem five_place (ts : List Texture) (s k r : Nat) (N : TextureNode) (A1 : MemoryStack)
    (st : PackState) (hlen : ts.length = 5) (hext : ∀ t ∈ ts, t.width = s ∧ t.height = s)
    (h : FiveState ts s k st) (hk : fiveIndex k < 5)
    (hT : ∀ atlas,
      (traverseTextureNodes (fiveTree s k) ⟨4096, 840, fiveNodes k * 40, fiveNodes k, false⟩
        atlas (textureOf s s) []).node = N ∧
      (traverseTextureNodes (fiveTree s k) ⟨4096, 840, fiveNodes k * 40, fiveNodes k, false⟩
        atlas (textureOf s s) []).textureNodeArena = A1 ∧
      (traverseTextureNodes (fiveTree s k) ⟨4096, 840, fiveNodes k * 40, fiveNodes k, false⟩
        atlas (textureOf s s) []).result = r)
    (hr : r ≠ 0)
    (hlook : (fiveCache (fiveOpCount k)).hashLookup.lookup (some (fiveIndex k)) = none) :
    (packStep st).textureCount = 5 ∧ (packStep st).maxAtlasWidth = 2 * s ∧
    (packStep st).maxAtlasHeight = 2 * s ∧ (packStep st).textureIndex = fiveIndex k + 1 ∧
    (packStep st).textures = (fiveTextures ts s (fiveIndex k)).set (fiveIndex k)
      { ts.getD (fiveIndex k) default with
        x := (deref N r).block.left, y := (deref N r).block.top } ∧
    (packStep st).root = storeAt r (setIsUsed true) N ∧
    (packStep st).textureNodeArena = A1 ∧
    CacheAgree (packStep st).cache
      (insertIntoLRUCache r (some (fiveIndex k)) (fiveCache (fiveOpCount k)) 0 0
        (runOps (makeLRUList 1048576 160, TextureNode.null)
          (fiveOps.take (fiveOpCount k))).2).1 := by
  obtain ⟨htex, _, _, htr⟩ := five_traverse ts s k st hlen hext h hk
  obtain ⟨c1, c2, c3, c4, c5, c6, c7, c8⟩ := h
  have hidx : st.textureIndex < st.textureCount := by rw [c4, c1]; exact hk
  obtain ⟨t1, t2, t3⟩ := hT st.textureAtlas
  rw [← htr] at t1 t2 t3
  have hres : (traverseTextureNodes st.root st.textureNodeArena st.textureAtlas
      (st.textures.getD st.textureIndex default) []).result ≠ 0 := by rw [t3]; exact hr
  have hp := packStep_placed st hidx hres
  rw [t1, t3, t2] at hp
  rw [hp]
  refine ⟨c1, c2, c3, by rw [← c4], by rw [htex, c5, c4], ?_, rfl, ?_⟩
  · show (insertIntoLRUCache r (some st.textureIndex) st.cache _ _ N).2 = _
    apply insert_tree_new
    rw [c8.2.1, c4]
    exact hlook
  · show CacheAgree (insertIntoLRUCache r (some st.textureIndex) st.cache _ _ N).1 _
    rw [c4]
    exact insert_agree _ _ _ _ _ _ _ _ _ _ c8

theorem five_step0 (ts : List Texture) (s : Nat) (h1 : 1 ≤ s) (st : PackState)
    (hlen : ts.length = 5) (hext : ∀ t ∈ ts, t.width = s ∧ t.height = s)
    (h : FiveState ts s 0 st) : FiveState ts s 1 (packStep st) := by
  have hT : ∀ atlas,
      (traverseTextureNodes (fiveTree s 0) ⟨4096, 840, fiveNodes 0 * 40, fiveNodes 0, false⟩
        atlas (textureOf s s) []).node = fiveTree s 1 ∧
      (traverseTextureNodes (fiveTree s 0) ⟨4096, 840, fiveNodes 0 * 40, fiveNodes 0, false⟩
        atlas (textureOf s s) []).textureNodeArena = ⟨4096, 840, 40, 1, false⟩ ∧
      (traverseTextureNodes (fiveTree s 0) ⟨4096, 840, fiveNodes 0 * 40, fiveNodes 0, false⟩
        atlas (textureOf s s) []).result = 4096 := by
    intro atlas
    simp only [fiveTree, leafNode, textureOf]
    simp [traverse_split, traverse_used_leaf, traverse_free_leaf, findFirstFreeBlock_exact,
      fiveNodes]
  obtain ⟨k1, k2, k3, k4, k5, k6, k7, k8⟩ :=
    five_place ts s 0 4096 _ _ st hlen hext h (by decide) hT (by decide) fiveCache_lookup.1
  refine ⟨k1, k2, k3, k4, ?_, ?_, k7, k8⟩
  · rw [k5]
    simp [fiveTextures, fiveIndex, fiveTree, leafNode, deref, textureOf]
  · rw [k6]
    simp [fiveTree, leafNode, storeAt, setIsUsed]

/-- An iteration of the run on five images that finds no placement. -/
theorem five_noplace (ts : List Texture) (s k : Nat) (N : TextureNode) (A1 : MemoryStack)
    (st : PackState) (hlen : ts.length = 5) (hext : ∀ t ∈ ts, t.width = s ∧ t.height = s)
    (h : FiveState ts s k st) (hk : fiveIndex k < 5)
    (hT : ∀ atlas,
      (traverseTextureNodes (fiveTree s k) ⟨4096, 840, fiveNodes k * 40, fiveNodes k, false⟩
        atlas (textureOf s s) []).node = N ∧
      (traverseTextureNodes (fiveTree s k) ⟨4096, 840, fiveNodes k * 40, fiveNodes k, false⟩
        atlas (textureOf s s) []).textureNodeArena = A1 ∧
      (traverseTextureNodes (fiveTree s k) ⟨4096, 840, fiveNodes k * 40, fiveNodes k, false⟩
        atlas (textureOf s s) []).result = 0) :
    ∃ atlas1 p,
    packStep st =
      if u16 (((fiveTree s k).block.height : Int) + s)
            < u16 (((fiveTree s k).block.width : Int) + s) ∧
          u16 (((fiveTree s k).block.height : Int) + s) ≤ 2 * s then
        { st with
          textureNodeArena := (expandRootVertically N A1 s).2
          textureAtlas := atlas1
          root := (expandRootVertically N A1 s).1 }
      else if u16 (((fiveTree s k).block.height : Int) + s)
            ≥ u16 (((fiveTree s k).block.width : Int) + s) ∧
          u16 (((fiveTree s k).block.width : Int) + s) ≤ 2 * s then
        { st with
          textureNodeArena := (expandRootHorizontally N A1 s).2
          textureAtlas := atlas1
          root := (expandRootHorizontally N A1 s).1 }
      else
        { st with
          textureNodeArena := A1
          textureAtlas := atlas1
          cache := (removeLRUFromCache st.cache p N).cache
          root := (removeLRUFromCache st.cache p N).tree } := by
  obtain ⟨htex, hw, hh, htr⟩ := five_traverse ts s k st hlen hext h hk
  obtain ⟨c1, c2, c3, c4, c5, c6, c7, c8⟩ := h
  have hidx : st.textureIndex < st.textureCount := by rw [c4, c1]; exact hk
  rw [← htex] at hw hh
  obtain ⟨t1, t2, t3⟩ := hT st.textureAtlas
  rw [← htr] at t1 t2 t3
  have hp := packStep_noplace st hidx t3
  rw [t1, t2] at hp
  refine ⟨(traverseTextureNodes st.root st.textureNodeArena st.textureAtlas
      (st.textures.getD st.textureIndex default) []).textureAtlas,
    (traverseTextureNodes st.root st.textureNodeArena st.textureAtlas
      (st.textures.getD st.textureIndex default) []).nodePath, ?_⟩
  rw [hp, hw, hh, c2, c3, c6]

theorem five_step1 (ts : List Texture) (s : Nat) (h1 : 1 ≤ s) (h3 : 3 * s < 65536)
    (st : PackState) (hlen : ts.length = 5) (hext : ∀ t ∈ ts, t.width = s ∧ t.height = s)
    (h : FiveState ts s 1 st) : FiveState ts s 2 (packStep st) := by
  have hT : ∀ atlas,
      (traverseTextureNodes (fiveTree s 1) ⟨4096, 840, fiveNodes 1 * 40, fiveNodes 1, false⟩
        atlas (textureOf s s) []).node = fiveTree s 1 ∧
      (traverseTextureNodes (fiveTree s 1) ⟨4096, 840, fiveNodes 1 * 40, fiveNodes 1, false⟩
        atlas (textureOf s s) []).textureNodeArena = ⟨4096, 840, 40, 1, false⟩ ∧
      (traverseTextureNodes (fiveTree s 1) ⟨4096, 840, fiveNodes 1 * 40, fiveNodes 1, false⟩
        atlas (textureOf s s) []).result = 0 := by
    intro atlas
    simp only [fiveTree, leafNode, textureOf]
    simp [traverse_split, traverse_used_leaf, traverse_free_leaf, findFirstFreeBlock_exact,
      fiveNodes]
  obtain ⟨atlas1, p, hp⟩ := five_noplace ts s 1 _ _ st hlen hext h (by decide) hT
  obtain ⟨c1, c2, c3, c4, c5, c6, c7, c8⟩ := h
  have eV : u16 ((s : Int) + s) = 2 * s := by
    rw [u16_of_lt _ (by omega) (by omega)]; omega
  have hb : (fiveTree s 1).block = ⟨0, 0, s - 1, s - 1, s, s⟩ := by
    simp [fiveTree, leafNode]
  rw [hb] at hp
  simp only [eV] at hp
  rw [if_neg (by omega), if_pos (by omega)] at hp
  have he := expandRootHorizontally_eq 4096 TextureNode.null TextureNode.null
    ⟨0, 0, s - 1, s - 1, s, s⟩ Partition.NONE true true ⟨4096, 840, 40, 1, false⟩ s h1
    (by show s + s < 65536; omega)
  rw [five_push 1 (by decide) (by decide)] at he
  simp only [] at he
  rw [five_push 2 (by decide) (by decide)] at he
  rw [hp]
  refine ⟨c1, c2, c3, c4, c5, ?_, ?_, c8⟩
  · show (expandRootHorizontally (fiveTree s 1) _ s).1 = _
    have e1 : fiveTree s 1 = TextureNode.node 4096 TextureNode.null TextureNode.null
      ⟨0, 0, s - 1, s - 1, s, s⟩ Partition.NONE true true := by simp [fiveTree, leafNode]
    rw [e1, he]
    simp [fiveTree, leafNode]
    omega
  · show (expandRootHorizontally (fiveTree s 1) _ s).2 = _
    have e1 : fiveTree s 1 = TextureNode.node 4096 TextureNode.null TextureNode.null
      ⟨0, 0, s - 1, s - 1, s, s⟩ Partition.NONE true true := by simp [fiveTree, leafNode]
    rw [e1, he]
    rfl

theorem five_step2 (ts : List Texture) (s : Nat) (h1 : 1 ≤ s) (st : PackState)
    (hlen : ts.length = 5) (hext : ∀ t ∈ ts, t.width = s ∧ t.height = s)
    (h : FiveState ts s 2 st) : FiveState ts s 3 (packStep st) := by
  have hT : ∀ atlas,
      (traverseTextureNodes (fiveTree s 2) ⟨4096, 840, fiveNodes 2 * 40, fiveNodes 2, false⟩
        atlas (textureOf s s) []).node = fiveTree s 3 ∧
      (traverseTextureNodes (fiveTree s 2) ⟨4096, 840, fiveNodes 2 * 40, fiveNodes 2, false⟩
        atlas (textureOf s s) []).textureNodeArena = ⟨4096, 840, 120, 3, false⟩ ∧
      (traverseTextureNodes (fiveTree s 2) ⟨4096, 840, fiveNodes 2 * 40, fiveNodes 2, false⟩
        atlas (textureOf s s) []).result = 4176 := by
    intro atlas
    simp only [fiveTree, leafNode, textureOf]
    simp [traverse_split, traverse_used_leaf, traverse_free_leaf, findFirstFreeBlock_exact,
      fiveNodes]
  obtain ⟨k1, k2, k3, k4, k5, k6, k7, k8⟩ :=
    five_place ts s 2 4176 _ _ st hlen hext h (by decide) hT (by decide) fiveCache_lookup.2.1
  refine ⟨k1, k2, k3, k4, ?_, ?_, k7, k8⟩
  · rw [k5]
    simp [fiveTextures, fiveIndex, fiveTree, leafNode, deref, textureOf]
  · rw [k6]
    simp [fiveTree, leafNode, storeAt, setIsUsed]

theorem five_step3 (ts : List Texture) (s : Nat) (h1 : 1 ≤ s) (h3 : 3 * s < 65536)
    (st : PackState) (hlen : ts.length = 5) (hext : ∀ t ∈ ts, t.width = s ∧ t.height = s)
    (h : FiveState ts s 3 st) : FiveState ts s 4 (packStep st) := by
  have hT : ∀ atlas,
      (traverseTextureNodes (fiveTree s 3) ⟨4096, 840, fiveNodes 3 * 40, fiveNodes 3, false⟩
        atlas (textureOf s s) []).node = fiveTree s 3 ∧
      (traverseTextureNodes (fiveTree s 3) ⟨4096, 840, fiveNodes 3 * 40, fiveNodes 3, false⟩
        atlas (textureOf s s) []).textureNodeArena = ⟨4096, 840, 120, 3, false⟩ ∧
      (traverseTextureNodes (fiveTree s 3) ⟨4096, 840, fiveNodes 3 * 40, fiveNodes 3, false⟩
        atlas (textureOf s s) []).result = 0 := by
    intro atlas
    simp only [fiveTree, leafNode, textureOf]
    simp [traverse_split, traverse_used_leaf, traverse_free_leaf, findFirstFreeBlock_exact,
      fiveNodes]
  obtain ⟨atlas1, p, hp⟩ := five_noplace ts s 3 _ _ st hlen hext h (by decide) hT
  obtain ⟨c1, c2, c3, c4, c5, c6, c7, c8⟩ := h
  have eV : u16 ((s : Int) + s) = 2 * s := by
    rw [u16_of_lt _ (by omega) (by omega)]; omega
  have eH : u16 (((2 * s : Nat) : Int) + s) = 3 * s := by
    rw [u16_of_lt _ (by omega) (by omega)]; omega
  have e1 : fiveTree s 3 = TextureNode.node 4136
      (TextureNode.node 4096 TextureNode.null TextureNode.null ⟨0, 0, s - 1, s - 1, s, s⟩
        Partition.NONE true true)
      (TextureNode.node 4176 TextureNode.null TextureNode.null
        ⟨s, 0, 2 * s - 1, s - 1, s, s⟩ Partition.NONE true true)
      ⟨0, 0, 2 * s - 1, s - 1, 2 * s, s⟩ Partition.HORIZONTAL false true := by
    simp [fiveTree, leafNode]
  rw [e1] at hp
  simp only [block_node, eV, eH] at hp
  rw [if_pos (by omega)] at hp
  have he := expandRootVertically_eq 4136
    (TextureNode.node 4096 TextureNode.null TextureNode.null ⟨0, 0, s - 1, s - 1, s, s⟩
      Partition.NONE true true)
    (TextureNode.node 4176 TextureNode.null TextureNode.null
      ⟨s, 0, 2 * s - 1, s - 1, s, s⟩ Partition.NONE true true)
    ⟨0, 0, 2 * s - 1, s - 1, 2 * s, s⟩ Partition.HORIZONTAL false true
    ⟨4096, 840, 120, 3, false⟩ s h1 (by show s + s < 65536; omega)
  rw [five_push 3 (by decide) (by decide)] at he
  simp only [] at he
  rw [five_push 4 (by decide) (by decide)] at he
  rw [he] at hp
  rw [hp]
  refine ⟨c1, c2, c3, c4, c5, ?_, rfl, c8⟩
  simp [fiveTree, leafNode]
  omega

theorem five_step4 (ts : List Texture) (s : Nat) (h1 : 1 ≤ s) (h3 : 3 * s < 65536)
    (st : PackState) (hlen : ts.length = 5) (hext : ∀ t ∈ ts, t.width = s ∧ t.height = s)
    (h : FiveState ts s 4 st) : FiveState ts s 5 (packStep st) := by
  have hf := findFirstFreeBlock_heightExact 4256 TextureNode.null TextureNode.null
    ⟨0, s, 2 * s - 1, 2 * s - 1, 2 * s, s⟩ Partition.NONE false true
    ⟨4096, 840, 200, 5, false⟩ ⟨"", [], 4, 0, 0, s, s⟩
    (by show 0 + 2 * s = 2 * s - 1 + 1; omega) (by show 2 * s - 1 < 65536; omega) rfl h1
    (by show s < 2 * s; omega)
  rw [five_push 5 (by decide) (by decide)] at hf
  simp only [] at hf
  rw [five_push 6 (by decide) (by decide)] at hf
  have hT : ∀ atlas,
      (traverseTextureNodes (fiveTree s 4) ⟨4096, 840, fiveNodes 4 * 40, fiveNodes 4, false⟩
        atlas (textureOf s s) []).node = fiveTree s 5 ∧
      (traverseTextureNodes (fiveTree s 4) ⟨4096, 840, fiveNodes 4 * 40, fiveNodes 4, false⟩
        atlas (textureOf s s) []).textureNodeArena = ⟨4096, 840, 280, 7, false⟩ ∧
      (traverseTextureNodes (fiveTree s 4) ⟨4096, 840, fiveNodes 4 * 40, fiveNodes 4, false⟩
        atlas (textureOf s s) []).result = 4296 := by
    intro atlas
    simp only [fiveTree, leafNode, textureOf]
    simp [traverse_split, traverse_used_leaf, traverse_free_leaf, findFirstFreeBlock_exact,
      fiveNodes, hf]
    omega
  obtain ⟨k1, k2, k3, k4, k5, k6, k7, k8⟩ :=
    five_place ts s 4 4296 _ _ st hlen hext h (by decide) hT (by decide) fiveCache_lookup.2.2.1
  refine ⟨k1, k2, k3, k4, ?_, ?_, k7, k8⟩
  · rw [k5]
    simp [fiveTextures, fiveIndex, fiveTree, leafNode, deref, textureOf]
  · rw [k6]
    simp [fiveTree, leafNode, storeAt, setIsUsed]

theorem five_step5 (ts : List Texture) (s : Nat) (h1 : 1 ≤ s) (st : PackState)
    (hlen : ts.length = 5) (hext : ∀ t ∈ ts, t.width = s ∧ t.height = s)
    (h : FiveState ts s 5 st) : FiveState ts s 6 (packStep st) := by
  have hT : ∀ atlas,
      (traverseTextureNodes (fiveTree s 5) ⟨4096, 840, fiveNodes 5 * 40, fiveNodes 5, false⟩
        atlas (textureOf s s) []).node = fiveTree s 6 ∧
      (traverseTextureNodes (fiveTree s 5) ⟨4096, 840, fiveNodes 5 * 40, fiveNodes 5, false⟩
        atlas (textureOf s s) []).textureNodeArena = ⟨4096, 840, 280, 7, false⟩ ∧
      (traverseTextureNodes (fiveTree s 5) ⟨4096, 840, fiveNodes 5 * 40, fiveNodes 5, false⟩
        atlas (textureOf s s) []).result = 4336 := by
    intro atlas
    simp only [fiveTree, leafNode, textureOf]
    simp [traverse_split, traverse_used_leaf, traverse_free_leaf, findFirstFreeBlock_exact,
      fiveNodes]
  obtain ⟨k1, k2, k3, k4, k5, k6, k7, k8⟩ :=
    five_place ts s 5 4336 _ _ st hlen hext h (by decide) hT (by decide) fiveCache_lookup.2.2.2.1
  refine ⟨k1, k2, k3, k4, ?_, ?_, k7, k8⟩
  · rw [k5]
    simp [fiveTextures, fiveIndex, fiveTree, leafNode, deref, textureOf]
  · rw [k6]
    simp [fiveTree, leafNode, storeAt, setIsUsed]

theorem five_step7 (ts : List Texture) (s : Nat) (h1 : 1 ≤ s) (st : PackState)
    (hlen : ts.length = 5) (hext : ∀ t ∈ ts, t.width = s ∧ t.height = s)
    (h : FiveState ts s 7 st) : FiveState ts s 8 (packStep st) := by
  have hT : ∀ atlas,
      (traverseTextureNodes (fiveTree s 7) ⟨4096, 840, fiveNodes 7 * 40, fiveNodes 7, false⟩
        atlas (textureOf s s) []).node = fiveTree s 8 ∧
      (traverseTextureNodes (fiveTree s 7) ⟨4096, 840, fiveNodes 7 * 40, fiveNodes 7, false⟩
        atlas (textureOf s s) []).textureNodeArena = ⟨4096, 840, 280, 7, false⟩ ∧
      (traverseTextureNodes (fiveTree s 7) ⟨4096, 840, fiveNodes 7 * 40, fiveNodes 7, false⟩
        atlas (textureOf s s) []).result = 4096 := by
    intro atlas
    simp only [fiveTree, leafNode, textureOf]
    simp [traverse_split, traverse_used_leaf, traverse_free_leaf, findFirstFreeBlock_exact,
      fiveNodes]
  obtain ⟨k1, k2, k3, k4, k5, k6, k7, k8⟩ :=
    five_place ts s 7 4096 _ _ st hlen hext h (by decide) hT (by decide) fiveCache_lookup.2.2.2.2
  refine ⟨k1, k2, k3, k4, ?_, ?_, k7, k8⟩
  · rw [k5]
    simp [fiveTextures, fiveIndex, fiveTree, leafNode, deref, textureOf]
  · rw [k6]
    simp [fiveTree, leafNode, storeAt, setIsUsed]

theorem five_step6 (ts : List Texture) (s : Nat) (h1 : 1 ≤ s) (h3 : 3 * s < 65536)
    (st : PackState) (hlen : ts.length = 5) (hext : ∀ t ∈ ts, t.width = s ∧ t.height = s)
    (h : FiveState ts s 6 st) : FiveState ts s 7 (packStep st) := by
  have hT : ∀ atlas,
      (traverseTextureNodes (fiveTree s 6) ⟨4096, 840, fiveNodes 6 * 40, fiveNodes 6, false⟩
        atlas (textureOf s s) []).node = fiveTree s 6 ∧
      (traverseTextureNodes (fiveTree s 6) ⟨4096, 840, fiveNodes 6 * 40, fiveNodes 6, false⟩
        atlas (textureOf s s) []).textureNodeArena = ⟨4096, 840, 280, 7, false⟩ ∧
      (traverseTextureNodes (fiveTree s 6) ⟨4096, 840, fiveNodes 6 * 40, fiveNodes 6, false⟩
        atlas (textureOf s s) []).result = 0 := by
    intro atlas
    simp only [fiveTree, leafNode, textureOf]
    simp [traverse_split, traverse_used_leaf, traverse_free_leaf, findFirstFreeBlock_exact,
      fiveNodes]
  obtain ⟨atlas1, p, hp⟩ := five_noplace ts s 6 _ _ st hlen hext h (by decide) hT
  obtain ⟨c1, c2, c3, c4, c5, c6, c7, c8⟩ := h
  have eH : u16 (((2 * s : Nat) : Int) + s) = 3 * s := by
    rw [u16_of_lt _ (by omega) (by omega)]; omega
  have hb : (fiveTree s 6).block = ⟨0, 0, 2 * s - 1, 2 * s - 1, 2 * s, 2 * s⟩ := by
    simp [fiveTree, leafNode]
  rw [hb] at hp
  simp only [eH] at hp
  rw [if_neg (by omega), if_neg (by omega)] at hp
  obtain ⟨g1, g2⟩ := removeLRU_agree st.cache (fiveCache 4) p []
    (fiveTree s 6) (runOps (makeLRUList 1048576 160, TextureNode.null) (fiveOps.take 4)).2 c8
  obtain ⟨q1, q2, q3, _⟩ := fiveCache_tail
  rw [hp]
  refine ⟨c1, c2, c3, c4, c5, ?_, rfl, g1⟩
  show (removeLRUFromCache st.cache p (fiveTree s 6)).tree = _
  rw [g2, removeLRUFromCache_evict _ _ _ q1 q2]
  simp only [q3]
  simp [fiveTree, leafNode, storeAt, setIsUsed, setSplitDir]

theorem entries_agree (s : PackState) (d : LRUCache) (fuel : Nat) (h : CacheAgree s.cache d) :
    listedEntries s fuel = (lruList d fuel).map
      (List.map (fun x => ((d.mem x).texture, (d.mem x).textureNode))) := by
  obtain ⟨e1, e2, e3, e4, e5⟩ := h
  unfold listedEntries lruList
  rw [e1, e5]

section

set_option maxHeartbeats 4000000

theorem fiveCache_entries4 :
    (lruList (fiveCache 4) 4).map
      (List.map (fun x => (((fiveCache 4).mem x).texture, ((fiveCache 4).mem x).textureNode)))
      = some [(some 3, 4336), (some 2, 4296), (some 1, 4176), (some 0, 4096)] := by
  decide

theorem fiveCache_entries5 :
    (lruList (fiveCache 5) 4).map
      (List.map (fun x => (((fiveCache 5).mem x).texture, ((fiveCache 5).mem x).textureNode)))
      = some [(some 3, 4336), (some 2, 4296), (some 1, 4176)] := by
  decide

theorem fiveCache_entries6 :
    (lruList (fiveCache 6) 4).map
      (List.map (fun x => (((fiveCache 6).mem x).texture, ((fiveCache 6).mem x).textureNode)))
      = some [(some 4, 4096), (some 3, 4336), (some 2, 4296), (some 1, 4176)] := by
  decide

end

theorem fiveCache_count : (fiveCache 6).nodeCount = 4 := by decide

theorem five_start (ts : List Texture) (s : Nat) (h1 : 1 ≤ s) (h3 : 3 * s < 65536)
    (hlen : ts.length = 5) (hext : ∀ t ∈ ts, t.width = s ∧ t.height = s) :
    FiveState ts s 0 (packStart ts (2 * s) (2 * s)) := by
  have e1 : u16 ((0 : Int) + s - 1) = s - 1 := by
    rw [u16_of_lt _ (by omega) (by omega)]; omega
  obtain ⟨hw, hh⟩ := hext _ (getD_mem_of_lt ts 0 (by omega))
  refine ⟨?_, ?_, ?_, ?_, ?_, ?_, ?_, ?_⟩
  · exact hlen
  · rfl
  · rfl
  · rfl
  · show ts = _
    match ts, hlen with
    | [t0, t1, t2, t3, t4], _ => rfl
  · show TextureNode.node (_Push_ (InitStackMemory 4096 ((1 + ts.length * 4) * sizeofTextureNode))
        sizeofTextureNode).1 TextureNode.null TextureNode.null
      ⟨0, 0, u16 ((0 : Int) + (ts.getD 0 default).width - 1),
        u16 ((0 : Int) + (ts.getD 0 default).height - 1), (ts.getD 0 default).width,
        (ts.getD 0 default).height⟩
      Partition.NONE false false = _
    rw [hw, hh, e1, hlen]
    simp [fiveTree, leafNode]
    rfl
  · unfold packStart packInit
    rw [hlen]
    rfl
  · unfold packStart packInit
    rw [hlen]
    exact CacheAgree_refl _

theorem five_iter (ts : List Texture) (s : Nat) (h1 : 1 ≤ s) (h3 : 3 * s < 65536)
    (hlen : ts.length = 5) (hext : ∀ t ∈ ts, t.width = s ∧ t.height = s) :
    FiveState ts s 6 (packIter 6 (packStart ts (2 * s) (2 * s))) ∧
    FiveState ts s 7 (packIter 7 (packStart ts (2 * s) (2 * s))) ∧
    FiveState ts s 8 (packIter 8 (packStart ts (2 * s) (2 * s))) ∧
    ∀ j, j < 8 → (packIter j (packStart ts (2 * s) (2 * s))).textureIndex
      < (packIter j (packStart ts (2 * s) (2 * s))).textureCount := by
  have g0 : FiveState ts s 0 (packIter 0 (packStart ts (2 * s) (2 * s))) :=
    five_start ts s h1 h3 hlen hext
  have g1 : FiveState ts s 1 (packIter 1 (packStart ts (2 * s) (2 * s))) := by
    rw [packIter_succ]; exact five_step0 ts s h1 _ hlen hext g0
  have g2 : FiveState ts s 2 (packIter 2 (packStart ts (2 * s) (2 * s))) := by
    rw [packIter_succ]; exact five_step1 ts s h1 h3 _ hlen hext g1
  have g3 : FiveState ts s 3 (packIter 3 (packStart ts (2 * s) (2 * s))) := by
    rw [packIter_succ]; exact five_step2 ts s h1 _ hlen hext g2
  have g4 : FiveState ts s 4 (packIter 4 (packStart ts (2 * s) (2 * s))) := by
    rw [packIter_succ]; exact five_step3 ts s h1 h3 _ hlen hext g3
  have g5 : FiveState ts s 5 (packIter 5 (packStart ts (2 * s) (2 * s))) := by
    rw [packIter_succ]; exact five_step4 ts s h1 h3 _ hlen hext g4
  have g6 : FiveState ts s 6 (packIter 6 (packStart ts (2 * s) (2 * s))) := by
    rw [packIter_succ]; exact five_step5 ts s h1 _ hlen hext g5
  have g7 : FiveState ts s 7 (packIter 7 (packStart ts (2 * s) (2 * s))) := by
    rw [packIter_succ]; exact five_step6 ts s h1 h3 _ hlen hext g6
  have g8 : FiveState ts s 8 (packIter 8 (packStart ts (2 * s) (2 * s))) := by
    rw [packIter_succ]; exact five_step7 ts s h1 _ hlen hext g7
  refine ⟨g6, g7, g8, ?_⟩
  intro j hj
  interval_cases j
  · rw [g0.2.2.2.1, g0.1]; decide
  · rw [g1.2.2.2.1, g1.1]; decide
  · rw [g2.2.2.2.1, g2.1]; decide
  · rw [g3.2.2.2.1, g3.1]; decide
  · rw [g4.2.2.2.1, g4.1]; decide
  · rw [g5.2.2.2.1, g5.1]; decide
  · rw [g6.2.2.2.1, g6.1]; decide
  · rw [g7.2.2.2.1, g7.1]; decide

/-- C22: for every `s ≥ 1` with `3s < 65536` and every table `ts` of five images of extent
`s x s`, the packing under the cap `2s x 2s` returns, after eight iterations, with the atlas
extent `2s x 2s` and exactly four entries in the LRU list: the images 4, 3, 2, 1, placed at
`(0,0)`, `(s,s)`, `(0,s)` and `(s,0)`. Before the seventh iteration the list holds the
images 3, 2, 1, 0 and its tail is image 0, the first one placed, on the leaf at 4096; the
seventh iteration evicts it (the list is 3, 2, 1 and that leaf, the quadrant at `(0,0)`, is
free), and the eighth places image 4 on that leaf, at `(0,0)`. -/
theorem pack_five_squares (ts : List Texture) (s : Nat) (h1 : 1 ≤ s) (h3 : 3 * s < 65536)
    (hlen : ts.length = 5) (hext : ∀ t ∈ ts, t.width = s ∧ t.height = s) :
    ∃ st, (∀ fuel, 8 ≤ fuel → packRun fuel ts (2 * s) (2 * s) = some st) ∧
      st.textureAtlas.width = 2 * s ∧ st.textureAtlas.height = 2 * s ∧
      listedEntries st 4 = some [(some 4, 4096), (some 3, 4336), (some 2, 4296), (some 1, 4176)] ∧
      st.cache.nodeCount = 4 ∧
      placementOf st 4 = (0, 0, s, s) ∧ placementOf st 3 = (s, s, s, s) ∧
      placementOf st 2 = (0, s, s, s) ∧ placementOf st 1 = (s, 0, s, s) ∧
      deref st.root 4096 = leafNode 4096 ⟨0, 0, s - 1, s - 1, s, s⟩ true true ∧
      listedEntries (packIter 6 (packStart ts (2 * s) (2 * s))) 4
        = some [(some 3, 4336), (some 2, 4296), (some 1, 4176), (some 0, 4096)] ∧
      (packIter 6 (packStart ts (2 * s) (2 * s))).textureIndex = 4 ∧
      placementOf (packIter 6 (packStart ts (2 * s) (2 * s))) 0 = (0, 0, s, s) ∧
      listedEntries (packIter 7 (packStart ts (2 * s) (2 * s))) 4
        = some [(some 3, 4336), (some 2, 4296), (some 1, 4176)] ∧
      (packIter 7 (packStart ts (2 * s) (2 * s))).textureIndex = 4 ∧
      deref (packIter 7 (packStart ts (2 * s) (2 * s))).root 4096
        = leafNode 4096 ⟨0, 0, s - 1, s - 1, s, s⟩ false true := by
  obtain ⟨g6, g7, g8, hlt⟩ := five_iter ts s h1 h3 hlen hext
  have e0 := hext _ (getD_mem_of_lt ts 0 (by omega))
  have e1 := hext _ (getD_mem_of_lt ts 1 (by omega))
  have e2 := hext _ (getD_mem_of_lt ts 2 (by omega))
  have e3 := hext _ (getD_mem_of_lt ts 3 (by omega))
  have e4 := hext _ (getD_mem_of_lt ts 4 (by omega))
  have hloop : packLoop 8 (packStart ts (2 * s) (2 * s))
      = some (packIter 8 (packStart ts (2 * s) (2 * s))) := by
    apply packLoop_of_iter
    · exact hlt
    · rw [g8.2.2.2.1, g8.1]; decide
  clear hlt
  generalize packIter 8 (packStart ts (2 * s) (2 * s)) = r8 at hloop g8
  generalize packIter 7 (packStart ts (2 * s) (2 * s)) = r7 at g7 ⊢
  generalize packIter 6 (packStart ts (2 * s) (2 * s)) = r6 at g6 ⊢
  refine ⟨_, fun fuel hf =>
    packTexturesIntoAtlas_of_loop fuel _ _ _ _ _ _ (packLoop_mono 8 _ _ hloop fuel hf), ?_⟩
  obtain ⟨c1, c2, c3, c4, c5, c6, c7, c8⟩ := g8
  have hw : r8.root.block.width = 2 * s := by rw [c6]; simp [fiveTree]
  have hh : r8.root.block.height = 2 * s := by rw [c6]; simp [fiveTree]
  have c9 : CacheAgree
      { r8.cache with
        atlasWidth := min r8.root.block.width r8.maxAtlasWidth
        atlasHeight := min r8.root.block.height r8.maxAtlasHeight } (fiveCache 6) :=
    ⟨c8.1, c8.2.1, c8.2.2.1, c8.2.2.2.1, c8.2.2.2.2⟩
  refine ⟨?_, ?_, ?_, ?_, ?_, ?_, ?_, ?_, ?_, ?_, ?_, ?_, ?_, ?_, ?_⟩
  · show min _ _ = _
    rw [hw, c2]; exact Nat.min_self _
  · show min _ _ = _
    rw [hh, c3]; exact Nat.min_self _
  · exact (entries_agree
      { r8 with
        textureAtlas := { r8.textureAtlas with
          width := min r8.root.block.width r8.maxAtlasWidth
          height := min r8.root.block.height r8.maxAtlasHeight }
        cache := { r8.cache with
          atlasWidth := min r8.root.block.width r8.maxAtlasWidth
          atlasHeight := min r8.root.block.height r8.maxAtlasHeight } }
      _ 4 c9).trans fiveCache_entries6
  · exact c8.2.2.1.trans fiveCache_count
  · show placementOf r8 4 = _
    unfold placementOf; rw [c5]; simp [fiveTextures, fiveIndex]; simpa using e4
  · show placementOf r8 3 = _
    unfold placementOf; rw [c5]; simp [fiveTextures, fiveIndex]; simpa using e3
  · show placementOf r8 2 = _
    unfold placementOf; rw [c5]; simp [fiveTextures, fiveIndex]; simpa using e2
  · show placementOf r8 1 = _
    unfold placementOf; rw [c5]; simp [fiveTextures, fiveIndex]; simpa using e1
  · show deref r8.root 4096 = _
    rw [c6]; simp [fiveTree, leafNode, deref]
  · exact (entries_agree _ _ 4 g6.2.2.2.2.2.2.2).trans fiveCache_entries4
  · exact g6.2.2.2.1
  · unfold placementOf; rw [g6.2.2.2.2.1]; simp [fiveTextures, fiveIndex]; simpa using e0
  · exact (entries_agree _ _ 4 g7.2.2.2.2.2.2.2).trans fiveCache_entries5
  · exact g7.2.2.2.1
  · rw [g7.2.2.2.2.2.1]; simp [fiveTree, leafNode, deref]

/-- C22 at five 32x32 images under the cap 64x64. -/
theorem pack_five_squares_witness :
    ∃ st, (∀ fuel, 8 ≤ fuel →
        packRun fuel (List.replicate 5 (textureOf 32 32)) 64 64 = some st) ∧
      st.textureAtlas.width = 64 ∧ st.textureAtlas.height = 64 ∧
      listedEntries st 4 = some [(some 4, 4096), (some 3, 4336), (some 2, 4296), (some 1, 4176)] ∧
      st.cache.nodeCount = 4 ∧
      placementOf st 4 = (0, 0, 32, 32) ∧ placementOf st 3 = (32, 32, 32, 32) ∧
      placementOf st 2 = (0, 32, 32, 32) ∧ placementOf st 1 = (32, 0, 32, 32) :=
  (pack_five_squares (List.replicate 5 (textureOf 32 32)) 32 (by decide) (by decide) rfl
    (fun t ht => by rw [List.eq_of_mem_replicate ht]; exact ⟨rfl, rfl⟩)).imp
    (fun st h => ⟨h.1, h.2.1, h.2.2.1, h.2.2.2.1, h.2.2.2.2.1, h.2.2.2.2.2.1,
      h.2.2.2.2.2.2.1, h.2.2.2.2.2.2.2.1, h.2.2.2.2.2.2.2.2.1⟩)

end TextureAtlas
